import Mathlib

/-!
# Provisioning-config assembly and merge engine (`internal/ignition/ignition.go`)

A shallow embedding of the ignition builder of the assisted service and the
properties of its specification.

Conventions of the embedding

* Go `string` and `[]byte` values that are text are Lean `String`s.
* A Go function returning a pointer and an error returns `Except String T`; a Go
  function returning a string or byte slice and an error returns the pair of the value
  and the optional error, as written at each `return` of the source.  Errors are
  represented by their message.
* Library calls whose behaviour matters only through their result (JSON decoding of a
  document, validation reports, YAML codecs, file reads) and helpers of the repository
  that live outside `internal/ignition` are parameters, gathered in `Env`.
-/

deriving instance DecidableEq for Except

namespace Ignition

/-! ## Go standard library helpers -/

/-- Worker of `stringsSplit`: `skip` counts the characters of a separator that was just
matched and still has to be dropped, `cur` is the current piece, reversed. -/
def splitAux (sep : List Char) : List Char → Nat → List Char → List (List Char)
  | [], _, cur => [cur.reverse]
  | _ :: cs, skip + 1, cur => splitAux sep cs skip cur
  | c :: cs, 0, cur =>
    if sep.isPrefixOf (c :: cs) then cur.reverse :: splitAux sep cs (sep.length - 1) []
    else splitAux sep cs 0 (c :: cur)

/-- Go `strings.Split(s, sep)`: the pieces of `s` between the (leftmost, non-overlapping)
occurrences of `sep`; with an empty separator the string is exploded into its
characters. -/
def stringsSplit (s sep : String) : List String :=
  if sep.data = [] then s.data.map String.singleton
  else (splitAux sep.data s.data 0 []).map String.mk

/-- Concatenation of a list of texts, in order. -/
def concat : List String → String
  | [] => ""
  | s :: rest => s ++ concat rest

/-- Whether `sub` occurs as a contiguous block of the list. -/
def listContains (sub : List Char) : List Char → Bool
  | [] => sub.isPrefixOf []
  | c :: cs => sub.isPrefixOf (c :: cs) || listContains sub cs

/-- Lexicographic comparison of two lists of characters by code point. -/
def listLess : List Char → List Char → Bool
  | [], [] => false
  | [], _ :: _ => true
  | _ :: _, [] => false
  | a :: as, b :: bs =>
    if a.toNat < b.toNat then true
    else if b.toNat < a.toNat then false
    else listLess as bs

/-- Go `a < b` on strings: the lexicographic order of the bytes, which on UTF-8 text is
the lexicographic order of the code points. -/
def stringLess (a b : String) : Bool := listLess a.data b.data

/-- Go `strings.Contains(s, substr)`. -/
def stringsContains (s substr : String) : Bool :=
  listContains substr.data s.data

/-- Go `unicode.IsSpace` on the characters Go treats as white space. -/
def isGoSpace (c : Char) : Bool :=
  c = ' ' || c = '\t' || c = '\n' || c = '\r' || c.toNat = 0x0b || c.toNat = 0x0c ||
  c.toNat = 0x85 || c.toNat = 0xa0 || c.toNat = 0x1680 ||
  (0x2000 ≤ c.toNat && c.toNat ≤ 0x200a) || c.toNat = 0x2028 || c.toNat = 0x2029 ||
  c.toNat = 0x202f || c.toNat = 0x205f || c.toNat = 0x3000

/-- Go `strings.TrimSpace`. -/
def stringsTrimSpace (s : String) : String :=
  String.mk ((s.data.dropWhile isGoSpace).reverse.dropWhile isGoSpace).reverse

/-- Hexadecimal digit (lower case), as used by `encoding/json`. -/
def hexDigit (n : Nat) : Char :=
  if n < 10 then Char.ofNat (48 + n) else Char.ofNat (87 + n)

/-- The escape `\uXXXX` of a code point below 0x10000. -/
def jsonU (n : Nat) : List Char :=
  ['\\', 'u', hexDigit (n / 4096 % 16), hexDigit (n / 256 % 16), hexDigit (n / 16 % 16),
    hexDigit (n % 16)]

/-- How `encoding/json` (with HTML escaping, the default of `json.Marshal`) writes one
character inside a string. -/
def jsonEscapeChar (c : Char) : List Char :=
  if c = '"' then ['\\', '"']
  else if c = '\\' then ['\\', '\\']
  else if c = '\n' then ['\\', 'n']
  else if c = '\r' then ['\\', 'r']
  else if c = '\t' then ['\\', 't']
  else if c.toNat < 0x20 || c = '<' || c = '>' || c = '&' || c.toNat = 0x2028 ||
      c.toNat = 0x2029 then jsonU c.toNat
  else [c]

/-- Go `json.Marshal` of a `string`. -/
def jsonMarshalString (s : String) : String :=
  String.mk ('"' :: (s.data.flatMap jsonEscapeChar ++ ['"']))

/-- Go `json.Marshal` of a `[]string` (a non-nil slice). -/
def jsonMarshalStrings (xs : List String) : String :=
  "[" ++ String.intercalate "," (xs.map jsonMarshalString) ++ "]"

/-- One step of `filepath.Clean` on the stack of kept path elements (last element
first): empty and `.` elements are dropped, `..` removes the element before it, is
dropped at the root, and is kept at the start of a relative path. -/
def cleanStep (rooted : Bool) (stack : List String) (elem : String) : List String :=
  if elem = "" ∨ elem = "." then stack
  else if elem = ".." then
    match stack with
    | [] => if rooted then [] else [".."]
    | top :: below => if top = ".." then ".." :: top :: below else below
  else elem :: stack

/-- Go `filepath.Clean` (with `/` as separator). -/
def filepathClean (path : String) : String :=
  if path = "" then "."
  else
    let rooted := path.data.head? = some '/'
    let kept := ((stringsSplit path "/").foldl (cleanStep rooted) []).reverse
    if rooted then "/" ++ String.intercalate "/" kept
    else if kept = [] then "." else String.intercalate "/" kept

/-- Go `filepath.Join` of two elements. -/
def filepathJoin (a b : String) : String :=
  if a ≠ "" then filepathClean (a ++ "/" ++ b)
  else if b ≠ "" then filepathClean b
  else ""

/-- The bytes of a string (its UTF-8 encoding). -/
def utf8Bytes (s : String) : List Nat :=
  s.data.flatMap (fun c => (String.utf8EncodeChar c).map UInt8.toNat)

/-- The character of a six-bit value in the standard base64 alphabet. -/
def b64Char (n : Nat) : Char :=
  if n < 26 then Char.ofNat (65 + n)
  else if n < 52 then Char.ofNat (71 + n)
  else if n < 62 then Char.ofNat (n - 4)
  else if n = 62 then '+' else '/'

/-- Base64 encoding of a byte list, with padding. -/
def base64EncodeBytes : List Nat → List Char
  | [] => []
  | [a] => [b64Char (a / 4), b64Char (a % 4 * 16), '=', '=']
  | [a, b] => [b64Char (a / 4), b64Char (a % 4 * 16 + b / 16), b64Char (b % 16 * 4), '=']
  | a :: b :: c :: rest =>
    b64Char (a / 4) :: b64Char (a % 4 * 16 + b / 16) :: b64Char (b % 16 * 4 + c / 64) ::
      b64Char (c % 64) :: base64EncodeBytes rest

/-- Go `base64.StdEncoding.EncodeToString([]byte(s))`. -/
def base64Encode (s : String) : String :=
  String.mk (base64EncodeBytes (utf8Bytes s))

/-- The six-bit value of a character of the standard base64 alphabet. -/
def b64Value (c : Char) : Option Nat :=
  let n := c.toNat
  if 65 ≤ n ∧ n ≤ 90 then some (n - 65)
  else if 97 ≤ n ∧ n ≤ 122 then some (n - 71)
  else if 48 ≤ n ∧ n ≤ 57 then some (n + 4)
  else if c = '+' then some 62
  else if c = '/' then some 63
  else none

/-- Decoding of the quanta of a padded base64 text. -/
def base64DecodeChars : List Char → Option (List Nat)
  | [] => some []
  | [a, b, '=', '='] =>
    match b64Value a, b64Value b with
    | some x, some y => some [x * 4 + y / 16]
    | _, _ => none
  | [a, b, c, '='] =>
    match b64Value a, b64Value b, b64Value c with
    | some x, some y, some z => some [x * 4 + y / 16, y % 16 * 16 + z / 4]
    | _, _, _ => none
  | a :: b :: c :: d :: rest =>
    match b64Value a, b64Value b, b64Value c, b64Value d, base64DecodeChars rest with
    | some x, some y, some z, some w, some more =>
      some ((x * 4 + y / 16) :: (y % 16 * 16 + z / 4) :: (z % 4 * 64 + w) :: more)
    | _, _, _, _, _ => none
  | _ => none

/-- Go `base64.StdEncoding.DecodeString`: carriage returns and line feeds are skipped,
anything else outside the padded standard encoding is an error. -/
def base64Decode (s : String) : Option (List Nat) :=
  base64DecodeChars (s.data.filter (fun c => c ≠ '\r' ∧ c ≠ '\n'))

/-- Upper-case hexadecimal digit, as used by `net/url`. -/
def upperHexDigit (n : Nat) : Char :=
  if n < 10 then Char.ofNat (48 + n) else Char.ofNat (55 + n)

/-- The bytes that `url.PathEscape` leaves as they are: letters, digits, the marks
`- _ . ~` and the reserved characters `$ & + : = @`. -/
def pathSegmentUnescaped (b : Nat) : Bool :=
  (97 ≤ b && b ≤ 122) || (65 ≤ b && b ≤ 90) || (48 ≤ b && b ≤ 57) ||
  b = 45 || b = 95 || b = 46 || b = 126 ||
  b = 36 || b = 38 || b = 43 || b = 58 || b = 61 || b = 64

/-- Go `url.PathEscape`. -/
def urlPathEscape (s : String) : String :=
  String.mk ((utf8Bytes s).flatMap fun b =>
    if pathSegmentUnescaped b then [Char.ofNat b]
    else ['%', upperHexDigit (b / 16), upperHexDigit (b % 16)])

/-! ## JSON well-formedness (`encoding/json`, `scanner.go`)

The state machine with which `encoding/json` checks a text before decoding it
(`checkValid`); the ignition parsers decode a document with `encoding/json`. -/

/-- The entries of the parse stack of the scanner. -/
inductive ParseState where
  | objectKey
  | objectValue
  | arrayValue
  deriving DecidableEq, Repr

/-- The step functions of the scanner (`stateBeginValue`, `stateInString`, ...). -/
inductive ScanStep where
  | beginValueOrEmpty | beginValue | beginStringOrEmpty | beginString | endValue | endTop
  | inString | inStringEsc | inStringEscU | inStringEscU1 | inStringEscU12 | inStringEscU123
  | neg | one | zero | dot | dot0 | e | eSign | e0
  | t | tr | tru | f | fa | fal | fals | n | nu | nul
  | error
  deriving DecidableEq, Repr

/-- The scanner: current step function, parse stack (innermost entry first) and the
`endTop` flag. An error is recorded by the step `error`. -/
structure Scanner where
  step : ScanStep
  parseState : List ParseState
  endTop : Bool
  deriving DecidableEq, Repr

/-- The scanner after `reset`. -/
def Scanner.reset : Scanner := { step := .beginValue, parseState := [], endTop := false }

/-- The scanner after `s.error`. -/
def Scanner.fail (s : Scanner) : Scanner := { s with step := .error }

/-- `isSpace` of the scanner. -/
def jsonIsSpace (c : Char) : Bool := c = ' ' || c = '\t' || c = '\r' || c = '\n'

/-- Whether the character is a decimal digit. -/
def isDigit (c : Char) : Bool := '0' ≤ c && c ≤ '9'

/-- Whether the character is a hexadecimal digit. -/
def isHex (c : Char) : Bool :=
  isDigit c || ('a' ≤ c && c ≤ 'f') || ('A' ≤ c && c ≤ 'F')

/-- `pushParseState`, with the nesting limit of the scanner. -/
def Scanner.push (s : Scanner) (p : ParseState) (next : ScanStep) : Scanner :=
  if s.parseState.length + 1 ≤ 10000 then { s with parseState := p :: s.parseState, step := next }
  else { s with parseState := p :: s.parseState, step := .error }

/-- `popParseState`. -/
def Scanner.pop (s : Scanner) : Scanner :=
  match s.parseState.tail with
  | [] => { s with parseState := [], step := .endTop, endTop := true }
  | rest => { s with parseState := rest, step := .endValue }

/-- `stateEndTop`. -/
def stateEndTop (s : Scanner) (c : Char) : Scanner :=
  if jsonIsSpace c then s else s.fail

/-- `stateEndValue`. -/
def stateEndValue (s : Scanner) (c : Char) : Scanner :=
  match s.parseState with
  | [] => stateEndTop { s with step := .endTop, endTop := true } c
  | ps :: rest =>
    if jsonIsSpace c then { s with step := .endValue }
    else
      match ps with
      | .objectKey =>
        if c = ':' then { s with parseState := .objectValue :: rest, step := .beginValue }
        else s.fail
      | .objectValue =>
        if c = ',' then { s with parseState := .objectKey :: rest, step := .beginString }
        else if c = '\x7d' then s.pop
        else s.fail
      | .arrayValue =>
        if c = ',' then { s with step := .beginValue }
        else if c = ']' then s.pop
        else s.fail

/-- `stateBeginValue`. -/
def stateBeginValue (s : Scanner) (c : Char) : Scanner :=
  if jsonIsSpace c then s
  else if c = '\x7b' then s.push .objectKey .beginStringOrEmpty
  else if c = '[' then s.push .arrayValue .beginValueOrEmpty
  else if c = '"' then { s with step := .inString }
  else if c = '-' then { s with step := .neg }
  else if c = '0' then { s with step := .zero }
  else if c = 't' then { s with step := .t }
  else if c = 'f' then { s with step := .f }
  else if c = 'n' then { s with step := .n }
  else if '1' ≤ c && c ≤ '9' then { s with step := .one }
  else s.fail

/-- `stateBeginString`. -/
def stateBeginString (s : Scanner) (c : Char) : Scanner :=
  if jsonIsSpace c then s
  else if c = '"' then { s with step := .inString }
  else s.fail

/-- `state0`. -/
def stateZero (s : Scanner) (c : Char) : Scanner :=
  if c = '.' then { s with step := .dot }
  else if c = 'e' || c = 'E' then { s with step := .e }
  else stateEndValue s c

/-- `stateESign`. -/
def stateESign (s : Scanner) (c : Char) : Scanner :=
  if isDigit c then { s with step := .e0 } else s.fail

/-- Expect one character and move to the next step function. -/
def expectChar (s : Scanner) (c want : Char) (next : ScanStep) : Scanner :=
  if c = want then { s with step := next } else s.fail

/-- One call `s.step(s, c)`. -/
def scanStep (s : Scanner) (c : Char) : Scanner :=
  match s.step with
  | .beginValueOrEmpty =>
    if jsonIsSpace c then s
    else if c = ']' then stateEndValue s c
    else stateBeginValue s c
  | .beginValue => stateBeginValue s c
  | .beginStringOrEmpty =>
    if jsonIsSpace c then s
    else if c = '\x7d' then
      stateEndValue { s with parseState := .objectValue :: s.parseState.tail } c
    else stateBeginString s c
  | .beginString => stateBeginString s c
  | .endValue => stateEndValue s c
  | .endTop => stateEndTop s c
  | .inString =>
    if c = '"' then { s with step := .endValue }
    else if c = '\\' then { s with step := .inStringEsc }
    else if c.toNat < 0x20 then s.fail
    else s
  | .inStringEsc =>
    if c = 'b' || c = 'f' || c = 'n' || c = 'r' || c = 't' || c = '\\' || c = '/' || c = '"' then
      { s with step := .inString }
    else if c = 'u' then { s with step := .inStringEscU }
    else s.fail
  | .inStringEscU => if isHex c then { s with step := .inStringEscU1 } else s.fail
  | .inStringEscU1 => if isHex c then { s with step := .inStringEscU12 } else s.fail
  | .inStringEscU12 => if isHex c then { s with step := .inStringEscU123 } else s.fail
  | .inStringEscU123 => if isHex c then { s with step := .inString } else s.fail
  | .neg =>
    if c = '0' then { s with step := .zero }
    else if '1' ≤ c && c ≤ '9' then { s with step := .one }
    else s.fail
  | .one => if isDigit c then { s with step := .one } else stateZero s c
  | .zero => stateZero s c
  | .dot => if isDigit c then { s with step := .dot0 } else s.fail
  | .dot0 =>
    if isDigit c then s
    else if c = 'e' || c = 'E' then { s with step := .e }
    else stateEndValue s c
  | .e => if c = '+' || c = '-' then { s with step := .eSign } else stateESign s c
  | .eSign => stateESign s c
  | .e0 => if isDigit c then s else stateEndValue s c
  | .t => expectChar s c 'r' .tr
  | .tr => expectChar s c 'u' .tru
  | .tru => expectChar s c 'e' .endValue
  | .f => expectChar s c 'a' .fa
  | .fa => expectChar s c 'l' .fal
  | .fal => expectChar s c 's' .fals
  | .fals => expectChar s c 'e' .endValue
  | .n => expectChar s c 'u' .nu
  | .nu => expectChar s c 'l' .nul
  | .nul => expectChar s c 'l' .endValue
  | .error => s

/-- The loop of `checkValid`: the scanner is stepped through the bytes of the text and
stops at the first error. -/
def scanText : Scanner → List Char → Scanner
  | s, [] => s
  | s, c :: cs =>
    match scanStep s c with
    | ⟨.error, parseState, endTop⟩ => ⟨.error, parseState, endTop⟩
    | next => scanText next cs

/-- The method `eof` of the scanner: whether the text read so far is a complete JSON
value. -/
def Scanner.eofOk (s : Scanner) : Bool :=
  if s.step = .error then false
  else if s.endTop then true
  else (scanStep s ' ').endTop

/-- `checkValid` of `encoding/json` (`json.Valid`): the text is well-formed JSON. -/
def jsonValid (text : String) : Bool :=
  (scanText Scanner.reset text.data).eofOk

/-- What `fmt.Sprintf` writes for the rest of a format after a percent sign, when the call
has no operands: flags, width and precision are skipped (a `*` is reported as bad width
or precision), then `%` is written for the verb `%`, `%!v(MISSING)` for another verb `v`,
and `%!(NOVERB)` at the end of the format. The result is the text written and the rest
of the format. Argument indexes (`[n]`) are not modelled. -/
def sprintfVerb (format : List Char) : List Char × List Char :=
  let afterFlags := format.dropWhile (fun c => c = '#' || c = '0' || c = '+' || c = '-' || c = ' ')
  let (badWidth, afterWidth) :=
    match afterFlags with
    | '*' :: rest => ("%!(BADWIDTH)".data, rest)
    | _ => ([], afterFlags.dropWhile isDigit)
  let (badPrec, afterPrec) :=
    match afterWidth with
    | '.' :: '*' :: rest => ("%!(BADPREC)".data, rest)
    | '.' :: rest => ([], rest.dropWhile isDigit)
    | _ => ([], afterWidth)
  match afterPrec with
  | [] => (badWidth ++ badPrec ++ "%!(NOVERB)".data, [])
  | verb :: rest =>
    if verb = '%' then (badWidth ++ badPrec ++ ['%'], rest)
    else (badWidth ++ badPrec ++ ("%!".data ++ verb :: "(MISSING)".data), rest)

/-- Worker of `sprintfNoArgs`, with a bound on the number of steps. -/
def sprintfAux : Nat → List Char → List Char
  | 0, _ => []
  | _, [] => []
  | fuel + 1, '%' :: rest =>
    let (written, rest) := sprintfVerb rest
    written ++ sprintfAux fuel rest
  | fuel + 1, c :: rest => c :: sprintfAux fuel rest

/-- Go `fmt.Sprintf(format)` without operands. -/
def sprintfNoArgs (format : String) : String :=
  String.mk (sprintfAux (format.data.length + 1) format.data)

/-! ## Durations (`time`)

`Duration.Seconds` returns a `float64`: `float64(sec) + float64(nsec)/1e9` for
`sec = d / Second` and `nsec = d % Second`.  The quotient and the sum are rounded to the
nearest `float64` (53 binary digits, ties to even); the conversion `int64(...)` truncates
toward zero. -/

/-- The least scale `s`, searched upward from the given one in at most `fuel` steps, at
which `n * 2 ^ s` reaches `bound`. -/
def scaleTo (n bound : Nat) : Nat → Nat → Nat
  | 0, s => s
  | fuel + 1, s => if bound ≤ n * 2 ^ s then s else scaleTo n bound fuel (s + 1)

/-- The quotient `num / den` rounded to the nearest natural number, ties to even. -/
def roundHalfEven (num den : Nat) : Nat :=
  let q := num / den
  let r := num % den
  if den < 2 * r ∨ (den = 2 * r ∧ q % 2 = 1) then q + 1 else q

/-- The number of binary digits of `n`, counted in at most `fuel` steps. -/
def bitLength : Nat → Nat → Nat
  | 0, _ => 0
  | fuel + 1, n => if n = 0 then 0 else bitLength fuel (n / 2) + 1

/-- The expression `int64(d.Seconds())` for a duration of `d ≥ 0` nanoseconds.  The
quotient `nsec / 1e9` is the float `m / 2 ^ s` with `2 ^ 52 ≤ m ≤ 2 ^ 53`; the sum with
the whole seconds is `n / 2 ^ s`, which is rounded to 53 binary digits by dropping its
`k` lowest digits. -/
def secondsOfNat (d : Nat) : Nat :=
  let sec := d / 1000000000
  let nsec := d % 1000000000
  if nsec = 0 then sec
  else
    let s := scaleTo nsec (2 ^ 52 * 1000000000) 128 0
    let m := roundHalfEven (nsec * 2 ^ s) 1000000000
    let n := sec * 2 ^ s + m
    let k := bitLength 256 n - 53
    let m2 := roundHalfEven n (2 ^ k)
    m2 * 2 ^ k / 2 ^ s

/-- The expression `int64(d.Seconds())` for a duration of `d` nanoseconds: the division
and the remainder of Go truncate toward zero, so a negative duration gives the negated
value of its absolute value. -/
def durationSeconds (d : Int) : Int :=
  if d < 0 then - (secondsOfNat d.natAbs : Int) else (secondsOfNat d.natAbs : Int)

/-! ## Proxy section of the discovery document -/

/-- The three attribute texts `httpProxyAttr`, `httpsProxyAttr`, `noProxyAttr` that
`proxySettingsForIgnition` computes before it fills its template. -/
def proxyAttrs (httpProxy httpsProxy noProxy : String) : String × String × String :=
  let httpProxyAttr := if httpProxy ≠ "" then "\"httpProxy\": \"" ++ httpProxy ++ "\"" else ""
  let httpsProxyAttr :=
    if httpsProxy ≠ "" then
      (if httpProxy ≠ "" then ", " else "") ++ ("\"httpsProxy\": \"" ++ httpsProxy ++ "\"")
    else ""
  let noProxyAttr :=
    if noProxy ≠ "" then ", \"noProxy\": " ++ jsonMarshalStrings (stringsSplit noProxy ",")
    else ""
  (httpProxyAttr, httpsProxyAttr, noProxyAttr)

/-- `proxySettingsForIgnition`: the text of the `proxy` attribute of the `ignition`
section.  The template `"proxy": { {{.httpProxy}}{{.httpsProxy}}{{.noProxy}} }` is a
constant that parses, its three parameters are strings, and `json.Marshal` of a string
slice cannot fail, so no error branch of the Go function is reachable. -/
def proxySettingsForIgnition (httpProxy httpsProxy noProxy : String) : String × Option String :=
  if httpProxy = "" ∧ httpsProxy = "" then ("", none)
  else
    let attrs := proxyAttrs httpProxy httpsProxy noProxy
    ("\"proxy\": \x7b " ++ attrs.1 ++ attrs.2.1 ++ attrs.2.2 ++ " \x7d", none)

/-! ## The document tree (`config/v3_2/types`)

The part of the ignition v3.2 configuration that the engine reads or writes: declared
version, merge sources, pinned certificate authorities, directories, files, links and
luks devices of the storage, and systemd units. -/

/-- An entry of `HTTPHeaders`. -/
structure HTTPHeader where
  name : String
  value : Option String
  deriving DecidableEq, Repr

/-- A `Resource`: a content source with its fetch options. -/
structure Resource where
  compression : Option String := none
  httpHeaders : List HTTPHeader := []
  source : Option String := none
  verificationHash : Option String := none
  deriving DecidableEq, Repr

/-- A `File`: the `Node` part (group, overwrite, path, user) and the `FileEmbedded1`
part (append, contents, mode). -/
structure File where
  groupID : Option Int := none
  groupName : Option String := none
  overwrite : Option Bool := none
  path : String
  userID : Option Int := none
  userName : Option String := none
  append : List Resource := []
  contents : Resource := {}
  mode : Option Int := none
  deriving DecidableEq, Repr

/-- A `Directory`: the `Node` part (group, overwrite, path, user) and the mode. -/
structure Directory where
  groupID : Option Int := none
  groupName : Option String := none
  overwrite : Option Bool := none
  path : String
  userID : Option Int := none
  userName : Option String := none
  mode : Option Int := none
  deriving DecidableEq, Repr

/-- A `Link`: the `Node` part (group, overwrite, path, user), the hard-link switch and
the target. -/
structure Link where
  groupID : Option Int := none
  groupName : Option String := none
  overwrite : Option Bool := none
  path : String
  userID : Option Int := none
  userName : Option String := none
  hard : Option Bool := none
  target : String := ""
  deriving DecidableEq, Repr

/-- A `Dropin` of a systemd unit. -/
structure Dropin where
  contents : Option String := none
  name : String
  deriving DecidableEq, Repr

/-- A systemd `Unit`. -/
structure SystemdUnit where
  contents : Option String := none
  dropins : List Dropin := []
  enabled : Option Bool := none
  mask : Option Bool := none
  name : String
  deriving DecidableEq, Repr

/-- A `Luks` device of `storage.luks`, a list that the v3.2 types have and the v3.1
types do not have. -/
structure Luks where
  device : Option String := none
  label : Option String := none
  name : String
  wipeVolume : Option Bool := none
  deriving DecidableEq, Repr

/-- The `Config` tree. `version` is `ignition.version`, `merge` is
`ignition.config.merge`, `certificateAuthorities` is
`ignition.security.tls.certificateAuthorities`, `directories`, `files`, `links` and `luks`
are the lists of `storage` with these names, and `units` is `systemd.units`. -/
structure Config where
  version : String
  merge : List Resource := []
  certificateAuthorities : List Resource := []
  directories : List Directory := []
  files : List File := []
  links : List Link := []
  luks : List Luks := []
  units : List SystemdUnit := []
  deriving DecidableEq, Repr

/-- An entry of one of the three lists of `storage` that share one key space, the paths
(`Storage.MergedKeys` maps `Directories`, `Files` and `Links` to the same handle). -/
inductive Node where
  | directory (d : Directory)
  | file (f : File)
  | link (l : Link)
  deriving DecidableEq, Repr

/-- The key of a storage entry: its path. -/
def Node.path : Node → String
  | .directory d => d.path
  | .file f => f.path
  | .link l => l.path

/-- The directory that a storage entry is, if it is one. -/
def Node.asDirectory : Node → Option Directory
  | .directory d => some d
  | _ => none

/-- The file that a storage entry is, if it is one. -/
def Node.asFile : Node → Option File
  | .file f => some f
  | _ => none

/-- The link that a storage entry is, if it is one. -/
def Node.asLink : Node → Option Link
  | .link l => some l
  | _ => none

/-- The entries of the three lists in the order of the fields of `Storage` (directories,
files, links), each list in its own order. -/
def storageNodes (c : Config) : List Node :=
  c.directories.map Node.directory ++ (c.files.map Node.file ++ c.links.map Node.link)

/-- The paths of the entries of the three lists, in the order of `storageNodes`. -/
def nodePaths (c : Config) : List String :=
  c.directories.map Directory.path ++ (c.files.map File.path ++ c.links.map Link.path)

/-- Whether a text occurs twice in a list. -/
def hasDuplicate : List String → Bool
  | [] => false
  | x :: xs => xs.contains x || hasDuplicate xs

/-- The report of `validate.ValidateDups` on `storage`: a path that is the key of two
entries of the directories, files and links is reported as an error (`ErrDuplicate`). -/
def duplicatePaths (c : Config) : Bool := hasDuplicate (nodePaths c)

/-- Serialized documents.  `text s` is a byte string given as text (rendered from a
template, or supplied by a caller); `json c` is the byte string that `json.Marshal`
produces for the tree `c`. -/
inductive Bytes where
  | text (s : String)
  | json (c : Config)
  deriving DecidableEq, Repr

/-! ## JSON documents (`encoding/json`)

A reader and a writer for the JSON texts of configuration trees.  The reader follows the
grammar that the scanner of `encoding/json` accepts, with one restriction: numbers with a
fraction or an exponent are not read (no field of the tree holds one, and the texts that
the templates and `json.Marshal` write for a tree have none). -/

/-- A JSON value; the numbers are integers. -/
inductive JSON where
  | null
  | bool (b : Bool)
  | num (n : Int)
  | str (s : String)
  | arr (items : List JSON)
  | obj (members : List (String × JSON))
  deriving Repr

/-- The tokens of a JSON text. -/
inductive Token where
  | beginObject
  | endObject
  | beginArray
  | endArray
  | colon
  | comma
  | string (s : String)
  | number (n : Int)
  | litTrue
  | litFalse
  | litNull
  deriving DecidableEq, Repr

/-- The state of the reader between two characters.  Inside a string, `acc` holds the
characters read so far, the last one first. -/
inductive LexState where
  | ready
  | inString (acc : List Char)
  | escape (acc : List Char)
  | hex (acc : List Char) (high : Option Nat) (count value : Nat)
  | high (acc : List Char) (hi : Nat)
  | highEscape (acc : List Char) (hi : Nat)
  | minus
  | zero (neg : Bool)
  | digits (neg : Bool) (n : Nat)
  | word (rest : List Char) (tok : Token)
  deriving DecidableEq, Repr

/-- The value of a hexadecimal digit. -/
def hexValue (c : Char) : Option Nat :=
  if '0' ≤ c ∧ c ≤ '9' then some (c.toNat - 48)
  else if 'a' ≤ c ∧ c ≤ 'f' then some (c.toNat - 87)
  else if 'A' ≤ c ∧ c ≤ 'F' then some (c.toNat - 55)
  else none

/-- The replacement character U+FFFD, written for an escaped surrogate without its
partner. -/
def replacementChar : Char := Char.ofNat 0xFFFD

/-- The number token for the digits read. -/
def numberToken (neg : Bool) (n : Nat) : Token :=
  Token.number (if neg then - (n : Int) else (n : Int))

/-- A character between two tokens: white space is skipped, a punctuation character is a
token, the other characters start a string, a number or a literal name. -/
def lexReady (c : Char) : Option (LexState × List Token) :=
  if jsonIsSpace c then some (.ready, [])
  else if c = '\x7b' then some (.ready, [.beginObject])
  else if c = '\x7d' then some (.ready, [.endObject])
  else if c = '[' then some (.ready, [.beginArray])
  else if c = ']' then some (.ready, [.endArray])
  else if c = ':' then some (.ready, [.colon])
  else if c = ',' then some (.ready, [.comma])
  else if c = '"' then some (.inString [], [])
  else if c = '-' then some (.minus, [])
  else if c = '0' then some (.zero false, [])
  else if isDigit c then some (.digits false (c.toNat - 48), [])
  else if c = 't' then some (.word ['r', 'u', 'e'] .litTrue, [])
  else if c = 'f' then some (.word ['a', 'l', 's', 'e'] .litFalse, [])
  else if c = 'n' then some (.word ['u', 'l', 'l'] .litNull, [])
  else none

/-- A character inside a string: the quote ends the string, the backslash starts an
escape, a control character is an error. -/
def lexInString (acc : List Char) (c : Char) : Option (LexState × List Token) :=
  if c = '"' then some (.ready, [.string (String.mk acc.reverse)])
  else if c = '\\' then some (.escape acc, [])
  else if c.toNat < 0x20 then none
  else some (.inString (c :: acc), [])

/-- The character after a backslash. -/
def lexEscape (acc : List Char) (c : Char) : Option (LexState × List Token) :=
  if c = 'u' then some (.hex acc none 0 0, [])
  else if c = '"' then some (.inString ('"' :: acc), [])
  else if c = '\\' then some (.inString ('\\' :: acc), [])
  else if c = '/' then some (.inString ('/' :: acc), [])
  else if c = 'b' then some (.inString (Char.ofNat 8 :: acc), [])
  else if c = 'f' then some (.inString (Char.ofNat 12 :: acc), [])
  else if c = 'n' then some (.inString ('\n' :: acc), [])
  else if c = 'r' then some (.inString ('\r' :: acc), [])
  else if c = 't' then some (.inString ('\t' :: acc), [])
  else none

/-- The state after the escape `\uXXXX` of the code unit `v` that does not complete a
surrogate pair: a high surrogate waits for its partner, a low surrogate is replaced. -/
def afterCodeUnit (acc : List Char) (v : Nat) : LexState :=
  if 0xD800 ≤ v ∧ v < 0xDC00 then .high acc v
  else if 0xDC00 ≤ v ∧ v < 0xE000 then .inString (replacementChar :: acc)
  else .inString (Char.ofNat v :: acc)

/-- The state after the escape `\uXXXX` of the code unit `v`; `high` is the high
surrogate that the escape before it gave, if any. -/
def afterUnicode (acc : List Char) (high : Option Nat) (v : Nat) : LexState :=
  match high with
  | none => afterCodeUnit acc v
  | some hi =>
    if 0xDC00 ≤ v ∧ v < 0xE000 then
      .inString (Char.ofNat (0x10000 + (hi - 0xD800) * 0x400 + (v - 0xDC00)) :: acc)
    else afterCodeUnit (replacementChar :: acc) v

/-- One character of the text: the next state and the tokens that end with it. -/
def lexStep (st : LexState) (c : Char) : Option (LexState × List Token) :=
  match st with
  | .ready => lexReady c
  | .inString acc => lexInString acc c
  | .escape acc => lexEscape acc c
  | .hex acc high count value =>
    match hexValue c with
    | none => none
    | some d =>
      if count < 3 then some (.hex acc high (count + 1) (value * 16 + d), [])
      else some (afterUnicode acc high (value * 16 + d), [])
  | .high acc hi =>
    if c = '\\' then some (.highEscape acc hi, [])
    else lexInString (replacementChar :: acc) c
  | .highEscape acc hi =>
    if c = 'u' then some (.hex acc (some hi) 0 0, [])
    else lexEscape (replacementChar :: acc) c
  | .minus =>
    if c = '0' then some (.zero true, [])
    else if isDigit c then some (.digits true (c.toNat - 48), [])
    else none
  | .zero neg =>
    if isDigit c ∨ c = '.' ∨ c = 'e' ∨ c = 'E' then none
    else
      match lexReady c with
      | none => none
      | some (st, out) => some (st, numberToken neg 0 :: out)
  | .digits neg n =>
    if isDigit c then some (.digits neg (n * 10 + (c.toNat - 48)), [])
    else if c = '.' ∨ c = 'e' ∨ c = 'E' then none
    else
      match lexReady c with
      | none => none
      | some (st, out) => some (st, numberToken neg n :: out)
  | .word rest tok =>
    match rest with
    | [] => none
    | [r] => if c = r then some (.ready, [tok]) else none
    | r :: rs => if c = r then some (.word rs tok, []) else none

/-- A container that is being read: the items of an array, or the members of an object
and the key whose value is awaited; the last one read comes first. -/
inductive Frame where
  | array (items : List JSON)
  | object (members : List (String × JSON)) (key : Option String)
  deriving Repr

/-- What the grammar allows next. -/
inductive Expect where
  | value
  | valueOrEnd
  | keyOrEnd
  | key
  | colon
  | next
  | done (v : JSON)
  deriving Repr

/-- A value `v` is complete: it is the document, an item of the array that is being read,
or the value of the awaited key. -/
def completeValue (stack : List Frame) (v : JSON) : Option (List Frame × Expect) :=
  match stack with
  | [] => some ([], .done v)
  | .array items :: s => some (.array (v :: items) :: s, .next)
  | .object members (some k) :: s => some (.object ((k, v) :: members) none :: s, .next)
  | .object _ none :: _ => none

/-- A token where a value is expected. -/
def parseValueToken (stack : List Frame) (tok : Token) : Option (List Frame × Expect) :=
  match tok with
  | .string s => completeValue stack (.str s)
  | .number n => completeValue stack (.num n)
  | .litTrue => completeValue stack (.bool true)
  | .litFalse => completeValue stack (.bool false)
  | .litNull => completeValue stack .null
  | .beginArray => some (.array [] :: stack, .valueOrEnd)
  | .beginObject => some (.object [] none :: stack, .keyOrEnd)
  | _ => none

/-- A token where a key is expected. -/
def parseKeyToken (stack : List Frame) (tok : Token) : Option (List Frame × Expect) :=
  match tok, stack with
  | .string k, .object members none :: s => some (.object members (some k) :: s, .colon)
  | _, _ => none

/-- One token of the text. -/
def parseStep (stack : List Frame) (e : Expect) (tok : Token) : Option (List Frame × Expect) :=
  match e with
  | .value => parseValueToken stack tok
  | .valueOrEnd =>
    match tok, stack with
    | .endArray, .array items :: s => completeValue s (.arr items.reverse)
    | _, _ => parseValueToken stack tok
  | .keyOrEnd =>
    match tok, stack with
    | .endObject, .object members none :: s => completeValue s (.obj members.reverse)
    | _, _ => parseKeyToken stack tok
  | .key => parseKeyToken stack tok
  | .colon =>
    match tok with
    | .colon => some (stack, .value)
    | _ => none
  | .next =>
    match tok, stack with
    | .comma, .array _ :: _ => some (stack, .value)
    | .endArray, .array items :: s => completeValue s (.arr items.reverse)
    | .comma, .object _ none :: _ => some (stack, .key)
    | .endObject, .object members none :: s => completeValue s (.obj members.reverse)
    | _, _ => none
  | .done _ => none

/-- The tokens that one character ends, handed to the grammar in order. -/
def feed : Option (List Frame × Expect) → List Token → Option (List Frame × Expect)
  | p, [] => p
  | none, _ :: _ => none
  | some (stack, e), tok :: toks => feed (parseStep stack e tok) toks

/-- The end of the text: a number that is being read is complete, and the text must
have held exactly one value. -/
def finishJSON (st : LexState) (stack : List Frame) (e : Expect) : Option JSON :=
  let final : Option (List Frame × Expect) :=
    match st with
    | .ready => some (stack, e)
    | .zero neg => parseStep stack e (numberToken neg 0)
    | .digits neg n => parseStep stack e (numberToken neg n)
    | _ => none
  match final with
  | some ([], .done v) => some v
  | _ => none

/-- The reader: the characters are read one by one, from the state `st` of the tokens
and the state `stack`, `e` of the grammar. -/
def runJSON : LexState → List Frame → Expect → List Char → Option JSON
  | st, stack, e, [] => finishJSON st stack e
  | st, stack, e, c :: cs =>
    match lexStep st c with
    | none => none
    | some (st', out) =>
      match feed (some (stack, e)) out with
      | none => none
      | some (stack', e') => runJSON st' stack' e' cs

/-- The JSON value of a text. -/
def jsonParse (text : String) : Option JSON :=
  runJSON .ready [] .value text.data

/-- Whether a JSON string holds the character as it is: not the quote, not the backslash
and not a control character. -/
def jsonPlainChar (c : Char) : Bool := c ≠ '"' && c ≠ '\\' && !(decide (c.toNat < 0x20))

/-- Whether a text between quotes is the JSON string of that text: every character is
held as it is. -/
def jsonPlain (s : String) : Bool := s.data.all jsonPlainChar

/-! ## The JSON decoding of configuration trees

`json.Unmarshal` into the types of `config/v3_2/types`, for the part of the tree that
`Config` holds: a key that is absent or `null` leaves the zero value of its field, a
value of the wrong kind is an error, and the value of a key that `Config` has no field
for is skipped.  The decoder is made for the texts that the templates and `json.Marshal`
write: a key is compared exactly with the name of the `json` tag (the library also takes
a key that differs from the name by the case of its letters), an object that names a key
of the tree twice is not read (the library decodes the second value into the first),
and the integers are not bounded (the library reports a number outside the range of
`int`). -/

/-- The value of a key in an object: `some none` when the key is absent or `null`, `none`
when the key is named twice. -/
def jsonField (members : List (String × JSON)) (k : String) : Option (Option JSON) :=
  match members.filter (fun m => m.1 = k) with
  | [] => some none
  | [(_, .null)] => some none
  | [(_, v)] => some (some v)
  | _ => none

/-- Decoding into a `*string`. -/
def decodeStringPtr : Option JSON → Option (Option String)
  | none => some none
  | some (.str s) => some (some s)
  | _ => none

/-- Decoding into a `string`. -/
def decodeString : Option JSON → Option String
  | none => some ""
  | some (.str s) => some s
  | _ => none

/-- Decoding into a `*bool`. -/
def decodeBoolPtr : Option JSON → Option (Option Bool)
  | none => some none
  | some (.bool b) => some (some b)
  | _ => none

/-- Decoding into a `*int`. -/
def decodeIntPtr : Option JSON → Option (Option Int)
  | none => some none
  | some (.num n) => some (some n)
  | _ => none

/-- Decoding into a struct: an absent value is the object without members. -/
def decodeStruct {α : Type} (decode : List (String × JSON) → Option α) : Option JSON → Option α
  | none => decode []
  | some (.obj members) => decode members
  | _ => none

/-- Decoding of the elements of an array, in order. -/
def decodeElements {α : Type} (decode : List (String × JSON) → Option α) : List JSON → Option (List α)
  | [] => some []
  | j :: js =>
    match decodeStruct decode (match j with | .null => none | v => some v) with
    | none => none
    | some a =>
      match decodeElements decode js with
      | none => none
      | some as => some (a :: as)

/-- Decoding into a slice of structs. -/
def decodeSlice {α : Type} (decode : List (String × JSON) → Option α) : Option JSON → Option (List α)
  | none => some []
  | some (.arr items) => decodeElements decode items
  | _ => none

/-- Decoding of an `HTTPHeader`. -/
def decodeHTTPHeader (m : List (String × JSON)) : Option HTTPHeader := do
  let name ← (jsonField m "name").bind decodeString
  let value ← (jsonField m "value").bind decodeStringPtr
  pure { name := name, value := value }

/-- Decoding of a `Verification`: its hash. -/
def decodeVerification (m : List (String × JSON)) : Option (Option String) :=
  (jsonField m "hash").bind decodeStringPtr

/-- Decoding of a `Resource`. -/
def decodeResource (m : List (String × JSON)) : Option Resource := do
  let compression ← (jsonField m "compression").bind decodeStringPtr
  let httpHeaders ← (jsonField m "httpHeaders").bind (decodeSlice decodeHTTPHeader)
  let source ← (jsonField m "source").bind decodeStringPtr
  let hash ← (jsonField m "verification").bind (decodeStruct decodeVerification)
  pure { compression := compression, httpHeaders := httpHeaders, source := source,
         verificationHash := hash }

/-- Decoding of a `NodeGroup` or `NodeUser`: id and name. -/
def decodeOwner (m : List (String × JSON)) : Option (Option Int × Option String) := do
  let id ← (jsonField m "id").bind decodeIntPtr
  let name ← (jsonField m "name").bind decodeStringPtr
  pure (id, name)

/-- Decoding of a `File`. -/
def decodeFile (m : List (String × JSON)) : Option File := do
  let group ← (jsonField m "group").bind (decodeStruct decodeOwner)
  let overwrite ← (jsonField m "overwrite").bind decodeBoolPtr
  let path ← (jsonField m "path").bind decodeString
  let user ← (jsonField m "user").bind (decodeStruct decodeOwner)
  let append ← (jsonField m "append").bind (decodeSlice decodeResource)
  let contents ← (jsonField m "contents").bind (decodeStruct decodeResource)
  let mode ← (jsonField m "mode").bind decodeIntPtr
  pure { groupID := group.1, groupName := group.2, overwrite := overwrite, path := path,
         userID := user.1, userName := user.2, append := append, contents := contents,
         mode := mode }

/-- Decoding of a `Directory`. -/
def decodeDirectory (m : List (String × JSON)) : Option Directory := do
  let group ← (jsonField m "group").bind (decodeStruct decodeOwner)
  let overwrite ← (jsonField m "overwrite").bind decodeBoolPtr
  let path ← (jsonField m "path").bind decodeString
  let user ← (jsonField m "user").bind (decodeStruct decodeOwner)
  let mode ← (jsonField m "mode").bind decodeIntPtr
  pure { groupID := group.1, groupName := group.2, overwrite := overwrite, path := path,
         userID := user.1, userName := user.2, mode := mode }

/-- Decoding of a `Link`. -/
def decodeLink (m : List (String × JSON)) : Option Link := do
  let group ← (jsonField m "group").bind (decodeStruct decodeOwner)
  let overwrite ← (jsonField m "overwrite").bind decodeBoolPtr
  let path ← (jsonField m "path").bind decodeString
  let user ← (jsonField m "user").bind (decodeStruct decodeOwner)
  let hard ← (jsonField m "hard").bind decodeBoolPtr
  let target ← (jsonField m "target").bind decodeString
  pure { groupID := group.1, groupName := group.2, overwrite := overwrite, path := path,
         userID := user.1, userName := user.2, hard := hard, target := target }

/-- Decoding of a `Luks` device. -/
def decodeLuks (m : List (String × JSON)) : Option Luks := do
  let device ← (jsonField m "device").bind decodeStringPtr
  let label ← (jsonField m "label").bind decodeStringPtr
  let name ← (jsonField m "name").bind decodeString
  let wipeVolume ← (jsonField m "wipeVolume").bind decodeBoolPtr
  pure { device := device, label := label, name := name, wipeVolume := wipeVolume }

/-- Decoding of a `Dropin`. -/
def decodeDropin (m : List (String × JSON)) : Option Dropin := do
  let contents ← (jsonField m "contents").bind decodeStringPtr
  let name ← (jsonField m "name").bind decodeString
  pure { contents := contents, name := name }

/-- Decoding of a systemd `Unit`. -/
def decodeUnit (m : List (String × JSON)) : Option SystemdUnit := do
  let contents ← (jsonField m "contents").bind decodeStringPtr
  let dropins ← (jsonField m "dropins").bind (decodeSlice decodeDropin)
  let enabled ← (jsonField m "enabled").bind decodeBoolPtr
  let mask ← (jsonField m "mask").bind decodeBoolPtr
  let name ← (jsonField m "name").bind decodeString
  pure { contents := contents, dropins := dropins, enabled := enabled, mask := mask,
         name := name }

/-- Decoding of `ignition.config`: the merge list. -/
def decodeIgnitionConfig (m : List (String × JSON)) : Option (List Resource) :=
  (jsonField m "merge").bind (decodeSlice decodeResource)

/-- Decoding of `ignition.security.tls`: the certificate authorities. -/
def decodeTLS (m : List (String × JSON)) : Option (List Resource) :=
  (jsonField m "certificateAuthorities").bind (decodeSlice decodeResource)

/-- Decoding of `ignition.security`. -/
def decodeSecurity (m : List (String × JSON)) : Option (List Resource) :=
  (jsonField m "tls").bind (decodeStruct decodeTLS)

/-- Decoding of `ignition`: merge list, certificate authorities and version. -/
def decodeIgnition (m : List (String × JSON)) :
    Option (List Resource × List Resource × String) := do
  let merge ← (jsonField m "config").bind (decodeStruct decodeIgnitionConfig)
  let cas ← (jsonField m "security").bind (decodeStruct decodeSecurity)
  let version ← (jsonField m "version").bind decodeString
  pure (merge, cas, version)

/-- Decoding of `storage`: directories, files, links and luks devices. -/
def decodeStorage (m : List (String × JSON)) :
    Option (List Directory × List File × List Link × List Luks) := do
  let directories ← (jsonField m "directories").bind (decodeSlice decodeDirectory)
  let files ← (jsonField m "files").bind (decodeSlice decodeFile)
  let links ← (jsonField m "links").bind (decodeSlice decodeLink)
  let luks ← (jsonField m "luks").bind (decodeSlice decodeLuks)
  pure (directories, files, links, luks)

/-- Decoding of `systemd`: the units. -/
def decodeSystemd (m : List (String × JSON)) : Option (List SystemdUnit) :=
  (jsonField m "units").bind (decodeSlice decodeUnit)

/-- Decoding of a `Config`. -/
def decodeConfig (m : List (String × JSON)) : Option Config := do
  let ignition ← (jsonField m "ignition").bind (decodeStruct decodeIgnition)
  let storage ← (jsonField m "storage").bind (decodeStruct decodeStorage)
  let units ← (jsonField m "systemd").bind (decodeStruct decodeSystemd)
  pure { version := ignition.2.2, merge := ignition.1, certificateAuthorities := ignition.2.1,
         directories := storage.1, files := storage.2.1, links := storage.2.2.1,
         luks := storage.2.2.2, units := units }

/-- `json.Unmarshal` of a text into a `Config`. -/
def jsonUnmarshal (text : String) : Option Config :=
  match jsonParse text with
  | none => none
  | some .null => decodeConfig []
  | some (.obj members) => decodeConfig members
  | some _ => none

/-! ## The JSON encoding of configuration trees

`json.Marshal` of a tree of the types of `config/v3_2/types`: the members of an object
are written in the order of the fields of the struct, a field with `omitempty` is left
out when it is a nil pointer, an empty slice or an empty string, and a struct is always
written.  The structs that `Config` does not hold are written as they are for their zero
value. -/

/-- The decimal digit of a number below ten. -/
def digitChar (n : Nat) : Char := Char.ofNat (48 + n)

/-- The decimal digits of `n` in front of `acc`; `fuel` bounds the number of digits. -/
def renderNatAux : Nat → Nat → List Char → List Char
  | 0, _, acc => acc
  | fuel + 1, n, acc =>
    if n < 10 then digitChar n :: acc
    else renderNatAux fuel (n / 10) (digitChar (n % 10) :: acc)

/-- `strconv.FormatInt(n, 10)` in front of `rest`. -/
def renderInt (n : Int) (rest : List Char) : List Char :=
  if n < 0 then '-' :: renderNatAux (n.natAbs + 1) n.natAbs rest
  else renderNatAux (n.natAbs + 1) n.natAbs rest

/-- A string between quotes, written as `encoding/json` writes it, in front of `rest`. -/
def renderString (s : String) (rest : List Char) : List Char :=
  '"' :: (s.data.flatMap jsonEscapeChar ++ '"' :: rest)

mutual
/-- The compact text of a JSON value, in front of `rest`. -/
def renderJSON : JSON → List Char → List Char
  | .null, rest => 'n' :: 'u' :: 'l' :: 'l' :: rest
  | .bool true, rest => 't' :: 'r' :: 'u' :: 'e' :: rest
  | .bool false, rest => 'f' :: 'a' :: 'l' :: 's' :: 'e' :: rest
  | .num n, rest => renderInt n rest
  | .str s, rest => renderString s rest
  | .arr [], rest => '[' :: ']' :: rest
  | .arr (x :: xs), rest => '[' :: renderJSON x (renderItems xs (']' :: rest))
  | .obj [], rest => '\x7b' :: '\x7d' :: rest
  | .obj ((k, v) :: ms), rest =>
    '\x7b' :: renderString k (':' :: renderJSON v (renderMembers ms ('\x7d' :: rest)))
/-- The items of an array after the first one, each after a comma. -/
def renderItems : List JSON → List Char → List Char
  | [], rest => rest
  | x :: xs, rest => ',' :: renderJSON x (renderItems xs rest)
/-- The members of an object after the first one, each after a comma. -/
def renderMembers : List (String × JSON) → List Char → List Char
  | [], rest => rest
  | (k, v) :: ms, rest => ',' :: renderString k (':' :: renderJSON v (renderMembers ms rest))
end

/-- The members of an object for the fields of a struct: a field without value is left
out. -/
def members (fields : List (String × Option JSON)) : List (String × JSON) :=
  fields.filterMap (fun f => f.2.map (fun v => (f.1, v)))

/-- Encoding of a `*string` with `omitempty`. -/
def encodeStringPtr (s : Option String) : Option JSON := s.map JSON.str

/-- Encoding of a `string` with `omitempty`. -/
def encodeStringOmit (s : String) : Option JSON := if s = "" then none else some (.str s)

/-- Encoding of a `*bool` with `omitempty`. -/
def encodeBoolPtr (b : Option Bool) : Option JSON := b.map JSON.bool

/-- Encoding of a `*int` with `omitempty`. -/
def encodeIntPtr (n : Option Int) : Option JSON := n.map JSON.num

/-- Encoding of a slice of structs with `omitempty`. -/
def encodeSlice {α : Type} (encode : α → JSON) : List α → Option JSON
  | [] => none
  | x :: xs => some (.arr ((x :: xs).map encode))

/-- Encoding of an `HTTPHeader`. -/
def encodeHTTPHeader (h : HTTPHeader) : JSON :=
  .obj (members [("name", some (.str h.name)), ("value", encodeStringPtr h.value)])

/-- Encoding of a `Resource`. -/
def encodeResource (r : Resource) : JSON :=
  .obj (members [
    ("compression", encodeStringPtr r.compression),
    ("httpHeaders", encodeSlice encodeHTTPHeader r.httpHeaders),
    ("source", encodeStringPtr r.source),
    ("verification", some (.obj (members [("hash", encodeStringPtr r.verificationHash)])))])

/-- Encoding of a `NodeGroup` or `NodeUser`. -/
def encodeOwner (id : Option Int) (name : Option String) : JSON :=
  .obj (members [("id", encodeIntPtr id), ("name", encodeStringPtr name)])

/-- Encoding of a `File`: the fields of the embedded `Node`, then those of
`FileEmbedded1`. -/
def encodeFile (f : File) : JSON :=
  .obj (members [
    ("group", some (encodeOwner f.groupID f.groupName)),
    ("overwrite", encodeBoolPtr f.overwrite),
    ("path", some (.str f.path)),
    ("user", some (encodeOwner f.userID f.userName)),
    ("append", encodeSlice encodeResource f.append),
    ("contents", some (encodeResource f.contents)),
    ("mode", encodeIntPtr f.mode)])

/-- Encoding of a `Directory`. -/
def encodeDirectory (d : Directory) : JSON :=
  .obj (members [
    ("group", some (encodeOwner d.groupID d.groupName)),
    ("overwrite", encodeBoolPtr d.overwrite),
    ("path", some (.str d.path)),
    ("user", some (encodeOwner d.userID d.userName)),
    ("mode", encodeIntPtr d.mode)])

/-- Encoding of a `Link`. -/
def encodeLink (l : Link) : JSON :=
  .obj (members [
    ("group", some (encodeOwner l.groupID l.groupName)),
    ("overwrite", encodeBoolPtr l.overwrite),
    ("path", some (.str l.path)),
    ("user", some (encodeOwner l.userID l.userName)),
    ("hard", encodeBoolPtr l.hard),
    ("target", some (.str l.target))])

/-- Encoding of a `Luks` device; its key file is a struct and is written for its zero
value. -/
def encodeLuks (l : Luks) : JSON :=
  .obj (members [
    ("device", encodeStringPtr l.device),
    ("keyFile", some (.obj [("verification", .obj [])])),
    ("label", encodeStringPtr l.label),
    ("name", some (.str l.name)),
    ("wipeVolume", encodeBoolPtr l.wipeVolume)])

/-- Encoding of a `Dropin`. -/
def encodeDropin (d : Dropin) : JSON :=
  .obj (members [("contents", encodeStringPtr d.contents), ("name", some (.str d.name))])

/-- Encoding of a systemd `Unit`. -/
def encodeUnit (u : SystemdUnit) : JSON :=
  .obj (members [
    ("contents", encodeStringPtr u.contents),
    ("dropins", encodeSlice encodeDropin u.dropins),
    ("enabled", encodeBoolPtr u.enabled),
    ("mask", encodeBoolPtr u.mask),
    ("name", some (.str u.name))])

/-- Encoding of a `Config`. -/
def encodeConfig (c : Config) : JSON :=
  .obj (members [
    ("ignition", some (.obj (members [
      ("config", some (.obj (members [
        ("merge", encodeSlice encodeResource c.merge),
        ("replace", some (.obj [("verification", .obj [])]))]))),
      ("proxy", some (.obj [])),
      ("security", some (.obj (members [
        ("tls", some (.obj (members [
          ("certificateAuthorities", encodeSlice encodeResource c.certificateAuthorities)])))]))),
      ("timeouts", some (.obj [])),
      ("version", encodeStringOmit c.version)]))),
    ("passwd", some (.obj [])),
    ("storage", some (.obj (members [
      ("directories", encodeSlice encodeDirectory c.directories),
      ("files", encodeSlice encodeFile c.files),
      ("links", encodeSlice encodeLink c.links),
      ("luks", encodeSlice encodeLuks c.luks)]))),
    ("systemd", some (.obj (members [("units", encodeSlice encodeUnit c.units)])))])

/-- `json.Marshal` of a `Config`. -/
def jsonMarshal (c : Config) : String := String.mk (renderJSON (encodeConfig c) [])

/-- Whether a text can follow a value in the text of the writer: the end of the text, a
comma or a closing bracket. -/
def endsValue : List Char → Bool
  | [] => true
  | c :: _ => c = ',' || c = ']' || c = '\x7d'

/-! ## Host records and the environment -/

/-- The fields of `models.Host` that the engine uses. -/
structure Host where
  id : String
  requestedHostname : String := ""
  inventory : String := ""
  role : String := ""
  suggestedRole : String := ""
  status : String := ""
  ignitionConfigOverrides : String := ""
  deriving DecidableEq, Repr

/-- The fields of `common.Cluster` that the engine uses. -/
structure Cluster where
  hosts : List Host := []
  highAvailabilityMode : Option String := none
  deriving DecidableEq, Repr

/-- The `installerGenerator`: working directory, cluster and the bare-metal
orchestrator switch. -/
structure Generator where
  workDir : String
  cluster : Cluster
  enableMetal3Provisioning : Bool
  deriving DecidableEq, Repr

/-- The `models.CPU` of an inventory. The frequency is carried over unchanged. -/
structure CPU where
  architecture : String := ""
  modelName : String := ""
  frequency : Int := 0
  flags : List String := []
  count : Int := 0
  deriving DecidableEq, Repr

/-- A `models.Interface` of an inventory. -/
structure Interface where
  name : String := ""
  product : String := ""
  macAddress : String := ""
  speedMbps : Int := 0
  ipv4Addresses : List String := []
  ipv6Addresses : List String := []
  deriving DecidableEq, Repr

/-- A `models.Disk` of an inventory. -/
structure Disk where
  name : String := ""
  vendor : String := ""
  sizeBytes : Int := 0
  model : String := ""
  wwn : String := ""
  hctl : String := ""
  serial : String := ""
  driveType : String := ""
  deriving DecidableEq, Repr

/-- The `models.SystemVendor` of an inventory. -/
structure SystemVendor where
  manufacturer : String := ""
  productName : String := ""
  serialNumber : String := ""
  deriving DecidableEq, Repr

/-- The fields of `models.Inventory` read by `modifyBMHFile`; `cpu`, `memory` (its
`PhysicalBytes`) and `systemVendor` are pointers. -/
structure Inventory where
  cpu : Option CPU := none
  memory : Option Int := none
  interfaces : List Interface := []
  disks : List Disk := []
  systemVendor : Option SystemVendor := none
  deriving DecidableEq, Repr

/-- A `bmh_v1alpha1.NIC`. -/
structure NIC where
  name : String
  model : String
  mac : String
  ip : String
  speedGbps : Int
  deriving DecidableEq, Repr

/-- A `bmh_v1alpha1.Storage`. -/
structure Storage where
  name : String
  rotational : Bool
  sizeBytes : Int
  vendor : String
  model : String
  serialNumber : String
  wwn : String
  hctl : String
  deriving DecidableEq, Repr

/-- The `bmh_v1alpha1.HardwareDetails`. -/
structure HardwareDetails where
  cpuArch : String
  cpuModel : String
  cpuClockMegahertz : Int
  cpuFlags : List String
  cpuCount : Int
  hostname : String
  nic : List NIC
  storage : List Storage
  ramMebibytes : Int
  systemVendor : SystemVendor
  deriving DecidableEq, Repr

/-- The `bmh_v1alpha1.BareMetalHostStatus` built by `modifyBMHFile`. -/
structure BareMetalHostStatus where
  hardwareDetails : HardwareDetails
  poweredOn : Bool
  deriving DecidableEq, Repr

/-- A `bmh_v1alpha1.BareMetalHost`: its name, its annotations, the
`spec.externallyProvisioned` flag, and the rest of the object. -/
structure BareMetalHost where
  name : String
  annotations : List (String × String) := []
  externallyProvisioned : Bool := false
  rest : String := ""
  deriving DecidableEq, Repr

/-- A `models.Proxy`. -/
structure Proxy where
  httpProxy : Option String := none
  httpsProxy : Option String := none
  noProxy : Option String := none
  deriving DecidableEq, Repr

/-- The fields of `common.InfraEnv` that the discovery builder uses. -/
structure InfraEnv where
  id : String
  proxy : Option Proxy := none
  sshAuthorizedKey : String := ""
  pullSecret : String := ""
  internalIgnitionConfigOverride : String := ""
  ignitionConfigOverride : String := ""
  staticNetworkConfig : String := ""
  imageType : String := ""
  deriving DecidableEq, Repr

/-- The `IgnitionConfig` attributes; `agentTimeoutStart` is a duration in
nanoseconds. -/
structure IgnitionConfig where
  agentDockerImg : String := ""
  agentTimeoutStart : Int := 0
  installRHCa : Bool := false
  serviceBaseURL : String := ""
  serviceCACertPath : String := ""
  serviceIPs : String := ""
  skipCertVerification : Bool := false
  okdRPMsImage : String := ""
  deriving DecidableEq, Repr

/-- A `staticnetworkconfig.StaticNetworkConfigData`. -/
structure StaticNetworkConfigData where
  FilePath : String
  FileContents : String
  deriving DecidableEq, Repr

/-- Library calls and helpers of the repository outside `internal/ignition`, taken as
parameters. -/
structure Env where
  /-- `encoding/json` decoding of a text into the configuration tree; `none` when the
  text is not the JSON of a configuration. -/
  unmarshal : String → Option Config
  /-- Whether the validation report of the v3.2 parser is fatal for the tree, the report
  of duplicate paths (`duplicatePaths`) apart. -/
  fatal32 : Config → Bool
  /-- Whether the validation report of the v3.1 parser is fatal for the tree, the report
  of duplicate paths (`duplicatePaths`) apart. -/
  fatal31 : Config → Bool
  /-- The helper `hostutil.GetCurrentHostName`. -/
  getCurrentHostName : Host → Except String String
  /-- The helper `hostutil.GetHostnameForMsg`. -/
  getHostnameForMsg : Host → String
  /-- The helper `common.GetEffectiveRole`. -/
  getEffectiveRole : Host → String
  /-- The helper `hostutil.IgnitionFileName`. -/
  ignitionFileName : Host → String
  /-- The helper `common.IsSingleNodeCluster`. -/
  isSingleNodeCluster : Cluster → Bool
  /-- The constant `common.UnmanagedResolvConf`. -/
  unmanagedResolvConf : String
  /-- `json.Unmarshal` of a host inventory. -/
  parseInventory : String → Except String Inventory
  /-- `net.ParseCIDR` followed by `String()` on the address; `none` on a parse error. -/
  parseCIDR : String → Option String
  /-- `json.Marshal` of the status block. -/
  marshalStatus : BareMetalHostStatus → Except String String
  /-- The universal deserializer on the bytes of a resource descriptor. -/
  decodeBMH : List Nat → Except String BareMetalHost
  /-- The YAML serializer on a resource descriptor. -/
  encodeBMH : BareMetalHost → Except String String
  /-- The helper `clusterPkg.AgentToken`. -/
  agentToken : InfraEnv → String → Except String String
  /-- The helper `common.GetProxyConfigs`. -/
  getProxyConfigs : Option Proxy → String × String × String
  /-- Go `ioutil.ReadFile` on a path outside the working directory. -/
  readTextFile : String → Except String String
  /-- The library call `dataurl.EncodeBytes`. -/
  dataurlEncodeBytes : String → String
  /-- The constant `common.HostCACertPath`. -/
  hostCACertPath : String
  /-- The constant `common.Ipv6DuidDiscoveryConf`. -/
  ipv6DuidDiscoveryConf : String
  /-- The constant `constants.PreNetworkConfigScript`. -/
  preNetworkConfigScript : String
  /-- The static-network generator `GenerateStaticNetworkConfigData`. -/
  generateStaticNetworkConfigData : String → Except String (List StaticNetworkConfigData)
  /-- The mirror-registries builder: `IsMirrorRegistriesConfigured`. -/
  isMirrorRegistriesConfigured : Bool
  /-- The mirror-registries builder: `GetMirrorCA`. -/
  getMirrorCA : Except String String
  /-- The mirror-registries builder: `GetMirrorRegistries`. -/
  getMirrorRegistries : Except String String

/-- The files of the working directory: path and content, the first entry of a path
being the current one. -/
abbrev FS := List (String × Bytes)

/-- Go `ioutil.ReadFile`; `none` when the file does not exist. -/
def readFile (fs : FS) (path : String) : Option Bytes :=
  (fs.find? (fun e => e.1 = path)).map Prod.snd

/-- Go `ioutil.WriteFile`. -/
def writeFile (fs : FS) (path : String) (content : Bytes) : FS :=
  (path, content) :: fs.filter (fun e => e.1 ≠ path)

/-! ## Format normalizer -/

/-- What the JSON decoder makes of a byte string: the output of `json.Marshal` decodes
to the tree it was made from (`jsonUnmarshal_jsonMarshal` shows it for the writer
`jsonMarshal` and the reader `jsonUnmarshal`), a text is handed to the decoder. -/
def decodeBytes (env : Env) : Bytes → Option Config
  | .text s => env.unmarshal s
  | .json c => some c

/-- A tree as the v3.1 types hold it: they have no `storage.luks`, the decoder leaves
the key out and the validation sees the tree without it. -/
def toV31 (c : Config) : Config := { c with luks := [] }

/-- The tree that the parser of the declared version of `c` holds for `c`. -/
def asDeclared (c : Config) : Config := if c.version = "3.1.0" then toV31 c else c

/-- The `Parse` function of a `config/vX_Y` package: decode into the types of the
package, compare the declared version with the version of the package (the semantic
versions are compared as strings here), validate. -/
def configParse (decode : Bytes → Option Config) (maxVersion : String) (fatal : Config → Bool)
    (raw : Bytes) : Except String Config :=
  match decode raw with
  | none => .error "config is not valid"
  | some c =>
    if c.version ≠ maxVersion then .error "unsupported config version"
    else if fatal c then .error "config is not valid"
    else .ok c

/-- The v3.2 parser `config_latest.Parse`; its validation reports the duplicate paths of
`storage` and what `env.fatal32` stands for. -/
def parse32 (env : Env) (raw : Bytes) : Except String Config :=
  configParse (decodeBytes env) "3.2.0" (fun c => duplicatePaths c || env.fatal32 c) raw

/-- The v3.1 parser `config_31.Parse`; its validation reports the duplicate paths of
`storage` and what `env.fatal31` stands for. -/
def parse31 (env : Env) (raw : Bytes) : Except String Config :=
  configParse (fun raw => (decodeBytes env raw).map toV31) "3.1.0"
    (fun c => duplicatePaths c || env.fatal31 c) raw

/-- `ParseToLatest`: parse as v3.2 and, if that fails, as v3.1; a v3.1 tree is translated
to the v3.2 shape (it keeps what the v3.1 tree has and adds nothing) and its version is
set back to `3.1.0`. -/
def ParseToLatest (env : Env) (content : Bytes) : Except String Config :=
  match parse32 env content with
  | .ok config => .ok config
  | .error _ =>
    match parse31 env content with
    | .error err => .error ("error parsing ignition: " ++ err)
    | .ok configBackwards => .ok { configBackwards with version := "3.1.0" }

/-! ## Document mutators -/

/-- `setFileInIgnition`: append a file entry owned by `root` to `storage.files`. -/
def setFileInIgnition (config : Config) (filePath fileContents : String) (appendContent : Bool)
    (mode : Int) (overwrite : Bool) : Config :=
  let file : File :=
    { path := filePath
      overwrite := some overwrite
      userName := some "root"
      append := []
      contents := { source := some fileContents }
      mode := some mode }
  let file : File :=
    if appendContent then
      { file with append := [{ source := some fileContents }], contents := {} }
    else file
  { config with files := config.files ++ [file] }

/-- `setUnitInIgnition`: append a unit to `systemd.units`. -/
def setUnitInIgnition (config : Config) (contents name : String) (enabled : Bool) : Config :=
  { config with
    units := config.units ++ [{ contents := some contents, name := name, enabled := some enabled }] }

/-! ## Merge engine (`config/merge`) -/

/-- Merge of two pointer fields: the child's value unless it is nil. -/
def mergePtr {α : Type} (parent child : Option α) : Option α :=
  match child with
  | some v => some v
  | none => parent

/-- The entry of the child list that the merge pairs with a parent key: the last entry
with that key. -/
def childEntryByKey {α : Type} (key : α → String) (child : List α) (k : String) : Option α :=
  (child.reverse).find? (fun c => key c = k)

/-- Merge of two keyed lists: walk the parent, merging an entry with the child entry of
the same key (`mergeItem` returns `none` when the entry is to be removed) and keeping
the others, then append the child entries whose key is not in the parent. -/
def mergeKeyed {α : Type} (key : α → String) (mergeItem : α → α → Option α)
    (parent child : List α) : List α :=
  parent.filterMap (fun p =>
      match childEntryByKey key child (key p) with
      | some c => mergeItem p c
      | none => some p) ++
    child.filter (fun c => !(parent.any (fun p => key p = key c)))

/-- Merge of two header entries; a child header without value removes the parent's. -/
def mergeHTTPHeader (_parent child : HTTPHeader) : Option HTTPHeader :=
  match child.value with
  | none => none
  | some v => some { name := child.name, value := some v }

/-- `Resource.Key`: the source, or the empty string. -/
def Resource.key (r : Resource) : String := r.source.getD ""

/-- Merge of two resources. -/
def mergeResource (parent child : Resource) : Resource :=
  { compression := mergePtr parent.compression child.compression
    httpHeaders := mergeKeyed HTTPHeader.name mergeHTTPHeader parent.httpHeaders child.httpHeaders
    source := mergePtr parent.source child.source
    verificationHash := mergePtr parent.verificationHash child.verificationHash }

/-- Merge of two files with the same path: pointer fields by `mergePtr`, the path from
the child, the append lists concatenated (`Append` is in `IgnoreDuplicates`). -/
def mergeFile (parent child : File) : File :=
  { groupID := mergePtr parent.groupID child.groupID
    groupName := mergePtr parent.groupName child.groupName
    overwrite := mergePtr parent.overwrite child.overwrite
    path := child.path
    userID := mergePtr parent.userID child.userID
    userName := mergePtr parent.userName child.userName
    append := parent.append ++ child.append
    contents := mergeResource parent.contents child.contents
    mode := mergePtr parent.mode child.mode }

/-- Merge of two directories with the same path. -/
def mergeDirectory (parent child : Directory) : Directory :=
  { groupID := mergePtr parent.groupID child.groupID
    groupName := mergePtr parent.groupName child.groupName
    overwrite := mergePtr parent.overwrite child.overwrite
    path := child.path
    userID := mergePtr parent.userID child.userID
    userName := mergePtr parent.userName child.userName
    mode := mergePtr parent.mode child.mode }

/-- Merge of two links with the same path; the target is a plain string and is taken
from the child. -/
def mergeLink (parent child : Link) : Link :=
  { groupID := mergePtr parent.groupID child.groupID
    groupName := mergePtr parent.groupName child.groupName
    overwrite := mergePtr parent.overwrite child.overwrite
    path := child.path
    userID := mergePtr parent.userID child.userID
    userName := mergePtr parent.userName child.userName
    hard := mergePtr parent.hard child.hard
    target := child.target }

/-- `getChildEntryByKey` for a list of the shared key space of `storage`: the entry that
the child registers last for the path, looked up across its directories, files and
links. -/
def childNodeByKey (child : Config) (k : String) : Option Node :=
  ((storageNodes child).reverse).find? (fun n => n.path = k)

/-- Merge of one of the three lists of `storage` that share the paths as keys.  `own` is
the list of the child with the same name as the parent list, `ofNode` tells whether a
storage entry of the child belongs to that list.  Walk the parent: an entry whose path
the child has in the list of the same name is merged with the child entry, an entry whose
path the child has in another list is dropped, an entry whose path the child does not
have is kept; then append the entries of `own` whose path is not in the parent list. -/
def mergeNodes {α : Type} (path : α → String) (ofNode : Node → Option α) (mergeItem : α → α → α)
    (parent own : List α) (child : Config) : List α :=
  parent.filterMap (fun p =>
      match childNodeByKey child (path p) with
      | some n => (ofNode n).map (mergeItem p)
      | none => some p) ++
    own.filter (fun c => !(parent.any (fun p => path p = path c)))

/-- Merge of two dropins with the same name. -/
def mergeDropin (parent child : Dropin) : Dropin :=
  { contents := mergePtr parent.contents child.contents
    name := child.name }

/-- Merge of two units with the same name; the dropins are merged by name. -/
def mergeUnit (parent child : SystemdUnit) : SystemdUnit :=
  { contents := mergePtr parent.contents child.contents
    dropins :=
      mergeKeyed Dropin.name (fun p c => some (mergeDropin p c)) parent.dropins child.dropins
    enabled := mergePtr parent.enabled child.enabled
    mask := mergePtr parent.mask child.mask
    name := child.name }

/-- Merge of two luks devices with the same name. -/
def mergeLuks (parent child : Luks) : Luks :=
  { device := mergePtr parent.device child.device
    label := mergePtr parent.label child.label
    name := child.name
    wipeVolume := mergePtr parent.wipeVolume child.wipeVolume }

/-- `merge.MergeStructTranscribe` on two configuration trees: primitive fields (the
version) are taken from the child, lists are merged by key; the directories, files and
links of `storage` share their keys. -/
def mergeConfig (parent child : Config) : Config :=
  { version := child.version
    merge := mergeKeyed Resource.key (fun p c => some (mergeResource p c)) parent.merge child.merge
    certificateAuthorities :=
      mergeKeyed Resource.key (fun p c => some (mergeResource p c))
        parent.certificateAuthorities child.certificateAuthorities
    directories :=
      mergeNodes Directory.path Node.asDirectory mergeDirectory parent.directories
        child.directories child
    files := mergeNodes File.path Node.asFile mergeFile parent.files child.files child
    links := mergeNodes Link.path Node.asLink mergeLink parent.links child.links child
    luks := mergeKeyed Luks.name (fun p c => some (mergeLuks p c)) parent.luks child.luks
    units := mergeKeyed SystemdUnit.name (fun p c => some (mergeUnit p c)) parent.units child.units }

/-- `MergeIgnitionConfig`: normalize both documents, merge, serialize, and validate the
result with the parser of its declared version. -/
def MergeIgnitionConfig (env : Env) (base overrides : Bytes) : Bytes × Option String :=
  match ParseToLatest env base with
  | .error err => (Bytes.text "", some err)
  | .ok baseConfig =>
    match ParseToLatest env overrides with
    | .error err => (Bytes.text "", some err)
    | .ok overrideConfig =>
      let mergeResult := mergeConfig baseConfig overrideConfig
      let res := Bytes.json mergeResult
      match (if mergeResult.version = "3.1.0" then parse31 env res else parse32 env res) with
      | .error err => (Bytes.text "", some err)
      | .ok _ => (res, none)

/-- The file entry that carries a host name: what
`setFileInIgnition(config, "/etc/hostname", "data:,<hostname>", false, 420, true)` adds. -/
def hostnameFile (hostname : String) : File :=
  { path := "/etc/hostname"
    overwrite := some true
    userName := some "root"
    append := []
    contents := { source := some ("data:," ++ hostname) }
    mode := some 420 }

/-- `SetHostnameForNodeIgnition`: normalize the document, add the `/etc/hostname` entry
for the host's current hostname, serialize. -/
def SetHostnameForNodeIgnition (env : Env) (ignition : Bytes) (host : Host) :
    Bytes × Option String :=
  match ParseToLatest env ignition with
  | .error err => (Bytes.text "", some ("error parsing ignition: " ++ err))
  | .ok config =>
    match env.getCurrentHostName host with
    | .error _ => (Bytes.text "", some ("failed to get hostname for host " ++ host.id))
    | .ok hostname =>
      (Bytes.json (setFileInIgnition config "/etc/hostname" ("data:," ++ hostname) false 420 true),
        none)

/-! ## Day-2 joiner builder -/

/-- The `HEADERS` parameter of the pointer document, a map listed in key order. -/
def secondDayHeaders (bearerToken : String) : List (String × String) :=
  if bearerToken ≠ "" then [("Authorization", "Bearer " ++ bearerToken)] else []

/-- The `CACERT` parameter of the pointer document. -/
def secondDayCACert (caCert : Option String) : String :=
  match caCert with
  | some cert => "data:text/plain;base64," ++ cert
  | none => ""

/-- The text of the `httpHeaders` list that the template renders for `HEADERS`: one
object per map entry, in key order, between brackets. -/
def secondDayHeaderList (headers : List (String × String)) : String :=
  "[" ++
    concat (headers.map fun kv =>
      "\x7b\"name\": \"" ++ kv.1 ++ "\", \"value\": \"" ++ kv.2 ++ "\"\x7d") ++
    "]"

/-- The lines of the template `secondDayWorkerIgnitionFormat` between `{{if .CACERT}}`
and its `{{end}}`. -/
def secondDaySecurity (cacert : String) : String :=
  if cacert ≠ "" then
    concat [
      ",\n",
      "          \"security\": \x7b\n",
      "            \"tls\": \x7b\n",
      "\t      \"certificateAuthorities\": [\x7b\n",
      "\t        \"source\": \"", cacert, "\"\n",
      "\t      \x7d]\n",
      "\t    \x7d\n",
      "\t  \x7d"]
  else ""

/-- Execution of the template `secondDayWorkerIgnitionFormat` on the parameters
`SOURCE`, `HEADERS` and `CACERT`. -/
def secondDayWorkerIgnitionFormat (source : String) (headers : List (String × String))
    (cacert : String) : String :=
  concat [
    "\x7b\n",
    "\t\"ignition\": \x7b\n",
    "\t  \"version\": \"3.1.0\",\n",
    "\t  \"config\": \x7b\n",
    "\t\t\"merge\": [\x7b\n",
    "\t\t  \"source\": \"", source, "\"",
    (if headers ≠ [] then
      concat [
        ",\n",
        "          \"httpHeaders\": ", secondDayHeaderList headers]
     else ""),
    "\n",
    "\t\t\x7d]\n",
    "\t  \x7d",
    secondDaySecurity cacert,
    "\n",
    "    \x7d\n",
    " \x7d"]

/-- The tree that the template `secondDayWorkerIgnitionFormat` denotes for its
parameters: version 3.1.0, one merge source with one header entry per entry of
`HEADERS`, and the certificate authority when `CACERT` is not empty. -/
def pointerTree (source : String) (headers : List (String × String)) (cacert : String) : Config :=
  { version := "3.1.0"
    merge := [{ source := some source
                httpHeaders := headers.map (fun kv => { name := kv.1, value := some kv.2 }) }]
    certificateAuthorities := if cacert ≠ "" then [{ source := some cacert }] else [] }

/-- `FormatSecondDayWorkerIgnitionFile`: render the pointer document, merge the host
override into it when there is one, then inject the hostname. -/
def FormatSecondDayWorkerIgnitionFile (env : Env) (url : String) (caCert : Option String)
    (bearerToken : String) (host : Host) : Bytes × Option String :=
  let buf := secondDayWorkerIgnitionFormat url (secondDayHeaders bearerToken) (secondDayCACert caCert)
  let merged : Bytes × Option String :=
    if host.ignitionConfigOverrides ≠ "" then
      MergeIgnitionConfig env (Bytes.text buf) (Bytes.text host.ignitionConfigOverrides)
    else (Bytes.text buf, none)
  match merged.2 with
  | some err =>
    (Bytes.text "", some ("Failed to apply ignition override for host " ++ host.id ++ ": " ++ err))
  | none =>
    let res := SetHostnameForNodeIgnition env merged.1 host
    match res.2 with
    | some err =>
      (Bytes.text "", some ("Failed to set hostname in ignition for host " ++ host.id ++ ": " ++ err))
    | none => (res.1, none)

/-! ## Bootstrap post-processor -/

/-- How a step of the post-processing can fail: by returning an error, or by a run-time
fault of the Go program (a nil dereference). -/
inductive Failure where
  | error (msg : String)
  | crash
  deriving DecidableEq, Repr

/-- `parseIgnitionFile`: read the file and normalize it. -/
def parseIgnitionFile (env : Env) (fs : FS) (path : String) : Except String Config :=
  match readFile fs path with
  | none => .error ("error reading file " ++ path)
  | some configBytes => ParseToLatest env configBytes

/-- `writeIgnitionFile`: serialize the tree and write it. -/
def writeIgnitionFile (fs : FS) (path : String) (config : Config) : FS :=
  writeFile fs path (Bytes.json config)

/-- Stable insertion of a host before the first host of the list that does not have a
smaller key. -/
def insertByKey (key : Host → String) (h : Host) : List Host → List Host
  | [] => [h]
  | x :: xs => if stringLess (key x) (key h) then x :: insertByKey key h xs else h :: x :: xs

/-- Go `sort.SliceStable` with the comparison `key a < key b`. -/
def sortStableByKey (key : Host → String) : List Host → List Host
  | [] => []
  | h :: t => insertByKey key h (sortStableByKey key t)

/-- `sortHosts`: the hosts whose effective role is master and the other hosts, each list
sorted by `GetHostnameForMsg`. -/
def sortHosts (env : Env) (hosts : List Host) : List Host × List Host :=
  let masters := hosts.filter (fun h => env.getEffectiveRole h = "master")
  let workers := hosts.filter (fun h => ¬ env.getEffectiveRole h = "master")
  (sortStableByKey env.getHostnameForMsg masters, sortStableByKey env.getHostnameForMsg workers)

/-- `getHostnames`. -/
def getHostnames (env : Env) (hosts : List Host) : List String :=
  hosts.map env.getHostnameForMsg

/-- `bmhIsMaster`: membership in the master names, then in the worker names, then the
`-master-` substring. -/
def bmhIsMaster (bmh : BareMetalHost) (masterHostnames workerHostnames : List String) : Bool :=
  if bmh.name ∈ masterHostnames then true
  else if bmh.name ∈ workerHostnames then false
  else stringsContains bmh.name "-master-"

/-- `isBMHFile`. -/
def isBMHFile (file : File) : Bool := stringsContains file.path "openshift-cluster-api_hosts"

/-- `isMOTD`. -/
def isMOTD (file : File) : Bool := file.path = "/etc/motd"

/-- `isBaremetalProvisioningConfig`. -/
def isBaremetalProvisioningConfig (file : File) : Bool :=
  stringsContains file.path "baremetal-provisioning-config"

/-- `fileToBMH`: the content source is dereferenced, split at `base64,`, decoded and
deserialized. -/
def fileToBMH (env : Env) (file : File) : Except Failure BareMetalHost :=
  match file.contents.source with
  | none => .error Failure.crash
  | some source =>
    match stringsSplit source "base64," with
    | [_, encoded] =>
      match base64Decode encoded with
      | none => .error (Failure.error "illegal base64 data")
      | some decoded =>
        match env.decodeBMH decoded with
        | .error err => .error (Failure.error err)
        | .ok bmh => .ok bmh
    | _ => .error (Failure.error ("could not parse source for file " ++ file.path))

/-- `fixMOTDFile`: an entry without content source and with exactly one appended
resource gets that resource as content; other entries are left as they are. -/
def fixMOTDFile (file : File) : File :=
  match file.contents.source with
  | some _ => file
  | none =>
    match file.append with
    | [r] => { file with contents := { file.contents with source := r.source }, append := [] }
    | _ => file

/-- `getInterfaceIP`. -/
def getInterfaceIP (env : Env) (cidr : String) : String :=
  match env.parseCIDR cidr with
  | none => ""
  | some ip => ip

/-- The NIC that `modifyBMHFile` builds for an inventory interface. -/
def nicOfInterface (env : Env) (iface : Interface) : NIC :=
  { name := iface.name
    model := iface.product
    mac := iface.macAddress
    speedGbps := Int.tdiv iface.speedMbps 1024
    ip :=
      match iface.ipv4Addresses, iface.ipv6Addresses with
      | a :: _, _ => getInterfaceIP env a
      | [], a :: _ => getInterfaceIP env a
      | [], [] => "" }

/-- The storage entry that `modifyBMHFile` builds for an inventory disk. -/
def storageOfDisk (disk : Disk) : Storage :=
  { name := disk.name
    vendor := disk.vendor
    sizeBytes := disk.sizeBytes
    model := disk.model
    wwn := disk.wwn
    hctl := disk.hctl
    serialNumber := disk.serial
    rotational := disk.driveType = "HDD" }

/-- `metav1.SetMetaDataAnnotation`. -/
def setAnnotation (annotations : List (String × String)) (key value : String) :
    List (String × String) :=
  if annotations.any (fun kv => kv.1 = key) then
    annotations.map (fun kv => if kv.1 = key then (key, value) else kv)
  else annotations ++ [(key, value)]

/-- `modifyBMHFile`: build the status from the host inventory, store it as annotation of
the descriptor, serialize, cut at the first `status:` line, and set the result as
content source of the file. -/
def modifyBMHFile (env : Env) (g : Generator) (file : File) (bmh : BareMetalHost) (host : Host) :
    Except Failure File :=
  match env.parseInventory host.inventory with
  | .error err => .error (Failure.error err)
  | .ok inventory =>
    match inventory.cpu with
    | none => .error Failure.crash
    | some cpu =>
      let hw : HardwareDetails :=
        { cpuArch := cpu.architecture
          cpuModel := cpu.modelName
          cpuClockMegahertz := cpu.frequency
          cpuFlags := cpu.flags
          cpuCount := cpu.count
          hostname := host.requestedHostname
          nic := inventory.interfaces.map (nicOfInterface env)
          storage := inventory.disks.map storageOfDisk
          ramMebibytes :=
            match inventory.memory with
            | some physicalBytes => Int.tdiv (Int.tdiv physicalBytes 1024) 1024
            | none => 0
          systemVendor :=
            match inventory.systemVendor with
            | some v => v
            | none => {} }
      let status : BareMetalHostStatus := { hardwareDetails := hw, poweredOn := true }
      match env.marshalStatus status with
      | .error err => .error (Failure.error err)
      | .ok statusJSON =>
        let bmh := { bmh with
          annotations := setAnnotation bmh.annotations "baremetalhost.metal3.io/status" statusJSON }
        let bmh := if g.enableMetal3Provisioning then { bmh with externallyProvisioned := true } else bmh
        match env.encodeBMH bmh with
        | .error err => .error (Failure.error err)
        | .ok buf =>
          let res := stringsSplit buf "status:\n"
          let encodedBMH := base64Encode (res.headD "")
          let source := "data:text/plain;charset=utf-8;base64," ++ encodedBMH
          .ok { file with contents := { file.contents with source := some source } }

/-- The hardware details that `modifyBMHFile` builds from a host record, its inventory
and the CPU of the inventory. -/
def hardwareDetailsOf (env : Env) (host : Host) (inventory : Inventory) (cpu : CPU) :
    HardwareDetails :=
  { cpuArch := cpu.architecture
    cpuModel := cpu.modelName
    cpuClockMegahertz := cpu.frequency
    cpuFlags := cpu.flags
    cpuCount := cpu.count
    hostname := host.requestedHostname
    nic := inventory.interfaces.map (nicOfInterface env)
    storage := inventory.disks.map storageOfDisk
    ramMebibytes :=
      match inventory.memory with
      | some physicalBytes => Int.tdiv (Int.tdiv physicalBytes 1024) 1024
      | none => 0
    systemVendor :=
      match inventory.systemVendor with
      | some v => v
      | none => {} }

/-- The descriptor that `modifyBMHFile` serializes: the status text is stored as
annotation and the descriptor is marked as externally provisioned when the orchestrator
is enabled. -/
def annotatedBMH (g : Generator) (bmh : BareMetalHost) (statusJSON : String) : BareMetalHost :=
  let bmh := { bmh with
    annotations := setAnnotation bmh.annotations "baremetalhost.metal3.io/status" statusJSON }
  if g.enableMetal3Provisioning then { bmh with externallyProvisioned := true } else bmh

/-- One iteration of the loop of `updateBootstrap` over the files: the entry to keep
(`none` when the file is dropped) and the queues of hosts that are left. -/
def updateBootstrapFile (env : Env) (g : Generator) (masters workers : List Host) (file : File) :
    Except Failure (Option File × List Host × List Host) :=
  if isBaremetalProvisioningConfig file then
    if ¬ g.enableMetal3Provisioning then .ok (none, masters, workers)
    else .ok (some file, masters, workers)
  else if isMOTD file then .ok (some (fixMOTDFile file), masters, workers)
  else if isBMHFile file then
    match fileToBMH env file with
    | .error err => .error err
    | .ok bmh =>
      let masterHostnames := getHostnames env masters
      let workerHostnames := getHostnames env workers
      if bmhIsMaster bmh masterHostnames workerHostnames then
        match masters with
        | [] => .error (Failure.error "Not enough registered masters to match with BareMetalHosts")
        | host :: masters =>
          match modifyBMHFile env g file bmh host with
          | .error err => .error err
          | .ok file => .ok (some file, masters, workers)
      else
        match workers with
        | [] => .error (Failure.error "Not enough registered workers to match with BareMetalHosts")
        | host :: workers =>
          match modifyBMHFile env g file bmh host with
          | .error err => .error err
          | .ok file => .ok (some file, masters, workers)
  else .ok (some file, masters, workers)

/-- The loop of `updateBootstrap` over the files of the bootstrap document, on the state
`(newFiles, masters, workers)`: the files kept so far and the two queues of hosts that
are not assigned yet. -/
def updateBootstrapFiles (env : Env) (g : Generator) :
    List File → List File × List Host × List Host →
      Except Failure (List File × List Host × List Host)
  | [], state => .ok state
  | file :: rest, (newFiles, masters, workers) =>
    match updateBootstrapFile env g masters workers file with
    | .error err => .error err
    | .ok (kept, masters, workers) =>
      updateBootstrapFiles env g rest (newFiles ++ kept.toList, masters, workers)

/-- The files that reach the resource-descriptor case of the loop of `updateBootstrap`:
the path names a descriptor and neither of the two earlier cases applies. -/
def isDescriptor (file : File) : Bool :=
  !isBaremetalProvisioningConfig file && !isMOTD file && isBMHFile file

/-- What a descriptor file becomes when it is decoded and populated from a host record;
`none` when decoding or populating fails. -/
def populate (env : Env) (g : Generator) (file : File) (host : Host) : Option File :=
  match fileToBMH env file with
  | .error _ => none
  | .ok bmh =>
    match modifyBMHFile env g file bmh host with
    | .error _ => none
    | .ok out => some out

/-- Whether the loop of `updateBootstrap` keeps a file: every file but the bare-metal
provisioning configuration when the orchestrator is disabled. -/
def keptInBootstrap (g : Generator) (file : File) : Bool :=
  !(isBaremetalProvisioningConfig file && !g.enableMetal3Provisioning)

/-- How a kept file `file` of the bootstrap document and the entry `entry` written for it
are related: the path is the same; a provisioning configuration and a file that is
neither `/etc/motd` nor a descriptor are written as they are; `/etc/motd` is written as
`fixMOTDFile` leaves it; a descriptor is written as populated from some host. -/
def writtenForBootstrapFile (env : Env) (g : Generator) (file entry : File) : Prop :=
  entry.path = file.path ∧
  (isBaremetalProvisioningConfig file = true → entry = file) ∧
  (isBaremetalProvisioningConfig file = false → isMOTD file = true → entry = fixMOTDFile file) ∧
  (isMOTD file = false → isBMHFile file = false → entry = file) ∧
  (isDescriptor file = true → ∃ host, populate env g file host = some entry)

/-- `setNMConfigration`. -/
def setNMConfigration (env : Env) (config : Config) : Config :=
  let fileContents := "data:text/plain;charset=utf-8;base64," ++ base64Encode env.unmanagedResolvConf
  setFileInIgnition config "/etc/NetworkManager/conf.d/99-kni.conf" fileContents false 420 false

/-- `updateBootstrap`: the error it returns, if any, and the files of the working
directory afterwards. -/
def updateBootstrap (env : Env) (g : Generator) (fs : FS) (bootstrapPath : String) :
    Option Failure × FS :=
  match parseIgnitionFile env fs bootstrapPath with
  | .error err => (some (Failure.error err), fs)
  | .ok config =>
    let (masters, workers) := sortHosts env g.cluster.hosts
    match updateBootstrapFiles env g config.files ([], masters, workers) with
    | .error err => (some err, fs)
    | .ok (newFiles, _, _) =>
      let config := { config with files := newFiles }
      let config :=
        if g.cluster.highAvailabilityMode.getD "" ≠ "None" then
          setFileInIgnition config "/opt/openshift/assisted-install-bootstrap" "data:," false 420 false
        else config
      let config := if ¬ env.isSingleNodeCluster g.cluster then setNMConfigration env config else config
      (none, writeIgnitionFile fs bootstrapPath config)

/-! ## Per-host deriver -/

/-- The task that `writeHostFiles` starts for one host: the error it returns, if any,
and the files of the working directory afterwards. -/
def writeHostFile (env : Env) (fs : FS) (baseFile workDir : String) (host : Host) :
    Option String × FS :=
  match parseIgnitionFile env fs (filepathJoin workDir baseFile) with
  | .error err => (some err, fs)
  | .ok config =>
    match env.getCurrentHostName host with
    | .error err => (some ("failed to get hostname for host " ++ host.id ++ ": " ++ err), fs)
    | .ok hostname =>
      let config := setFileInIgnition config "/etc/hostname" ("data:," ++ hostname) false 420 true
      let configBytes := Bytes.json config
      let merged : Bytes × Option String :=
        if host.ignitionConfigOverrides ≠ "" then
          MergeIgnitionConfig env configBytes (Bytes.text host.ignitionConfigOverrides)
        else (configBytes, none)
      match merged.2 with
      | some mergeErr =>
        (some ("failed to apply ignition config overrides for host " ++ host.id ++ ": " ++ mergeErr),
          fs)
      | none => (none, writeFile fs (filepathJoin workDir (env.ignitionFileName host)) merged.1)

/-- The bytes that the task of `writeHostFiles` writes for one host, computed from the
bytes of the base file (`none` when the file cannot be read), or the error of the task. -/
def hostIgnition (env : Env) (base : Option Bytes) (basePath : String) (host : Host) :
    Except String Bytes :=
  match base with
  | none => .error ("error reading file " ++ basePath)
  | some configBytes =>
    match ParseToLatest env configBytes with
    | .error err => .error err
    | .ok config =>
      match env.getCurrentHostName host with
      | .error err => .error ("failed to get hostname for host " ++ host.id ++ ": " ++ err)
      | .ok hostname =>
        let config := setFileInIgnition config "/etc/hostname" ("data:," ++ hostname) false 420 true
        let configBytes := Bytes.json config
        let merged : Bytes × Option String :=
          if host.ignitionConfigOverrides ≠ "" then
            MergeIgnitionConfig env configBytes (Bytes.text host.ignitionConfigOverrides)
          else (configBytes, none)
        match merged.2 with
        | some mergeErr =>
          .error ("failed to apply ignition config overrides for host " ++ host.id ++ ": " ++
            mergeErr)
        | none => .ok merged.1

/-- `writeHostFiles`: every host's task is run; the error reported is the one of the
first host of the list whose task failed. -/
def writeHostFiles (env : Env) (fs : FS) (hosts : List Host) (baseFile workDir : String) :
    Option String × FS :=
  hosts.foldl
    (fun acc host =>
      let r := writeHostFile env acc.2 baseFile workDir host
      (match acc.1 with
        | some err => some err
        | none => r.1, r.2))
    (none, fs)

/-- `createHostIgnitions`. -/
def createHostIgnitions (env : Env) (g : Generator) (fs : FS) : Option String × FS :=
  let (masters, workers) := sortHosts env g.cluster.hosts
  let r := writeHostFiles env fs masters "master.ign" g.workDir
  match r.1 with
  | some err => (some ("error writing master host ignition files: " ++ err), r.2)
  | none =>
    let r := writeHostFiles env r.2 workers "worker.ign" g.workDir
    match r.1 with
    | some err => (some ("error writing worker host ignition files: " ++ err), r.2)
    | none => (none, r.2)

/-! ## Discovery config builder -/

/-- The constant `agentMessageOfTheDay`. -/
def agentMessageOfTheDay : String :=
  concat [
    "\n",
    "**  **  **  **  **  **  **  **  **  **  **  **  **  **  **  **  **  ** **  **  **  **  **  **  **\n",
    "This is a host being installed by the OpenShift Assisted Installer.\n",
    "It will be installed from scratch during the installation.\n",
    "\n",
    "The primary service is agent.service. To watch its status, run:\n",
    "sudo journalctl -u agent.service\n",
    "\n",
    "To view the agent log, run:\n",
    "sudo journalctl TAG=agent\n",
    "**  **  **  **  **  **  **  **  **  **  **  **  **  **  **  **  **  ** **  **  **  **  **  **  **\n"]

/-- The constant `RedhatRootCA`. -/
def RedhatRootCA : String :=
  concat [
    "\n",
    "-----BEGIN CERTIFICATE-----\n",
    "MIIENDCCAxygAwIBAgIJANunI0D662cnMA0GCSqGSIb3DQEBCwUAMIGlMQswCQYD\n",
    "VQQGEwJVUzEXMBUGA1UECAwOTm9ydGggQ2Fyb2xpbmExEDAOBgNVBAcMB1JhbGVp\n",
    "Z2gxFjAUBgNVBAoMDVJlZCBIYXQsIEluYy4xEzARBgNVBAsMClJlZCBIYXQgSVQx\n",
    "GzAZBgNVBAMMElJlZCBIYXQgSVQgUm9vdCBDQTEhMB8GCSqGSIb3DQEJARYSaW5m\n",
    "b3NlY0ByZWRoYXQuY29tMCAXDTE1MDcwNjE3MzgxMVoYDzIwNTUwNjI2MTczODEx\n",
    "WjCBpTELMAkGA1UEBhMCVVMxFzAVBgNVBAgMDk5vcnRoIENhcm9saW5hMRAwDgYD\n",
    "VQQHDAdSYWxlaWdoMRYwFAYDVQQKDA1SZWQgSGF0LCBJbmMuMRMwEQYDVQQLDApS\n",
    "ZWQgSGF0IElUMRswGQYDVQQDDBJSZWQgSGF0IElUIFJvb3QgQ0ExITAfBgkqhkiG\n",
    "9w0BCQEWEmluZm9zZWNAcmVkaGF0LmNvbTCCASIwDQYJKoZIhvcNAQEBBQADggEP\n",
    "ADCCAQoCggEBALQt9OJQh6GC5LT1g80qNh0u50BQ4sZ/yZ8aETxt+5lnPVX6MHKz\n",
    "bfwI6nO1aMG6j9bSw+6UUyPBHP796+FT/pTS+K0wsDV7c9XvHoxJBJJU38cdLkI2\n",
    "c/i7lDqTfTcfLL2nyUBd2fQDk1B0fxrskhGIIZ3ifP1Ps4ltTkv8hRSob3VtNqSo\n",
    "GxkKfvD2PKjTPxDPWYyruy9irLZioMffi3i/gCut0ZWtAyO3MVH5qWF/enKwgPES\n",
    "X9po+TdCvRB/RUObBaM761EcrLSM1GqHNueSfqnho3AjLQ6dBnPWlo638Zm1VebK\n",
    "BELyhkLWMSFkKwDmne0jQ02Y4g075vCKvCsCAwEAAaNjMGEwHQYDVR0OBBYEFH7R\n",
    "4yC+UehIIPeuL8Zqw3PzbgcZMB8GA1UdIwQYMBaAFH7R4yC+UehIIPeuL8Zqw3Pz\n",
    "bgcZMA8GA1UdEwEB/wQFMAMBAf8wDgYDVR0PAQH/BAQDAgGGMA0GCSqGSIb3DQEB\n",
    "CwUAA4IBAQBDNvD2Vm9sA5A9AlOJR8+en5Xz9hXcxJB5phxcZQ8jFoG04Vshvd0e\n",
    "LEnUrMcfFgIZ4njMKTQCM4ZFUPAieyLx4f52HuDopp3e5JyIMfW+KFcNIpKwCsak\n",
    "oSoKtIUOsUJK7qBVZxcrIyeQV2qcYOeZhtS5wBqIwOAhFwlCET7Ze58QHmS48slj\n",
    "S9K0JAcps2xdnGu0fkzhSQxY8GPQNFTlr6rYld5+ID/hHeS76gq0YG3q6RLWRkHf\n",
    "4eTkRjivAlExrFzKcljC4axKQlnOvVAzz+Gm32U0xPBF4ByePVxCJUHw1TsyTmel\n",
    "RxNEp7yHoXcwn+fXna+t5JWh1gxUZty3\n",
    "-----END CERTIFICATE-----"]

/-- The constant `selinuxPolicy`. -/
def selinuxPolicy : String :=
  concat [
    "\n",
    "module assisted 1.0;\n",
    "require \x7b\n",
    "        type chronyd_t;\n",
    "        type container_file_t;\n",
    "        type spc_t;\n",
    "        class unix_dgram_socket sendto;\n",
    "        class dir search;\n",
    "        class sock_file write;\n",
    "\x7d\n",
    "#============= chronyd_t ==============\n",
    "allow chronyd_t container_file_t:dir search;\n",
    "allow chronyd_t container_file_t:sock_file write;\n",
    "allow chronyd_t spc_t:unix_dgram_socket sendto;\n"]

/-- The constant `agentFixBZ1964591`. -/
def agentFixBZ1964591 : String :=
  concat [
    "#!/usr/bin/sh\n",
    "\n",
    "# This script is a workaround for bugzilla 1964591 where symlinks inside /var/lib/containers/ get\n",
    "# corrupted under some circumstances.\n",
    "#\n",
    "# In order to let agent.service start correctly we are checking here whether the requested\n",
    "# container image exists and in case \"podman images\" returns an error we try removing the faulty\n",
    "# image.\n",
    "#\n",
    "# In such a scenario agent.service will detect the image is not present and pull it again. In case\n",
    "# the image is present and can be detected correctly, no any action is required.\n",
    "\n",
    "IMAGE=$(echo $1 | sed 's/:.*//')\n",
    "podman images | grep $IMAGE || podman rmi --force $1 || true\n"]

/-- The constant `okdHoldAgentUntilBinariesLanded`. -/
def okdHoldAgentUntilBinariesLanded : String :=
  concat [
    "[Unit]\n",
    "Wants=okd-overlay.service\n",
    "After=okd-overlay.service\n"]

/-- The constant `okdHoldPivot`. -/
def okdHoldPivot : String :=
  concat [
    "[Unit]\n",
    "ConditionPathExists=/enoent\n"]

/-- The result of `fmt.Sprintf(okdBinariesOverlayTemplate, image)`: the image replaces the
verb `%s`, and `%%` is written as a percent sign. -/
def okdBinariesOverlay (image : String) : String :=
  concat [
    "#!/bin/env bash\n",
    "set -eux\n",
    "# Fetch an image with OKD rpms\n",
    "RPMS_IMAGE=\"", image, "\"\n",
    "while ! podman pull --quiet \"$\x7bRPMS_IMAGE\x7d\"\n",
    "do\n",
    "    echo \"Pull failed. Retrying $\x7bRPMS_IMAGE\x7d...\"\n",
    "    sleep 5\n",
    "done\n",
    "mnt=$(podman image mount \"$\x7bRPMS_IMAGE\x7d\")\n",
    "# Extract machine-config-daemon binary\n",
    "cp -rvf $\x7bmnt\x7d/binaries/machine-config-daemon /usr/local/bin/machine-config-daemon\n",
    "chmod a+x /usr/local/bin/machine-config-daemon\n",
    "restorecon -Rv /usr/local/bin/machine-config-daemon\n",
    "# Install RPMs in overlayed FS\n",
    "mkdir /tmp/rpms\n",
    "cp -rvf $\x7bmnt\x7d/rpms/* /tmp/rpms\n",
    "tmpd=$(mktemp -d)\n",
    "mkdir $\x7btmpd\x7d/\x7bupper,work\x7d\n",
    "mount -t overlay -o lowerdir=/usr,upperdir=$\x7btmpd\x7d/upper,workdir=$\x7btmpd\x7d/work overlay /usr\n",
    "rpm -Uvh /tmp/rpms/*\n",
    "podman rmi -f \"$\x7bRPMS_IMAGE\x7d\"\n",
    "# Expand /var to 6G if necessary\n",
    "if (( $(stat -c%s /run/ephemeral.xfsloop) > 6*1024*1024*1024 )); then\n",
    "  exit 0\n",
    "fi\n",
    "/bin/truncate -s 6G /run/ephemeral.xfsloop\n",
    "losetup -c /dev/loop0\n",
    "xfs_growfs /var\n",
    "mount -o remount,size=6G /run\n"]

/-- The constant `tempNMConnectionsDir`. -/
def tempNMConnectionsDir : String := "/etc/assisted/network"

/-- The parameter map `ignitionParams` of the discovery template. The keys that are set
by the map literal are always present; the others are present only when the feature
they belong to is configured. -/
structure IgnitionParams where
  userSshKey : String
  AgentDockerImg : String
  ServiceBaseURL : String
  infraEnvId : String
  PullSecretToken : String
  AGENT_MOTD : String
  AGENT_FIX_BZ1964591 : String
  IPv6_CONF : String
  PULL_SECRET : String
  RH_ROOT_CA : String
  PROXY_SETTINGS : String
  HTTPProxy : String
  HTTPSProxy : String
  NoProxy : String
  SkipCertVerification : String
  AgentTimeoutStartSec : String
  SELINUX_POLICY : String
  EnableAgentService : Bool
  ServiceCACertData : Option String := none
  HostCACertPath : Option String := none
  ServiceIPs : Option String := none
  StaticNetworkConfig : Option (List StaticNetworkConfigData) := none
  PreNetworkConfigScript : Option String := none
  MirrorRegistriesConfig : Option String := none
  MirrorRegistriesCAConfig : Option String := none
  OKDBinaries : Option String := none
  OKDHoldPivot : Option String := none
  OKDHoldAgent : Option String := none
  deriving DecidableEq, Repr

/-- Truth of a map entry in an `if` action of `text/template`: a missing key and an
empty string are false. -/
def truthy : Option String → Bool
  | none => false
  | some v => v ≠ ""

/-- What `text/template` prints for a map entry. -/
def printValue : Option String → String
  | none => "<no value>"
  | some v => v

/-- The file entry of the Red Hat root CA in the template `discoveryIgnitionConfigFormat`,
the text between `{{if .RH_ROOT_CA}}` and `{{end}}`. -/
def rhRootCAEntry (rootCA : String) : String :=
  concat [
    ",\n",
    "    \x7b\n",
    "      \"overwrite\": true,\n",
    "      \"path\": \"/etc/pki/ca-trust/source/anchors/rh-it-root-ca.crt\",\n",
    "      \"mode\": 420,\n",
    "      \"user\": \x7b\n",
    "          \"name\": \"root\"\n",
    "      \x7d,\n",
    "      \"contents\": \x7b \"source\": \"data:,", rootCA, "\" \x7d\n",
    "    \x7d"]

/-- The pieces that the template `discoveryIgnitionConfigFormat` writes for the parameter
map, in order: the literal texts, the values of the map and the conditional blocks. -/
def discoveryIgnitionConfigParts (p : IgnitionParams) : List String :=
  [
    "\x7b\n",
    "  \"ignition\": \x7b\n",
    "    \"version\": \"3.1.0\"",
    (if p.PROXY_SETTINGS ≠ "" then
      concat [
        ",\n",
        "    ", p.PROXY_SETTINGS]
     else ""),
    "\n",
    "  \x7d,\n",
    "  \"passwd\": \x7b\n",
    "    \"users\": [\n",
    "      ", p.userSshKey, "\n",
    "    ]\n",
    "  \x7d,\n",
    "  \"systemd\": \x7b\n",
    "    \"units\": [\x7b\n",
    "      \"name\": \"agent.service\",\n",
    "      \"enabled\": ",
    (if p.EnableAgentService = true then
      concat [
        "true"]
     else
      concat [
        "false"]),
    ",\n",
    "      \"contents\": \"[Service]\\nType=simple\\nRestart=always\\nRestartSec=3\\nStartLimitInterval=0\\nEnvironment=HTTP_PROXY=", p.HTTPProxy, "\\nEnvironment=http_proxy=", p.HTTPProxy, "\\nEnvironment=HTTPS_PROXY=", p.HTTPSProxy, "\\nEnvironment=https_proxy=", p.HTTPSProxy, "\\nEnvironment=NO_PROXY=", p.NoProxy, "\\nEnvironment=no_proxy=", p.NoProxy,
    (if p.PullSecretToken ≠ "" then
      concat [
        "\\nEnvironment=PULL_SECRET_TOKEN=", p.PullSecretToken]
     else ""),
    "\\nTimeoutStartSec=", p.AgentTimeoutStartSec, "\\nExecStartPre=/usr/local/bin/agent-fix-bz1964591 ", p.AgentDockerImg, "\\nExecStartPre=podman run --privileged --rm -v /usr/local/bin:/hostbin ", p.AgentDockerImg, " cp /usr/bin/agent /hostbin\\nExecStart=/usr/local/bin/agent --url ", p.ServiceBaseURL, " --infra-env-id ", p.infraEnvId, " --agent-version ", p.AgentDockerImg, " --insecure=", p.SkipCertVerification, "  ",
    (if truthy p.HostCACertPath = true then
      concat [
        "--cacert ", printValue p.HostCACertPath]
     else ""),
    "\\n\\n[Unit]\\nWants=network-online.target\\nAfter=network-online.target\\n\\n[Install]\\nWantedBy=multi-user.target\"\n",
    "    \x7d,\n",
    "    \x7b\n",
    "        \"name\": \"selinux.service\",\n",
    "        \"enabled\": true,\n",
    "        \"contents\": \"[Service]\\nType=oneshot\\nExecStartPre=checkmodule -M -m -o /root/assisted.mod /root/assisted.te\\nExecStartPre=semodule_package -o /root/assisted.pp -m /root/assisted.mod\\nExecStart=semodule -i /root/assisted.pp\\n\\n[Install]\\nWantedBy=multi-user.target\"\n",
    "    \x7d",
    (if p.StaticNetworkConfig.getD [] ≠ [] then
      concat [
        ",\n",
        "    \x7b\n",
        "        \"name\": \"pre-network-manager-config.service\",\n",
        "        \"enabled\": true,\n",
        "        \"contents\": \"[Unit]\\nDescription=Prepare network manager config content\\nBefore=dracut-initqueue.service\\nAfter=dracut-cmdline.service\\nDefaultDependencies=no\\n[Service]\\nUser=root\\nType=oneshot\\nTimeoutSec=60\\nExecStart=/bin/bash /usr/local/bin/pre-network-manager-config.sh\\nPrivateTmp=true\\nRemainAfterExit=no\\n[Install]\\nWantedBy=multi-user.target\"\n",
        "    \x7d"]
     else ""),
    (if truthy p.OKDBinaries = true then
      concat [
        ",\n",
        "    \x7b\n",
        "        \"name\": \"okd-overlay.service\",\n",
        "        \"enabled\": true,\n",
        "        \"contents\": \"[Service]\\nType=oneshot\\nExecStart=/usr/local/bin/okd-binaries.sh\\n\\n[Unit]\\nWants=network-online.target\\nAfter=network-online.target\\n\\n[Install]\\nWantedBy=multi-user.target\"\n",
        "    \x7d,\n",
        "\t\x7b\n",
        "        \"name\": \"multipathd.service\",\n",
        "        \"enabled\": true,\n",
        "    \x7d,\n",
        "    \x7b\n",
        "        \"name\": \"systemd-journal-gatewayd.socket\",\n",
        "        \"enabled\": true,\n",
        "        \"contents\": \"[Unit]\\nDescription = Fake systemd-journal-gatewayd.socket\\n\\n[Socket]\\nListenStream = 19531\\nAccept = yes\\n\\n[Install]\\nWantedBy = sockets.target\"\n",
        "\t\t\x7d"]
     else ""),
    "\n",
    "    ]\n",
    "  \x7d,\n",
    "  \"storage\": \x7b\n",
    "    \"files\": [\x7b\n",
    "      \"overwrite\": true,\n",
    "      \"path\": \"/usr/local/bin/agent-fix-bz1964591\",\n",
    "      \"mode\": 755,\n",
    "      \"user\": \x7b\n",
    "          \"name\": \"root\"\n",
    "      \x7d,\n",
    "      \"contents\": \x7b \"source\": \"data:,", p.AGENT_FIX_BZ1964591, "\" \x7d\n",
    "    \x7d,\n",
    "    \x7b\n",
    "      \"overwrite\": true,\n",
    "      \"path\": \"/etc/motd\",\n",
    "      \"mode\": 420,\n",
    "      \"user\": \x7b\n",
    "          \"name\": \"root\"\n",
    "      \x7d,\n",
    "      \"contents\": \x7b \"source\": \"data:,", p.AGENT_MOTD, "\" \x7d\n",
    "    \x7d,\n",
    "    \x7b\n",
    "\t\t\"overwrite\": true,\n",
    "\t\t\"path\": \"/etc/multipath.conf\",\n",
    "\t\t\"mode\": 420,\n",
    "\t\t\"user\": \x7b\n",
    "\t\t\t\"name\": \"root\"\n",
    "\t\t\x7d,\n",
    "\t\t\"contents\": \x7b \"source\": \"data:text/plain;charset=utf-8;base64,ZGVmYXVsdHMgewogICAgdXNlcl9mcmllbmRseV9uYW1lcyB5ZXMKICAgIGZpbmRfbXVsdGlwYXRocyB5ZXMKICAgIGVuYWJsZV9mb3JlaWduICJeJCIKfQpibGFja2xpc3RfZXhjZXB0aW9ucyB7CiAgICBwcm9wZXJ0eSAiKFNDU0lfSURFTlRffElEX1dXTikiCn0KYmxhY2tsaXN0IHsKfQo=\" \x7d\n",
    "\t\x7d,\n",
    "    \x7b\n",
    "      \"overwrite\": true,\n",
    "      \"path\": \"/etc/NetworkManager/conf.d/01-ipv6.conf\",\n",
    "      \"mode\": 420,\n",
    "      \"user\": \x7b\n",
    "          \"name\": \"root\"\n",
    "      \x7d,\n",
    "      \"contents\": \x7b \"source\": \"data:,", p.IPv6_CONF, "\" \x7d\n",
    "    \x7d,\n",
    "    \x7b\n",
    "        \"overwrite\": true,\n",
    "        \"path\": \"/root/.docker/config.json\",\n",
    "        \"mode\": 420,\n",
    "        \"user\": \x7b\n",
    "            \"name\": \"root\"\n",
    "        \x7d,\n",
    "        \"contents\": \x7b \"source\": \"data:,", p.PULL_SECRET, "\" \x7d\n",
    "    \x7d,\n",
    "    \x7b\n",
    "        \"overwrite\": true,\n",
    "        \"path\": \"/root/assisted.te\",\n",
    "        \"mode\": 420,\n",
    "        \"user\": \x7b\n",
    "            \"name\": \"root\"\n",
    "        \x7d,\n",
    "        \"contents\": \x7b \"source\": \"data:text/plain;base64,", p.SELINUX_POLICY, "\" \x7d\n",
    "    \x7d",
    (if p.RH_ROOT_CA ≠ "" then rhRootCAEntry p.RH_ROOT_CA else ""),
    (if truthy p.HostCACertPath = true then
      concat [
        ",\n",
        "    \x7b\n",
        "      \"path\": \"", printValue p.HostCACertPath, "\",\n",
        "      \"mode\": 420,\n",
        "      \"overwrite\": true,\n",
        "      \"user\": \x7b\n",
        "        \"name\": \"root\"\n",
        "      \x7d,\n",
        "      \"contents\": \x7b \"source\": \"", printValue p.ServiceCACertData, "\" \x7d\n",
        "    \x7d"]
     else ""),
    (if truthy p.ServiceIPs = true then
      concat [
        ",\n",
        "    \x7b\n",
        "      \"path\": \"/etc/hosts\",\n",
        "      \"mode\": 420,\n",
        "      \"user\": \x7b\n",
        "        \"name\": \"root\"\n",
        "      \x7d,\n",
        "      \"append\": [\x7b \"source\": \"", printValue p.ServiceIPs, "\" \x7d]\n",
        "    \x7d"]
     else ""),
    (if truthy p.MirrorRegistriesConfig = true then
      concat [
        ",\n",
        "    \x7b\n",
        "      \"path\": \"/etc/containers/registries.conf\",\n",
        "      \"mode\": 420,\n",
        "      \"overwrite\": true,\n",
        "      \"user\": \x7b\n",
        "        \"name\": \"root\"\n",
        "      \x7d,\n",
        "      \"contents\": \x7b \"source\": \"data:text/plain;base64,", printValue p.MirrorRegistriesConfig, "\"\x7d\n",
        "    \x7d,\n",
        "    \x7b\n",
        "      \"path\": \"/etc/pki/ca-trust/source/anchors/domain.crt\",\n",
        "      \"mode\": 420,\n",
        "      \"overwrite\": true,\n",
        "      \"user\": \x7b\n",
        "        \"name\": \"root\"\n",
        "      \x7d,\n",
        "      \"contents\": \x7b \"source\": \"data:text/plain;base64,", printValue p.MirrorRegistriesCAConfig, "\"\x7d\n",
        "    \x7d"]
     else ""),
    (if p.StaticNetworkConfig.getD [] ≠ [] then
      concat [
        ",\n",
        "    \x7b\n",
        "        \"path\": \"/usr/local/bin/pre-network-manager-config.sh\",\n",
        "        \"mode\": 493,\n",
        "        \"overwrite\": true,\n",
        "        \"user\": \x7b\n",
        "            \"name\": \"root\"\n",
        "        \x7d,\n",
        "        \"contents\": \x7b \"source\": \"data:text/plain;base64,", printValue p.PreNetworkConfigScript, "\"\x7d\n",
        "    \x7d"]
     else ""),
    concat ((p.StaticNetworkConfig.getD []).map fun f =>
      concat [
        ",\n",
        "    \x7b\n",
        "      \"path\": \"", f.FilePath, "\",\n",
        "      \"mode\": 384,\n",
        "      \"overwrite\": true,\n",
        "      \"user\": \x7b\n",
        "        \"name\": \"root\"\n",
        "      \x7d,\n",
        "      \"contents\": \x7b \"source\": \"data:text/plain;base64,", f.FileContents, "\"\x7d\n",
        "    \x7d"]),
    (if truthy p.OKDBinaries = true then
      concat [
        ",\n",
        "    \x7b\n",
        "      \"path\": \"/usr/local/bin/okd-binaries.sh\",\n",
        "      \"mode\": 755,\n",
        "      \"overwrite\": true,\n",
        "      \"user\": \x7b\n",
        "        \"name\": \"root\"\n",
        "      \x7d,\n",
        "      \"contents\": \x7b \"source\": \"data:text/plain;base64,", printValue p.OKDBinaries, "\" \x7d\n",
        "    \x7d"]
     else ""),
    (if truthy p.OKDHoldPivot = true then
      concat [
        ",\x7b\n",
        "      \"path\": \"/etc/systemd/system/release-image-pivot.service.d/wait-for-okd.conf\",\n",
        "      \"mode\": 420,\n",
        "      \"overwrite\": true,\n",
        "      \"user\": \x7b\n",
        "        \"name\": \"root\"\n",
        "      \x7d,\n",
        "      \"contents\": \x7b \"source\": \"data:text/plain;base64,", printValue p.OKDHoldPivot, "\" \x7d\n",
        "    \x7d"]
     else ""),
    (if truthy p.OKDHoldAgent = true then
      concat [
        ",\n",
        "    \x7b\n",
        "      \"path\": \"/etc/systemd/system/agent.service.d/wait-for-okd.conf\",\n",
        "      \"mode\": 420,\n",
        "      \"overwrite\": true,\n",
        "      \"user\": \x7b\n",
        "        \"name\": \"root\"\n",
        "      \x7d,\n",
        "      \"contents\": \x7b \"source\": \"data:text/plain;base64,", printValue p.OKDHoldAgent, "\" \x7d\n",
        "    \x7d"]
     else ""),
    "]\n",
    "  \x7d\n",
    "\x7d"]

/-- Execution of the template `discoveryIgnitionConfigFormat` on the parameter map. -/
def discoveryIgnitionConfigFormat (p : IgnitionParams) : String :=
  concat (discoveryIgnitionConfigParts p)

/-- `GetServiceIPHostnames`: one line per non-empty element of the comma-separated list;
the line is produced by `fmt.Sprintf` with the element as part of the format. -/
def GetServiceIPHostnames (serviceIPs : String) : String :=
  let ips := stringsSplit (stringsTrimSpace serviceIPs) ","
  ips.foldl
    (fun content ip =>
      if ip ≠ "" then content ++ sprintfNoArgs (ip ++ " assisted-api.local.openshift.io\n")
      else content)
    ""

/-- The text that the specification gives for `GetServiceIPHostnames`: for every
non-empty element of the comma-separated list, in order, the element followed by the
name of the service and a line end. -/
def serviceIPHostnamesSpec (serviceIPs : String) : String :=
  concat (((stringsSplit (stringsTrimSpace serviceIPs) ",").filter (fun ip => ip ≠ "")).map
    (fun ip => ip ++ " assisted-api.local.openshift.io\n"))

/-- `buildUserSshKeysSlice`: the trimmed non-empty lines of the key text. -/
def buildUserSshKeysSlice (sshKey : String) : List String :=
  ((stringsSplit sshKey "\n").map stringsTrimSpace).filter (fun k => k ≠ "")

/-- `getUserSSHKey`: the JSON object of the user `core` (a Go map, marshalled with its
keys in order), or the empty string when there is no key. -/
def getUserSSHKey (sshKey : String) : String × Option String :=
  let keys := buildUserSshKeysSlice sshKey
  if keys = [] then ("", none)
  else
    ("\x7b\"groups\":[\"sudo\"],\"name\":\"core\",\"passwordHash\":\"!\",\"sshAuthorizedKeys\":" ++
      jsonMarshalStrings keys ++ "\x7d", none)

/-- `prepareStaticNetworkConfigForIgnition`. -/
def prepareStaticNetworkConfigForIgnition (env : Env) (infraEnv : InfraEnv) :
    Except String (List StaticNetworkConfigData) :=
  match env.generateStaticNetworkConfigData infraEnv.staticNetworkConfig with
  | .error err => .error err
  | .ok filesList =>
    .ok (filesList.map fun f =>
      { FilePath := filepathJoin tempNMConnectionsDir f.FilePath
        FileContents := base64Encode f.FileContents })

/-- The map literal of `FormatDiscoveryIgnitionFile`. -/
def initialIgnitionParams (env : Env) (infraEnv : InfraEnv) (cfg : IgnitionConfig)
    (pullSecretToken proxySettings httpProxy httpsProxy noProxy rhCa userSshKey : String) :
    IgnitionParams :=
  { userSshKey := userSshKey
    AgentDockerImg := cfg.agentDockerImg
    ServiceBaseURL := stringsTrimSpace cfg.serviceBaseURL
    infraEnvId := infraEnv.id
    PullSecretToken := pullSecretToken
    AGENT_MOTD := urlPathEscape agentMessageOfTheDay
    AGENT_FIX_BZ1964591 := urlPathEscape agentFixBZ1964591
    IPv6_CONF := urlPathEscape env.ipv6DuidDiscoveryConf
    PULL_SECRET := urlPathEscape infraEnv.pullSecret
    RH_ROOT_CA := rhCa
    PROXY_SETTINGS := proxySettings
    HTTPProxy := httpProxy
    HTTPSProxy := httpsProxy
    NoProxy := noProxy
    SkipCertVerification := if cfg.skipCertVerification then "true" else "false"
    AgentTimeoutStartSec := toString (durationSeconds cfg.agentTimeoutStart)
    SELINUX_POLICY := base64Encode selinuxPolicy
    EnableAgentService := infraEnv.internalIgnitionConfigOverride = "" }

/-- The loop of `FormatDiscoveryIgnitionFile` that runs when `safeForLogs` is set: the
four secret entries of the map are replaced by the placeholder. -/
def redactParams (p : IgnitionParams) : IgnitionParams :=
  { p with userSshKey := "*****", PullSecretToken := "*****", PULL_SECRET := "*****",
           RH_ROOT_CA := "*****" }

/-- The first part of `FormatDiscoveryIgnitionFile`, up to the loop that runs when
`safeForLogs` is set: the token, the proxy section, the root CA and the user key are
computed, the map literal is built, and the secret entries are replaced by the
placeholder when `safeForLogs` is set. The result is the map, or the error on which the
function returns. -/
def baseIgnitionParams (env : Env) (infraEnv : InfraEnv) (cfg : IgnitionConfig)
    (safeForLogs : Bool) (authType : String) : Except String IgnitionParams :=
  match env.agentToken infraEnv authType with
  | .error err => .error err
  | .ok pullSecretToken =>
    let (httpProxy, httpsProxy, noProxy) := env.getProxyConfigs infraEnv.proxy
    match proxySettingsForIgnition httpProxy httpsProxy noProxy with
    | (_, some err) => .error err
    | (proxySettings, none) =>
      let rhCa := if cfg.installRHCa then urlPathEscape RedhatRootCA else ""
      match getUserSSHKey infraEnv.sshAuthorizedKey with
      | (_, some err) => .error err
      | (userSshKey, none) =>
        let p := initialIgnitionParams env infraEnv cfg pullSecretToken proxySettings httpProxy
          httpsProxy noProxy rhCa userSshKey
        .ok (if safeForLogs then redactParams p else p)

/-- The second part of `FormatDiscoveryIgnitionFile`, from the service CA to the vendor
RPM image: the entries of the optional features are added to the map. The result is the
map, or the error on which the function returns. -/
def optionalIgnitionParams (env : Env) (infraEnv : InfraEnv) (cfg : IgnitionConfig)
    (p : IgnitionParams) : Except String IgnitionParams :=
  match (if cfg.serviceCACertPath ≠ "" then
      match env.readTextFile cfg.serviceCACertPath with
      | .error err => Except.error err
      | .ok caCertData =>
        .ok { p with ServiceCACertData := some (env.dataurlEncodeBytes caCertData),
                     HostCACertPath := some env.hostCACertPath }
    else .ok p) with
  | .error err => .error err
  | .ok p =>
    let p :=
      if cfg.serviceIPs ≠ "" then
        { p with ServiceIPs := some (env.dataurlEncodeBytes (GetServiceIPHostnames cfg.serviceIPs)) }
      else p
    match (if infraEnv.staticNetworkConfig ≠ "" ∧ infraEnv.imageType = "full-iso" then
        match prepareStaticNetworkConfigForIgnition env infraEnv with
        | .error newErr => Except.error newErr
        | .ok filesList =>
          .ok { p with StaticNetworkConfig := some filesList,
                       PreNetworkConfigScript := some (base64Encode env.preNetworkConfigScript) }
      else .ok p) with
    | .error err => .error err
    | .ok p =>
      match (if env.isMirrorRegistriesConfigured then
          match env.getMirrorCA with
          | .error mirrorsErr => Except.error mirrorsErr
          | .ok caContents =>
            match env.getMirrorRegistries with
            | .error mirrorsErr => Except.error mirrorsErr
            | .ok registriesContents =>
              .ok { p with MirrorRegistriesConfig := some (base64Encode registriesContents),
                           MirrorRegistriesCAConfig := some (base64Encode caContents) }
        else .ok p) with
      | .error err => .error err
      | .ok p =>
        if cfg.okdRPMsImage ≠ "" then
          .ok { p with OKDBinaries := some (base64Encode (okdBinariesOverlay cfg.okdRPMsImage)),
                       OKDHoldPivot := some (base64Encode okdHoldPivot),
                       OKDHoldAgent := some (base64Encode okdHoldAgentUntilBinariesLanded) }
        else .ok p

/-- The part of `FormatDiscoveryIgnitionFile` that builds the parameter map: the map, or
the error on which the function returns. -/
def discoveryIgnitionParams (env : Env) (infraEnv : InfraEnv) (cfg : IgnitionConfig)
    (safeForLogs : Bool) (authType : String) : Except String IgnitionParams :=
  match baseIgnitionParams env infraEnv cfg safeForLogs authType with
  | .error err => .error err
  | .ok p => optionalIgnitionParams env infraEnv cfg p

/-- `FormatDiscoveryIgnitionFile`: build the parameter map, render the template, merge
the internal override and then the user override. -/
def FormatDiscoveryIgnitionFile (env : Env) (infraEnv : InfraEnv) (cfg : IgnitionConfig)
    (safeForLogs : Bool) (authType : String) : Bytes × Option String :=
  match discoveryIgnitionParams env infraEnv cfg safeForLogs authType with
  | .error err => (Bytes.text "", some err)
  | .ok ignitionParams =>
    let res : Bytes × Option String := (Bytes.text (discoveryIgnitionConfigFormat ignitionParams), none)
    let res : Bytes × Option String :=
      if infraEnv.internalIgnitionConfigOverride ≠ "" then
        MergeIgnitionConfig env res.1 (Bytes.text infraEnv.internalIgnitionConfigOverride)
      else res
    match res.2 with
    | some err => (Bytes.text "", some err)
    | none =>
      let res : Bytes × Option String :=
        if infraEnv.ignitionConfigOverride ≠ "" then
          MergeIgnitionConfig env res.1 (Bytes.text infraEnv.ignitionConfigOverride)
        else res
      match res.2 with
      | some err => (Bytes.text "", some err)
      | none => (res.1, none)

/-! ## A concrete environment -/

/-- A base document with the single file `/etc/foo`. -/
def sampleBaseText : String :=
  "\x7b\"ignition\": \x7b\"version\": \"3.1.0\"\x7d, \"storage\": \x7b\"files\": [\x7b\"path\": \"/etc/foo\"\x7d]\x7d\x7d"

/-- An override document with the single file `/etc/bar`. -/
def sampleOverrideText : String :=
  "\x7b\"ignition\": \x7b\"version\": \"3.1.0\"\x7d, \"storage\": \x7b\"files\": [\x7b\"path\": \"/etc/bar\"\x7d]\x7d\x7d"

/-- An override document with the directory `/etc/foo` and the file `/etc/bar`. -/
def sampleDirectoryOverrideText : String :=
  "\x7b\"ignition\": \x7b\"version\": \"3.1.0\"\x7d, \"storage\": \x7b\"directories\": [\x7b\"path\": \"/etc/foo\"\x7d], \"files\": [\x7b\"path\": \"/etc/bar\"\x7d]\x7d\x7d"

/-- An override document that brings its own `/etc/hostname` entry. -/
def sampleHostnameOverrideText : String :=
  "\x7b\"ignition\": \x7b\"version\": \"3.1.0\"\x7d, \"storage\": \x7b\"files\": [\x7b\"path\": \"/etc/hostname\", \"contents\": \x7b\"source\": \"data:,other\"\x7d\x7d]\x7d\x7d"

/-- An override document that declares version 3.2.0 and brings a luks device. -/
def sampleLuksOverrideText : String :=
  "\x7b\"ignition\": \x7b\"version\": \"3.2.0\"\x7d, \"storage\": \x7b\"luks\": [\x7b\"name\": \"data\", \"device\": \"/dev/sdb\"\x7d]\x7d\x7d"

/-- A base document that declares version 3.2.0 and has the single file `/etc/foo`. -/
def sampleBase32Text : String :=
  "\x7b\"ignition\": \x7b\"version\": \"3.2.0\"\x7d, \"storage\": \x7b\"files\": [\x7b\"path\": \"/etc/foo\"\x7d]\x7d\x7d"

/-- The machine-config endpoint of the sample pointer document. -/
def sampleURL : String := "https://192.168.126.199:22623/config/worker"

/-- The JSON decoder on the sample texts: each text is mapped to the tree it denotes, any
other text is not decoded. -/
def sampleUnmarshal (text : String) : Option Config :=
  if text = sampleBaseText then some { version := "3.1.0", files := [{ path := "/etc/foo" }] }
  else if text = sampleOverrideText then some { version := "3.1.0", files := [{ path := "/etc/bar" }] }
  else if text = sampleHostnameOverrideText then
    some { version := "3.1.0"
           files := [{ path := "/etc/hostname", contents := { source := some "data:,other" } }] }
  else if text = secondDayWorkerIgnitionFormat sampleURL (secondDayHeaders "secret-token") "" then
    some { version := "3.1.0"
           merge := [{ source := some sampleURL
                       httpHeaders := [{ name := "Authorization", value := some "Bearer secret-token" }] }] }
  else if text = sampleLuksOverrideText then
    some { version := "3.2.0", luks := [{ name := "data", device := some "/dev/sdb" }] }
  else if text = sampleBase32Text then some { version := "3.2.0", files := [{ path := "/etc/foo" }] }
  else if text = sampleDirectoryOverrideText then
    some { version := "3.1.0", directories := [{ path := "/etc/foo" }], files := [{ path := "/etc/bar" }] }
  else none

/-- An environment for concrete evaluations: the sample texts are decoded, every tree
validates, a host is named by its requested hostname, and the constants outside the
package have the values of the assisted service. -/
def sampleEnv : Env :=
  { unmarshal := sampleUnmarshal
    fatal32 := fun _ => false
    fatal31 := fun _ => false
    getCurrentHostName := fun h => .ok h.requestedHostname
    getHostnameForMsg := fun h => if h.requestedHostname = "" then h.id else h.requestedHostname
    getEffectiveRole := fun h =>
      if h.role = "auto-assign" ∧ h.suggestedRole ≠ "" then h.suggestedRole else h.role
    ignitionFileName := fun h => h.role ++ "-" ++ h.id ++ ".ign"
    isSingleNodeCluster := fun c => c.highAvailabilityMode.getD "" = "None"
    unmanagedResolvConf := "[main]\nrc-manager=unmanaged\n"
    parseInventory := fun s => if s = "" then .error "unexpected end of JSON input" else .ok { cpu := some {} }
    parseCIDR := fun _ => none
    marshalStatus := fun _ => .ok "status"
    decodeBMH := fun b => .ok { name := String.mk (b.map Char.ofNat) }
    encodeBMH := fun b => .ok ("name: " ++ b.name ++ "\n")
    agentToken := fun _ _ => .ok ""
    getProxyConfigs := fun p =>
      match p with
      | none => ("", "", "")
      | some q => (q.httpProxy.getD "", q.httpsProxy.getD "", q.noProxy.getD "")
    readTextFile := fun _ => .error "no such file or directory"
    dataurlEncodeBytes := fun d => "data:text/plain;charset=utf-8;base64," ++ base64Encode d
    hostCACertPath := "/etc/assisted-service/service-ca-cert.crt"
    ipv6DuidDiscoveryConf := "\n[connection]\nipv6.dhcp-iaid=mac\nipv6.dhcp-duid=ll\n"
    preNetworkConfigScript := "#!/bin/bash\n"
    generateStaticNetworkConfigData := fun _ => .ok []
    isMirrorRegistriesConfigured := false
    getMirrorCA := .ok ""
    getMirrorRegistries := .ok "" }

/-- An override document that adds a header to the merge source of the sample pointer
document. -/
def sampleHeaderOverrideText : String :=
  "\x7b\"ignition\": \x7b\"version\": \"3.1.0\", \"config\": \x7b\"merge\": [\x7b\"source\": \"https://192.168.126.199:22623/config/worker\", \"httpHeaders\": [\x7b\"name\": \"X-Extra\", \"value\": \"1\"\x7d]\x7d]\x7d\x7d\x7d"

/-- The sample environment with the JSON reader as decoder of the texts. -/
def sampleJSONEnv : Env := { sampleEnv with unmarshal := jsonUnmarshal }

/-- A descriptor file of a sample bootstrap document: its content is the base64 text of
`name`, which `sampleEnv` deserializes to the descriptor of that name. -/
def sampleDescriptor (index name : String) : File :=
  { path := "/opt/openshift/openshift/99_openshift-cluster-api_hosts-" ++ index ++ ".yaml"
    contents := { source := some ("data:text/plain;charset=utf-8;base64," ++ base64Encode name) } }

/-- A master host record with an inventory. -/
def sampleMaster (name : String) : Host :=
  { id := "id-" ++ name, requestedHostname := name, role := "master", inventory := "\x7b\x7d" }

/-- A master host record whose override text is not a document. -/
def sampleBrokenMaster (name : String) : Host :=
  { sampleMaster name with ignitionConfigOverrides := "not json" }

/-- A worker host record. -/
def sampleWorker (name : String) : Host :=
  { id := "id-" ++ name, requestedHostname := name, role := "worker" }

/-- A worker host record with an inventory. -/
def sampleInventoriedWorker (name : String) : Host :=
  { sampleWorker name with inventory := "\x7b\x7d" }

/-- An inventory with two interfaces and two disks. -/
def sampleInventory : Inventory :=
  { cpu := some { architecture := "x86_64", count := 8 }
    interfaces :=
      [{ name := "eth0", macAddress := "52:54:00:00:00:01", ipv4Addresses := ["192.168.1.5/24"],
         ipv6Addresses := ["fe80::1/64"] },
       { name := "eth1", macAddress := "52:54:00:00:00:02", ipv6Addresses := ["fd00::5/64"] }]
    disks := [{ name := "sda", driveType := "HDD" }, { name := "nvme0n1", driveType := "SSD" }] }

/-- The sample environment with a decoder that reads every inventory text as
`sampleInventory`, a CIDR parser that returns the text before the slash, and a descriptor
encoder that writes a status block after the name. -/
def sampleInventoryEnv : Env :=
  { sampleEnv with
    parseInventory := fun _ => .ok sampleInventory
    parseCIDR := fun cidr =>
      match stringsSplit cidr "/" with
      | [ip, _] => some ip
      | _ => none
    encodeBMH := fun b => .ok ("name: " ++ b.name ++ "\nstatus:\n  poweredOn: true\n") }

/-- A working directory that holds the base documents of the two roles. -/
def sampleRoleFiles : FS :=
  [("/work/master.ign", Bytes.text sampleBaseText), ("/work/worker.ign", Bytes.text sampleBaseText)]

/-- A generator for a multi-node cluster of the given hosts, working in `/work`. -/
def sampleGenerator (hosts : List Host) : Generator :=
  { workDir := "/work"
    cluster := { hosts := hosts, highAvailabilityMode := some "Full" }
    enableMetal3Provisioning := true }

/-- A working directory that holds a bootstrap document with the given files. -/
def sampleBootstrap (files : List File) : FS :=
  [("/work/bootstrap.ign", Bytes.json { version := "3.2.0", files := files })]

/-- Whether a byte string is well-formed JSON; the output of `json.Marshal` always is. -/
def Bytes.wellFormed : Bytes → Bool
  | .text t => jsonValid t
  | .json _ => true

/-- An infra-env with an SSH key and a pull secret, without proxy, static network or
overrides. -/
def sampleInfraEnv : InfraEnv :=
  { id := "1f6bd7a5-2b0a-4e6f-9c55-6d2a3b4c5d6e"
    sshAuthorizedKey := "ssh-rsa AAAAB3NzaC1yc2E user@example.com\n"
    pullSecret := "\x7b\"auths\":\x7b\"quay.io\":\x7b\"auth\":\"c2VjcmV0\"\x7d\x7d\x7d" }

/-- A builder configuration without vendor RPM image. -/
def sampleConfig : IgnitionConfig :=
  { agentDockerImg := "quay.io/edge-infrastructure/assisted-installer-agent:latest"
    agentTimeoutStart := 600000000000
    serviceBaseURL := "https://assisted.example.com:6000"
    serviceIPs := "192.168.1.10,192.168.1.11" }

/-- The same builder configuration with a vendor RPM image. -/
def sampleOKDConfig : IgnitionConfig :=
  { sampleConfig with okdRPMsImage := "quay.io/okd/rpms:4.10" }

/-- An internal override that sets the mode of `/etc/example` to 0600. -/
def sampleInternalOverrideText : String :=
  "\x7b\"ignition\": \x7b\"version\": \"3.1.0\"\x7d, \"storage\": \x7b\"files\": [\x7b\"path\": \"/etc/example\", \"mode\": 384\x7d]\x7d\x7d"

/-- A user override that sets the mode of `/etc/example` to 0644. -/
def sampleUserOverrideText : String :=
  "\x7b\"ignition\": \x7b\"version\": \"3.1.0\"\x7d, \"storage\": \x7b\"files\": [\x7b\"path\": \"/etc/example\", \"mode\": 420\x7d]\x7d\x7d"

/-- The sample infra-env with the two overrides. -/
def sampleOverriddenInfraEnv : InfraEnv :=
  { sampleInfraEnv with
    internalIgnitionConfigOverride := sampleInternalOverrideText
    ignitionConfigOverride := sampleUserOverrideText }

/-- The parameter map that the builder makes for the sample infra-env with the two
overrides and the sample configuration. -/
def sampleDiscoveryParams : IgnitionParams :=
  { initialIgnitionParams sampleEnv sampleOverriddenInfraEnv sampleConfig "" "" "" "" "" ""
      (getUserSSHKey sampleOverriddenInfraEnv.sshAuthorizedKey).1 with
    ServiceIPs := some (sampleEnv.dataurlEncodeBytes (GetServiceIPHostnames sampleConfig.serviceIPs)) }

/-- The tree that the rendered template of `sampleDiscoveryParams` denotes. -/
def sampleDiscoveryTree : Config :=
  { version := "3.1.0"
    units :=
      [ { name := "agent.service"
          enabled := some false
          contents := some (concat
            [ "[Service]\n",
              "Type=simple\n",
              "Restart=always\n",
              "RestartSec=3\n",
              "StartLimitInterval=0\n",
              "Environment=HTTP_PROXY=\n",
              "Environment=http_proxy=\n",
              "Environment=HTTPS_PROXY=\n",
              "Environment=https_proxy=\n",
              "Environment=NO_PROXY=\n",
              "Environment=no_proxy=\n",
              "TimeoutStartSec=600\n",
              "ExecStartPre=/usr/local/bin/agent-fix-bz1964591 quay.io/edge-infrastructure/assisted-installer-agent:latest\n",
              "ExecStartPre=podman run --privileged --rm -v /usr/local/bin:/hostbin quay.io/edge-infrastructure/assisted-installer-agent:latest cp /usr/bin/agent /hostbin\n",
              "ExecStart=/usr/local/bin/agent --url https://assisted.example.com:6000 --infra-env-id 1f6bd7a5-2b0a-4e6f-9c55-6d2a3b4c5d6e --agent-version quay.io/edge-infrastructure/assisted-installer-agent:latest --insecure=false  \n",
              "\n",
              "[Unit]\n",
              "Wants=network-online.target\n",
              "After=network-online.target\n",
              "\n",
              "[Install]\n",
              "WantedBy=multi-user.target" ]) },
        { name := "selinux.service"
          enabled := some true
          contents := some (concat
            [ "[Service]\n",
              "Type=oneshot\n",
              "ExecStartPre=checkmodule -M -m -o /root/assisted.mod /root/assisted.te\n",
              "ExecStartPre=semodule_package -o /root/assisted.pp -m /root/assisted.mod\n",
              "ExecStart=semodule -i /root/assisted.pp\n",
              "\n",
              "[Install]\n",
              "WantedBy=multi-user.target" ]) } ]
    files :=
      [ { path := "/usr/local/bin/agent-fix-bz1964591", overwrite := some true, mode := some 755
          userName := some "root"
          contents := { source := some ("data:," ++ urlPathEscape agentFixBZ1964591) } },
        { path := "/etc/motd", overwrite := some true, mode := some 420, userName := some "root"
          contents := { source := some ("data:," ++ urlPathEscape agentMessageOfTheDay) } },
        { path := "/etc/multipath.conf", overwrite := some true, mode := some 420
          userName := some "root"
          contents := { source := some "data:text/plain;charset=utf-8;base64,ZGVmYXVsdHMgewogICAgdXNlcl9mcmllbmRseV9uYW1lcyB5ZXMKICAgIGZpbmRfbXVsdGlwYXRocyB5ZXMKICAgIGVuYWJsZV9mb3JlaWduICJeJCIKfQpibGFja2xpc3RfZXhjZXB0aW9ucyB7CiAgICBwcm9wZXJ0eSAiKFNDU0lfSURFTlRffElEX1dXTikiCn0KYmxhY2tsaXN0IHsKfQo=" } },
        { path := "/etc/NetworkManager/conf.d/01-ipv6.conf", overwrite := some true
          mode := some 420, userName := some "root"
          contents := { source := some ("data:," ++ urlPathEscape sampleEnv.ipv6DuidDiscoveryConf) } },
        { path := "/root/.docker/config.json", overwrite := some true, mode := some 420
          userName := some "root"
          contents := { source := some ("data:," ++ urlPathEscape sampleInfraEnv.pullSecret) } },
        { path := "/root/assisted.te", overwrite := some true, mode := some 420
          userName := some "root"
          contents := { source := some ("data:text/plain;base64," ++ base64Encode selinuxPolicy) } },
        { path := "/etc/hosts", mode := some 420, userName := some "root"
          append := [{ source := some (sampleEnv.dataurlEncodeBytes
            (GetServiceIPHostnames sampleConfig.serviceIPs)) }] } ] }

/-- The parameter map that the builder makes in the sample environment, or the map
`sampleDiscoveryParams` when the builder fails. -/
def sampleParamsOf (infraEnv : InfraEnv) (cfg : IgnitionConfig) (safeForLogs : Bool) :
    IgnitionParams :=
  match discoveryIgnitionParams sampleEnv infraEnv cfg safeForLogs "none" with
  | .ok p => p
  | .error _ => sampleDiscoveryParams

/-- Whether two texts are the same, compared character by character from the left. -/
def sameChars : List Char → List Char → Bool
  | [], [] => true
  | a :: as, b :: bs =>
    match decide (a = b) with
    | true => sameChars as bs
    | false => false
  | _, _ => false

/-- The sample environment with a decoder that knows the rendered template of
`sampleDiscoveryParams` and the two override texts as well. -/
def sampleDiscoveryEnv : Env :=
  { sampleEnv with
    unmarshal := fun text =>
      if sameChars text.data sampleInternalOverrideText.data then
        some { version := "3.1.0", files := [{ path := "/etc/example", mode := some 384 }] }
      else if sameChars text.data sampleUserOverrideText.data then
        some { version := "3.1.0", files := [{ path := "/etc/example", mode := some 420 }] }
      else if sameChars text.data (discoveryIgnitionConfigFormat sampleDiscoveryParams).data then
        some sampleDiscoveryTree
      else none }

/-! # Properties -/

/-! ### Lemmas on texts -/

/-- A text that starts with a non-empty text is not empty. -/
theorem append_ne_empty_left {s t : String} (h : s ≠ "") : s ++ t ≠ "" := by
  intro he
  apply h
  have h1 : (s ++ t).data = [] := by rw [he]
  rw [String.data_append] at h1
  apply String.ext
  exact (List.append_eq_nil.mp h1).1

/-- A text that ends with a non-empty text is not empty. -/
theorem append_ne_empty_right {s t : String} (h : t ≠ "") : s ++ t ≠ "" := by
  intro he
  apply h
  have h1 : (s ++ t).data = [] := by rw [he]
  rw [String.data_append] at h1
  apply String.ext
  exact (List.append_eq_nil.mp h1).2

set_option maxRecDepth 100000 in
/-- When the `PROXY_SETTINGS` entry is empty, the `ignition` section of the rendered
discovery document holds the version only. -/
theorem discovery_no_proxy_section (p : IgnitionParams) (h : p.PROXY_SETTINGS = "") :
    ∃ rest : String, discoveryIgnitionConfigFormat p =
      "\x7b\n  \"ignition\": \x7b\n    \"version\": \"3.1.0\"\n  \x7d,\n" ++ rest := by
  unfold discoveryIgnitionConfigFormat
  have key : ∀ r : String, "\x7b\n" ++ ("  \"ignition\": \x7b\n" ++ ("    \"version\": \"3.1.0\"" ++
      ("" ++ ("\n" ++ ("  \x7d,\n" ++ r))))) =
      "\x7b\n  \"ignition\": \x7b\n    \"version\": \"3.1.0\"\n  \x7d,\n" ++ r := by
    intro r
    simp only [← String.append_assoc]
    rfl
  simp only [concat, h, ne_eq, not_true_eq_false, if_false]
  rw [key]
  exact ⟨_, rfl⟩

/-- C7: without any proxy value `proxySettingsForIgnition` returns the empty text, and a
discovery document rendered with that text has an `ignition` section without proxy
attribute; with only an HTTPS proxy the section is exactly
`"proxy": { "httpsProxy": "<value>" }`: the `httpProxy` and `noProxy` attribute texts are
empty. -/
theorem proxySettings_none_and_https_only (httpsProxy : String) (h : httpsProxy ≠ "") :
    proxySettingsForIgnition "" "" "" = ("", none) ∧
    (∀ p : IgnitionParams, p.PROXY_SETTINGS = (proxySettingsForIgnition "" "" "").1 →
      ∃ rest : String, discoveryIgnitionConfigFormat p =
        "\x7b\n  \"ignition\": \x7b\n    \"version\": \"3.1.0\"\n  \x7d,\n" ++ rest) ∧
    proxyAttrs "" httpsProxy "" = ("", "\"httpsProxy\": \"" ++ httpsProxy ++ "\"", "") ∧
    proxySettingsForIgnition "" httpsProxy "" =
      ("\"proxy\": \x7b " ++ "" ++ ("\"httpsProxy\": \"" ++ httpsProxy ++ "\"") ++ "" ++ " \x7d", none) := by
  refine ⟨by decide, ?_, ?_, ?_⟩
  · intro p hp
    exact discovery_no_proxy_section p hp
  · simp [proxyAttrs, h]
  · simp [proxySettingsForIgnition, proxyAttrs, h]

/-- C7 at the HTTPS proxy `http://proxy.example.com:3128`. -/
theorem proxySettings_none_and_https_only_witness :
    proxyAttrs "" "http://proxy.example.com:3128" "" =
      ("", "\"httpsProxy\": \"http://proxy.example.com:3128\"", "") ∧
    proxySettingsForIgnition "" "http://proxy.example.com:3128" "" =
      ("\"proxy\": \x7b \"httpsProxy\": \"http://proxy.example.com:3128\" \x7d", none) :=
  (proxySettings_none_and_https_only "http://proxy.example.com:3128" (by decide)).2.2

/-- C8, as stated, fails: a non-empty `noProxy` alone gives no proxy section at all. -/
theorem proxySettings_noProxy_alone_gives_no_section :
    proxySettingsForIgnition "" "" "localhost,.example.com" = ("", none) ∧
    ¬ (∀ httpProxy httpsProxy noProxy : String,
        (httpProxy ≠ "" ∨ httpsProxy ≠ "" ∨ noProxy ≠ "") →
          (proxySettingsForIgnition httpProxy httpsProxy noProxy).1 ≠ "") := by
  refine ⟨by decide, ?_⟩
  intro hall
  exact hall "" "" "localhost,.example.com" (by decide) (by decide)

/-- C8, amended: for every triple, `proxySettingsForIgnition` emits a proxy section
exactly when `httpProxy` or `httpsProxy` is non-empty (never an error); the emitted
section is `"proxy": { ` followed by the three attribute texts and ` }`; and each
attribute text is non-empty exactly when its own value is non-empty, whatever the other
two values are: the `httpProxy` attribute is `"httpProxy": "<value>"`, the `httpsProxy`
attribute is `"httpsProxy": "<value>"` (after a comma when `httpProxy` is set), and the
`noProxy` attribute is `, "noProxy": ` followed by the JSON list of the comma-separated
values. -/
theorem proxySettings_section (httpProxy httpsProxy noProxy : String) :
    ((proxySettingsForIgnition httpProxy httpsProxy noProxy).1 ≠ "" ↔
      (httpProxy ≠ "" ∨ httpsProxy ≠ "")) ∧
    (proxySettingsForIgnition httpProxy httpsProxy noProxy).2 = none ∧
    ((httpProxy ≠ "" ∨ httpsProxy ≠ "") →
      (proxySettingsForIgnition httpProxy httpsProxy noProxy).1 =
        "\"proxy\": \x7b " ++ (proxyAttrs httpProxy httpsProxy noProxy).1 ++
          (proxyAttrs httpProxy httpsProxy noProxy).2.1 ++
          (proxyAttrs httpProxy httpsProxy noProxy).2.2 ++ " \x7d") ∧
    ((proxyAttrs httpProxy httpsProxy noProxy).1 ≠ "" ↔ httpProxy ≠ "") ∧
    ((proxyAttrs httpProxy httpsProxy noProxy).2.1 ≠ "" ↔ httpsProxy ≠ "") ∧
    ((proxyAttrs httpProxy httpsProxy noProxy).2.2 ≠ "" ↔ noProxy ≠ "") ∧
    (httpProxy ≠ "" →
      (proxyAttrs httpProxy httpsProxy noProxy).1 = "\"httpProxy\": \"" ++ httpProxy ++ "\"") ∧
    (httpsProxy ≠ "" →
      (proxyAttrs httpProxy httpsProxy noProxy).2.1 =
        (if httpProxy ≠ "" then ", " else "") ++ ("\"httpsProxy\": \"" ++ httpsProxy ++ "\"")) ∧
    (noProxy ≠ "" →
      (proxyAttrs httpProxy httpsProxy noProxy).2.2 =
        ", \"noProxy\": " ++ jsonMarshalStrings (stringsSplit noProxy ",")) := by
  refine ⟨?_, ?_, ?_, ?_, ?_, ?_, ?_, ?_, ?_⟩
  · unfold proxySettingsForIgnition
    by_cases h1 : httpProxy = "" ∧ httpsProxy = ""
    · simp [h1]
    · rw [if_neg h1]
      constructor
      · intro _
        by_contra hc
        push_neg at hc
        exact h1 hc
      · intro _
        simp only [String.append_assoc]
        exact append_ne_empty_left (by decide)
  · unfold proxySettingsForIgnition
    split <;> rfl
  · intro h
    unfold proxySettingsForIgnition
    have h1 : ¬ (httpProxy = "" ∧ httpsProxy = "") := by
      intro hc
      rcases h with h | h
      · exact h hc.1
      · exact h hc.2
    rw [if_neg h1]
  · unfold proxyAttrs
    by_cases h1 : httpProxy = ""
    · simp [h1]
    · simp only [h1, ne_eq, not_false_eq_true, if_true, iff_true]
      simp only [String.append_assoc]
      exact append_ne_empty_left (by decide)
  · unfold proxyAttrs
    by_cases h1 : httpsProxy = ""
    · simp [h1]
    · simp only [h1, ne_eq, not_false_eq_true, if_true, iff_true]
      apply append_ne_empty_right
      simp only [String.append_assoc]
      exact append_ne_empty_left (by decide)
  · unfold proxyAttrs
    by_cases h1 : noProxy = ""
    · simp [h1]
    · simp only [h1, ne_eq, not_false_eq_true, if_true, iff_true]
      exact append_ne_empty_left (by decide)
  · intro h1
    simp [proxyAttrs, h1]
  · intro h1
    simp [proxyAttrs, h1]
  · intro h1
    simp [proxyAttrs, h1]

/-- C8, amended, at an HTTP proxy together with a `noProxy` list. -/
theorem proxySettings_section_witness :
    (proxySettingsForIgnition "http://proxy.example.com:3128" "" "localhost,.example.com").1 =
      "\"proxy\": \x7b \"httpProxy\": \"http://proxy.example.com:3128\", \"noProxy\": [\"localhost\",\".example.com\"] \x7d" :=
  ((proxySettings_section "http://proxy.example.com:3128" "" "localhost,.example.com").2.2.1
    (Or.inl (by decide))).trans (by decide)

/-! ### Lemmas on the merge of keyed lists -/

/-- A key that no entry of the child list has is paired with no entry. -/
theorem childEntryByKey_none {α : Type} (key : α → String) (child : List α) (k : String)
    (h : ∀ c ∈ child, key c ≠ k) : childEntryByKey key child k = none := by
  unfold childEntryByKey
  rw [List.find?_eq_none]
  intro c hc
  have := h c (List.mem_reverse.mp hc)
  simpa using this

/-- A `filterMap` with a function that keeps every element of the list is the list. -/
theorem filterMap_eq_self_of_some {α : Type} (f : α → Option α) (l : List α)
    (h : ∀ p ∈ l, f p = some p) : l.filterMap f = l := by
  induction l with
  | nil => rfl
  | cons p ps ih =>
    simp only [List.filterMap_cons, h p (List.mem_cons_self _ _)]
    rw [ih (fun q hq => h q (List.mem_cons_of_mem _ hq))]

/-- With no key in common, the merge of two keyed lists is their concatenation. -/
theorem mergeKeyed_disjoint {α : Type} (key : α → String) (mergeItem : α → α → Option α)
    (parent child : List α) (h : ∀ p ∈ parent, ∀ c ∈ child, key p ≠ key c) :
    mergeKeyed key mergeItem parent child = parent ++ child := by
  unfold mergeKeyed
  congr 1
  · apply filterMap_eq_self_of_some
    intro p hp
    rw [childEntryByKey_none key child (key p) (fun c hc => (h p hp c hc).symm)]
  · rw [List.filter_eq_self]
    intro c hc
    simp only [Bool.not_eq_true', List.any_eq_false, decide_eq_true_eq]
    intro p hp
    exact h p hp c hc

/-! ### The shared key space of the storage lists -/

/-- A list of texts has no duplicate exactly when `hasDuplicate` is false. -/
theorem hasDuplicate_eq_false (l : List String) : hasDuplicate l = false ↔ l.Nodup := by
  induction l with
  | nil => simp [hasDuplicate]
  | cons x xs ih => simp [hasDuplicate, ih, List.nodup_cons]

/-- The paths of the storage entries are the paths of the three lists. -/
theorem storageNodes_paths (c : Config) : (storageNodes c).map Node.path = nodePaths c := by
  simp only [storageNodes, nodePaths, List.map_append, List.map_map]
  rfl

/-- A tree passes the report of duplicates exactly when no path occurs twice among its
storage entries. -/
theorem duplicatePaths_eq_false (c : Config) :
    duplicatePaths c = false ↔ ((storageNodes c).map Node.path).Nodup := by
  rw [storageNodes_paths]
  exact hasDuplicate_eq_false _

/-- The entry that the child registers last for a path is a storage entry of the child
with that path. -/
theorem childNodeByKey_some (child : Config) (k : String) (n : Node)
    (h : childNodeByKey child k = some n) : n ∈ storageNodes child ∧ n.path = k := by
  unfold childNodeByKey at h
  have hm := List.mem_of_find?_eq_some h
  have hk := List.find?_some h
  exact ⟨List.mem_reverse.mp hm, by simpa using hk⟩

/-- A path that no storage entry of the child has is registered for no entry. -/
theorem childNodeByKey_none (child : Config) (k : String)
    (h : ∀ n ∈ storageNodes child, n.path ≠ k) : childNodeByKey child k = none := by
  unfold childNodeByKey
  rw [List.find?_eq_none]
  intro n hn
  have := h n (List.mem_reverse.mp hn)
  simpa using this

/-- In a child without duplicate paths, the entry registered for the path of a storage
entry is that entry. -/
theorem childNodeByKey_of_mem (child : Config) (n : Node)
    (hnodup : ((storageNodes child).map Node.path).Nodup) (hn : n ∈ storageNodes child) :
    childNodeByKey child n.path = some n := by
  cases h : childNodeByKey child n.path with
  | none =>
    unfold childNodeByKey at h
    rw [List.find?_eq_none] at h
    have := h n (List.mem_reverse.mpr hn)
    simp at this
  | some m =>
    obtain ⟨hm, hk⟩ := childNodeByKey_some child n.path m h
    rw [List.inj_on_of_nodup_map hnodup hm hn hk]

/-- The paths of a merged storage list: the paths of the parent entries that are kept or
merged, then the paths of the appended child entries. -/
theorem mergeNodes_paths {α : Type} (path : α → String) (ofNode : Node → Option α)
    (mergeItem : α → α → α) (parent own : List α) (child : Config)
    (hof : ∀ n a, ofNode n = some a → path a = n.path)
    (hm : ∀ p c, path (mergeItem p c) = path c) :
    (mergeNodes path ofNode mergeItem parent own child).map path =
      (parent.filter (fun p =>
          match childNodeByKey child (path p) with
          | some n => (ofNode n).isSome
          | none => true)).map path ++
        (own.filter (fun c => !(parent.any (fun p => path p = path c)))).map path := by
  unfold mergeNodes
  rw [List.map_append]
  congr 1
  induction parent with
  | nil => rfl
  | cons p ps ih =>
    cases hc : childNodeByKey child (path p) with
    | none => simp [List.filterMap_cons, List.filter_cons, hc, ih]
    | some n =>
      cases ho : ofNode n with
      | none => simp [List.filterMap_cons, List.filter_cons, hc, ho, ih]
      | some a =>
        have hk := (childNodeByKey_some child (path p) n hc).2
        simp [List.filterMap_cons, List.filter_cons, hc, ho, ih, hm, hof n a ho, hk]


/-- A path of a kept parent entry of one storage list is not the path of an appended
child entry of a storage list, when the child has no duplicate paths. -/
theorem kept_new_disjoint {α β : Type} (pathα : α → String) (ofNodeα : Node → Option α)
    (parentα : List α) (pathβ : β → String) (wrapβ : β → Node) (parentβ ownβ : List β)
    (child : Config) (hnodup : ((storageNodes child).map Node.path).Nodup)
    (hwrap : ∀ b ∈ ownβ, wrapβ b ∈ storageNodes child) (hpath : ∀ b, (wrapβ b).path = pathβ b)
    (hcross : ∀ b a, ofNodeα (wrapβ b) = some a → ∀ p ∈ parentα, pathα p = pathβ b →
      (∀ q ∈ parentβ, pathβ q ≠ pathβ b) → False)
    (x : String)
    (hk : x ∈ (parentα.filter (fun p =>
        match childNodeByKey child (pathα p) with
        | some n => (ofNodeα n).isSome
        | none => true)).map pathα)
    (hn : x ∈ (ownβ.filter (fun c => !(parentβ.any (fun p => pathβ p = pathβ c)))).map pathβ) :
    False := by
  obtain ⟨p, hp, hpx⟩ := List.mem_map.mp hk
  obtain ⟨b, hb, hbx⟩ := List.mem_map.mp hn
  rw [List.mem_filter] at hp hb
  have hlook : childNodeByKey child (pathα p) = some (wrapβ b) := by
    have := childNodeByKey_of_mem child (wrapβ b) hnodup (hwrap b hb.1)
    rw [hpath b, hbx, ← hpx] at this
    exact this
  have hsome := hp.2
  rw [hlook] at hsome
  simp only at hsome
  obtain ⟨a, ha⟩ := Option.isSome_iff_exists.mp hsome
  refine hcross b a ha p hp.1 (by rw [hpx, hbx]) ?_
  intro q hq hqb
  have := hb.2
  simp only [Bool.not_eq_true', List.any_eq_false, decide_eq_true_eq] at this
  exact this q hq hqb

/-- Three lists of kept texts and three lists of new texts, interleaved: there is no
duplicate when the kept texts have none, the new texts have none, and no kept text is a
new text. -/
theorem nodup_interleave (K1 N1 K2 N2 K3 N3 : List String)
    (hK : (K1 ++ (K2 ++ K3)).Nodup) (hN : (N1 ++ (N2 ++ N3)).Nodup)
    (hc : ∀ x, x ∈ K1 ++ (K2 ++ K3) → x ∈ N1 ++ (N2 ++ N3) → False) :
    ((K1 ++ N1) ++ ((K2 ++ N2) ++ (K3 ++ N3))).Nodup := by
  have hperm : ((K1 ++ N1) ++ ((K2 ++ N2) ++ (K3 ++ N3))).Perm
      ((K1 ++ (K2 ++ K3)) ++ (N1 ++ (N2 ++ N3))) := by
    rw [List.perm_iff_count]
    intro x
    simp only [List.count_append]
    omega
  rw [hperm.nodup_iff, List.nodup_append]
  exact ⟨hK, hN, fun x hx hx' => hc x hx hx'⟩

/-- The merge of two trees without duplicate paths has no duplicate path. -/
theorem mergeConfig_noDuplicate (b o : Config) (hb : duplicatePaths b = false)
    (ho : duplicatePaths o = false) : duplicatePaths (mergeConfig b o) = false := by
  have hon := (duplicatePaths_eq_false o).mp ho
  unfold duplicatePaths at hb ho ⊢
  rw [hasDuplicate_eq_false] at hb ho ⊢
  unfold nodePaths at hb ho ⊢
  simp only [mergeConfig]
  rw [mergeNodes_paths Directory.path Node.asDirectory mergeDirectory _ _ o
      (by intro n a h; cases n <;> simp_all [Node.asDirectory, Node.path]) (fun _ _ => rfl),
    mergeNodes_paths File.path Node.asFile mergeFile _ _ o
      (by intro n a h; cases n <;> simp_all [Node.asFile, Node.path]) (fun _ _ => rfl),
    mergeNodes_paths Link.path Node.asLink mergeLink _ _ o
      (by intro n a h; cases n <;> simp_all [Node.asLink, Node.path]) (fun _ _ => rfl)]
  have hwd : ∀ d ∈ o.directories, Node.directory d ∈ storageNodes o := by
    intro d hd; simp [storageNodes, hd]
  have hwf : ∀ f ∈ o.files, Node.file f ∈ storageNodes o := by
    intro f hf; simp [storageNodes, hf]
  have hwl : ∀ l ∈ o.links, Node.link l ∈ storageNodes o := by
    intro l hl; simp [storageNodes, hl]
  have cDD := kept_new_disjoint Directory.path Node.asDirectory b.directories Directory.path
    Node.directory b.directories o.directories o hon hwd (fun _ => rfl)
    (fun _ _ _ p hp hx hq => hq p hp hx)
  have cDF := kept_new_disjoint Directory.path Node.asDirectory b.directories File.path
    Node.file b.files o.files o hon hwf (fun _ => rfl) (fun _ _ h => by simp [Node.asDirectory] at h)
  have cDL := kept_new_disjoint Directory.path Node.asDirectory b.directories Link.path
    Node.link b.links o.links o hon hwl (fun _ => rfl) (fun _ _ h => by simp [Node.asDirectory] at h)
  have cFD := kept_new_disjoint File.path Node.asFile b.files Directory.path
    Node.directory b.directories o.directories o hon hwd (fun _ => rfl)
    (fun _ _ h => by simp [Node.asFile] at h)
  have cFF := kept_new_disjoint File.path Node.asFile b.files File.path
    Node.file b.files o.files o hon hwf (fun _ => rfl) (fun _ _ _ p hp hx hq => hq p hp hx)
  have cFL := kept_new_disjoint File.path Node.asFile b.files Link.path
    Node.link b.links o.links o hon hwl (fun _ => rfl) (fun _ _ h => by simp [Node.asFile] at h)
  have cLD := kept_new_disjoint Link.path Node.asLink b.links Directory.path
    Node.directory b.directories o.directories o hon hwd (fun _ => rfl)
    (fun _ _ h => by simp [Node.asLink] at h)
  have cLF := kept_new_disjoint Link.path Node.asLink b.links File.path
    Node.file b.files o.files o hon hwf (fun _ => rfl) (fun _ _ h => by simp [Node.asLink] at h)
  have cLL := kept_new_disjoint Link.path Node.asLink b.links Link.path
    Node.link b.links o.links o hon hwl (fun _ => rfl) (fun _ _ _ p hp hx hq => hq p hp hx)
  apply nodup_interleave
  · exact hb.sublist
      (((List.filter_sublist _).map _).append
        (((List.filter_sublist _).map _).append ((List.filter_sublist _).map _)))
  · exact ho.sublist
      (((List.filter_sublist _).map _).append
        (((List.filter_sublist _).map _).append ((List.filter_sublist _).map _)))
  · intro x hx hx'
    simp only [List.mem_append] at hx hx'
    rcases hx with hx | hx | hx <;> rcases hx' with hx' | hx' | hx'
    · exact cDD x hx hx'
    · exact cDF x hx hx'
    · exact cDL x hx hx'
    · exact cFD x hx hx'
    · exact cFF x hx hx'
    · exact cFL x hx hx'
    · exact cLD x hx hx'
    · exact cLF x hx hx'
    · exact cLL x hx hx'


/-- A storage entry of the child that is a file is one of the child's files. -/
theorem asFile_mem (child : Config) (n : Node) (f : File) (hn : n ∈ storageNodes child)
    (hf : n.asFile = some f) : f ∈ child.files ∧ f.path = n.path := by
  cases n with
  | directory d => simp [Node.asFile] at hf
  | link l => simp [Node.asFile] at hf
  | file g =>
    simp only [Node.asFile, Option.some.injEq] at hf
    subst hf
    simp only [storageNodes, List.mem_append, List.mem_map] at hn
    rcases hn with ⟨d, _, hd⟩ | ⟨f', hf', he⟩ | ⟨l, _, hl⟩
    · cases hd
    · cases he
      exact ⟨hf', rfl⟩
    · cases hl

/-- A file of the child is one of its storage entries. -/
theorem file_mem_storageNodes (child : Config) (f : File) (hf : f ∈ child.files) :
    Node.file f ∈ storageNodes child := by
  simp [storageNodes, hf]

/-- When no storage entry of the child has the path of a parent file, the merged file
list is the parent list followed by the files of the child. -/
theorem mergeNodes_files_disjoint (parent : List File) (child : Config)
    (h : ∀ p ∈ parent, ∀ n ∈ storageNodes child, n.path ≠ p.path) :
    mergeNodes File.path Node.asFile mergeFile parent child.files child = parent ++ child.files := by
  unfold mergeNodes
  congr 1
  · apply filterMap_eq_self_of_some
    intro p hp
    rw [childNodeByKey_none child p.path (h p hp)]
  · rw [List.filter_eq_self]
    intro c hc
    simp only [Bool.not_eq_true', List.any_eq_false, decide_eq_true_eq]
    intro p hp hpc
    exact h p hp (Node.file c) (file_mem_storageNodes child c hc) hpc.symm

/-- In the merged file list, an entry with the path of a child file `c` whose path is
unique among the files of the child is `c` itself or the merge of a parent file with
`c`. -/
theorem mergeNodes_files_entry_of_child (parent : List File) (child : Config) (c : File)
    (hc : c ∈ child.files) (huniq : ∀ c' ∈ child.files, c'.path = c.path → c' = c) (e : File)
    (he : e ∈ mergeNodes File.path Node.asFile mergeFile parent child.files child)
    (hek : e.path = c.path) : e = c ∨ ∃ p ∈ parent, e = mergeFile p c := by
  unfold mergeNodes at he
  rw [List.mem_append] at he
  rcases he with he | he
  · rw [List.mem_filterMap] at he
    obtain ⟨p, hp, hpe⟩ := he
    cases hce : childNodeByKey child p.path with
    | none =>
      simp only [hce, Option.some.injEq] at hpe
      subst hpe
      have hnone := hce
      unfold childNodeByKey at hnone
      rw [List.find?_eq_none] at hnone
      have := hnone (Node.file c) (List.mem_reverse.mpr (file_mem_storageNodes child c hc))
      simp [Node.path, hek] at this
    | some n =>
      simp only [hce] at hpe
      cases hn : n.asFile with
      | none => simp [hn] at hpe
      | some c' =>
        simp only [hn, Option.map_some', Option.some.injEq] at hpe
        subst hpe
        obtain ⟨hnm, _⟩ := childNodeByKey_some child p.path n hce
        obtain ⟨hmem, _⟩ := asFile_mem child n c' hnm hn
        have : c' = c := huniq c' hmem hek
        subst this
        exact Or.inr ⟨p, hp, rfl⟩
  · rw [List.mem_filter] at he
    exact Or.inl (huniq e he.1 hek)

/-- In the merged file list of a child without duplicate paths, every path of a file of
the child is the path of an entry. -/
theorem mergeNodes_files_has_child_key (parent : List File) (child : Config) (c : File)
    (hnodup : duplicatePaths child = false) (hc : c ∈ child.files) :
    ∃ e ∈ mergeNodes File.path Node.asFile mergeFile parent child.files child, e.path = c.path := by
  have hlook := childNodeByKey_of_mem child (Node.file c) ((duplicatePaths_eq_false child).mp hnodup)
    (file_mem_storageNodes child c hc)
  unfold mergeNodes
  by_cases hp : ∃ p ∈ parent, p.path = c.path
  · obtain ⟨p, hpm, hpk⟩ := hp
    refine ⟨mergeFile p c, ?_, rfl⟩
    rw [List.mem_append]
    left
    rw [List.mem_filterMap]
    refine ⟨p, hpm, ?_⟩
    rw [hpk]
    change (match childNodeByKey child (Node.file c).path with
      | some n => Option.map (mergeFile p) n.asFile
      | none => some p) = some (mergeFile p c)
    rw [hlook]
    rfl
  · refine ⟨c, ?_, rfl⟩
    rw [List.mem_append]
    right
    rw [List.mem_filter]
    refine ⟨hc, ?_⟩
    simp only [Bool.not_eq_true', List.any_eq_false, decide_eq_true_eq]
    intro p hpm hpk
    exact hp ⟨p, hpm, hpk⟩

/-! ### Lemmas on the normalizer -/

/-- The version of a normalized document is one of the two supported versions. -/
theorem ParseToLatest_version (env : Env) (content : Bytes) (c : Config)
    (h : ParseToLatest env content = .ok c) : c.version = "3.2.0" ∨ c.version = "3.1.0" := by
  unfold ParseToLatest at h
  split at h
  · rename_i config h32
    cases h
    left
    unfold parse32 configParse at h32
    split at h32
    · cases h32
    · split at h32
      · cases h32
      · split at h32
        · cases h32
        · rename_i hv _
          cases h32
          simpa using hv
  · split at h
    · cases h
    · cases h
      right
      rfl

/-- The version and the files of the tree that the parser of the declared version
holds. -/
theorem asDeclared_version (c : Config) : (asDeclared c).version = c.version := by
  unfold asDeclared toV31
  split <;> rfl

/-- The parser of the declared version holds every file entry. -/
theorem asDeclared_files (c : Config) : (asDeclared c).files = c.files := by
  unfold asDeclared toV31
  split <;> rfl

/-- The parser of the declared version holds every unit. -/
theorem asDeclared_units (c : Config) : (asDeclared c).units = c.units := by
  unfold asDeclared toV31
  split <;> rfl

/-- Reading a tree a second time with the parser of its declared version changes
nothing. -/
theorem asDeclared_idem (c : Config) : asDeclared (asDeclared c) = asDeclared c := by
  unfold asDeclared toV31
  split
  · rename_i h
    simp [h]
  · rename_i h
    simp [h]

/-- The v3.1 types keep the three storage lists, so the tree that the v3.1 parser holds
has the duplicate paths of the tree. -/
theorem duplicatePaths_toV31 (c : Config) : duplicatePaths (toV31 c) = duplicatePaths c := rfl

/-- A validation without fatal report: neither the duplicates nor the other rules
report. -/
theorem not_fatal {a b : Bool} (h : ¬ (a || b) = true) : a = false ∧ b = false := by
  simpa using h

/-- A normalized tree has no duplicate path: the validation of its parser reports
them. -/
theorem ParseToLatest_noDuplicate (env : Env) (content : Bytes) (c : Config)
    (h : ParseToLatest env content = .ok c) : duplicatePaths c = false := by
  unfold ParseToLatest at h
  split at h
  · rename_i config h32
    cases h
    unfold parse32 configParse at h32
    split at h32
    · cases h32
    · split at h32
      · cases h32
      · split at h32
        · cases h32
        · rename_i hf
          cases h32
          simp only [Bool.or_eq_true, not_or, Bool.not_eq_true] at hf
          exact hf.1
  · split at h
    · cases h
    · rename_i c31 h31
      cases h
      unfold parse31 configParse at h31
      split at h31
      · cases h31
      · split at h31
        · cases h31
        · split at h31
          · cases h31
          · rename_i hf
            cases h31
            simp only [Bool.or_eq_true, not_or, Bool.not_eq_true] at hf
            exact hf.1

/-- A serialized tree without duplicate paths that passes the validation of its declared
version is normalized to the tree that the parser of that version holds. -/
theorem ParseToLatest_json (env : Env) (c : Config)
    (hv : c.version = "3.2.0" ∨ c.version = "3.1.0") (hdup : duplicatePaths c = false)
    (hvalid : (if c.version = "3.1.0" then env.fatal31 (toV31 c) else env.fatal32 c) = false) :
    ParseToLatest env (Bytes.json c) = .ok (asDeclared c) := by
  rcases hv with hv | hv
  · have h31 : ¬ c.version = "3.1.0" := by rw [hv]; decide
    rw [if_neg h31] at hvalid
    simp [ParseToLatest, parse32, configParse, decodeBytes, hv, hvalid, hdup, asDeclared]
  · rw [if_pos hv] at hvalid
    have hv1 : (toV31 c).version = "3.1.0" := hv
    have hdup1 : duplicatePaths (toV31 c) = false := hdup
    simp only [ParseToLatest, parse32, parse31, configParse, decodeBytes, hv, hvalid, hv1, hdup1,
      asDeclared, Option.map_some']
    simp
    cases c
    simp_all [toV31]

/-- What `MergeIgnitionConfig` returns when both documents are normalized and the merged
tree passes the validation of its version. -/
theorem MergeIgnitionConfig_ok (env : Env) (base overrides : Bytes) (b o : Config)
    (hb : ParseToLatest env base = .ok b) (ho : ParseToLatest env overrides = .ok o)
    (hvalid : (if o.version = "3.1.0" then env.fatal31 (toV31 (mergeConfig b o))
      else env.fatal32 (mergeConfig b o)) = false) :
    MergeIgnitionConfig env base overrides = (Bytes.json (mergeConfig b o), none) := by
  have hv := ParseToLatest_version env overrides o ho
  have hdup : duplicatePaths (mergeConfig b o) = false :=
    mergeConfig_noDuplicate b o (ParseToLatest_noDuplicate env base b hb)
      (ParseToLatest_noDuplicate env overrides o ho)
  unfold MergeIgnitionConfig
  rw [hb, ho]
  simp only
  have hmv : (mergeConfig b o).version = o.version := rfl
  rcases hv with hv | hv
  · have h31 : ¬ o.version = "3.1.0" := by rw [hv]; decide
    rw [if_neg h31] at hvalid
    simp [hmv, parse32, configParse, decodeBytes, hv, hvalid, hdup]
  · rw [if_pos hv] at hvalid
    have hv1 : (toV31 (mergeConfig b o)).version = "3.1.0" := hv
    have hdup1 : duplicatePaths (toV31 (mergeConfig b o)) = false := hdup
    simp [hmv, parse31, configParse, decodeBytes, hv, hvalid, hv1, hdup1]

/-- What `SetHostnameForNodeIgnition` returns on a document that is normalized to `c`. -/
theorem SetHostnameForNodeIgnition_ok (env : Env) (ignition : Bytes) (host : Host) (c : Config)
    (hostname : String) (hc : ParseToLatest env ignition = .ok c)
    (hn : env.getCurrentHostName host = .ok hostname) :
    SetHostnameForNodeIgnition env ignition host =
      (Bytes.json { c with files := c.files ++ [hostnameFile hostname] }, none) := by
  unfold SetHostnameForNodeIgnition
  rw [hc, hn]
  rfl


/-- C1, as stated, fails: the base has the single file `/etc/foo`, the override has the
file `/etc/bar` and the directory `/etc/foo`.  The file entries of the two documents have
different paths, but the directories, files and links of `storage` share their keys in
the merge: the base file is dropped because the override names its path in another list.
The result of the merge and of the hostname injection has the files `/etc/bar` and
`/etc/hostname` and no entry `/etc/foo`. -/
theorem merge_drops_base_file_at_override_directory :
    ∃ b o merged result : Config,
      ParseToLatest sampleEnv (Bytes.text sampleBaseText) = .ok b ∧
      ParseToLatest sampleEnv (Bytes.text sampleDirectoryOverrideText) = .ok o ∧
      b.files = [{ path := "/etc/foo" }] ∧ o.files = [{ path := "/etc/bar" }] ∧
      (∀ f ∈ b.files, ∀ f' ∈ o.files, f.path ≠ f'.path) ∧
      MergeIgnitionConfig sampleEnv (Bytes.text sampleBaseText)
          (Bytes.text sampleDirectoryOverrideText) = (Bytes.json merged, none) ∧
      SetHostnameForNodeIgnition sampleEnv (Bytes.json merged)
          { id := "h1", requestedHostname := "node-1" } = (Bytes.json result, none) ∧
      result.files = [{ path := "/etc/bar" }, hostnameFile "node-1"] ∧
      result.directories = [{ path := "/etc/foo" }] ∧
      ¬ ∃ f ∈ result.files, f.path = "/etc/foo" :=
  ⟨{ version := "3.1.0", files := [{ path := "/etc/foo" }] },
   { version := "3.1.0", directories := [{ path := "/etc/foo" }], files := [{ path := "/etc/bar" }] },
   { version := "3.1.0", directories := [{ path := "/etc/foo" }], files := [{ path := "/etc/bar" }] },
   { version := "3.1.0", directories := [{ path := "/etc/foo" }],
     files := [{ path := "/etc/bar" }, hostnameFile "node-1"] },
   by decide, by decide, by decide, by decide, by decide, by decide, by decide, by decide,
   by decide, by decide⟩

/-- C1, amended: for a base and an override document that are both normalized, whose
file entries have no path in common, where no directory and no link of the override has
the path of a file entry of the base, and whose merge passes the validation of its
version, `MergeIgnitionConfig` followed by `SetHostnameForNodeIgnition` succeeds, and the
files of the result are the files of the base, then the files of the override, then the
`/etc/hostname` entry: every file entry of the base and of the override is in the
result. -/
theorem merge_then_hostname_keeps_all_files (env : Env) (base overrides : Bytes) (host : Host)
    (b o : Config) (hostname : String)
    (hb : ParseToLatest env base = .ok b) (ho : ParseToLatest env overrides = .ok o)
    (hpaths : ∀ f ∈ b.files, ∀ f' ∈ o.files, f.path ≠ f'.path)
    (hdirs : ∀ f ∈ b.files, ∀ d ∈ o.directories, f.path ≠ d.path)
    (hlinks : ∀ f ∈ b.files, ∀ l ∈ o.links, f.path ≠ l.path)
    (hvalid : (if o.version = "3.1.0" then env.fatal31 (toV31 (mergeConfig b o))
      else env.fatal32 (mergeConfig b o)) = false)
    (hn : env.getCurrentHostName host = .ok hostname) :
    ∃ merged result : Config,
      MergeIgnitionConfig env base overrides = (Bytes.json merged, none) ∧
      SetHostnameForNodeIgnition env (MergeIgnitionConfig env base overrides).1 host =
        (Bytes.json result, none) ∧
      result.files = b.files ++ o.files ++ [hostnameFile hostname] ∧
      (∀ f ∈ b.files, f ∈ result.files) ∧ (∀ f ∈ o.files, f ∈ result.files) ∧
      (∃ f ∈ result.files, f.path = "/etc/hostname") := by
  have hm := MergeIgnitionConfig_ok env base overrides b o hb ho hvalid
  have hv := ParseToLatest_version env overrides o ho
  have hdup : duplicatePaths (mergeConfig b o) = false :=
    mergeConfig_noDuplicate b o (ParseToLatest_noDuplicate env base b hb)
      (ParseToLatest_noDuplicate env overrides o ho)
  have hparse : ParseToLatest env (Bytes.json (mergeConfig b o)) =
      .ok (asDeclared (mergeConfig b o)) :=
    ParseToLatest_json env (mergeConfig b o) hv hdup hvalid
  have hfiles : (mergeConfig b o).files = b.files ++ o.files := by
    apply mergeNodes_files_disjoint
    intro f hf n hnode
    simp only [storageNodes, List.mem_append, List.mem_map] at hnode
    rcases hnode with ⟨d, hd, rfl⟩ | ⟨f', hf', rfl⟩ | ⟨l, hl, rfl⟩
    · exact fun h => hdirs f hf d hd h.symm
    · exact fun h => hpaths f hf f' hf' h.symm
    · exact fun h => hlinks f hf l hl h.symm
  refine ⟨mergeConfig b o,
    { asDeclared (mergeConfig b o) with
      files := (asDeclared (mergeConfig b o)).files ++ [hostnameFile hostname] },
    hm, ?_, ?_, ?_, ?_, ?_⟩
  · rw [hm]
    exact SetHostnameForNodeIgnition_ok env _ host _ hostname hparse hn
  · simp only [asDeclared_files, hfiles]
  · intro f hf
    simp only [asDeclared_files, hfiles, List.mem_append]
    exact Or.inl (Or.inl hf)
  · intro f hf
    simp only [asDeclared_files, hfiles, List.mem_append]
    exact Or.inl (Or.inr hf)
  · exact ⟨hostnameFile hostname, by simp, rfl⟩

/-- The concrete case of C1: base with the single file `/etc/foo`, override with the
single file `/etc/bar`. -/
theorem merge_then_hostname_keeps_all_files_witness :
    ∃ merged result : Config,
      MergeIgnitionConfig sampleEnv (Bytes.text sampleBaseText) (Bytes.text sampleOverrideText) =
        (Bytes.json merged, none) ∧
      SetHostnameForNodeIgnition sampleEnv
          (MergeIgnitionConfig sampleEnv (Bytes.text sampleBaseText)
            (Bytes.text sampleOverrideText)).1
          { id := "h1", requestedHostname := "node-1" } =
        (Bytes.json result, none) ∧
      result.files = [{ path := "/etc/foo" }] ++ [{ path := "/etc/bar" }] ++ [hostnameFile "node-1"] ∧
      (∀ f ∈ [({ path := "/etc/foo" } : File)], f ∈ result.files) ∧
      (∀ f ∈ [({ path := "/etc/bar" } : File)], f ∈ result.files) ∧
      (∃ f ∈ result.files, f.path = "/etc/hostname") :=
  merge_then_hostname_keeps_all_files sampleEnv (Bytes.text sampleBaseText)
    (Bytes.text sampleOverrideText) { id := "h1", requestedHostname := "node-1" }
    { version := "3.1.0", files := [{ path := "/etc/foo" }] }
    { version := "3.1.0", files := [{ path := "/etc/bar" }] } "node-1"
    (by decide) (by decide) (by decide) (by decide) (by decide) (by decide) (by decide)

/-- C2, as stated, fails: the entry that `SetHostnameForNodeIgnition` injects for the
host `node-1` has the data URL as content source and an empty append list. -/
theorem hostname_entry_not_appended :
    ∃ c : Config, ∃ f : File,
      SetHostnameForNodeIgnition sampleEnv (Bytes.json { version := "3.1.0" })
        { id := "h1", requestedHostname := "node-1" } = (Bytes.json c, none) ∧
      c.files.getLast? = some f ∧ f.path = "/etc/hostname" ∧
      f.append = [] ∧ f.contents.source = some "data:,node-1" ∧
      ¬ (f.append = [{ source := some "data:,node-1" }] ∧ f.contents.source = none) :=
  ⟨{ version := "3.1.0", files := [hostnameFile "node-1"] }, hostnameFile "node-1",
    by decide, by decide, by decide, by decide, by decide, by decide⟩

/-- C2, amended: the `/etc/hostname` entry injected by `SetHostnameForNodeIgnition` and by
the per-host task of `writeHostFiles` is the last file entry of the document, and it has
replace semantics: the data URL of the hostname is its content source, the overwrite
flag is set, and the append list is empty. -/
theorem hostname_entry_replaces (env : Env) (fs : FS) (baseFile workDir : String) (host : Host)
    (ignition : Bytes) (c config : Config) (hostname : String)
    (hn : env.getCurrentHostName host = .ok hostname)
    (hc : ParseToLatest env ignition = .ok c)
    (hbase : parseIgnitionFile env fs (filepathJoin workDir baseFile) = .ok config) :
    SetHostnameForNodeIgnition env ignition host =
      (Bytes.json { c with files := c.files ++ [hostnameFile hostname] }, none) ∧
    (host.ignitionConfigOverrides = "" →
      writeHostFile env fs baseFile workDir host =
        (none, writeFile fs (filepathJoin workDir (env.ignitionFileName host))
          (Bytes.json { config with files := config.files ++ [hostnameFile hostname] }))) ∧
    (host.ignitionConfigOverrides ≠ "" →
      ∀ merged : Bytes,
        MergeIgnitionConfig env
            (Bytes.json { config with files := config.files ++ [hostnameFile hostname] })
            (Bytes.text host.ignitionConfigOverrides) = (merged, none) →
        writeHostFile env fs baseFile workDir host =
          (none, writeFile fs (filepathJoin workDir (env.ignitionFileName host)) merged)) ∧
    (hostnameFile hostname).path = "/etc/hostname" ∧
    (hostnameFile hostname).contents.source = some ("data:," ++ hostname) ∧
    (hostnameFile hostname).overwrite = some true ∧
    (hostnameFile hostname).append = [] := by
  refine ⟨SetHostnameForNodeIgnition_ok env ignition host c hostname hc hn, ?_, ?_,
    rfl, rfl, rfl, rfl⟩
  · intro hov
    unfold writeHostFile
    rw [hbase, hn]
    simp only [hov, ne_eq, not_true_eq_false, if_false]
    rfl
  · intro hov merged hm
    unfold writeHostFile
    rw [hbase, hn]
    simp only [hov, ne_eq, not_false_eq_true, if_true]
    have hset : setFileInIgnition config "/etc/hostname" ("data:," ++ hostname) false 420 true =
        { config with files := config.files ++ [hostnameFile hostname] } := rfl
    rw [hset, hm]

/-- C2, amended, at the host `node-1` and the sample base document. -/
theorem hostname_entry_replaces_witness :
    SetHostnameForNodeIgnition sampleEnv (Bytes.text sampleBaseText)
        { id := "h1", requestedHostname := "node-1" } =
      (Bytes.json { version := "3.1.0", files := [{ path := "/etc/foo" }, hostnameFile "node-1"] },
        none) ∧
    writeHostFile sampleEnv [("/work/master.ign", Bytes.text sampleBaseText)] "master.ign" "/work"
        { id := "h1", requestedHostname := "node-1", role := "master" } =
      (none, [("/work/master-h1.ign",
          Bytes.json { version := "3.1.0", files := [{ path := "/etc/foo" }, hostnameFile "node-1"] }),
        ("/work/master.ign", Bytes.text sampleBaseText)]) := by
  have h := hostname_entry_replaces sampleEnv [("/work/master.ign", Bytes.text sampleBaseText)]
    "master.ign" "/work" { id := "h1", requestedHostname := "node-1", role := "master" }
    (Bytes.text sampleBaseText) { version := "3.1.0", files := [{ path := "/etc/foo" }] }
    { version := "3.1.0", files := [{ path := "/etc/foo" }] } "node-1"
    (by decide) (by decide) (by decide)
  exact ⟨h.1, h.2.1 (by decide)⟩

/-! ### The pointer document of the day-2 builder -/

/-- Inside a string, the reader takes the characters of a plain text as they are. -/
theorem runJSON_plain (s : List Char) (hs : s.all jsonPlainChar = true) (acc rest : List Char)
    (stack : List Frame) (e : Expect) :
    runJSON (.inString acc) stack e (s ++ rest) =
      runJSON (.inString (s.reverse ++ acc)) stack e rest := by
  induction s generalizing acc with
  | nil => rfl
  | cons c cs ih =>
    simp only [List.all_cons, Bool.and_eq_true] at hs
    have hc := hs.1
    simp only [jsonPlainChar, Bool.and_eq_true, decide_eq_true_eq, Bool.not_eq_true',
      decide_eq_false_iff_not, ne_eq] at hc
    have hstep : lexStep (.inString acc) c = some (.inString (c :: acc), []) := by
      simp [lexStep, lexInString, hc.1.1, hc.1.2, hc.2]
    rw [List.cons_append, runJSON, hstep]
    simp only [feed, List.reverse_cons, List.append_assoc, List.singleton_append]
    exact ih hs.2 (c :: acc)

set_option maxRecDepth 100000 in
/-- The JSON reader on the rendered pointer document: for parameters that are plain
texts and at most one header, the text is read as the tree `pointerTree`. -/
theorem jsonUnmarshal_pointer (source cacert : String) (headers : List (String × String))
    (hs : jsonPlain source = true) (hc : jsonPlain cacert = true)
    (hh : headers = [] ∨ ∃ k v, headers = [(k, v)] ∧ jsonPlain k = true ∧ jsonPlain v = true) :
    jsonUnmarshal (secondDayWorkerIgnitionFormat source headers cacert) =
      some (pointerTree source headers cacert) := by
  unfold jsonUnmarshal jsonParse pointerTree
  rcases hh with rfl | ⟨k, v, rfl, hk, hv⟩
  · by_cases hca : cacert = ""
    · subst hca
      simp only [secondDayWorkerIgnitionFormat, secondDayHeaderList, secondDaySecurity, concat,
        String.data_append, List.map, ne_eq, not_true_eq_false, if_false, reduceCtorEq,
        not_false_eq_true, if_true, List.append_assoc, List.cons_append, List.nil_append,
        List.append_nil]
      generalize hr : runJSON LexState.ready [] Expect.value _ = r
      change runJSON (.inString []) _ _ (source.data ++ _) = r at hr
      rw [runJSON_plain _ hs] at hr
      change some _ = r at hr
      subst hr
      simp only [List.append_nil, List.reverse_reverse]
      rfl
    · simp only [secondDayWorkerIgnitionFormat, secondDayHeaderList, secondDaySecurity, concat,
        String.data_append, List.map, ne_eq, not_true_eq_false, if_false, reduceCtorEq,
        not_false_eq_true, if_true, List.append_assoc, List.cons_append, List.nil_append,
        List.append_nil, hca]
      generalize hr : runJSON LexState.ready [] Expect.value _ = r
      change runJSON (.inString []) _ _ (source.data ++ _) = r at hr
      rw [runJSON_plain _ hs] at hr
      change runJSON (.inString []) _ _ (cacert.data ++ _) = r at hr
      rw [runJSON_plain _ hc] at hr
      change some _ = r at hr
      subst hr
      simp only [List.append_nil, List.reverse_reverse]
      rfl
  · by_cases hca : cacert = ""
    · subst hca
      simp only [secondDayWorkerIgnitionFormat, secondDayHeaderList, secondDaySecurity, concat,
        String.data_append, List.map, ne_eq, not_true_eq_false, if_false, reduceCtorEq,
        not_false_eq_true, if_true, List.append_assoc, List.cons_append, List.nil_append,
        List.append_nil]
      generalize hr : runJSON LexState.ready [] Expect.value _ = r
      change runJSON (.inString []) _ _ (source.data ++ _) = r at hr
      rw [runJSON_plain _ hs] at hr
      change runJSON (.inString []) _ _ (k.data ++ _) = r at hr
      rw [runJSON_plain _ hk] at hr
      change runJSON (.inString []) _ _ (v.data ++ _) = r at hr
      rw [runJSON_plain _ hv] at hr
      change some _ = r at hr
      subst hr
      simp only [List.append_nil, List.reverse_reverse]
      rfl
    · simp only [secondDayWorkerIgnitionFormat, secondDayHeaderList, secondDaySecurity, concat,
        String.data_append, List.map, ne_eq, not_true_eq_false, if_false, reduceCtorEq,
        not_false_eq_true, if_true, List.append_assoc, List.cons_append, List.nil_append,
        List.append_nil, hca]
      generalize hr : runJSON LexState.ready [] Expect.value _ = r
      change runJSON (.inString []) _ _ (source.data ++ _) = r at hr
      rw [runJSON_plain _ hs] at hr
      change runJSON (.inString []) _ _ (k.data ++ _) = r at hr
      rw [runJSON_plain _ hk] at hr
      change runJSON (.inString []) _ _ (v.data ++ _) = r at hr
      rw [runJSON_plain _ hv] at hr
      change runJSON (.inString []) _ _ (cacert.data ++ _) = r at hr
      rw [runJSON_plain _ hc] at hr
      change some _ = r at hr
      subst hr
      simp only [List.append_nil, List.reverse_reverse]
      rfl

/-- A text made of a plain prefix and a plain text is plain. -/
theorem jsonPlain_append (a b : String) (ha : jsonPlain a = true) (hb : jsonPlain b = true) :
    jsonPlain (a ++ b) = true := by
  unfold jsonPlain at *
  simp only [String.data_append, List.all_append, ha, hb, Bool.and_self]


/-- C9, at the failing input: the template writes the token, the URL and the certificate
between quotes as they are (`text/template` does not escape), while the builder of the
discovery document passes the SSH keys through `json.Marshal` and the pull secret through
`url.PathEscape` before they reach its template.  For the token `a"b` the rendered text
is not well-formed JSON and the call returns an error instead of the pointer document
with the header value `Bearer a"b`; the same holds for a token with a line break and for
a URL with a double quote; a backslash in the token is read as an escape, so the header
value of the document is not `Bearer ` followed by the token. -/
theorem secondDay_raw_values_break_pointer :
    jsonValid (secondDayWorkerIgnitionFormat sampleURL (secondDayHeaders "a\"b") "") = false ∧
    FormatSecondDayWorkerIgnitionFile sampleJSONEnv sampleURL none "a\"b"
        { id := "h1", requestedHostname := "node-1" } =
      (Bytes.text "", some ("Failed to set hostname in ignition for host h1: " ++
        "error parsing ignition: error parsing ignition: config is not valid")) ∧
    FormatSecondDayWorkerIgnitionFile sampleJSONEnv sampleURL none "a\nb"
        { id := "h1", requestedHostname := "node-1" } =
      (Bytes.text "", some ("Failed to set hostname in ignition for host h1: " ++
        "error parsing ignition: error parsing ignition: config is not valid")) ∧
    FormatSecondDayWorkerIgnitionFile sampleJSONEnv sampleURL none "a\\nb"
        { id := "h1", requestedHostname := "node-1" } =
      (Bytes.json
        { version := "3.1.0"
          merge := [{ source := some sampleURL
                      httpHeaders := [{ name := "Authorization", value := some "Bearer a\nb" }] }]
          files := [hostnameFile "node-1"] }, none) ∧
    "Bearer a\nb" ≠ "Bearer " ++ "a\\nb" ∧
    FormatSecondDayWorkerIgnitionFile sampleJSONEnv "https://example.com/\"" none "secret-token"
        { id := "h1", requestedHostname := "node-1" } =
      (Bytes.text "", some ("Failed to set hostname in ignition for host h1: " ++
        "error parsing ignition: error parsing ignition: config is not valid")) := by
  refine ⟨by decide, by decide, by decide, by decide, by decide, by decide⟩

/-- The override of a host is merged into the pointer document: an override that names
the merge source of the pointer with a header of its own adds that header to the source,
after the `Authorization` header. -/
theorem secondDay_override_adds_header :
    FormatSecondDayWorkerIgnitionFile sampleJSONEnv sampleURL none "secret-token"
        { id := "h1", requestedHostname := "node-1",
          ignitionConfigOverrides := sampleHeaderOverrideText } =
      (Bytes.json
        { version := "3.1.0"
          merge := [{ source := some sampleURL
                      httpHeaders := [{ name := "Authorization", value := some "Bearer secret-token" },
                                      { name := "X-Extra", value := some "1" }] }]
          files := [hostnameFile "node-1"] }, none) := by
  decide


/-- A text that the decoder reads as a tree of version 3.1.0 without luks devices and
without duplicate paths, which the validation accepts, is normalized to that tree. -/
theorem ParseToLatest_text_v31 (env : Env) (text : String) (c : Config)
    (hd : env.unmarshal text = some c) (hv : c.version = "3.1.0") (hl : c.luks = [])
    (hdup : duplicatePaths c = false) (hf : env.fatal31 c = false) :
    ParseToLatest env (Bytes.text text) = .ok c := by
  have h31 : toV31 c = c := by
    cases c
    simp_all [toV31]
  simp only [ParseToLatest, parse32, parse31, configParse, decodeBytes, hd, hv, Option.map_some',
    h31, hdup, hf]
  simp
  cases c
  simp_all

/-- The pointer document of plain values: for a host without override, a URL, a
certificate and a bearer token that are plain texts (no double quote, no backslash, no
control character), a decoder that reads the rendered text as the JSON reader does, and a
validation that accepts the pointer document, `FormatSecondDayWorkerIgnitionFile` returns
the document whose tree is the tree of the rendered text with the `/etc/hostname` entry
added.  With a non-empty token its single merge source has exactly one header entry,
named `Authorization` with the value `Bearer ` followed by the token; with an empty token
the merge source has no header entry. -/
theorem secondDay_authorization_header (env : Env) (host : Host) (url : String)
    (caCert : Option String) (token hostname : String)
    (hov : host.ignitionConfigOverrides = "")
    (hurl : jsonPlain url = true) (htoken : jsonPlain token = true)
    (hca : ∀ cert, caCert = some cert → jsonPlain cert = true)
    (hdec : env.unmarshal
        (secondDayWorkerIgnitionFormat url (secondDayHeaders token) (secondDayCACert caCert)) =
      jsonUnmarshal
        (secondDayWorkerIgnitionFormat url (secondDayHeaders token) (secondDayCACert caCert)))
    (hvalid : ∀ c, jsonUnmarshal
        (secondDayWorkerIgnitionFormat url (secondDayHeaders token) (secondDayCACert caCert)) =
      some c → env.fatal31 c = false)
    (hn : env.getCurrentHostName host = .ok hostname) :
    ∃ result : Config,
      FormatSecondDayWorkerIgnitionFile env url caCert token host = (Bytes.json result, none) ∧
      jsonUnmarshal
          (secondDayWorkerIgnitionFormat url (secondDayHeaders token) (secondDayCACert caCert)) =
        some { result with files := [] } ∧
      result.version = "3.1.0" ∧
      result.files = [hostnameFile hostname] ∧
      (token ≠ "" →
        result.merge = [{ source := some url
                          httpHeaders := [{ name := "Authorization",
                                            value := some ("Bearer " ++ token) }] }]) ∧
      (token = "" → result.merge = [{ source := some url, httpHeaders := [] }]) := by
  have hplainCA : jsonPlain (secondDayCACert caCert) = true := by
    cases caCert with
    | none => rfl
    | some cert =>
      exact jsonPlain_append "data:text/plain;base64," cert (by decide) (hca cert rfl)
  have hheaders : secondDayHeaders token = [] ∨ ∃ k v, secondDayHeaders token = [(k, v)] ∧
      jsonPlain k = true ∧ jsonPlain v = true := by
    unfold secondDayHeaders
    by_cases ht : token = ""
    · left
      simp [ht]
    · right
      exact ⟨"Authorization", "Bearer " ++ token, by simp [ht], by decide,
        jsonPlain_append "Bearer " token (by decide) htoken⟩
  have htree := jsonUnmarshal_pointer url (secondDayCACert caCert) (secondDayHeaders token) hurl
    hplainCA hheaders
  have hf := hvalid _ htree
  have hparse := ParseToLatest_text_v31 env _ _ (hdec.trans htree) rfl rfl
    (by simp [duplicatePaths, nodePaths, hasDuplicate]) hf
  have hset := SetHostnameForNodeIgnition_ok env _ host _ hostname hparse hn
  refine ⟨{ pointerTree url (secondDayHeaders token) (secondDayCACert caCert) with
      files := [hostnameFile hostname] }, ?_, ?_, rfl, rfl, ?_, ?_⟩
  · unfold FormatSecondDayWorkerIgnitionFile
    simp only [hov, ne_eq, not_true_eq_false, if_false, hset]
    rfl
  · rw [htree]
    rfl
  · intro ht
    simp [secondDayHeaders, ht, pointerTree]
  · intro ht
    simp [secondDayHeaders, ht, pointerTree]

set_option maxRecDepth 100000 in
/-- The pointer document at the token `secret-token`, the sample URL and the host
`node-1`, with the JSON reader as decoder. -/
theorem secondDay_authorization_header_witness :
    ∃ result : Config,
      FormatSecondDayWorkerIgnitionFile sampleJSONEnv sampleURL none "secret-token"
        { id := "h1", requestedHostname := "node-1" } = (Bytes.json result, none) ∧
      jsonUnmarshal
          (secondDayWorkerIgnitionFormat sampleURL (secondDayHeaders "secret-token")
            (secondDayCACert none)) =
        some { result with files := [] } ∧
      result.version = "3.1.0" ∧
      result.files = [hostnameFile "node-1"] ∧
      ("secret-token" ≠ "" →
        result.merge = [{ source := some sampleURL
                          httpHeaders := [{ name := "Authorization",
                                            value := some ("Bearer " ++ "secret-token") }] }]) ∧
      ("secret-token" = "" → result.merge = [{ source := some sampleURL, httpHeaders := [] }]) :=
  secondDay_authorization_header sampleJSONEnv { id := "h1", requestedHostname := "node-1" }
    sampleURL none "secret-token" "node-1" (by decide) (by decide) (by decide)
    (fun _ h => by cases h) rfl (fun _ _ => rfl) (by decide)

/-- C10: when the host has an override, `FormatSecondDayWorkerIgnitionFile` merges it into
the rendered pointer document first and injects the hostname afterwards: if the merge
fails the call fails without output; if the merge returns `m`, the result is
`SetHostnameForNodeIgnition` of `m`, and the last file entry of the result is the
`/etc/hostname` entry of the host's current hostname, whatever files the override
brought. -/
theorem secondDay_override_then_hostname (env : Env) (url : String) (caCert : Option String)
    (token : String) (host : Host) (hov : host.ignitionConfigOverrides ≠ "") :
    (∀ err,
      (MergeIgnitionConfig env
        (Bytes.text (secondDayWorkerIgnitionFormat url (secondDayHeaders token) (secondDayCACert caCert)))
        (Bytes.text host.ignitionConfigOverrides)).2 = some err →
      FormatSecondDayWorkerIgnitionFile env url caCert token host =
        (Bytes.text "", some ("Failed to apply ignition override for host " ++ host.id ++ ": " ++ err))) ∧
    (∀ m hostname,
      MergeIgnitionConfig env
        (Bytes.text (secondDayWorkerIgnitionFormat url (secondDayHeaders token) (secondDayCACert caCert)))
        (Bytes.text host.ignitionConfigOverrides) = (m, none) →
      env.getCurrentHostName host = .ok hostname →
      ∃ merged result : Config,
        m = Bytes.json merged ∧
        FormatSecondDayWorkerIgnitionFile env url caCert token host =
          SetHostnameForNodeIgnition env m host ∧
        FormatSecondDayWorkerIgnitionFile env url caCert token host = (Bytes.json result, none) ∧
        result.files = merged.files ++ [hostnameFile hostname] ∧
        result.files.getLast? = some (hostnameFile hostname)) := by
  constructor
  · intro err herr
    unfold FormatSecondDayWorkerIgnitionFile
    simp only [hov, ne_eq, not_false_eq_true, if_true, herr]
  · intro m hostname hm hn
    -- the merge returned the serialization of a validated tree
    have hshape : ∃ merged : Config, m = Bytes.json merged ∧
        ParseToLatest env (Bytes.json merged) = .ok (asDeclared merged) := by
      unfold MergeIgnitionConfig at hm
      split at hm
      · cases hm
      · rename_i b hb
        split at hm
        · cases hm
        · rename_i o ho
          have hv := ParseToLatest_version env _ o ho
          have hmv : (mergeConfig b o).version = o.version := rfl
          simp only [hmv] at hm
          split at hm
          · cases hm
          · rename_i c hc
            simp only [Prod.mk.injEq, and_true] at hm
            refine ⟨mergeConfig b o, hm.symm, ?_⟩
            have hdup : duplicatePaths (mergeConfig b o) = false :=
              mergeConfig_noDuplicate b o (ParseToLatest_noDuplicate env _ b hb)
                (ParseToLatest_noDuplicate env _ o ho)
            apply ParseToLatest_json env (mergeConfig b o) hv hdup
            rw [hmv]
            by_cases h31 : o.version = "3.1.0"
            · rw [if_pos h31] at hc ⊢
              simp only [parse31, configParse, decodeBytes, Option.map_some'] at hc
              split at hc
              · cases hc
              · split at hc
                · cases hc
                · rename_i hf
                  exact (not_fatal hf).2
            · rw [if_neg h31] at hc ⊢
              simp only [parse32, configParse, decodeBytes] at hc
              split at hc
              · cases hc
              · split at hc
                · cases hc
                · rename_i hf
                  exact (not_fatal hf).2
    obtain ⟨merged, rfl, hparse⟩ := hshape
    have hset := SetHostnameForNodeIgnition_ok env (Bytes.json merged) host (asDeclared merged)
      hostname hparse hn
    have hfmt : FormatSecondDayWorkerIgnitionFile env url caCert token host =
        SetHostnameForNodeIgnition env (Bytes.json merged) host := by
      unfold FormatSecondDayWorkerIgnitionFile
      simp only [hov, ne_eq, not_false_eq_true, if_true, hm, hset]
    refine ⟨merged, { asDeclared merged with
        files := (asDeclared merged).files ++ [hostnameFile hostname] }, rfl, hfmt,
      ?_, ?_, ?_⟩
    · rw [hfmt, hset]
    · simp only [asDeclared_files]
    · simp

set_option maxRecDepth 100000 in
/-- C10 at a host whose override brings its own `/etc/hostname` entry. -/
theorem secondDay_override_then_hostname_witness :
    ∃ merged result : Config,
      (Bytes.json { version := "3.1.0"
                    merge := [{ source := some sampleURL
                                httpHeaders := [{ name := "Authorization", value := some "Bearer secret-token" }] }]
                    files := [{ path := "/etc/hostname", contents := { source := some "data:,other" } }] }
        : Bytes) = Bytes.json merged ∧
      FormatSecondDayWorkerIgnitionFile sampleEnv sampleURL none "secret-token"
          { id := "h1", requestedHostname := "node-1",
            ignitionConfigOverrides := sampleHostnameOverrideText } =
        SetHostnameForNodeIgnition sampleEnv
          (Bytes.json { version := "3.1.0"
                        merge := [{ source := some sampleURL
                                    httpHeaders := [{ name := "Authorization", value := some "Bearer secret-token" }] }]
                        files := [{ path := "/etc/hostname", contents := { source := some "data:,other" } }] })
          { id := "h1", requestedHostname := "node-1",
            ignitionConfigOverrides := sampleHostnameOverrideText } ∧
      FormatSecondDayWorkerIgnitionFile sampleEnv sampleURL none "secret-token"
          { id := "h1", requestedHostname := "node-1",
            ignitionConfigOverrides := sampleHostnameOverrideText } = (Bytes.json result, none) ∧
      result.files = merged.files ++ [hostnameFile "node-1"] ∧
      result.files.getLast? = some (hostnameFile "node-1") :=
  (secondDay_override_then_hostname sampleEnv sampleURL none "secret-token"
    { id := "h1", requestedHostname := "node-1", ignitionConfigOverrides := sampleHostnameOverrideText }
    (by decide)).2 _ "node-1" (by decide) (by decide)

/-! ### Lemmas on the loop of `updateBootstrap` -/

/-- `modifyBMHFile` changes the content source of the file only. -/
theorem modifyBMHFile_path (env : Env) (g : Generator) (file : File) (bmh : BareMetalHost)
    (host : Host) (out : File) (h : modifyBMHFile env g file bmh host = .ok out) :
    out.path = file.path := by
  unfold modifyBMHFile at h
  split at h
  · cases h
  · split at h
    · cases h
    · simp only at h
      split at h
      · cases h
      · split at h
        · cases h
        · cases h
          rfl

/-- A file that is not a descriptor leaves the queues as they are, and what is kept of
it is not a descriptor either. -/
theorem updateBootstrapFile_other (env : Env) (g : Generator) (masters workers : List Host)
    (file : File) (h : isDescriptor file = false) :
    ∃ kept : Option File,
      updateBootstrapFile env g masters workers file = .ok (kept, masters, workers) ∧
      kept.toList.filter isDescriptor = [] := by
  unfold updateBootstrapFile
  by_cases h1 : isBaremetalProvisioningConfig file = true
  · rw [if_pos h1]
    by_cases h2 : g.enableMetal3Provisioning = true
    · refine ⟨some file, by simp [h2], ?_⟩
      simp [Option.toList, h]
    · refine ⟨none, by simp [h2], ?_⟩
      simp [Option.toList]
  · rw [if_neg h1]
    by_cases h2 : isMOTD file = true
    · rw [if_pos h2]
      refine ⟨some (fixMOTDFile file), rfl, ?_⟩
      have hp : (fixMOTDFile file).path = file.path := by
        unfold fixMOTDFile
        split
        · rfl
        · split <;> rfl
      have : isDescriptor (fixMOTDFile file) = false := by
        unfold isDescriptor isMOTD
        unfold isMOTD at h2
        simp only [hp]
        simp [h2]
      simp [Option.toList, this]
    · rw [if_neg h2]
      have h3 : isBMHFile file = false := by
        unfold isDescriptor at h
        simp only [Bool.not_eq_true] at h1 h2
        simpa [h1, h2] using h
      refine ⟨some file, by simp [h3], ?_⟩
      simp [Option.toList, h]

/-- A descriptor that is classified as master while a master is left is populated from
the first master of the queue. -/
theorem updateBootstrapFile_master (env : Env) (g : Generator) (host : Host)
    (masters workers : List Host) (file out : File) (bmh : BareMetalHost)
    (h : isDescriptor file = true) (hbmh : fileToBMH env file = .ok bmh)
    (hcls : bmhIsMaster bmh (getHostnames env (host :: masters)) (getHostnames env workers) = true)
    (hmod : modifyBMHFile env g file bmh host = .ok out) :
    updateBootstrapFile env g (host :: masters) workers file = .ok (some out, masters, workers) := by
  unfold isDescriptor at h
  simp only [Bool.and_eq_true, Bool.not_eq_true'] at h
  unfold updateBootstrapFile
  simp [h.1.1, h.1.2, h.2, hbmh, hcls, hmod]

/-- Whether a file is a descriptor depends on its path only. -/
theorem isDescriptor_of_path (a b : File) (h : a.path = b.path) :
    isDescriptor a = isDescriptor b := by
  unfold isDescriptor isBaremetalProvisioningConfig isMOTD isBMHFile
  rw [h]

/-- The loop of `updateBootstrap` when every descriptor is classified as master at the
moment it is reached: the descriptors are populated from the masters in queue order. -/
theorem updateBootstrapFiles_masters (env : Env) (g : Generator) (workers : List Host) :
    ∀ (files acc : List File) (masters : List Host),
      (∀ i f, (files.filter isDescriptor)[i]? = some f →
        ∃ host bmh out, masters[i]? = some host ∧ fileToBMH env f = .ok bmh ∧
          bmhIsMaster bmh (getHostnames env (masters.drop i)) (getHostnames env workers) = true ∧
          modifyBMHFile env g f bmh host = .ok out) →
      ∃ out : List File,
        updateBootstrapFiles env g files (acc, masters, workers) =
          .ok (acc ++ out, masters.drop (files.filter isDescriptor).length, workers) ∧
        (out.filter isDescriptor).map some =
          List.zipWith (populate env g) (files.filter isDescriptor) masters := by
  intro files
  induction files with
  | nil =>
    intro acc masters _
    exact ⟨[], by simp [updateBootstrapFiles], by simp⟩
  | cons file rest ih =>
    intro acc masters H
    by_cases hd : isDescriptor file = true
    · have hfilter : (file :: rest).filter isDescriptor = file :: rest.filter isDescriptor := by
        simp [List.filter_cons, hd]
      rw [hfilter] at H ⊢
      obtain ⟨host, bmh, out0, hhost, hbmh, hcls, hmod⟩ := H 0 file (by simp)
      cases masters with
      | nil => simp at hhost
      | cons m ms =>
        simp only [List.getElem?_cons_zero, Option.some.injEq] at hhost
        subst hhost
        simp only [List.drop_zero] at hcls
        have hstep := updateBootstrapFile_master env g m ms workers file out0 bmh hd hbmh hcls hmod
        obtain ⟨out, hout, hzip⟩ := ih (acc ++ [out0]) ms (by
          intro i f hf
          obtain ⟨host, bmh', out', h1, h2, h3, h4⟩ := H (i + 1) f (by simpa using hf)
          exact ⟨host, bmh', out', by simpa using h1, h2, by simpa using h3, h4⟩)
        refine ⟨out0 :: out, ?_, ?_⟩
        · unfold updateBootstrapFiles
          rw [hstep]
          simp only [Option.toList]
          rw [hout]
          simp
        · have hd0 : isDescriptor out0 = true := by
            rw [isDescriptor_of_path out0 file (modifyBMHFile_path env g file bmh m out0 hmod)]
            exact hd
          have hpop : populate env g file m = some out0 := by
            simp [populate, hbmh, hmod]
          simp only [List.filter_cons, hd0, if_true, List.map_cons, List.zipWith_cons_cons, hpop]
          rw [hzip]
    · have hd' : isDescriptor file = false := by simpa using hd
      have hfilter : (file :: rest).filter isDescriptor = rest.filter isDescriptor := by
        simp [List.filter_cons, hd']
      rw [hfilter] at H ⊢
      obtain ⟨kept, hstep, hkept⟩ := updateBootstrapFile_other env g masters workers file hd'
      obtain ⟨out, hout, hzip⟩ := ih (acc ++ kept.toList) masters H
      refine ⟨kept.toList ++ out, ?_, ?_⟩
      · unfold updateBootstrapFiles
        rw [hstep]
        simp only
        rw [hout]
        simp
      · rw [List.filter_append, hkept]
        simpa using hzip

/-- The files that `updateBootstrap` appends after the loop are not descriptors. -/
theorem setFileInIgnition_descriptors (config : Config) (filePath fileContents : String)
    (appendContent : Bool) (mode : Int) (overwrite : Bool)
    (h : isDescriptor { path := filePath } = false) :
    (setFileInIgnition config filePath fileContents appendContent mode overwrite).files.filter
        isDescriptor = config.files.filter isDescriptor := by
  unfold setFileInIgnition
  simp only [List.filter_append]
  have : ∀ f : File, f.path = filePath → [f].filter isDescriptor = [] := by
    intro f hf
    have := isDescriptor_of_path f { path := filePath } hf
    simp [List.filter_cons, this, h]
  rw [this _ (by split <;> rfl)]
  simp

/-- The loop of `updateBootstrap` on a concatenation of file lists. -/
theorem updateBootstrapFiles_append (env : Env) (g : Generator) :
    ∀ (pre rest : List File) (state : List File × List Host × List Host),
      updateBootstrapFiles env g (pre ++ rest) state =
        match updateBootstrapFiles env g pre state with
        | .error err => .error err
        | .ok state' => updateBootstrapFiles env g rest state' := by
  intro pre
  induction pre with
  | nil => intro rest state; simp [updateBootstrapFiles]
  | cons file pre ih =>
    intro rest state
    obtain ⟨newFiles, masters, workers⟩ := state
    simp only [List.cons_append, updateBootstrapFiles]
    cases hstep : updateBootstrapFile env g masters workers file with
    | error err => rfl
    | ok r =>
      obtain ⟨kept, masters', workers'⟩ := r
      simp only
      exact ih rest _

/-- C3, amended: let the bootstrap document hold as many descriptor files as the cluster
has masters, and let every descriptor be decodable, be classified as master at the
moment the loop reaches it (its name is the hostname of a master that is still in the
queue, or it is the hostname of no queued host and contains `-master-`), and be
populated without error from the master of its position. Then `updateBootstrap` succeeds
and writes a document in which the i-th descriptor (in file order) is the one populated
from the i-th master (in hostname-sorted order): each descriptor is populated from
exactly one master and no master is used twice, and the assignment depends only on the
file order and the sorted order of the masters. -/
theorem updateBootstrap_populates_in_queue_order (env : Env) (g : Generator) (fs : FS)
    (bootstrapPath : String) (config : Config)
    (hparse : parseIgnitionFile env fs bootstrapPath = .ok config)
    (hcount : (config.files.filter isDescriptor).length = (sortHosts env g.cluster.hosts).1.length)
    (hcls : ∀ i f, (config.files.filter isDescriptor)[i]? = some f →
      ∃ host bmh out, (sortHosts env g.cluster.hosts).1[i]? = some host ∧
        fileToBMH env f = .ok bmh ∧
        bmhIsMaster bmh (getHostnames env ((sortHosts env g.cluster.hosts).1.drop i))
          (getHostnames env (sortHosts env g.cluster.hosts).2) = true ∧
        modifyBMHFile env g f bmh host = .ok out) :
    ∃ written : Config,
      updateBootstrap env g fs bootstrapPath =
        (none, writeFile fs bootstrapPath (Bytes.json written)) ∧
      (written.files.filter isDescriptor).map some =
        List.zipWith (populate env g) (config.files.filter isDescriptor)
          (sortHosts env g.cluster.hosts).1 ∧
      (written.files.filter isDescriptor).length = (sortHosts env g.cluster.hosts).1.length := by
  obtain ⟨out, hloop, hzip⟩ :=
    updateBootstrapFiles_masters env g (sortHosts env g.cluster.hosts).2 config.files []
      (sortHosts env g.cluster.hosts).1 hcls
  have hmarker : isDescriptor { path := "/opt/openshift/assisted-install-bootstrap" } = false := by
    decide
  have hnm : isDescriptor { path := "/etc/NetworkManager/conf.d/99-kni.conf" } = false := by
    decide
  have hlen : (out.filter isDescriptor).length = (sortHosts env g.cluster.hosts).1.length := by
    have := congrArg List.length hzip
    simp only [List.length_map, List.length_zipWith, hcount, min_self] at this
    exact this
  unfold updateBootstrap
  rw [hparse]
  simp only [List.nil_append] at hloop
  simp only [hloop]
  refine ⟨_, rfl, ?_, ?_⟩
  · rw [← hzip]
    congr 1
    unfold setNMConfigration
    split <;> split <;>
      simp only [setFileInIgnition_descriptors _ _ _ _ _ _ hmarker,
        setFileInIgnition_descriptors _ _ _ _ _ _ hnm]
  · rw [← hlen]
    congr 1
    unfold setNMConfigration
    split <;> split <;>
      simp only [setFileInIgnition_descriptors _ _ _ _ _ _ hmarker,
        setFileInIgnition_descriptors _ _ _ _ _ _ hnm]

set_option maxRecDepth 100000 in
/-- C3, amended, at two masters `b`, `a` and the descriptors `a`, `b` in file order. -/
theorem updateBootstrap_populates_in_queue_order_witness :
    ∃ written : Config,
      updateBootstrap sampleEnv (sampleGenerator [sampleMaster "b", sampleMaster "a"])
          (sampleBootstrap [sampleDescriptor "0" "a", sampleDescriptor "1" "b"])
          "/work/bootstrap.ign" =
        (none, writeFile (sampleBootstrap [sampleDescriptor "0" "a", sampleDescriptor "1" "b"])
          "/work/bootstrap.ign" (Bytes.json written)) ∧
      (written.files.filter isDescriptor).map some =
        List.zipWith (populate sampleEnv (sampleGenerator [sampleMaster "b", sampleMaster "a"]))
          (([sampleDescriptor "0" "a", sampleDescriptor "1" "b"] : List File).filter isDescriptor)
          (sortHosts sampleEnv [sampleMaster "b", sampleMaster "a"]).1 ∧
      (written.files.filter isDescriptor).length =
        (sortHosts sampleEnv [sampleMaster "b", sampleMaster "a"]).1.length :=
  updateBootstrap_populates_in_queue_order sampleEnv
    (sampleGenerator [sampleMaster "b", sampleMaster "a"])
    (sampleBootstrap [sampleDescriptor "0" "a", sampleDescriptor "1" "b"]) "/work/bootstrap.ign"
    { version := "3.2.0", files := [sampleDescriptor "0" "a", sampleDescriptor "1" "b"] }
    (by decide) (by decide)
    (by
      intro i f hf
      match i, hf with
      | 0, hf =>
        have hf' : f = sampleDescriptor "0" "a" := by
          have : (some (sampleDescriptor "0" "a") : Option File) = some f := by
            rw [← hf]; decide
          exact (Option.some.inj this).symm
        subst hf'
        exact ⟨sampleMaster "a", { name := "a" },
          { sampleDescriptor "0" "a" with
            contents := { source := some "data:text/plain;charset=utf-8;base64,bmFtZTogYQo=" } },
          by decide, by decide, by decide, by decide⟩
      | 1, hf =>
        have hf' : f = sampleDescriptor "1" "b" := by
          have : (some (sampleDescriptor "1" "b") : Option File) = some f := by
            rw [← hf]; decide
          exact (Option.some.inj this).symm
        subst hf'
        exact ⟨sampleMaster "b", { name := "b" },
          { sampleDescriptor "1" "b" with
            contents := { source := some "data:text/plain;charset=utf-8;base64,bmFtZTogYgo=" } },
          by decide, by decide, by decide, by decide⟩
      | n + 2, hf =>
        have : (([sampleDescriptor "0" "a", sampleDescriptor "1" "b"] : List File).filter
            isDescriptor)[n + 2]? = none := by
          have hl : (([sampleDescriptor "0" "a", sampleDescriptor "1" "b"] : List File).filter
              isDescriptor).length = 2 := by decide
          rw [List.getElem?_eq_none]
          omega
        simp only at hf
        rw [this] at hf
        cases hf)

set_option maxRecDepth 100000 in
/-- C3, as stated, fails: two masters `a` and `b`, two descriptors named after them, but
in the file order `b`, `a`. The first descriptor takes the master `a`; the second is then
named after no host of the queues and does not contain `-master-`, so it is taken for a
worker, and `updateBootstrap` returns an error. -/
theorem updateBootstrap_unsorted_descriptors_fail :
    (sortHosts sampleEnv [sampleMaster "a", sampleMaster "b"]).1 =
      [sampleMaster "a", sampleMaster "b"] ∧
    fileToBMH sampleEnv (sampleDescriptor "0" "b") = .ok { name := "b" } ∧
    fileToBMH sampleEnv (sampleDescriptor "1" "a") = .ok { name := "a" } ∧
    updateBootstrap sampleEnv (sampleGenerator [sampleMaster "a", sampleMaster "b"])
        (sampleBootstrap [sampleDescriptor "0" "b", sampleDescriptor "1" "a"])
        "/work/bootstrap.ign" =
      (some (Failure.error "Not enough registered workers to match with BareMetalHosts"),
        sampleBootstrap [sampleDescriptor "0" "b", sampleDescriptor "1" "a"]) := by
  refine ⟨by decide, by decide, by decide, by decide⟩

/-- C4: when the loop of `updateBootstrap` reaches a descriptor file while the queue of
hosts of its role is empty, `updateBootstrap` returns the error `Not enough registered
masters to match with BareMetalHosts` (or `... workers ...`) and leaves the working
directory as it was: no bootstrap document is written. -/
theorem updateBootstrap_queue_exhausted (env : Env) (g : Generator) (fs : FS)
    (bootstrapPath : String) (config : Config) (pre post newFiles : List File) (file : File)
    (bmh : BareMetalHost) (masters workers : List Host)
    (hparse : parseIgnitionFile env fs bootstrapPath = .ok config)
    (hfiles : config.files = pre ++ file :: post)
    (hpre : updateBootstrapFiles env g pre
      ([], (sortHosts env g.cluster.hosts).1, (sortHosts env g.cluster.hosts).2) =
        .ok (newFiles, masters, workers))
    (hdesc : isDescriptor file = true)
    (hbmh : fileToBMH env file = .ok bmh)
    (hempty : if bmhIsMaster bmh (getHostnames env masters) (getHostnames env workers) = true
      then masters = [] else workers = []) :
    updateBootstrap env g fs bootstrapPath =
      (some (Failure.error
        (if bmhIsMaster bmh (getHostnames env masters) (getHostnames env workers) = true
          then "Not enough registered masters to match with BareMetalHosts"
          else "Not enough registered workers to match with BareMetalHosts")), fs) := by
  unfold isDescriptor at hdesc
  simp only [Bool.and_eq_true, Bool.not_eq_true'] at hdesc
  have hstep : updateBootstrapFile env g masters workers file =
      .error (Failure.error
        (if bmhIsMaster bmh (getHostnames env masters) (getHostnames env workers) = true
          then "Not enough registered masters to match with BareMetalHosts"
          else "Not enough registered workers to match with BareMetalHosts")) := by
    unfold updateBootstrapFile
    simp only [hdesc.1.1, hdesc.1.2, hdesc.2, hbmh, Bool.false_eq_true, if_false, if_true]
    by_cases hc : bmhIsMaster bmh (getHostnames env masters) (getHostnames env workers) = true
    · rw [if_pos hc] at hempty
      subst hempty
      simp [hc]
    · rw [if_neg hc] at hempty
      subst hempty
      simp [hc]
  unfold updateBootstrap
  rw [hparse]
  simp only [hfiles, updateBootstrapFiles_append, hpre, updateBootstrapFiles, hstep]

set_option maxRecDepth 100000 in
/-- C4 at a bootstrap document with two master descriptors and a cluster with one
master. -/
theorem updateBootstrap_queue_exhausted_witness :
    updateBootstrap sampleEnv (sampleGenerator [sampleMaster "a"])
        (sampleBootstrap [sampleDescriptor "0" "a", sampleDescriptor "1" "cluster-master-1"])
        "/work/bootstrap.ign" =
      (some (Failure.error "Not enough registered masters to match with BareMetalHosts"),
        sampleBootstrap [sampleDescriptor "0" "a", sampleDescriptor "1" "cluster-master-1"]) :=
  updateBootstrap_queue_exhausted sampleEnv (sampleGenerator [sampleMaster "a"])
    (sampleBootstrap [sampleDescriptor "0" "a", sampleDescriptor "1" "cluster-master-1"])
    "/work/bootstrap.ign"
    { version := "3.2.0"
      files := [sampleDescriptor "0" "a", sampleDescriptor "1" "cluster-master-1"] }
    [sampleDescriptor "0" "a"] []
    [{ sampleDescriptor "0" "a" with
        contents := { source := some "data:text/plain;charset=utf-8;base64,bmFtZTogYQo=" } }]
    (sampleDescriptor "1" "cluster-master-1") { name := "cluster-master-1" } [] []
    (by decide) (by decide) (by decide) (by decide) (by decide) (by decide)

/-! ### The discovery document -/

/-- `getUserSSHKey` never returns an error. -/
theorem getUserSSHKey_snd (sshKey : String) : (getUserSSHKey sshKey).2 = none := by
  unfold getUserSSHKey
  simp only
  split <;> rfl

/-- `proxySettingsForIgnition` never returns an error. -/
theorem proxySettingsForIgnition_snd (a b c : String) : (proxySettingsForIgnition a b c).2 = none := by
  unfold proxySettingsForIgnition
  split <;> rfl

/-- With `safeForLogs` set, the map built by the first part of the builder does not
depend on the user key, the pull secret, the token or the root CA switch. -/
theorem baseIgnitionParams_redacted (env : Env) (infraEnv : InfraEnv) (cfg : IgnitionConfig)
    (authType token : String) (ht : env.agentToken infraEnv authType = .ok token) :
    baseIgnitionParams env infraEnv cfg true authType =
      .ok (redactParams (initialIgnitionParams env infraEnv cfg ""
        (proxySettingsForIgnition (env.getProxyConfigs infraEnv.proxy).1
          (env.getProxyConfigs infraEnv.proxy).2.1 (env.getProxyConfigs infraEnv.proxy).2.2).1
        (env.getProxyConfigs infraEnv.proxy).1 (env.getProxyConfigs infraEnv.proxy).2.1
        (env.getProxyConfigs infraEnv.proxy).2.2 "" "")) := by
  unfold baseIgnitionParams
  rw [ht]
  simp only
  have h1 := proxySettingsForIgnition_snd (env.getProxyConfigs infraEnv.proxy).1
    (env.getProxyConfigs infraEnv.proxy).2.1 (env.getProxyConfigs infraEnv.proxy).2.2
  have h2 := getUserSSHKey_snd infraEnv.sshAuthorizedKey
  generalize proxySettingsForIgnition (env.getProxyConfigs infraEnv.proxy).1
    (env.getProxyConfigs infraEnv.proxy).2.1 (env.getProxyConfigs infraEnv.proxy).2.2 = ps at h1 ⊢
  generalize getUserSSHKey infraEnv.sshAuthorizedKey = uk at h2 ⊢
  obtain ⟨ps1, ps2⟩ := ps
  obtain ⟨uk1, uk2⟩ := uk
  simp only at h1 h2
  subst h1 h2
  simp [redactParams, initialIgnitionParams]

/-- The second part of the builder leaves the four secret entries as they are. -/
theorem optionalIgnitionParams_secrets (env : Env) (infraEnv : InfraEnv) (cfg : IgnitionConfig)
    (q p : IgnitionParams) (hp : optionalIgnitionParams env infraEnv cfg q = .ok p) :
    p.userSshKey = q.userSshKey ∧ p.PullSecretToken = q.PullSecretToken ∧
    p.PULL_SECRET = q.PULL_SECRET ∧ p.RH_ROOT_CA = q.RH_ROOT_CA := by
  unfold optionalIgnitionParams at hp
  split at hp
  · cases hp
  · rename_i p1 h1
    have e1 : p1.userSshKey = q.userSshKey ∧ p1.PullSecretToken = q.PullSecretToken ∧
        p1.PULL_SECRET = q.PULL_SECRET ∧ p1.RH_ROOT_CA = q.RH_ROOT_CA := by
      split at h1
      · split at h1
        · cases h1
        · cases h1
          exact ⟨rfl, rfl, rfl, rfl⟩
      · cases h1
        exact ⟨rfl, rfl, rfl, rfl⟩
    simp only at hp
    split at hp
    · cases hp
    · rename_i p2 h2
      have e2 : p2.userSshKey = q.userSshKey ∧ p2.PullSecretToken = q.PullSecretToken ∧
          p2.PULL_SECRET = q.PULL_SECRET ∧ p2.RH_ROOT_CA = q.RH_ROOT_CA := by
        split at h2
        · split at h2
          · cases h2
          · cases h2
            split <;> exact e1
        · cases h2
          split <;> exact e1
      split at hp
      · cases hp
      · rename_i p3 h3
        have e3 : p3.userSshKey = q.userSshKey ∧ p3.PullSecretToken = q.PullSecretToken ∧
            p3.PULL_SECRET = q.PULL_SECRET ∧ p3.RH_ROOT_CA = q.RH_ROOT_CA := by
          split at h3
          · split at h3
            · cases h3
            · split at h3
              · cases h3
              · cases h3
                exact e2
          · cases h3
            exact e2
        split at hp
        · cases hp
          exact e3
        · cases hp
          exact e3

/-- The concatenation of two lists of texts. -/
theorem concat_append (xs ys : List String) : concat (xs ++ ys) = concat xs ++ concat ys := by
  induction xs with
  | nil => simp [concat]
  | cons x rest ih => simp [concat, ih, String.append_assoc]

/-- The pieces of the template around its four secret parameters: the user key is piece 9,
the token is in the conditional piece 31, the pull secret is piece 111 and the root CA is
in the conditional piece 125; no other piece depends on them. -/
theorem discoveryIgnitionConfigParts_places (q : IgnitionParams) (key token pull ca : String) :
    discoveryIgnitionConfigParts
        { q with userSshKey := key, PullSecretToken := token, PULL_SECRET := pull, RH_ROOT_CA := ca } =
      (discoveryIgnitionConfigParts q).take 9 ++
        (key :: (((discoveryIgnitionConfigParts q).drop 10).take 21 ++
          ((if token ≠ "" then concat ["\\nEnvironment=PULL_SECRET_TOKEN=", token] else "") ::
            (((discoveryIgnitionConfigParts q).drop 32).take 79 ++
              (pull :: (((discoveryIgnitionConfigParts q).drop 112).take 13 ++
                ((if ca ≠ "" then rhRootCAEntry ca else "") ::
                  (discoveryIgnitionConfigParts q).drop 126))))))) := by
  rfl

/-- The concatenation of a list with a head. -/
theorem concat_cons (x : String) (xs : List String) : concat (x :: xs) = x ++ concat xs := rfl

/-- The rendered template as the texts around the four secret parameters and their
values. -/
theorem discoveryIgnitionConfigFormat_places (q : IgnitionParams) (key token pull ca : String) :
    discoveryIgnitionConfigFormat
        { q with userSshKey := key, PullSecretToken := token, PULL_SECRET := pull, RH_ROOT_CA := ca } =
      concat [
        concat ((discoveryIgnitionConfigParts q).take 9),
        key,
        concat (((discoveryIgnitionConfigParts q).drop 10).take 21),
        (if token ≠ "" then concat ["\\nEnvironment=PULL_SECRET_TOKEN=", token] else ""),
        concat (((discoveryIgnitionConfigParts q).drop 32).take 79),
        pull,
        concat (((discoveryIgnitionConfigParts q).drop 112).take 13),
        (if ca ≠ "" then rhRootCAEntry ca else ""),
        concat ((discoveryIgnitionConfigParts q).drop 126)] := by
  unfold discoveryIgnitionConfigFormat
  rw [discoveryIgnitionConfigParts_places]
  have hnil : concat [] = "" := rfl
  simp only [concat_append, concat_cons, hnil, String.append_empty]

/-- C6: with `safeForLogs` set, the parameter map from which the discovery document is
rendered carries the placeholder `*****` for the user SSH key, the pull secret, the
session token and the root CA, and the rendered text carries the placeholder at the four
places of the template where these parameters are printed: in the users list, after
`PULL_SECRET_TOKEN=` in the agent unit, as content of the pull-secret file and as content
of the root CA file; without overrides this text is what the call returns.  The texts
around the four places are the same for every value of the four parameters.  The call
does not depend on the values of the secrets: changing the SSH key, the pull secret (and
with it the derived token) and the root CA switch gives the same parameter map, hence
the same rendered text and the same result. -/
theorem discovery_redaction (env : Env) (infraEnv : InfraEnv) (cfg : IgnitionConfig)
    (authType sshKey pullSecret token token' : String) (installRHCa : Bool)
    (ht : env.agentToken infraEnv authType = .ok token)
    (ht' : env.agentToken { infraEnv with sshAuthorizedKey := sshKey, pullSecret := pullSecret }
      authType = .ok token') :
    (∀ p, discoveryIgnitionParams env infraEnv cfg true authType = .ok p →
      p.userSshKey = "*****" ∧ p.PullSecretToken = "*****" ∧ p.PULL_SECRET = "*****" ∧
      p.RH_ROOT_CA = "*****" ∧
      discoveryIgnitionConfigFormat p =
        concat [
          concat ((discoveryIgnitionConfigParts p).take 9),
          "*****",
          concat (((discoveryIgnitionConfigParts p).drop 10).take 21),
          "\\nEnvironment=PULL_SECRET_TOKEN=*****",
          concat (((discoveryIgnitionConfigParts p).drop 32).take 79),
          "*****",
          concat (((discoveryIgnitionConfigParts p).drop 112).take 13),
          rhRootCAEntry "*****",
          concat ((discoveryIgnitionConfigParts p).drop 126)] ∧
      (infraEnv.internalIgnitionConfigOverride = "" → infraEnv.ignitionConfigOverride = "" →
        FormatDiscoveryIgnitionFile env infraEnv cfg true authType =
          (Bytes.text (discoveryIgnitionConfigFormat p), none))) ∧
    (∀ (q : IgnitionParams) (key tok pull ca : String),
      discoveryIgnitionConfigFormat
          { q with userSshKey := key, PullSecretToken := tok, PULL_SECRET := pull, RH_ROOT_CA := ca } =
        concat [
          concat ((discoveryIgnitionConfigParts q).take 9),
          key,
          concat (((discoveryIgnitionConfigParts q).drop 10).take 21),
          (if tok ≠ "" then concat ["\\nEnvironment=PULL_SECRET_TOKEN=", tok] else ""),
          concat (((discoveryIgnitionConfigParts q).drop 32).take 79),
          pull,
          concat (((discoveryIgnitionConfigParts q).drop 112).take 13),
          (if ca ≠ "" then rhRootCAEntry ca else ""),
          concat ((discoveryIgnitionConfigParts q).drop 126)]) ∧
    discoveryIgnitionParams env { infraEnv with sshAuthorizedKey := sshKey, pullSecret := pullSecret }
        { cfg with installRHCa := installRHCa } true authType =
      discoveryIgnitionParams env infraEnv cfg true authType ∧
    FormatDiscoveryIgnitionFile env { infraEnv with sshAuthorizedKey := sshKey, pullSecret := pullSecret }
        { cfg with installRHCa := installRHCa } true authType =
      FormatDiscoveryIgnitionFile env infraEnv cfg true authType := by
  have hbase := baseIgnitionParams_redacted env infraEnv cfg authType token ht
  have hbase' := baseIgnitionParams_redacted env
    { infraEnv with sshAuthorizedKey := sshKey, pullSecret := pullSecret }
    { cfg with installRHCa := installRHCa } authType token' ht'
  have hsame : baseIgnitionParams env
      { infraEnv with sshAuthorizedKey := sshKey, pullSecret := pullSecret }
      { cfg with installRHCa := installRHCa } true authType =
      baseIgnitionParams env infraEnv cfg true authType := by
    rw [hbase, hbase']
    simp [redactParams, initialIgnitionParams]
  have hparams : discoveryIgnitionParams env
      { infraEnv with sshAuthorizedKey := sshKey, pullSecret := pullSecret }
      { cfg with installRHCa := installRHCa } true authType =
      discoveryIgnitionParams env infraEnv cfg true authType := by
    unfold discoveryIgnitionParams
    rw [hsame]
    rfl
  refine ⟨?_, discoveryIgnitionConfigFormat_places, hparams, ?_⟩
  · intro p hp
    have hp0 := hp
    unfold discoveryIgnitionParams at hp
    rw [hbase] at hp
    simp only at hp
    have h := optionalIgnitionParams_secrets env infraEnv cfg _ p hp
    have h1 : p.userSshKey = "*****" := h.1
    have h2 : p.PullSecretToken = "*****" := h.2.1
    have h3 : p.PULL_SECRET = "*****" := h.2.2.1
    have h4 : p.RH_ROOT_CA = "*****" := h.2.2.2
    refine ⟨h1, h2, h3, h4, ?_, ?_⟩
    · have hf := discoveryIgnitionConfigFormat_places p "*****" "*****" "*****" "*****"
      have hp' : redactParams p = p := by
        cases p
        simp_all [redactParams]
      change discoveryIgnitionConfigFormat (redactParams p) = _ at hf
      rw [hp'] at hf
      rw [hf]
      rfl
    · intro hi hu
      unfold FormatDiscoveryIgnitionFile
      simp [hp0, hi, hu]
  · unfold FormatDiscoveryIgnitionFile
    rw [hparams]

set_option maxRecDepth 100000 in
/-- C6 at two calls that differ in SSH key, pull secret and root CA switch: both return
the same text, which is the rendered template with the placeholder at the four places. -/
theorem discovery_redaction_witness :
    FormatDiscoveryIgnitionFile sampleEnv
        { sampleInfraEnv with sshAuthorizedKey := "ssh-ed25519 AAAAC3Nza other@example.com",
                              pullSecret := "another pull secret" }
        { sampleConfig with installRHCa := true } true "none" =
      FormatDiscoveryIgnitionFile sampleEnv sampleInfraEnv sampleConfig true "none" ∧
    FormatDiscoveryIgnitionFile sampleEnv sampleInfraEnv sampleConfig true "none" =
      (Bytes.text (discoveryIgnitionConfigFormat (sampleParamsOf sampleInfraEnv sampleConfig true)),
        none) ∧
    discoveryIgnitionConfigFormat (sampleParamsOf sampleInfraEnv sampleConfig true) =
      concat [
        concat ((discoveryIgnitionConfigParts (sampleParamsOf sampleInfraEnv sampleConfig true)).take 9),
        "*****",
        concat (((discoveryIgnitionConfigParts (sampleParamsOf sampleInfraEnv sampleConfig true)).drop 10).take 21),
        "\\nEnvironment=PULL_SECRET_TOKEN=*****",
        concat (((discoveryIgnitionConfigParts (sampleParamsOf sampleInfraEnv sampleConfig true)).drop 32).take 79),
        "*****",
        concat (((discoveryIgnitionConfigParts (sampleParamsOf sampleInfraEnv sampleConfig true)).drop 112).take 13),
        rhRootCAEntry "*****",
        concat ((discoveryIgnitionConfigParts (sampleParamsOf sampleInfraEnv sampleConfig true)).drop 126)] :=
  have h := discovery_redaction sampleEnv sampleInfraEnv sampleConfig "none"
    "ssh-ed25519 AAAAC3Nza other@example.com" "another pull secret" "" "" true
    (by decide) (by decide)
  have hp := h.1 (sampleParamsOf sampleInfraEnv sampleConfig true) (by decide)
  ⟨h.2.2.2, hp.2.2.2.2.2 (by decide) (by decide), hp.2.2.2.2.1⟩

set_option maxRecDepth 1000000 in
/-- C5, at a failing input: with a vendor RPM image configured, `safeForLogs` false and
inputs that need no escaping, `FormatDiscoveryIgnitionFile` returns without error a text
that is not well-formed JSON (the `multipathd.service` unit of the vendor block ends
with a comma before its closing brace); the same call without the vendor RPM image
returns well-formed JSON. -/
theorem discovery_okd_document_malformed :
    (FormatDiscoveryIgnitionFile sampleEnv sampleInfraEnv sampleOKDConfig false "none").2 = none ∧
    (FormatDiscoveryIgnitionFile sampleEnv sampleInfraEnv sampleOKDConfig false "none").1.wellFormed
      = false ∧
    (FormatDiscoveryIgnitionFile sampleEnv sampleInfraEnv sampleConfig false "none").2 = none ∧
    (FormatDiscoveryIgnitionFile sampleEnv sampleInfraEnv sampleConfig false "none").1.wellFormed
      = true := by
  refine ⟨by decide, by decide, by decide, by decide⟩

/-! ### Lemmas on the normalizer and on the merge -/

/-- A file that was just written is read back. -/
theorem readFile_writeFile (fs : FS) (path : String) (content : Bytes) :
    readFile (writeFile fs path content) path = some content := by
  simp [readFile, writeFile]

/-- A normalized tree passed the validation of its declared version, and the parser of
that version holds it unchanged. -/
theorem ParseToLatest_valid (env : Env) (content : Bytes) (c : Config)
    (h : ParseToLatest env content = .ok c) :
    (if c.version = "3.1.0" then env.fatal31 (toV31 c) else env.fatal32 c) = false ∧
      asDeclared c = c := by
  unfold ParseToLatest at h
  split at h
  · rename_i config h32
    cases h
    unfold parse32 configParse at h32
    split at h32
    · cases h32
    · split at h32
      · cases h32
      · split at h32
        · cases h32
        · rename_i hv hf
          cases h32
          have hv2 : c.version = "3.2.0" := by simpa using hv
          have h31 : ¬ c.version = "3.1.0" := by rw [hv2]; decide
          simp only [asDeclared, if_neg h31, and_true]
          exact (not_fatal hf).2
  · split at h
    · cases h
    · rename_i c31 h31
      cases h
      unfold parse31 configParse at h31
      split at h31
      · cases h31
      · rename_i d hd
        split at h31
        · cases h31
        · split at h31
          · cases h31
          · rename_i hv hf
            cases h31
            cases hdec : decodeBytes env content with
            | none => simp [hdec] at hd
            | some t =>
              simp only [hdec, Option.map_some', Option.some.injEq] at hd
              subst hd
              have hf2 : env.fatal31 (toV31 t) = false := (not_fatal hf).2
              have hv1 : (toV31 t).version = "3.1.0" := by simpa using hv
              have heq : ({ toV31 t with version := "3.1.0" } : Config) = toV31 t := by
                cases t
                simp_all [toV31]
              rw [heq]
              have hidem : toV31 (toV31 t) = toV31 t := rfl
              simp only [asDeclared, hv1, if_true, hidem, hf2, and_self]

/-- Whenever `MergeIgnitionConfig` reports an error, the document it returns is the
empty text. -/
theorem MergeIgnitionConfig_error (env : Env) (base overrides : Bytes)
    (h : (MergeIgnitionConfig env base overrides).2 ≠ none) :
    (MergeIgnitionConfig env base overrides).1 = Bytes.text "" := by
  unfold MergeIgnitionConfig at h ⊢
  cases hb : ParseToLatest env base with
  | error e => rfl
  | ok b =>
    cases ho : ParseToLatest env overrides with
    | error e => rfl
    | ok o =>
      simp only [hb, ho] at h ⊢
      split
      · rfl
      · rename_i c hc
        simp only [hc] at h
        exact absurd rfl h

/-- A successful `MergeIgnitionConfig` returns the serialization of the merge of the two
normalized trees, and that merge passed the parser of its declared version. -/
theorem MergeIgnitionConfig_inv (env : Env) (base overrides m : Bytes)
    (h : MergeIgnitionConfig env base overrides = (m, none)) :
    ∃ b o : Config, ParseToLatest env base = .ok b ∧ ParseToLatest env overrides = .ok o ∧
      m = Bytes.json (mergeConfig b o) ∧
      (if o.version = "3.1.0" then env.fatal31 (toV31 (mergeConfig b o))
        else env.fatal32 (mergeConfig b o)) = false := by
  unfold MergeIgnitionConfig at h
  split at h
  · cases h
  · rename_i b hb
    split at h
    · cases h
    · rename_i o ho
      have hmv : (mergeConfig b o).version = o.version := rfl
      simp only [hmv] at h
      split at h
      · cases h
      · rename_i c hc
        simp only [Prod.mk.injEq, and_true] at h
        refine ⟨b, o, hb, ho, h.symm, ?_⟩
        by_cases h31 : o.version = "3.1.0"
        · rw [if_pos h31] at hc ⊢
          simp only [parse31, configParse, decodeBytes, Option.map_some'] at hc
          split at hc
          · cases hc
          · split at hc
            · cases hc
            · rename_i hf
              exact (not_fatal hf).2
        · rw [if_neg h31] at hc ⊢
          simp only [parse32, configParse, decodeBytes] at hc
          split at hc
          · cases hc
          · split at hc
            · cases hc
            · rename_i hf
              exact (not_fatal hf).2

/-! ### The merge and the declared version -/

/-- C12, at the failing input: the base declares version 3.1.0, the override declares
3.2.0 and brings a luks device, a list that the v3.1 format does not have.  The comment
in `MergeIgnitionConfig` says that the validation of the merge is there so that users
"do not try to override with putting features of 3.2.0 into ignition manifest of 3.1.0";
the validator is chosen by the version of the merge, which is the version of the
override, so the merge is returned without error, as a document that declares 3.2.0 and
holds the device. -/
theorem merge_newer_override_passes_guard :
    ∃ b merged : Config,
      ParseToLatest sampleEnv (Bytes.text sampleBaseText) = .ok b ∧ b.version = "3.1.0" ∧
      MergeIgnitionConfig sampleEnv (Bytes.text sampleBaseText) (Bytes.text sampleLuksOverrideText) =
        (Bytes.json merged, none) ∧
      merged.version = "3.2.0" ∧
      merged.luks = [{ name := "data", device := some "/dev/sdb" }] ∧
      toV31 merged ≠ merged :=
  ⟨{ version := "3.1.0", files := [{ path := "/etc/foo" }] },
   { version := "3.2.0", files := [{ path := "/etc/foo" }],
     luks := [{ name := "data", device := some "/dev/sdb" }] },
   by decide, by decide, by decide, by decide, by decide, by decide⟩

/-- The validation step of `MergeIgnitionConfig`: the merge of two normalized documents
declares the version of the override, and it is read again by the v3.1 parser when that
version is 3.1.0 and by the v3.2 parser otherwise; an error of that parser, a fatal
report included, is returned with the empty text, and without such an error the
serialized merge is returned. An error is never returned with a text. -/
theorem MergeIgnitionConfig_validation (env : Env) (base overrides : Bytes) (b o : Config)
    (hb : ParseToLatest env base = .ok b) (ho : ParseToLatest env overrides = .ok o) :
    (mergeConfig b o).version = o.version ∧
    (o.version = "3.1.0" →
      (∀ e, parse31 env (Bytes.json (mergeConfig b o)) = .error e →
        MergeIgnitionConfig env base overrides = (Bytes.text "", some e)) ∧
      (∀ c, parse31 env (Bytes.json (mergeConfig b o)) = .ok c →
        MergeIgnitionConfig env base overrides = (Bytes.json (mergeConfig b o), none)) ∧
      (env.fatal31 (toV31 (mergeConfig b o)) = true →
        MergeIgnitionConfig env base overrides = (Bytes.text "", some "config is not valid"))) ∧
    (o.version ≠ "3.1.0" →
      (∀ e, parse32 env (Bytes.json (mergeConfig b o)) = .error e →
        MergeIgnitionConfig env base overrides = (Bytes.text "", some e)) ∧
      (∀ c, parse32 env (Bytes.json (mergeConfig b o)) = .ok c →
        MergeIgnitionConfig env base overrides = (Bytes.json (mergeConfig b o), none)) ∧
      (env.fatal32 (mergeConfig b o) = true →
        MergeIgnitionConfig env base overrides = (Bytes.text "", some "config is not valid"))) ∧
    ((MergeIgnitionConfig env base overrides).2 ≠ none →
      (MergeIgnitionConfig env base overrides).1 = Bytes.text "") := by
  have hmv : (mergeConfig b o).version = o.version := rfl
  have hv := ParseToLatest_version env overrides o ho
  refine ⟨hmv, ?_, ?_, MergeIgnitionConfig_error env base overrides⟩
  · intro h31
    have hv1 : (toV31 (mergeConfig b o)).version = "3.1.0" := h31
    refine ⟨?_, ?_, ?_⟩
    · intro e he
      unfold MergeIgnitionConfig
      simp only [hb, ho, hmv, h31, if_true, he]
    · intro c hc
      unfold MergeIgnitionConfig
      simp only [hb, ho, hmv, h31, if_true, hc]
    · intro hf
      unfold MergeIgnitionConfig
      simp [hb, ho, hmv, h31, parse31, configParse, decodeBytes, hv1, hf]
  · intro h31
    have h32 : o.version = "3.2.0" := by
      rcases hv with hv | hv
      · exact hv
      · exact absurd hv h31
    refine ⟨?_, ?_, ?_⟩
    · intro e he
      unfold MergeIgnitionConfig
      simp only [hb, ho, hmv, h31, if_false, he]
    · intro c hc
      unfold MergeIgnitionConfig
      simp only [hb, ho, hmv, h31, if_false, hc]
    · intro hf
      unfold MergeIgnitionConfig
      simp [hb, ho, hmv, h32, parse32, configParse, decodeBytes, hf]

/-- C13, as stated, fails: a base that declares version 3.2.0 merged with an override
that declares 3.1.0 gives a document that declares 3.1.0, not the version of the base. -/
theorem merge_older_override_lowers_version :
    ∃ b merged : Config,
      ParseToLatest sampleEnv (Bytes.text sampleBase32Text) = .ok b ∧ b.version = "3.2.0" ∧
      MergeIgnitionConfig sampleEnv (Bytes.text sampleBase32Text) (Bytes.text sampleOverrideText) =
        (Bytes.json merged, none) ∧
      merged.version = "3.1.0" ∧ merged.version ≠ b.version :=
  ⟨{ version := "3.2.0", files := [{ path := "/etc/foo" }] },
   { version := "3.1.0", files := [{ path := "/etc/foo" }, { path := "/etc/bar" }] },
   by decide, by decide, by decide, by decide, by decide⟩

/-- C13, amended: the document that `MergeIgnitionConfig` returns declares the version of
the override; it declares the version of the base when the base and the override declare
the same version. -/
theorem merge_declares_override_version (env : Env) (base overrides m : Bytes)
    (h : MergeIgnitionConfig env base overrides = (m, none)) :
    ∃ b o merged : Config,
      ParseToLatest env base = .ok b ∧ ParseToLatest env overrides = .ok o ∧
      m = Bytes.json merged ∧ merged.version = o.version ∧
      (b.version = o.version → merged.version = b.version) := by
  obtain ⟨b, o, hb, ho, hm, _⟩ := MergeIgnitionConfig_inv env base overrides m h
  exact ⟨b, o, mergeConfig b o, hb, ho, hm, rfl, fun hbo => hbo.symm⟩

/-- The amended C13 at a base that declares 3.1.0 and an override that declares 3.2.0. -/
theorem merge_declares_override_version_witness :
    ∃ b o merged : Config,
      ParseToLatest sampleEnv (Bytes.text sampleBaseText) = .ok b ∧
      ParseToLatest sampleEnv (Bytes.text sampleLuksOverrideText) = .ok o ∧
      (Bytes.json { version := "3.2.0", files := [{ path := "/etc/foo" }],
                    luks := [{ name := "data", device := some "/dev/sdb" }] } : Bytes) =
        Bytes.json merged ∧
      merged.version = o.version ∧ (b.version = o.version → merged.version = b.version) :=
  merge_declares_override_version sampleEnv (Bytes.text sampleBaseText)
    (Bytes.text sampleLuksOverrideText) _ (by decide)

/-! ### The normalizer -/

/-- C14: `ParseToLatest` returns the result of the v3.2 parser when that parser succeeds;
when the v3.2 parser fails and the v3.1 parser succeeds it returns the v3.1 tree with the
version set to `3.1.0`, a tree without luks devices; it returns an error exactly when both
parsers fail. -/
theorem ParseToLatest_tries_v32_then_v31 (env : Env) (content : Bytes) :
    (∀ c, parse32 env content = .ok c → ParseToLatest env content = .ok c) ∧
    (∀ e c, parse32 env content = .error e → parse31 env content = .ok c →
      ParseToLatest env content = .ok { c with version := "3.1.0" } ∧ c.luks = []) ∧
    ((∃ err, ParseToLatest env content = .error err) ↔
      (∃ e32, parse32 env content = .error e32) ∧ (∃ e31, parse31 env content = .error e31)) := by
  refine ⟨?_, ?_, ?_⟩
  · intro c h32
    simp only [ParseToLatest, h32]
  · intro e c h32 h31
    refine ⟨by simp only [ParseToLatest, h32, h31], ?_⟩
    unfold parse31 configParse at h31
    split at h31
    · cases h31
    · rename_i d hd
      split at h31
      · cases h31
      · split at h31
        · cases h31
        · cases h31
          cases hdec : decodeBytes env content with
          | none => simp [hdec] at hd
          | some t =>
            simp only [hdec, Option.map_some', Option.some.injEq] at hd
            subst hd
            rfl
  · unfold ParseToLatest
    cases h32 : parse32 env content with
    | ok c => simp
    | error e32 =>
      cases h31 : parse31 env content with
      | ok c => simp
      | error e31 => simp

/-- C14 at the sample base text, which declares version 3.1.0. -/
theorem ParseToLatest_tries_v32_then_v31_witness :
    ParseToLatest sampleEnv (Bytes.text sampleBaseText) =
        .ok { ({ version := "3.1.0", files := [{ path := "/etc/foo" }] } : Config) with
              version := "3.1.0" } ∧
      ({ version := "3.1.0", files := [{ path := "/etc/foo" }] } : Config).luks = [] :=
  (ParseToLatest_tries_v32_then_v31 sampleEnv (Bytes.text sampleBaseText)).2.1
    "unsupported config version" { version := "3.1.0", files := [{ path := "/etc/foo" }] }
    (by decide) (by decide)

/-! ### The reader on the texts of the writer -/

/-- The value of the hexadecimal digit that the writer uses. -/
theorem hexValue_hexDigit (d : Nat) (h : d < 16) : hexValue (hexDigit d) = some d := by
  interval_cases d <;> rfl

/-- The four hexadecimal digits of an escape give the code unit back. -/
theorem hex_digits_value (n : Nat) (h : n < 65536) :
    ((n / 4096 % 16 * 16 + n / 256 % 16) * 16 + n / 16 % 16) * 16 + n % 16 = n := by
  omega

/-- A character that ends no token leaves the grammar as it is. -/
theorem feed_nil (p : Option (List Frame × Expect)) : feed p [] = p := by
  cases p <;> rfl

/-- A character that ends no token moves the state of the tokens only. -/
theorem runJSON_silent (st st' : LexState) (stack : List Frame) (e : Expect) (c : Char)
    (cs : List Char) (h : lexStep st c = some (st', [])) :
    runJSON st stack e (c :: cs) = runJSON st' stack e cs := by
  rw [runJSON, h]
  rfl

/-- A character that ends one token hands it to the grammar. -/
theorem runJSON_token (st st' : LexState) (stack : List Frame) (e : Expect) (c : Char)
    (cs : List Char) (tok : Token) (h : lexStep st c = some (st', [tok])) :
    runJSON st stack e (c :: cs) =
      match parseStep stack e tok with
      | none => none
      | some (stack', e') => runJSON st' stack' e' cs := by
  rw [runJSON, h]
  simp only [feed]

/-- A hexadecimal digit of an escape that is not the last one. -/
theorem lexStep_hex (acc : List Char) (count value d : Nat) (hd : d < 16) (hc : count < 3) :
    lexStep (.hex acc none count value) (hexDigit d) =
      some (.hex acc none (count + 1) (value * 16 + d), []) := by
  simp [lexStep, hexValue_hexDigit d hd, hc]

/-- The last hexadecimal digit of the escape of a character. -/
theorem lexStep_hex_last (acc : List Char) (value d : Nat) (hd : d < 16) (c : Char)
    (hv : value * 16 + d = c.toNat) :
    lexStep (.hex acc none 3 value) (hexDigit d) = some (.inString (c :: acc), []) := by
  have hvalid : c.toNat < 55296 ∨ 57343 < c.toNat := by
    have := c.valid
    simp only [UInt32.isValidChar, Nat.isValidChar] at this
    rcases this with h | h
    · exact Or.inl h
    · exact Or.inr h.1
  have hn1 : ¬ (55296 ≤ c.toNat ∧ c.toNat < 56320) := by omega
  have hn2 : ¬ (56320 ≤ c.toNat ∧ c.toNat < 57344) := by omega
  simp [lexStep, hexValue_hexDigit d hd, afterUnicode, afterCodeUnit, hv, hn1, hn2,
    Char.ofNat_toNat]

/-- The reader on the escape `\uXXXX` of a character below 0x10000. -/
theorem runJSON_jsonU (c : Char) (h : c.toNat < 65536) (acc rest : List Char)
    (stack : List Frame) (e : Expect) :
    runJSON (.inString acc) stack e (jsonU c.toNat ++ rest) =
      runJSON (.inString (c :: acc)) stack e rest := by
  simp only [jsonU, List.cons_append, List.nil_append]
  rw [runJSON_silent (.inString acc) (.escape acc) _ _ '\\' _ rfl,
    runJSON_silent (.escape acc) (.hex acc none 0 0) _ _ 'u' _ rfl,
    runJSON_silent _ _ _ _ _ _ (lexStep_hex acc 0 0 _ (Nat.mod_lt _ (by decide)) (by decide)),
    runJSON_silent _ _ _ _ _ _ (lexStep_hex acc 1 _ _ (Nat.mod_lt _ (by decide)) (by decide)),
    runJSON_silent _ _ _ _ _ _ (lexStep_hex acc 2 _ _ (Nat.mod_lt _ (by decide)) (by decide)),
    runJSON_silent _ _ _ _ _ _ (lexStep_hex_last acc _ _ (Nat.mod_lt _ (by decide)) c
      (by omega))]

/-- The reader on a character of a string as the writer writes it. -/
theorem runJSON_escapeChar (c : Char) (acc rest : List Char) (stack : List Frame) (e : Expect) :
    runJSON (.inString acc) stack e (jsonEscapeChar c ++ rest) =
      runJSON (.inString (c :: acc)) stack e rest := by
  unfold jsonEscapeChar
  split
  · rename_i h; subst h; rfl
  · split
    · rename_i h; subst h; rfl
    · split
      · rename_i h; subst h; rfl
      · split
        · rename_i h; subst h; rfl
        · split
          · rename_i h; subst h; rfl
          · rename_i hq hb hn hr ht
            split
            · rename_i hu
              apply runJSON_jsonU
              simp only [Bool.or_eq_true, decide_eq_true_eq] at hu
              rcases hu with ((((hu | hu) | hu) | hu) | hu) | hu
              · omega
              · subst hu; decide
              · subst hu; decide
              · subst hu; decide
              · omega
              · omega
            · rename_i hu
              simp only [Bool.or_eq_true, decide_eq_true_eq, not_or] at hu
              exact runJSON_silent _ _ _ _ _ _ (by simp [lexStep, lexInString, hq, hb, hu.1.1.1.1.1])

/-- The reader on the characters of a string as the writer writes them. -/
theorem runJSON_escaped (cs : List Char) (acc rest : List Char) (stack : List Frame) (e : Expect) :
    runJSON (.inString acc) stack e (cs.flatMap jsonEscapeChar ++ rest) =
      runJSON (.inString (cs.reverse ++ acc)) stack e rest := by
  induction cs generalizing acc with
  | nil => rfl
  | cons c cs ih =>
    simp only [List.flatMap_cons, List.append_assoc, List.reverse_cons, List.singleton_append]
    rw [runJSON_escapeChar, ih]

/-- The reader on a string of the writer: the string is a token of the grammar. -/
theorem runJSON_renderString (s : String) (rest : List Char) (stack : List Frame) (e : Expect) :
    runJSON .ready stack e (renderString s rest) =
      match parseStep stack e (.string s) with
      | none => none
      | some (stack', e') => runJSON .ready stack' e' rest := by
  unfold renderString
  rw [runJSON_silent .ready (.inString []) _ _ '"' _ rfl, runJSON_escaped]
  exact runJSON_token _ _ _ _ _ _ _ (by simp [lexStep, lexInString])


/-- The reader on what follows a number: the number is a token of the grammar. -/
theorem runJSON_digits_end (neg : Bool) (m : Nat) (stack : List Frame) (e : Expect)
    (rest : List Char) (h : endsValue rest = true) :
    runJSON (.digits neg m) stack e rest =
      match parseStep stack e (numberToken neg m) with
      | none => none
      | some (stack', e') => runJSON .ready stack' e' rest := by
  cases rest with
  | nil =>
    simp only [runJSON, finishJSON]
    cases parseStep stack e (numberToken neg m) with
    | none => rfl
    | some p => rfl
  | cons c cs =>
    simp only [endsValue, Bool.or_eq_true, decide_eq_true_eq] at h
    rcases h with (h | h) | h <;> subst h
    · have hstep : lexStep (.digits neg m) ',' = some (.ready, [numberToken neg m, .comma]) := rfl
      rw [runJSON, hstep]
      simp only [feed]
      try (cases parseStep stack e (numberToken neg m) <;> rfl)
    · have hstep : lexStep (.digits neg m) ']' = some (.ready, [numberToken neg m, .endArray]) := rfl
      rw [runJSON, hstep]
      simp only [feed]
      try (cases parseStep stack e (numberToken neg m) <;> rfl)
    · have hstep : lexStep (.digits neg m) '\x7d' = some (.ready, [numberToken neg m, .endObject]) := rfl
      rw [runJSON, hstep]
      simp only [feed]
      try (cases parseStep stack e (numberToken neg m) <;> rfl)

/-- The reader on what follows the number zero. -/
theorem runJSON_zero_end (neg : Bool) (stack : List Frame) (e : Expect)
    (rest : List Char) (h : endsValue rest = true) :
    runJSON (.zero neg) stack e rest =
      match parseStep stack e (numberToken neg 0) with
      | none => none
      | some (stack', e') => runJSON .ready stack' e' rest := by
  cases rest with
  | nil =>
    simp only [runJSON, finishJSON]
    cases parseStep stack e (numberToken neg 0) with
    | none => rfl
    | some p => rfl
  | cons c cs =>
    simp only [endsValue, Bool.or_eq_true, decide_eq_true_eq] at h
    rcases h with (h | h) | h <;> subst h
    · have hstep : lexStep (.zero neg) ',' = some (.ready, [numberToken neg 0, .comma]) := rfl
      rw [runJSON, hstep]
      simp only [feed]
      try (cases parseStep stack e (numberToken neg 0) <;> rfl)
    · have hstep : lexStep (.zero neg) ']' = some (.ready, [numberToken neg 0, .endArray]) := rfl
      rw [runJSON, hstep]
      simp only [feed]
      try (cases parseStep stack e (numberToken neg 0) <;> rfl)
    · have hstep : lexStep (.zero neg) '\x7d' = some (.ready, [numberToken neg 0, .endObject]) := rfl
      rw [runJSON, hstep]
      simp only [feed]
      try (cases parseStep stack e (numberToken neg 0) <;> rfl)

/-- A decimal digit is a digit, and its value is itself. -/
theorem digitChar_digit (d : Nat) (h : d < 10) :
    isDigit (digitChar d) = true ∧ (digitChar d).toNat - 48 = d ∧
      (0 < d → digitChar d ≠ '0') ∧ digitChar 0 = '0' := by
  interval_cases d <;> decide

/-- A further digit of a number. -/
theorem lexStep_digit (neg : Bool) (m d : Nat) (h : d < 10) :
    lexStep (.digits neg m) (digitChar d) = some (.digits neg (m * 10 + d), []) := by
  have hd := digitChar_digit d h
  simp [lexStep, hd.1, hd.2.1]

/-- The first digit of a number that is not zero. -/
theorem lexStep_first_digit (d : Nat) (h : d < 10) (hpos : 0 < d) :
    lexStep .ready (digitChar d) = some (.digits false d, []) ∧
      lexStep .minus (digitChar d) = some (.digits true d, []) := by
  interval_cases d <;> exact ⟨rfl, rfl⟩

/-- The reader on the decimal digits of a positive number, at the start of a value or
after the minus sign. -/
theorem runJSON_renderNatAux (fuel n : Nat) (hn : n < fuel) (hpos : 0 < n) (tail : List Char)
    (stack : List Frame) (e : Expect) :
    runJSON .ready stack e (renderNatAux fuel n tail) = runJSON (.digits false n) stack e tail ∧
      runJSON .minus stack e (renderNatAux fuel n tail) = runJSON (.digits true n) stack e tail := by
  induction fuel generalizing n tail with
  | zero => omega
  | succ fuel ih =>
    unfold renderNatAux
    by_cases h10 : n < 10
    · rw [if_pos h10]
      have hs := lexStep_first_digit n h10 hpos
      exact ⟨runJSON_silent _ _ _ _ _ _ hs.1, runJSON_silent _ _ _ _ _ _ hs.2⟩
    · rw [if_neg h10]
      have ih' := ih (n / 10) (by omega) (by omega) (digitChar (n % 10) :: tail)
      have hmod : n / 10 * 10 + n % 10 = n := by omega
      have hstep := fun neg => lexStep_digit neg (n / 10) (n % 10) (Nat.mod_lt _ (by decide))
      rw [ih'.1, ih'.2, runJSON_silent _ _ _ _ _ _ (hstep false),
        runJSON_silent _ _ _ _ _ _ (hstep true), hmod]
      exact ⟨rfl, rfl⟩

/-- The reader on a number of the writer: the number is a token of the grammar. -/
theorem runJSON_renderInt (n : Int) (rest : List Char) (stack : List Frame) (e : Expect)
    (h : endsValue rest = true) :
    runJSON .ready stack e (renderInt n rest) =
      match parseStep stack e (.number n) with
      | none => none
      | some (stack', e') => runJSON .ready stack' e' rest := by
  unfold renderInt
  by_cases hneg : n < 0
  · rw [if_pos hneg, runJSON_silent .ready .minus _ _ '-' _ rfl,
      (runJSON_renderNatAux _ n.natAbs (by omega) (by omega) rest stack e).2,
      runJSON_digits_end true _ _ _ _ h]
    have : numberToken true n.natAbs = .number n := by
      simp only [numberToken, if_true]
      congr 1
      omega
    rw [this]
  · rw [if_neg hneg]
    by_cases h0 : n = 0
    · subst h0
      have : renderNatAux ((0 : Int).natAbs + 1) (0 : Int).natAbs rest = '0' :: rest := rfl
      rw [this, runJSON_silent .ready (.zero false) _ _ '0' _ rfl, runJSON_zero_end false _ _ _ h]
      rfl
    · rw [(runJSON_renderNatAux _ n.natAbs (by omega) (by omega) rest stack e).1,
        runJSON_digits_end false _ _ _ _ h]
      have : numberToken false n.natAbs = .number n := by
        simp only [numberToken, Bool.false_eq_true, if_false]
        congr 1
        omega
      rw [this]

/-- A character that ends one token which the grammar takes. -/
theorem runJSON_taken (st st' : LexState) (stack stack' : List Frame) (e e' : Expect) (c : Char)
    (cs : List Char) (tok : Token) (h : lexStep st c = some (st', [tok]))
    (hp : parseStep stack e tok = some (stack', e')) :
    runJSON st stack e (c :: cs) = runJSON st' stack' e' cs := by
  rw [runJSON_token _ _ _ _ _ _ _ h, hp]

/-- Where a value may start, a string or a number completes it. -/
theorem parseStep_scalar (stack : List Frame) (e : Expect) (he : e = .value ∨ e = .valueOrEnd)
    (s : String) (n : Int) :
    parseStep stack e (.string s) = completeValue stack (.str s) ∧
      parseStep stack e (.number n) = completeValue stack (.num n) := by
  rcases he with rfl | rfl
  · exact ⟨rfl, rfl⟩
  · cases stack with
    | nil => exact ⟨rfl, rfl⟩
    | cons f fs => cases f <;> exact ⟨rfl, rfl⟩

/-- Where a value may start, a literal name completes it and an opening bracket starts a
container. -/
theorem parseStep_value (stack : List Frame) (e : Expect) (he : e = .value ∨ e = .valueOrEnd) :
    parseStep stack e .litNull = completeValue stack .null ∧
      parseStep stack e .litTrue = completeValue stack (.bool true) ∧
      parseStep stack e .litFalse = completeValue stack (.bool false) ∧
      parseStep stack e .beginArray = some (.array [] :: stack, .valueOrEnd) ∧
      parseStep stack e .beginObject = some (.object [] none :: stack, .keyOrEnd) := by
  rcases he with rfl | rfl
  · exact ⟨rfl, rfl, rfl, rfl, rfl⟩
  · cases stack with
    | nil => exact ⟨rfl, rfl, rfl, rfl, rfl⟩
    | cons f fs => cases f <;> exact ⟨rfl, rfl, rfl, rfl, rfl⟩

/-- What follows an item of an array of the writer. -/
theorem endsValue_renderItems (xs : List JSON) (rest : List Char) :
    endsValue (renderItems xs (']' :: rest)) = true := by
  cases xs <;> simp [renderItems, endsValue]

/-- What follows the value of a member of an object of the writer. -/
theorem endsValue_renderMembers (ms : List (String × JSON)) (rest : List Char) :
    endsValue (renderMembers ms ('\x7d' :: rest)) = true := by
  rcases ms with _ | ⟨⟨k, v⟩, ms⟩ <;> simp [renderMembers, endsValue]

mutual
/-- The reader on the text of a value of the writer: the value is complete. -/
theorem runJSON_renderJSON : ∀ (j : JSON) (rest : List Char) (stack : List Frame) (e : Expect),
    (e = .value ∨ e = .valueOrEnd) → endsValue rest = true →
    runJSON .ready stack e (renderJSON j rest) =
      match completeValue stack j with
      | none => none
      | some (stack', e') => runJSON .ready stack' e' rest
  | .null, rest, stack, e, he, _ => by
    simp only [renderJSON]
    rw [runJSON_silent .ready (.word ['u', 'l', 'l'] .litNull) _ _ 'n' _ rfl,
      runJSON_silent (.word ['u', 'l', 'l'] .litNull) (.word ['l', 'l'] .litNull) _ _ 'u' _ rfl,
      runJSON_silent (.word ['l', 'l'] .litNull) (.word ['l'] .litNull) _ _ 'l' _ rfl,
      runJSON_token (.word ['l'] .litNull) .ready _ _ 'l' _ .litNull rfl,
      (parseStep_value stack e he).1]
  | .bool true, rest, stack, e, he, _ => by
    simp only [renderJSON]
    rw [runJSON_silent .ready (.word ['r', 'u', 'e'] .litTrue) _ _ 't' _ rfl,
      runJSON_silent (.word ['r', 'u', 'e'] .litTrue) (.word ['u', 'e'] .litTrue) _ _ 'r' _ rfl,
      runJSON_silent (.word ['u', 'e'] .litTrue) (.word ['e'] .litTrue) _ _ 'u' _ rfl,
      runJSON_token (.word ['e'] .litTrue) .ready _ _ 'e' _ .litTrue rfl,
      (parseStep_value stack e he).2.1]
  | .bool false, rest, stack, e, he, _ => by
    simp only [renderJSON]
    rw [runJSON_silent .ready (.word ['a', 'l', 's', 'e'] .litFalse) _ _ 'f' _ rfl,
      runJSON_silent (.word ['a', 'l', 's', 'e'] .litFalse) (.word ['l', 's', 'e'] .litFalse)
        _ _ 'a' _ rfl,
      runJSON_silent (.word ['l', 's', 'e'] .litFalse) (.word ['s', 'e'] .litFalse) _ _ 'l' _ rfl,
      runJSON_silent (.word ['s', 'e'] .litFalse) (.word ['e'] .litFalse) _ _ 's' _ rfl,
      runJSON_token (.word ['e'] .litFalse) .ready _ _ 'e' _ .litFalse rfl,
      (parseStep_value stack e he).2.2.1]
  | .num n, rest, stack, e, he, hrest => by
    simp only [renderJSON]
    rw [runJSON_renderInt n rest stack e hrest, (parseStep_scalar stack e he "" n).2]
  | .str s, rest, stack, e, he, _ => by
    simp only [renderJSON]
    rw [runJSON_renderString s rest stack e, (parseStep_scalar stack e he s 0).1]
  | .arr [], rest, stack, e, he, _ => by
    simp only [renderJSON]
    rw [runJSON_taken .ready .ready _ _ _ _ '[' _ .beginArray rfl
        (parseStep_value stack e he).2.2.2.1,
      runJSON_token .ready .ready _ _ ']' _ .endArray rfl]
    rfl
  | .arr (x :: xs), rest, stack, e, he, _ => by
    simp only [renderJSON]
    rw [runJSON_taken .ready .ready _ _ _ _ '[' _ .beginArray rfl
        (parseStep_value stack e he).2.2.2.1,
      runJSON_renderJSON x _ _ .valueOrEnd (Or.inr rfl) (endsValue_renderItems xs rest)]
    exact runJSON_renderItems xs [x] rest stack
  | .obj [], rest, stack, e, he, _ => by
    simp only [renderJSON]
    rw [runJSON_taken .ready .ready _ _ _ _ '\x7b' _ .beginObject rfl
        (parseStep_value stack e he).2.2.2.2,
      runJSON_token .ready .ready _ _ '\x7d' _ .endObject rfl]
    rfl
  | .obj ((k, v) :: ms), rest, stack, e, he, _ => by
    simp only [renderJSON]
    rw [runJSON_taken .ready .ready _ _ _ _ '\x7b' _ .beginObject rfl
        (parseStep_value stack e he).2.2.2.2,
      runJSON_renderString k _ _ .keyOrEnd]
    have hkey : parseStep (.object [] none :: stack) .keyOrEnd (.string k) =
        some (.object [] (some k) :: stack, .colon) := rfl
    rw [hkey]
    simp only []
    rw [runJSON_taken .ready .ready (.object [] (some k) :: stack)
        (.object [] (some k) :: stack) .colon .value ':' _ .colon rfl rfl,
      runJSON_renderJSON v _ _ .value (Or.inl rfl) (endsValue_renderMembers ms rest)]
    exact runJSON_renderMembers ms [(k, v)] rest stack
/-- The reader on the further items of an array of the writer, after the items `done`
(the last one first). -/
theorem runJSON_renderItems : ∀ (xs : List JSON) (done : List JSON) (rest : List Char)
    (stack : List Frame),
    runJSON .ready (.array done :: stack) .next (renderItems xs (']' :: rest)) =
      match completeValue stack (.arr (done.reverse ++ xs)) with
      | none => none
      | some (stack', e') => runJSON .ready stack' e' rest
  | [], done, rest, stack => by
    simp only [renderItems, List.append_nil]
    rw [runJSON_token .ready .ready _ _ ']' _ .endArray rfl]
    rfl
  | x :: xs, done, rest, stack => by
    simp only [renderItems]
    rw [runJSON_taken .ready .ready (.array done :: stack) (.array done :: stack) .next .value ','
        _ .comma rfl rfl,
      runJSON_renderJSON x _ _ .value (Or.inl rfl) (endsValue_renderItems xs rest)]
    have h := runJSON_renderItems xs (x :: done) rest stack
    simp only [List.reverse_cons, List.append_assoc, List.singleton_append] at h
    exact h
/-- The reader on the further members of an object of the writer, after the members
`done` (the last one first). -/
theorem runJSON_renderMembers : ∀ (ms : List (String × JSON)) (done : List (String × JSON))
    (rest : List Char) (stack : List Frame),
    runJSON .ready (.object done none :: stack) .next (renderMembers ms ('\x7d' :: rest)) =
      match completeValue stack (.obj (done.reverse ++ ms)) with
      | none => none
      | some (stack', e') => runJSON .ready stack' e' rest
  | [], done, rest, stack => by
    simp only [renderMembers, List.append_nil]
    rw [runJSON_token .ready .ready _ _ '\x7d' _ .endObject rfl]
    rfl
  | (k, v) :: ms, done, rest, stack => by
    simp only [renderMembers]
    rw [runJSON_taken .ready .ready (.object done none :: stack) (.object done none :: stack)
        .next .key ',' _ .comma rfl rfl,
      runJSON_renderString k _ _ .key]
    have hkey : parseStep (.object done none :: stack) .key (.string k) =
        some (.object done (some k) :: stack, .colon) := rfl
    rw [hkey]
    simp only []
    rw [runJSON_taken .ready .ready (.object done (some k) :: stack)
        (.object done (some k) :: stack) .colon .value ':' _ .colon rfl rfl,
      runJSON_renderJSON v _ _ .value (Or.inl rfl) (endsValue_renderMembers ms rest)]
    have h := runJSON_renderMembers ms ((k, v) :: done) rest stack
    simp only [List.reverse_cons, List.append_assoc, List.singleton_append] at h
    exact h
end

/-- The reader gives back the value that the writer wrote. -/
theorem jsonParse_renderJSON (j : JSON) : jsonParse (String.mk (renderJSON j [])) = some j := by
  unfold jsonParse
  rw [runJSON_renderJSON j [] [] .value (Or.inl rfl) rfl]
  rfl

/-! ### The decoder on the trees of the encoder -/

/-- The members of an object that have the key `k`, when no field has it. -/
theorem members_filter_absent (fields : List (String × Option JSON)) (k : String)
    (h : k ∉ fields.map Prod.fst) : (members fields).filter (fun m => m.1 = k) = [] := by
  induction fields with
  | nil => rfl
  | cons f fs ih =>
    obtain ⟨k', o⟩ := f
    simp only [List.map_cons, List.mem_cons, not_or] at h
    have ih' := ih h.2
    have hk : ¬ k' = k := fun e => h.1 e.symm
    cases o with
    | none => simpa [members] using ih'
    | some v =>
      simp only [members, List.filterMap_cons, Option.map_some'] at ih' ⊢
      rw [List.filter_cons]
      simp [hk, ih']

/-- The value of a key in the object of the fields of a struct: the value of the field,
when the keys differ and no value is `null`. -/
theorem jsonField_members (fields : List (String × Option JSON)) (k : String)
    (hnodup : (fields.map Prod.fst).Nodup) (hnn : ∀ f ∈ fields, f.2 ≠ some .null) :
    jsonField (members fields) k = some ((fields.lookup k).join) := by
  induction fields with
  | nil => rfl
  | cons f fs ih =>
    obtain ⟨k', o⟩ := f
    simp only [List.map_cons, List.nodup_cons] at hnodup
    have ih' := ih hnodup.2 (fun f hf => hnn f (List.mem_cons_of_mem _ hf))
    have ho : o ≠ some .null := hnn (k', o) (List.mem_cons_self _ _)
    by_cases hk : k = k'
    · subst hk
      have habs := members_filter_absent fs k hnodup.1
      cases o with
      | none =>
        simp only [members, List.filterMap_cons, Option.map_none'] at habs ⊢
        simp [jsonField, habs, List.lookup]
      | some v =>
        simp only [members, List.filterMap_cons, Option.map_some'] at habs ⊢
        simp only [jsonField, List.filter_cons, decide_True, if_true, habs]
        cases v <;> simp_all [List.lookup]
    · have hk' : ¬ k' = k := fun e => hk e.symm
      have hbeq : (k == k') = false := by simpa using hk
      cases o with
      | none =>
        simp only [members, List.filterMap_cons, Option.map_none'] at ih' ⊢
        simp [ih', List.lookup, hbeq]
      | some v =>
        simp only [members, List.filterMap_cons, Option.map_some'] at ih' ⊢
        simp only [jsonField, List.filter_cons, hk', decide_False] at ih' ⊢
        simp [ih', List.lookup, hbeq]

/-- The encoding of a `*string` is not `null`. -/
theorem encodeStringPtr_ne (o : Option String) : encodeStringPtr o ≠ some .null := by
  cases o <;> simp [encodeStringPtr]

/-- The encoding of a `*bool` is not `null`. -/
theorem encodeBoolPtr_ne (o : Option Bool) : encodeBoolPtr o ≠ some .null := by
  cases o <;> simp [encodeBoolPtr]

/-- The encoding of a `*int` is not `null`. -/
theorem encodeIntPtr_ne (o : Option Int) : encodeIntPtr o ≠ some .null := by
  cases o <;> simp [encodeIntPtr]

/-- The encoding of a `string` is not `null`. -/
theorem encodeStringOmit_ne (s : String) : encodeStringOmit s ≠ some .null := by
  unfold encodeStringOmit
  split <;> simp

/-- The encoding of a slice is not `null`. -/
theorem encodeSlice_ne {α : Type} (enc : α → JSON) (xs : List α) :
    encodeSlice enc xs ≠ some .null := by
  cases xs <;> simp [encodeSlice]

/-- A `*string` is decoded from its encoding. -/
theorem decodeStringPtr_encode (o : Option String) :
    decodeStringPtr (encodeStringPtr o) = some o := by
  cases o <;> rfl

/-- A `*bool` is decoded from its encoding. -/
theorem decodeBoolPtr_encode (o : Option Bool) : decodeBoolPtr (encodeBoolPtr o) = some o := by
  cases o <;> rfl

/-- A `*int` is decoded from its encoding. -/
theorem decodeIntPtr_encode (o : Option Int) : decodeIntPtr (encodeIntPtr o) = some o := by
  cases o <;> rfl

/-- A `string` with `omitempty` is decoded from its encoding: the empty string is left out
and is the zero value of the field. -/
theorem decodeString_encodeOmit (s : String) : decodeString (encodeStringOmit s) = some s := by
  unfold encodeStringOmit
  split
  · next h => subst h; rfl
  · rfl

/-- A slice of structs is decoded from its encoding, when each struct is. -/
theorem decodeSlice_encodeSlice {α : Type} (enc : α → JSON)
    (dec : List (String × JSON) → Option α)
    (h : ∀ x, ∃ m, enc x = .obj m ∧ dec m = some x) (xs : List α) :
    decodeSlice dec (encodeSlice enc xs) = some xs := by
  cases xs with
  | nil => rfl
  | cons y ys =>
    have hel : ∀ zs : List α, decodeElements dec (zs.map enc) = some zs := by
      intro zs
      induction zs with
      | nil => rfl
      | cons z zs ih =>
        obtain ⟨m, hm, hd⟩ := h z
        simp only [List.map_cons, decodeElements, hm, decodeStruct, hd, ih]
    exact hel (y :: ys)

/-- An `HTTPHeader` is decoded from its encoding. -/
theorem decodeHTTPHeader_encode (h : HTTPHeader) :
    ∃ m, encodeHTTPHeader h = .obj m ∧ decodeHTTPHeader m = some h := by
  refine ⟨_, rfl, ?_⟩
  have hf := jsonField_members [("name", some (.str h.name)), ("value", encodeStringPtr h.value)]
  simp only [decodeHTTPHeader]
  rw [hf "name" (by simp) (by simp [encodeStringPtr_ne]),
    hf "value" (by simp) (by simp [encodeStringPtr_ne])]
  simp [List.lookup, decodeString, decodeStringPtr_encode]

/-- A `Verification` is decoded from its encoding. -/
theorem decodeVerification_encode (h : Option String) :
    decodeStruct decodeVerification (some (.obj (members [("hash", encodeStringPtr h)]))) =
      some h := by
  have hf := fun k => jsonField_members [("hash", encodeStringPtr h)] k (by simp)
    (by simp [encodeStringPtr_ne])
  simp only [decodeStruct, decodeVerification, hf]
  simp [List.lookup, decodeStringPtr_encode]

/-- A `Resource` is decoded from its encoding. -/
theorem decodeResource_encode (r : Resource) :
    ∃ m, encodeResource r = .obj m ∧ decodeResource m = some r := by
  refine ⟨_, rfl, ?_⟩
  have hf := fun k => jsonField_members [
    ("compression", encodeStringPtr r.compression),
    ("httpHeaders", encodeSlice encodeHTTPHeader r.httpHeaders),
    ("source", encodeStringPtr r.source),
    ("verification", some (.obj (members [("hash", encodeStringPtr r.verificationHash)])))] k
    (by simp) (by simp [encodeStringPtr_ne, encodeSlice_ne])
  simp only [decodeResource, hf]
  simp [List.lookup, decodeStringPtr_encode, decodeVerification_encode,
    decodeSlice_encodeSlice _ _ decodeHTTPHeader_encode]

/-- A `NodeGroup` or `NodeUser` is decoded from its encoding. -/
theorem decodeOwner_encode (id : Option Int) (name : Option String) :
    decodeStruct decodeOwner (some (encodeOwner id name)) = some (id, name) := by
  have hf := fun k => jsonField_members [("id", encodeIntPtr id), ("name", encodeStringPtr name)] k
    (by simp) (by simp [encodeStringPtr_ne, encodeIntPtr_ne])
  simp only [encodeOwner, decodeStruct, decodeOwner, hf]
  simp [List.lookup, decodeStringPtr_encode, decodeIntPtr_encode]

/-- The encoding of a `NodeGroup` or `NodeUser` is not `null`. -/
theorem encodeOwner_ne (id : Option Int) (name : Option String) :
    encodeOwner id name ≠ .null := by
  simp [encodeOwner]

/-- A `Resource` field is decoded from its encoding. -/
theorem decodeStruct_encodeResource (r : Resource) :
    decodeStruct decodeResource (some (encodeResource r)) = some r := by
  obtain ⟨m, hm, hd⟩ := decodeResource_encode r
  rw [hm]
  exact hd

/-- The encoding of a `Resource` is not `null`. -/
theorem encodeResource_ne (r : Resource) : encodeResource r ≠ .null := by
  simp [encodeResource]

/-- A `File` is decoded from its encoding. -/
theorem decodeFile_encode (f : File) :
    ∃ m, encodeFile f = .obj m ∧ decodeFile m = some f := by
  refine ⟨_, rfl, ?_⟩
  have hf := fun k => jsonField_members [
    ("group", some (encodeOwner f.groupID f.groupName)),
    ("overwrite", encodeBoolPtr f.overwrite),
    ("path", some (.str f.path)),
    ("user", some (encodeOwner f.userID f.userName)),
    ("append", encodeSlice encodeResource f.append),
    ("contents", some (encodeResource f.contents)),
    ("mode", encodeIntPtr f.mode)] k
    (by simp) (by simp [encodeBoolPtr_ne, encodeIntPtr_ne, encodeSlice_ne, encodeOwner_ne,
      encodeResource_ne])
  simp only [decodeFile, hf]
  simp [List.lookup, decodeBoolPtr_encode, decodeIntPtr_encode, decodeOwner_encode,
    decodeStruct_encodeResource, decodeString,
    decodeSlice_encodeSlice _ _ decodeResource_encode]

/-- A `Directory` is decoded from its encoding. -/
theorem decodeDirectory_encode (d : Directory) :
    ∃ m, encodeDirectory d = .obj m ∧ decodeDirectory m = some d := by
  refine ⟨_, rfl, ?_⟩
  have hf := fun k => jsonField_members [
    ("group", some (encodeOwner d.groupID d.groupName)),
    ("overwrite", encodeBoolPtr d.overwrite),
    ("path", some (.str d.path)),
    ("user", some (encodeOwner d.userID d.userName)),
    ("mode", encodeIntPtr d.mode)] k
    (by simp) (by simp [encodeBoolPtr_ne, encodeIntPtr_ne, encodeOwner_ne])
  simp only [decodeDirectory, hf]
  simp [List.lookup, decodeBoolPtr_encode, decodeIntPtr_encode, decodeOwner_encode, decodeString]

/-- A `Link` is decoded from its encoding. -/
theorem decodeLink_encode (l : Link) :
    ∃ m, encodeLink l = .obj m ∧ decodeLink m = some l := by
  refine ⟨_, rfl, ?_⟩
  have hf := fun k => jsonField_members [
    ("group", some (encodeOwner l.groupID l.groupName)),
    ("overwrite", encodeBoolPtr l.overwrite),
    ("path", some (.str l.path)),
    ("user", some (encodeOwner l.userID l.userName)),
    ("hard", encodeBoolPtr l.hard),
    ("target", some (.str l.target))] k
    (by simp) (by simp [encodeBoolPtr_ne, encodeOwner_ne])
  simp only [decodeLink, hf]
  simp [List.lookup, decodeBoolPtr_encode, decodeOwner_encode, decodeString]

/-- A `Luks` device is decoded from its encoding. -/
theorem decodeLuks_encode (l : Luks) :
    ∃ m, encodeLuks l = .obj m ∧ decodeLuks m = some l := by
  refine ⟨_, rfl, ?_⟩
  have hf := fun k => jsonField_members [
    ("device", encodeStringPtr l.device),
    ("keyFile", some (.obj [("verification", .obj [])])),
    ("label", encodeStringPtr l.label),
    ("name", some (.str l.name)),
    ("wipeVolume", encodeBoolPtr l.wipeVolume)] k
    (by simp) (by simp [encodeBoolPtr_ne, encodeStringPtr_ne])
  simp only [decodeLuks, hf]
  simp [List.lookup, decodeBoolPtr_encode, decodeStringPtr_encode, decodeString]

/-- A `Dropin` is decoded from its encoding. -/
theorem decodeDropin_encode (d : Dropin) :
    ∃ m, encodeDropin d = .obj m ∧ decodeDropin m = some d := by
  refine ⟨_, rfl, ?_⟩
  have hf := fun k => jsonField_members [
    ("contents", encodeStringPtr d.contents), ("name", some (.str d.name))] k
    (by simp) (by simp [encodeStringPtr_ne])
  simp only [decodeDropin, hf]
  simp [List.lookup, decodeStringPtr_encode, decodeString]

/-- A systemd `Unit` is decoded from its encoding. -/
theorem decodeUnit_encode (u : SystemdUnit) :
    ∃ m, encodeUnit u = .obj m ∧ decodeUnit m = some u := by
  refine ⟨_, rfl, ?_⟩
  have hf := fun k => jsonField_members [
    ("contents", encodeStringPtr u.contents),
    ("dropins", encodeSlice encodeDropin u.dropins),
    ("enabled", encodeBoolPtr u.enabled),
    ("mask", encodeBoolPtr u.mask),
    ("name", some (.str u.name))] k
    (by simp) (by simp [encodeBoolPtr_ne, encodeStringPtr_ne, encodeSlice_ne])
  simp only [decodeUnit, hf]
  simp [List.lookup, decodeBoolPtr_encode, decodeStringPtr_encode, decodeString,
    decodeSlice_encodeSlice _ _ decodeDropin_encode]

/-- The `ignition.config` object is decoded from its encoding. -/
theorem decodeIgnitionConfig_encode (merge : List Resource) :
    decodeStruct decodeIgnitionConfig (some (.obj (members [
      ("merge", encodeSlice encodeResource merge),
      ("replace", some (.obj [("verification", .obj [])]))]))) = some merge := by
  have hf := fun k => jsonField_members [
    ("merge", encodeSlice encodeResource merge),
    ("replace", some (.obj [("verification", .obj [])]))] k (by simp) (by simp [encodeSlice_ne])
  unfold decodeStruct
  simp only [decodeIgnitionConfig, hf]
  simp [List.lookup, decodeSlice_encodeSlice _ _ decodeResource_encode]

/-- The `ignition.security.tls` object is decoded from its encoding. -/
theorem decodeTLS_encode (cas : List Resource) :
    decodeStruct decodeTLS (some (.obj (members [
      ("certificateAuthorities", encodeSlice encodeResource cas)]))) = some cas := by
  have hf := fun k => jsonField_members [
    ("certificateAuthorities", encodeSlice encodeResource cas)] k (by simp)
    (by simp [encodeSlice_ne])
  unfold decodeStruct
  simp only [decodeTLS, hf]
  simp [List.lookup, decodeSlice_encodeSlice _ _ decodeResource_encode]

/-- The `ignition.security` object is decoded from its encoding. -/
theorem decodeSecurity_encode (cas : List Resource) :
    decodeStruct decodeSecurity (some (.obj (members [
      ("tls", some (.obj (members [
        ("certificateAuthorities", encodeSlice encodeResource cas)])))]))) = some cas := by
  have hf := fun k => jsonField_members [
    ("tls", some (.obj (members [
      ("certificateAuthorities", encodeSlice encodeResource cas)])))] k (by simp) (by simp)
  unfold decodeStruct
  simp only [decodeSecurity, hf]
  simp [List.lookup, decodeTLS_encode]

/-- The `ignition` object is decoded from its encoding. -/
theorem decodeIgnition_encode (version : String) (merge cas : List Resource) :
    decodeStruct decodeIgnition (some (.obj (members [
      ("config", some (.obj (members [
        ("merge", encodeSlice encodeResource merge),
        ("replace", some (.obj [("verification", .obj [])]))]))),
      ("proxy", some (.obj [])),
      ("security", some (.obj (members [
        ("tls", some (.obj (members [
          ("certificateAuthorities", encodeSlice encodeResource cas)])))]))),
      ("timeouts", some (.obj [])),
      ("version", encodeStringOmit version)]))) = some (merge, cas, version) := by
  have hf := fun k => jsonField_members [
    ("config", some (.obj (members [
      ("merge", encodeSlice encodeResource merge),
      ("replace", some (.obj [("verification", .obj [])]))]))),
    ("proxy", some (.obj [])),
    ("security", some (.obj (members [
      ("tls", some (.obj (members [
        ("certificateAuthorities", encodeSlice encodeResource cas)])))]))),
    ("timeouts", some (.obj [])),
    ("version", encodeStringOmit version)] k (by simp) (by simp [encodeStringOmit_ne])
  unfold decodeStruct
  simp only [decodeIgnition, hf]
  simp [List.lookup, decodeString_encodeOmit, decodeIgnitionConfig_encode, decodeSecurity_encode]

/-- The `storage` object is decoded from its encoding. -/
theorem decodeStorage_encode (directories : List Directory) (files : List File)
    (links : List Link) (luks : List Luks) :
    decodeStruct decodeStorage (some (.obj (members [
      ("directories", encodeSlice encodeDirectory directories),
      ("files", encodeSlice encodeFile files),
      ("links", encodeSlice encodeLink links),
      ("luks", encodeSlice encodeLuks luks)]))) = some (directories, files, links, luks) := by
  have hf := fun k => jsonField_members [
    ("directories", encodeSlice encodeDirectory directories),
    ("files", encodeSlice encodeFile files),
    ("links", encodeSlice encodeLink links),
    ("luks", encodeSlice encodeLuks luks)] k (by simp) (by simp [encodeSlice_ne])
  unfold decodeStruct
  simp only [decodeStorage, hf]
  simp [List.lookup, decodeSlice_encodeSlice _ _ decodeDirectory_encode,
    decodeSlice_encodeSlice _ _ decodeFile_encode, decodeSlice_encodeSlice _ _ decodeLink_encode,
    decodeSlice_encodeSlice _ _ decodeLuks_encode]

/-- The `systemd` object is decoded from its encoding. -/
theorem decodeSystemd_encode (units : List SystemdUnit) :
    decodeStruct decodeSystemd (some (.obj (members [("units", encodeSlice encodeUnit units)]))) =
      some units := by
  have hf := fun k => jsonField_members [("units", encodeSlice encodeUnit units)] k (by simp)
    (by simp [encodeSlice_ne])
  unfold decodeStruct
  simp only [decodeSystemd, hf]
  simp [List.lookup, decodeSlice_encodeSlice _ _ decodeUnit_encode]

/-- A `Config` is decoded from its encoding. -/
theorem decodeConfig_encode (c : Config) :
    ∃ m, encodeConfig c = .obj m ∧ decodeConfig m = some c := by
  refine ⟨_, rfl, ?_⟩
  have hf := fun k => jsonField_members [
    ("ignition", some (.obj (members [
      ("config", some (.obj (members [
        ("merge", encodeSlice encodeResource c.merge),
        ("replace", some (.obj [("verification", .obj [])]))]))),
      ("proxy", some (.obj [])),
      ("security", some (.obj (members [
        ("tls", some (.obj (members [
          ("certificateAuthorities", encodeSlice encodeResource c.certificateAuthorities)])))]))),
      ("timeouts", some (.obj [])),
      ("version", encodeStringOmit c.version)]))),
    ("passwd", some (.obj [])),
    ("storage", some (.obj (members [
      ("directories", encodeSlice encodeDirectory c.directories),
      ("files", encodeSlice encodeFile c.files),
      ("links", encodeSlice encodeLink c.links),
      ("luks", encodeSlice encodeLuks c.luks)]))),
    ("systemd", some (.obj (members [("units", encodeSlice encodeUnit c.units)])))] k
    (by simp) (by simp)
  simp only [decodeConfig, hf]
  simp [List.lookup, decodeIgnition_encode, decodeStorage_encode, decodeSystemd_encode]

/-- The decoder gives back the tree that the encoder wrote: `json.Unmarshal` of the text
of `json.Marshal` of a tree is the tree. -/
theorem jsonUnmarshal_jsonMarshal (c : Config) : jsonUnmarshal (jsonMarshal c) = some c := by
  obtain ⟨m, hm, hd⟩ := decodeConfig_encode c
  unfold jsonUnmarshal jsonMarshal
  rw [jsonParse_renderJSON, hm]
  exact hd

/-! ### The decoders of the sample environments -/

set_option maxRecDepth 100000 in
/-- The decoder of the sample environment gives, for each of its texts, the tree that the
JSON reader reads in the text. -/
theorem sampleUnmarshal_reads_json :
    jsonUnmarshal sampleBaseText = sampleUnmarshal sampleBaseText ∧
    jsonUnmarshal sampleOverrideText = sampleUnmarshal sampleOverrideText ∧
    jsonUnmarshal sampleHostnameOverrideText = sampleUnmarshal sampleHostnameOverrideText ∧
    jsonUnmarshal (secondDayWorkerIgnitionFormat sampleURL (secondDayHeaders "secret-token") "") =
      sampleUnmarshal (secondDayWorkerIgnitionFormat sampleURL (secondDayHeaders "secret-token") "") ∧
    jsonUnmarshal sampleLuksOverrideText = sampleUnmarshal sampleLuksOverrideText ∧
    jsonUnmarshal sampleBase32Text = sampleUnmarshal sampleBase32Text ∧
    jsonUnmarshal sampleDirectoryOverrideText = sampleUnmarshal sampleDirectoryOverrideText := by
  refine ⟨by decide, by decide, by decide, by decide, by decide, by decide, by decide⟩

set_option maxRecDepth 100000 in
/-- The decoder of the sample discovery environment gives, for the two override texts,
the trees that the JSON reader reads in them. -/
theorem sampleDiscoveryEnv_reads_json :
    jsonUnmarshal sampleInternalOverrideText =
      some { version := "3.1.0", files := [{ path := "/etc/example", mode := some 384 }] } ∧
    jsonUnmarshal sampleUserOverrideText =
      some { version := "3.1.0", files := [{ path := "/etc/example", mode := some 420 }] } := by
  refine ⟨by decide, by decide⟩

/-- The JSON reader reads the rendered template of the sample discovery parameters as
the tree that the sample discovery environment decodes it to. -/
theorem sampleDiscoveryTree_reads_json :
    jsonUnmarshal (discoveryIgnitionConfigFormat sampleDiscoveryParams) =
      some sampleDiscoveryTree := by
  decide!

/-- The normalizer sees a byte string through the decoder only. -/
theorem ParseToLatest_of_decode (env : Env) (a b : Bytes)
    (h : decodeBytes env a = decodeBytes env b) : ParseToLatest env a = ParseToLatest env b := by
  simp only [ParseToLatest, parse32, parse31, configParse, h]

/-- C15: a document that `ParseToLatest` accepts declares version 3.1.0 or 3.2.0.  The
text that `json.Marshal` writes for the normalized tree (`jsonMarshal`, no merge applied)
is read by `json.Unmarshal` as that very tree, whose declared version, file entries and
units are those of the decoded original document.  For a decoder that reads this text as
the JSON reader does, normalizing the text again gives the same tree, the text decodes as
the byte string that `writeIgnitionFile` writes, and the file written with
`writeIgnitionFile`, or holding the text, is read back by `parseIgnitionFile` as the same
tree. -/
theorem ParseToLatest_write_read (env : Env) (content : Bytes) (c : Config)
    (h : ParseToLatest env content = .ok c)
    (hdec : env.unmarshal (jsonMarshal c) = jsonUnmarshal (jsonMarshal c)) :
    (c.version = "3.2.0" ∨ c.version = "3.1.0") ∧
    (∃ d, decodeBytes env content = some d ∧ jsonUnmarshal (jsonMarshal c) = some c ∧
      c.version = d.version ∧ c.files = d.files ∧ c.units = d.units) ∧
    ParseToLatest env (Bytes.text (jsonMarshal c)) = .ok c ∧
    decodeBytes env (Bytes.text (jsonMarshal c)) = decodeBytes env (Bytes.json c) ∧
    (∀ fs path, readFile (writeIgnitionFile fs path c) path = some (Bytes.json c) ∧
      parseIgnitionFile env (writeIgnitionFile fs path c) path = .ok c ∧
      parseIgnitionFile env (writeFile fs path (Bytes.text (jsonMarshal c))) path = .ok c) := by
  have hv := ParseToLatest_version env content c h
  have hvalid := ParseToLatest_valid env content c h
  have hcodec := jsonUnmarshal_jsonMarshal c
  have hbytes : decodeBytes env (Bytes.text (jsonMarshal c)) = decodeBytes env (Bytes.json c) := by
    simp only [decodeBytes, hdec, hcodec]
  have hre : ParseToLatest env (Bytes.json c) = .ok c := by
    have := ParseToLatest_json env c hv (ParseToLatest_noDuplicate env content c h) hvalid.1
    rw [hvalid.2] at this
    exact this
  have hretext : ParseToLatest env (Bytes.text (jsonMarshal c)) = .ok c := by
    rw [ParseToLatest_of_decode env _ _ hbytes]
    exact hre
  refine ⟨hv, ?_, hretext, hbytes, ?_⟩
  · unfold ParseToLatest at h
    split at h
    · rename_i config h32
      cases h
      unfold parse32 configParse at h32
      split at h32
      · cases h32
      · rename_i d hd
        split at h32
        · cases h32
        · split at h32
          · cases h32
          · cases h32
            exact ⟨c, hd, hcodec, rfl, rfl, rfl⟩
    · split at h
      · cases h
      · rename_i c31 h31
        cases h
        unfold parse31 configParse at h31
        split at h31
        · cases h31
        · rename_i d hd
          split at h31
          · cases h31
          · split at h31
            · cases h31
            · rename_i hver _
              cases h31
              cases hdecode : decodeBytes env content with
              | none => simp [hdecode] at hd
              | some t =>
                simp only [hdecode, Option.map_some', Option.some.injEq] at hd
                subst hd
                refine ⟨t, rfl, hcodec, ?_, rfl, rfl⟩
                have : (toV31 t).version = "3.1.0" := by simpa using hver
                exact this.symm
  · intro fs path
    have hr : readFile (writeIgnitionFile fs path c) path = some (Bytes.json c) :=
      readFile_writeFile fs path (Bytes.json c)
    refine ⟨hr, ?_, ?_⟩
    · unfold parseIgnitionFile
      rw [hr]
      exact hre
    · unfold parseIgnitionFile
      rw [readFile_writeFile fs path (Bytes.text (jsonMarshal c))]
      exact hretext

/-- C15 at the sample base text, read by the JSON reader and written to a file of any
directory. -/
theorem ParseToLatest_write_read_witness :
    (({ version := "3.1.0", files := [{ path := "/etc/foo" }] } : Config).version = "3.2.0" ∨
      ({ version := "3.1.0", files := [{ path := "/etc/foo" }] } : Config).version = "3.1.0") ∧
    (∃ d, decodeBytes sampleJSONEnv (Bytes.text sampleBaseText) = some d ∧
      jsonUnmarshal (jsonMarshal { version := "3.1.0", files := [{ path := "/etc/foo" }] }) =
        some { version := "3.1.0", files := [{ path := "/etc/foo" }] } ∧
      ({ version := "3.1.0", files := [{ path := "/etc/foo" }] } : Config).version = d.version ∧
      ({ version := "3.1.0", files := [{ path := "/etc/foo" }] } : Config).files = d.files ∧
      ({ version := "3.1.0", files := [{ path := "/etc/foo" }] } : Config).units = d.units) ∧
    ParseToLatest sampleJSONEnv
        (Bytes.text (jsonMarshal { version := "3.1.0", files := [{ path := "/etc/foo" }] })) =
      .ok { version := "3.1.0", files := [{ path := "/etc/foo" }] } ∧
    decodeBytes sampleJSONEnv
        (Bytes.text (jsonMarshal { version := "3.1.0", files := [{ path := "/etc/foo" }] })) =
      decodeBytes sampleJSONEnv
        (Bytes.json { version := "3.1.0", files := [{ path := "/etc/foo" }] }) ∧
    (∀ fs path,
      readFile (writeIgnitionFile fs path { version := "3.1.0", files := [{ path := "/etc/foo" }] })
          path = some (Bytes.json { version := "3.1.0", files := [{ path := "/etc/foo" }] }) ∧
      parseIgnitionFile sampleJSONEnv
          (writeIgnitionFile fs path { version := "3.1.0", files := [{ path := "/etc/foo" }] }) path =
        .ok { version := "3.1.0", files := [{ path := "/etc/foo" }] } ∧
      parseIgnitionFile sampleJSONEnv
          (writeFile fs path
            (Bytes.text (jsonMarshal { version := "3.1.0", files := [{ path := "/etc/foo" }] })))
          path =
        .ok { version := "3.1.0", files := [{ path := "/etc/foo" }] }) :=
  ParseToLatest_write_read sampleJSONEnv (Bytes.text sampleBaseText)
    { version := "3.1.0", files := [{ path := "/etc/foo" }] } (by decide) rfl

/-! ### The file mutator -/

/-- C16, as stated, fails: `setFileInIgnition` applied twice with the same arguments to
the empty document gives two entries of the path, applied once it gives one. -/
theorem setFileInIgnition_twice_differs :
    (setFileInIgnition (setFileInIgnition { version := "3.1.0" } "/etc/motd" "data:,hi" false 420 true)
        "/etc/motd" "data:,hi" false 420 true).files.length = 2 ∧
    (setFileInIgnition { version := "3.1.0" } "/etc/motd" "data:,hi" false 420 true).files.length = 1 ∧
    setFileInIgnition (setFileInIgnition { version := "3.1.0" } "/etc/motd" "data:,hi" false 420 true)
        "/etc/motd" "data:,hi" false 420 true ≠
      setFileInIgnition { version := "3.1.0" } "/etc/motd" "data:,hi" false 420 true := by
  decide

/-- C16, amended: every call of `setFileInIgnition` puts one entry of the given path at
the end of the file list and leaves the rest of the document as it is, whether or not the
list has that entry already; a second call with the same arguments adds the same entry
once more, so the result of two calls is never the result of one. -/
theorem setFileInIgnition_appends (config : Config) (filePath fileContents : String)
    (appendContent : Bool) (mode : Int) (overwrite : Bool) :
    ∃ file : File, file.path = filePath ∧
      setFileInIgnition config filePath fileContents appendContent mode overwrite =
        { config with files := config.files ++ [file] } ∧
      setFileInIgnition
          (setFileInIgnition config filePath fileContents appendContent mode overwrite)
          filePath fileContents appendContent mode overwrite =
        { config with files := config.files ++ [file, file] } ∧
      setFileInIgnition
          (setFileInIgnition config filePath fileContents appendContent mode overwrite)
          filePath fileContents appendContent mode overwrite ≠
        setFileInIgnition config filePath fileContents appendContent mode overwrite := by
  cases appendContent
  · refine ⟨_, ?_, rfl, ?_, ?_⟩
    · rfl
    · simp [setFileInIgnition]
    · intro h
      have := congrArg (fun c => c.files.length) h
      simp [setFileInIgnition] at this
  · refine ⟨_, ?_, rfl, ?_, ?_⟩
    · rfl
    · simp [setFileInIgnition]
    · intro h
      have := congrArg (fun c => c.files.length) h
      simp [setFileInIgnition] at this

/-! ### Entries of the child in a keyed merge -/

/-- The child entry that the merge pairs with a key has that key and is in the child
list. -/
theorem childEntryByKey_some {α : Type} (key : α → String) (child : List α) (k : String) (c : α)
    (h : childEntryByKey key child k = some c) : c ∈ child ∧ key c = k := by
  unfold childEntryByKey at h
  have hm := List.mem_of_find?_eq_some h
  have hk := List.find?_some h
  exact ⟨List.mem_reverse.mp hm, by simpa using hk⟩

/-- A key of the child list is paired with some child entry. -/
theorem childEntryByKey_isSome {α : Type} (key : α → String) (child : List α) (c : α)
    (hc : c ∈ child) : ∃ c', childEntryByKey key child (key c) = some c' := by
  cases h : childEntryByKey key child (key c) with
  | some c' => exact ⟨c', rfl⟩
  | none =>
    unfold childEntryByKey at h
    rw [List.find?_eq_none] at h
    have := h c (List.mem_reverse.mpr hc)
    simp at this

/-- In a keyed merge, an entry of the result with the key of a child entry `c` whose key
is unique in the child list is `c` itself or the merge of a parent entry with `c`. -/
theorem mergeKeyed_entry_of_child {α : Type} (key : α → String) (mergeItem : α → α → α)
    (hkey : ∀ p c, key (mergeItem p c) = key c) (parent child : List α) (c : α) (hc : c ∈ child)
    (huniq : ∀ c' ∈ child, key c' = key c → c' = c) (e : α)
    (he : e ∈ mergeKeyed key (fun p c => some (mergeItem p c)) parent child)
    (hek : key e = key c) : e = c ∨ ∃ p ∈ parent, e = mergeItem p c := by
  unfold mergeKeyed at he
  rw [List.mem_append] at he
  rcases he with he | he
  · rw [List.mem_filterMap] at he
    obtain ⟨p, hp, hpe⟩ := he
    cases hce : childEntryByKey key child (key p) with
    | none =>
      simp only [hce, Option.some.injEq] at hpe
      subst hpe
      obtain ⟨c', hc'⟩ := childEntryByKey_isSome key child c hc
      rw [← hek, hce] at hc'
      cases hc'
    | some c' =>
      simp only [hce, Option.some.injEq] at hpe
      subst hpe
      obtain ⟨hmem, _⟩ := childEntryByKey_some key child (key p) c' hce
      have : c' = c := huniq c' hmem (by rw [← hkey p c']; exact hek)
      subst this
      exact Or.inr ⟨p, hp, rfl⟩
  · rw [List.mem_filter] at he
    exact Or.inl (huniq e he.1 hek)

/-- In a keyed merge, every key of the child list is a key of the result. -/
theorem mergeKeyed_has_child_key {α : Type} (key : α → String) (mergeItem : α → α → α)
    (hkey : ∀ p c, key (mergeItem p c) = key c) (parent child : List α) (c : α) (hc : c ∈ child) :
    ∃ e ∈ mergeKeyed key (fun p c => some (mergeItem p c)) parent child, key e = key c := by
  unfold mergeKeyed
  by_cases hp : ∃ p ∈ parent, key p = key c
  · obtain ⟨p, hpm, hpk⟩ := hp
    obtain ⟨c', hc'⟩ := childEntryByKey_isSome key child c hc
    obtain ⟨_, hk'⟩ := childEntryByKey_some key child (key c) c' hc'
    refine ⟨mergeItem p c', ?_, ?_⟩
    · rw [List.mem_append]
      left
      rw [List.mem_filterMap]
      exact ⟨p, hpm, by rw [hpk, hc']⟩
    · rw [hkey, hk']
  · refine ⟨c, ?_, rfl⟩
    rw [List.mem_append]
    right
    rw [List.mem_filter]
    refine ⟨hc, ?_⟩
    simp only [Bool.not_eq_true', List.any_eq_false, decide_eq_true_eq]
    intro p hpm hpk
    exact hp ⟨p, hpm, hpk⟩

/-! ### The overrides of the discovery document -/

/-- C18: whenever `FormatDiscoveryIgnitionFile` returns an error, the text it returns is
empty; an error of the parameter map (token, certificate file, static network
configuration, mirror registries), of the merge of the internal override and of the merge
of the user override is returned in this way. -/
theorem discovery_error_returns_empty_text (env : Env) (infraEnv : InfraEnv)
    (cfg : IgnitionConfig) (safeForLogs : Bool) (authType : String) :
    ((FormatDiscoveryIgnitionFile env infraEnv cfg safeForLogs authType).2 ≠ none →
      (FormatDiscoveryIgnitionFile env infraEnv cfg safeForLogs authType).1 = Bytes.text "") ∧
    (∀ err, discoveryIgnitionParams env infraEnv cfg safeForLogs authType = .error err →
      FormatDiscoveryIgnitionFile env infraEnv cfg safeForLogs authType = (Bytes.text "", some err)) ∧
    (∀ p err, discoveryIgnitionParams env infraEnv cfg safeForLogs authType = .ok p →
      infraEnv.internalIgnitionConfigOverride ≠ "" →
      (MergeIgnitionConfig env (Bytes.text (discoveryIgnitionConfigFormat p))
        (Bytes.text infraEnv.internalIgnitionConfigOverride)).2 = some err →
      FormatDiscoveryIgnitionFile env infraEnv cfg safeForLogs authType = (Bytes.text "", some err)) ∧
    (∀ p r err, discoveryIgnitionParams env infraEnv cfg safeForLogs authType = .ok p →
      (if infraEnv.internalIgnitionConfigOverride ≠ "" then
          MergeIgnitionConfig env (Bytes.text (discoveryIgnitionConfigFormat p))
            (Bytes.text infraEnv.internalIgnitionConfigOverride)
        else (Bytes.text (discoveryIgnitionConfigFormat p), none)) = (r, none) →
      infraEnv.ignitionConfigOverride ≠ "" →
      (MergeIgnitionConfig env r (Bytes.text infraEnv.ignitionConfigOverride)).2 = some err →
      FormatDiscoveryIgnitionFile env infraEnv cfg safeForLogs authType = (Bytes.text "", some err)) := by
  refine ⟨?_, ?_, ?_, ?_⟩
  · intro h
    unfold FormatDiscoveryIgnitionFile at h ⊢
    split
    · rfl
    · rename_i p hp
      simp only [hp] at h
      simp only
      split
      · rfl
      · rename_i h1
        simp only [h1] at h
        split
        · rfl
        · rename_i h2
          simp only [h2] at h
          exact absurd rfl h
  · intro err he
    unfold FormatDiscoveryIgnitionFile
    simp only [he]
  · intro p err hp hi he
    unfold FormatDiscoveryIgnitionFile
    simp only [hp, hi, ne_eq, not_false_eq_true, if_true, he]
  · intro p r err hp hr hu he
    unfold FormatDiscoveryIgnitionFile
    simp only [hp, hr, hu, ne_eq, not_false_eq_true, if_true, he]

set_option maxRecDepth 100000 in
/-- C18 at a configuration whose service certificate file cannot be read. -/
theorem discovery_error_returns_empty_text_witness :
    (FormatDiscoveryIgnitionFile sampleEnv sampleInfraEnv
        { sampleConfig with serviceCACertPath := "/etc/missing/ca.crt" } false "none").1 =
      Bytes.text "" ∧
    FormatDiscoveryIgnitionFile sampleEnv sampleInfraEnv
        { sampleConfig with serviceCACertPath := "/etc/missing/ca.crt" } false "none" =
      (Bytes.text "", some "no such file or directory") :=
  ⟨(discovery_error_returns_empty_text sampleEnv sampleInfraEnv
      { sampleConfig with serviceCACertPath := "/etc/missing/ca.crt" } false "none").1 (by decide),
   (discovery_error_returns_empty_text sampleEnv sampleInfraEnv
      { sampleConfig with serviceCACertPath := "/etc/missing/ca.crt" } false "none").2.1
      "no such file or directory" (by decide)⟩

/-- C11: in `FormatDiscoveryIgnitionFile` the internal override is merged before the user
override. Without overrides the rendered template is returned as it is; with one
override the result is the merge of the rendered template with it; with both, the result
is the merge of the user override into the document that the merge of the internal
override returned. When the three documents are normalized and the two merges are valid,
the result declares the version of the user override, and a file mode or a unit switch
that the user override sets is the one of the result, whatever the internal override
set. -/
theorem discovery_internal_override_before_user_override (env : Env) (infraEnv : InfraEnv)
    (cfg : IgnitionConfig) (safeForLogs : Bool) (authType : String) (p : IgnitionParams)
    (hp : discoveryIgnitionParams env infraEnv cfg safeForLogs authType = .ok p) :
    (infraEnv.internalIgnitionConfigOverride = "" → infraEnv.ignitionConfigOverride = "" →
      FormatDiscoveryIgnitionFile env infraEnv cfg safeForLogs authType =
        (Bytes.text (discoveryIgnitionConfigFormat p), none)) ∧
    (infraEnv.internalIgnitionConfigOverride ≠ "" → infraEnv.ignitionConfigOverride = "" →
      FormatDiscoveryIgnitionFile env infraEnv cfg safeForLogs authType =
        MergeIgnitionConfig env (Bytes.text (discoveryIgnitionConfigFormat p))
          (Bytes.text infraEnv.internalIgnitionConfigOverride)) ∧
    (infraEnv.internalIgnitionConfigOverride = "" → infraEnv.ignitionConfigOverride ≠ "" →
      FormatDiscoveryIgnitionFile env infraEnv cfg safeForLogs authType =
        MergeIgnitionConfig env (Bytes.text (discoveryIgnitionConfigFormat p))
          (Bytes.text infraEnv.ignitionConfigOverride)) ∧
    (infraEnv.internalIgnitionConfigOverride ≠ "" → infraEnv.ignitionConfigOverride ≠ "" →
      ∀ m, MergeIgnitionConfig env (Bytes.text (discoveryIgnitionConfigFormat p))
          (Bytes.text infraEnv.internalIgnitionConfigOverride) = (m, none) →
        FormatDiscoveryIgnitionFile env infraEnv cfg safeForLogs authType =
          MergeIgnitionConfig env m (Bytes.text infraEnv.ignitionConfigOverride)) ∧
    (infraEnv.internalIgnitionConfigOverride ≠ "" → infraEnv.ignitionConfigOverride ≠ "" →
      ∀ r i u : Config,
        ParseToLatest env (Bytes.text (discoveryIgnitionConfigFormat p)) = .ok r →
        ParseToLatest env (Bytes.text infraEnv.internalIgnitionConfigOverride) = .ok i →
        ParseToLatest env (Bytes.text infraEnv.ignitionConfigOverride) = .ok u →
        (if i.version = "3.1.0" then env.fatal31 (toV31 (mergeConfig r i))
          else env.fatal32 (mergeConfig r i)) = false →
        (if u.version = "3.1.0" then env.fatal31 (toV31 (mergeConfig (asDeclared (mergeConfig r i)) u))
          else env.fatal32 (mergeConfig (asDeclared (mergeConfig r i)) u)) = false →
        ∃ result : Config,
          result = mergeConfig (asDeclared (mergeConfig r i)) u ∧
          FormatDiscoveryIgnitionFile env infraEnv cfg safeForLogs authType =
            (Bytes.json result, none) ∧
          result.version = u.version ∧
          (∀ f ∈ u.files, (∀ f' ∈ u.files, f'.path = f.path → f' = f) → ∀ mode, f.mode = some mode →
            (∃ e ∈ result.files, e.path = f.path) ∧
            ∀ e ∈ result.files, e.path = f.path → e.mode = some mode) ∧
          (∀ s ∈ u.units, (∀ s' ∈ u.units, s'.name = s.name → s' = s) → ∀ flag, s.enabled = some flag →
            (∃ e ∈ result.units, e.name = s.name) ∧
            ∀ e ∈ result.units, e.name = s.name → e.enabled = some flag)) := by
  refine ⟨?_, ?_, ?_, ?_, ?_⟩
  · intro hi hu
    unfold FormatDiscoveryIgnitionFile
    simp [hp, hi, hu]
  · intro hi hu
    unfold FormatDiscoveryIgnitionFile
    simp only [hp, hi, hu, ne_eq, not_false_eq_true, if_true, not_true_eq_false, if_false]
    cases hm : (MergeIgnitionConfig env (Bytes.text (discoveryIgnitionConfigFormat p))
        (Bytes.text infraEnv.internalIgnitionConfigOverride)) with
    | mk m e =>
      cases e with
      | none => rfl
      | some err =>
        have := MergeIgnitionConfig_error env (Bytes.text (discoveryIgnitionConfigFormat p))
          (Bytes.text infraEnv.internalIgnitionConfigOverride) (by rw [hm]; simp)
        rw [hm] at this
        simp only at this
        simp only [this]
  · intro hi hu
    unfold FormatDiscoveryIgnitionFile
    simp only [hp, hi, hu, ne_eq, not_false_eq_true, if_true, not_true_eq_false, if_false]
    cases hm : (MergeIgnitionConfig env (Bytes.text (discoveryIgnitionConfigFormat p))
        (Bytes.text infraEnv.ignitionConfigOverride)) with
    | mk m e =>
      cases e with
      | none => rfl
      | some err =>
        have := MergeIgnitionConfig_error env (Bytes.text (discoveryIgnitionConfigFormat p))
          (Bytes.text infraEnv.ignitionConfigOverride) (by rw [hm]; simp)
        rw [hm] at this
        simp only at this
        simp only [this]
  · intro hi hu m hm
    unfold FormatDiscoveryIgnitionFile
    simp only [hp, hi, hu, ne_eq, not_false_eq_true, if_true, hm]
    cases hm2 : (MergeIgnitionConfig env m (Bytes.text infraEnv.ignitionConfigOverride)) with
    | mk m2 e =>
      cases e with
      | none => rfl
      | some err =>
        have := MergeIgnitionConfig_error env m (Bytes.text infraEnv.ignitionConfigOverride)
          (by rw [hm2]; simp)
        rw [hm2] at this
        simp only at this
        simp only [this]
  · intro hi hu r i u hr hpi hpu hv1 hv2
    have hm1 := MergeIgnitionConfig_ok env _ _ r i hr hpi hv1
    have hiv := ParseToLatest_version env _ i hpi
    have hparse : ParseToLatest env (Bytes.json (mergeConfig r i)) =
        .ok (asDeclared (mergeConfig r i)) :=
      ParseToLatest_json env (mergeConfig r i) hiv
        (mergeConfig_noDuplicate r i (ParseToLatest_noDuplicate env _ r hr)
          (ParseToLatest_noDuplicate env _ i hpi)) hv1
    have hm2 := MergeIgnitionConfig_ok env (Bytes.json (mergeConfig r i))
      (Bytes.text infraEnv.ignitionConfigOverride) _ u hparse hpu hv2
    refine ⟨_, rfl, ?_, rfl, ?_, ?_⟩
    · unfold FormatDiscoveryIgnitionFile
      simp only [hp, hi, hu, ne_eq, not_false_eq_true, if_true, hm1, hm2]
    · intro f hf huniq mode hmode
      refine ⟨mergeNodes_files_has_child_key _ u f (ParseToLatest_noDuplicate env _ u hpu) hf, ?_⟩
      intro e he hek
      rcases mergeNodes_files_entry_of_child _ u f hf huniq e he hek with h | ⟨q, _, h⟩
      · rw [h, hmode]
      · rw [h]
        simp only [mergeFile, mergePtr, hmode]
    · intro s hs huniq flag hon
      refine ⟨mergeKeyed_has_child_key SystemdUnit.name mergeUnit (fun _ _ => rfl) _ u.units s hs, ?_⟩
      intro e he hek
      rcases mergeKeyed_entry_of_child SystemdUnit.name mergeUnit (fun _ _ => rfl) _ u.units s hs
        huniq e he hek with h | ⟨q, _, h⟩
      · rw [h, hon]
      · rw [h]
        simp only [mergeUnit, mergePtr, hon]

set_option maxRecDepth 1000000 in
/-- C11 at the sample infra-env: the internal override sets the mode of `/etc/example` to
0600 and the user override sets it to 0644; the result has the entry with the mode of the
user override. -/
theorem discovery_internal_override_before_user_override_witness :
    ∃ result : Config,
      result = mergeConfig
        (asDeclared (mergeConfig sampleDiscoveryTree
          { version := "3.1.0", files := [{ path := "/etc/example", mode := some 384 }] }))
        { version := "3.1.0", files := [{ path := "/etc/example", mode := some 420 }] } ∧
      FormatDiscoveryIgnitionFile sampleDiscoveryEnv sampleOverriddenInfraEnv sampleConfig false
          "none" = (Bytes.json result, none) ∧
      result.version = "3.1.0" ∧
      (∃ e ∈ result.files, e.path = "/etc/example") ∧
      ∀ e ∈ result.files, e.path = "/etc/example" → e.mode = some 420 := by
  obtain ⟨result, hres, hfmt, hver, hfiles, _⟩ :=
    (discovery_internal_override_before_user_override sampleDiscoveryEnv sampleOverriddenInfraEnv
      sampleConfig false "none" sampleDiscoveryParams (by decide)).2.2.2.2 (by decide) (by decide)
      sampleDiscoveryTree
      { version := "3.1.0", files := [{ path := "/etc/example", mode := some 384 }] }
      { version := "3.1.0", files := [{ path := "/etc/example", mode := some 420 }] }
      (by decide) (by decide) (by decide) (by decide) (by decide)
  exact ⟨result, hres, hfmt, hver,
    hfiles { path := "/etc/example", mode := some 420 } (by decide) (by decide) 420 rfl⟩

/-! ### The tasks of `writeHostFiles` -/

/-- Looking a path up skips the entries of another path. -/
theorem find?_filter_ne_path (fs : FS) (path q : String) (h : path ≠ q) :
    (fs.filter (fun e => e.1 ≠ path)).find? (fun e => e.1 = q) = fs.find? (fun e => e.1 = q) := by
  induction fs with
  | nil => rfl
  | cons e rest ih =>
    obtain ⟨k, v⟩ := e
    by_cases hk : k = path
    · subst hk
      simp only [List.filter_cons, ne_eq, not_true_eq_false, decide_False, List.find?_cons, h]
      exact ih
    · by_cases hq : k = q
      · subst hq
        simp [List.filter_cons, hk]
      · simp only [List.filter_cons, ne_eq, hk, not_false_eq_true, decide_True, if_true,
          List.find?_cons, hq, decide_False]
        exact ih

/-- Writing a file leaves the other files as they are. -/
theorem readFile_writeFile_ne (fs : FS) (path q : String) (content : Bytes) (h : path ≠ q) :
    readFile (writeFile fs path content) q = readFile fs q := by
  unfold readFile writeFile
  simp only [List.find?_cons, h, decide_False]
  rw [find?_filter_ne_path fs path q h]

/-- The task of a host reads the base file, derives the bytes of the host and writes them
to the file of the host; a failed task writes nothing. -/
theorem writeHostFile_eq (env : Env) (fs : FS) (baseFile workDir : String) (host : Host) :
    writeHostFile env fs baseFile workDir host =
      match hostIgnition env (readFile fs (filepathJoin workDir baseFile))
          (filepathJoin workDir baseFile) host with
      | .error err => (some err, fs)
      | .ok doc => (none, writeFile fs (filepathJoin workDir (env.ignitionFileName host)) doc) := by
  unfold writeHostFile hostIgnition parseIgnitionFile
  cases readFile fs (filepathJoin workDir baseFile) with
  | none => rfl
  | some b =>
    simp only
    cases ParseToLatest env b with
    | error e => rfl
    | ok c =>
      simp only
      cases env.getCurrentHostName host with
      | error e => rfl
      | ok hostname =>
        simp only
        split <;> rename_i hm <;> simp only [hm]

/-- The files after `writeHostFiles` are the files after the tasks of all the hosts of
the list, run one after the other, whether or not a task failed. -/
theorem writeHostFiles_snd (env : Env) (hosts : List Host) (baseFile workDir : String)
    (acc : Option String × FS) :
    (hosts.foldl
      (fun acc host =>
        let r := writeHostFile env acc.2 baseFile workDir host
        (match acc.1 with
          | some err => some err
          | none => r.1, r.2)) acc).2 =
      hosts.foldl (fun fs host => (writeHostFile env fs baseFile workDir host).2) acc.2 := by
  induction hosts generalizing acc with
  | nil => rfl
  | cons h t ih =>
    simp only [List.foldl_cons]
    rw [ih]

/-- The error of `writeHostFiles` once a task has failed is the error of that task. -/
theorem writeHostFiles_fst_some (env : Env) (hosts : List Host) (baseFile workDir : String)
    (err : String) (fs : FS) :
    (hosts.foldl
      (fun acc host =>
        let r := writeHostFile env acc.2 baseFile workDir host
        (match acc.1 with
          | some err => some err
          | none => r.1, r.2)) (some err, fs)).1 = some err := by
  induction hosts generalizing fs with
  | nil => rfl
  | cons h t ih =>
    simp only [List.foldl_cons]
    exact ih _

/-- A path that no host of the list is written to has the same content after the tasks. -/
theorem writeHostFiles_frame (env : Env) (hosts : List Host) (baseFile workDir : String) (fs : FS)
    (q : String) (hq : ∀ h ∈ hosts, filepathJoin workDir (env.ignitionFileName h) ≠ q) :
    readFile (hosts.foldl (fun fs host => (writeHostFile env fs baseFile workDir host).2) fs) q =
      readFile fs q := by
  induction hosts generalizing fs with
  | nil => rfl
  | cons h t ih =>
    simp only [List.foldl_cons]
    rw [ih _ (fun x hx => hq x (List.mem_cons_of_mem _ hx))]
    rw [writeHostFile_eq]
    split
    · rfl
    · exact readFile_writeFile_ne fs _ q _ (hq h (List.mem_cons_self _ _))

/-- The task of a host whose file is not the base file leaves the base file as it is. -/
theorem writeHostFile_base (env : Env) (fs : FS) (baseFile workDir : String) (host : Host)
    (h : filepathJoin workDir (env.ignitionFileName host) ≠ filepathJoin workDir baseFile) :
    readFile (writeHostFile env fs baseFile workDir host).2 (filepathJoin workDir baseFile) =
      readFile fs (filepathJoin workDir baseFile) := by
  rw [writeHostFile_eq]
  split
  · rfl
  · exact readFile_writeFile_ne fs _ _ _ h

/-- After the tasks of a list of hosts with distinct files, none of which is the base
file, the file of every host whose bytes can be derived holds these bytes. -/
theorem writeHostFiles_written (env : Env) (hosts : List Host) (baseFile workDir : String)
    (fs : FS)
    (hbase : ∀ h ∈ hosts,
      filepathJoin workDir (env.ignitionFileName h) ≠ filepathJoin workDir baseFile)
    (hnodup : (hosts.map (fun h => filepathJoin workDir (env.ignitionFileName h))).Nodup)
    (host : Host) (hmem : host ∈ hosts) (doc : Bytes)
    (hdoc : hostIgnition env (readFile fs (filepathJoin workDir baseFile))
      (filepathJoin workDir baseFile) host = .ok doc) :
    readFile (hosts.foldl (fun fs host => (writeHostFile env fs baseFile workDir host).2) fs)
      (filepathJoin workDir (env.ignitionFileName host)) = some doc := by
  induction hosts generalizing fs with
  | nil => cases hmem
  | cons x t ih =>
    simp only [List.foldl_cons]
    have hx := hbase x (List.mem_cons_self _ _)
    have hbp := writeHostFile_base env fs baseFile workDir x hx
    rw [List.map_cons, List.nodup_cons] at hnodup
    rcases List.mem_cons.mp hmem with heq | ht
    · subst heq
      rw [writeHostFiles_frame env t baseFile workDir _ _ (by
        intro y hy hyx
        exact hnodup.1 (List.mem_map.mpr ⟨y, hy, hyx⟩))]
      rw [writeHostFile_eq, hdoc]
      exact readFile_writeFile fs _ doc
    · exact ih _ (fun y hy => hbase y (List.mem_cons_of_mem _ hy)) hnodup.2 ht (by rw [hbp]; exact hdoc)

/-- The files after `writeHostFiles` are the files after the tasks of all the hosts. -/
theorem writeHostFiles_files (env : Env) (hosts : List Host) (baseFile workDir : String)
    (fs : FS) :
    (writeHostFiles env fs hosts baseFile workDir).2 =
      hosts.foldl (fun fs host => (writeHostFile env fs baseFile workDir host).2) fs :=
  writeHostFiles_snd env hosts baseFile workDir (none, fs)

/-- The first step of `writeHostFiles`: the task of the first host is run, then the tasks
of the other hosts, and the error of the first host is the one reported. -/
theorem writeHostFiles_cons (env : Env) (x : Host) (t : List Host) (baseFile workDir : String)
    (fs : FS) :
    writeHostFiles env fs (x :: t) baseFile workDir =
      match (writeHostFile env fs baseFile workDir x).1 with
      | some err =>
        (some err, (writeHostFiles env (writeHostFile env fs baseFile workDir x).2 t baseFile
          workDir).2)
      | none => writeHostFiles env (writeHostFile env fs baseFile workDir x).2 t baseFile workDir := by
  cases hr : (writeHostFile env fs baseFile workDir x).1 with
  | none =>
    simp only
    unfold writeHostFiles
    simp only [List.foldl_cons, hr]
  | some err =>
    simp only
    apply Prod.ext
    · have h1 := writeHostFiles_fst_some env t baseFile workDir err
        (writeHostFile env fs baseFile workDir x).2
      unfold writeHostFiles
      simp only [List.foldl_cons, hr]
      exact h1
    · rw [writeHostFiles_files, writeHostFiles_files]
      rfl

/-- `writeHostFiles` on hosts whose files are not the base file returns no error exactly
when the bytes of every host of the list can be derived. -/
theorem writeHostFiles_fst (env : Env) (hosts : List Host) (baseFile workDir : String) (fs : FS)
    (hbase : ∀ h ∈ hosts,
      filepathJoin workDir (env.ignitionFileName h) ≠ filepathJoin workDir baseFile) :
    (writeHostFiles env fs hosts baseFile workDir).1 = none ↔
      ∀ h ∈ hosts, ∃ doc, hostIgnition env (readFile fs (filepathJoin workDir baseFile))
        (filepathJoin workDir baseFile) h = .ok doc := by
  induction hosts generalizing fs with
  | nil =>
    constructor
    · intro _ h hh
      cases hh
    · intro _
      rfl
  | cons x t ih =>
    rw [writeHostFiles_cons]
    have hx := hbase x (List.mem_cons_self _ _)
    have hbp := writeHostFile_base env fs baseFile workDir x hx
    have heq := writeHostFile_eq env fs baseFile workDir x
    cases hd : hostIgnition env (readFile fs (filepathJoin workDir baseFile))
        (filepathJoin workDir baseFile) x with
    | error e =>
      rw [hd] at heq
      simp only at heq
      rw [heq]
      simp only
      constructor
      · intro h
        cases h
      · intro h
        obtain ⟨doc, hdoc⟩ := h x (List.mem_cons_self _ _)
        rw [hd] at hdoc
        cases hdoc
    | ok doc =>
      have hfst : (writeHostFile env fs baseFile workDir x).1 = none := by
        rw [heq, hd]
      rw [hfst]
      simp only
      rw [ih _ (fun y hy => hbase y (List.mem_cons_of_mem _ hy)), hbp]
      constructor
      · intro h y hy
        rcases List.mem_cons.mp hy with rfl | ht
        · exact ⟨doc, hd⟩
        · exact h y ht
      · intro h y hy
        exact h y (List.mem_cons_of_mem _ hy)

/-! ### The per-host documents -/

set_option maxRecDepth 100000 in
/-- C17, as stated, fails: with a master whose override does not merge and a worker whose
own task succeeds, `createHostIgnitions` returns the error of the masters and the
document of the worker is not written. -/
theorem createHostIgnitions_master_failure_skips_workers :
    (createHostIgnitions sampleEnv (sampleGenerator [sampleBrokenMaster "m1", sampleWorker "w1"])
        sampleRoleFiles).1 =
      some ("error writing master host ignition files: failed to apply ignition config " ++
        "overrides for host id-m1: error parsing ignition: config is not valid") ∧
    readFile (createHostIgnitions sampleEnv
        (sampleGenerator [sampleBrokenMaster "m1", sampleWorker "w1"]) sampleRoleFiles).2
      "/work/worker-id-w1.ign" = none ∧
    (writeHostFile sampleEnv sampleRoleFiles "worker.ign" "/work" (sampleWorker "w1")).1 = none ∧
    readFile (writeHostFile sampleEnv sampleRoleFiles "worker.ign" "/work" (sampleWorker "w1")).2
      "/work/worker-id-w1.ign" ≠ none := by
  refine ⟨by decide, by decide, by decide, by decide⟩

/-- C17, amended: inside one call of `writeHostFiles`, on hosts with distinct files none
of which is the base file, the failure of a host does not stop the others: the file of
every host whose bytes can be derived holds these bytes after the call, the other files
are as before, and an error is returned exactly when the bytes of some host cannot be
derived. `createHostIgnitions` runs the masters first: their error is returned with the
files as the masters left them, before any worker is processed; without such an error the
workers are run on these files and their error, if any, is returned. -/
theorem writeHostFiles_isolates_hosts_of_one_role (env : Env) (g : Generator) (fs : FS) :
    (∀ hosts baseFile workDir,
      (∀ h ∈ hosts,
        filepathJoin workDir (env.ignitionFileName h) ≠ filepathJoin workDir baseFile) →
      (hosts.map (fun h => filepathJoin workDir (env.ignitionFileName h))).Nodup →
      ((writeHostFiles env fs hosts baseFile workDir).1 = none ↔
        ∀ h ∈ hosts, ∃ doc, hostIgnition env (readFile fs (filepathJoin workDir baseFile))
          (filepathJoin workDir baseFile) h = .ok doc) ∧
      (∀ h ∈ hosts, ∀ doc,
        hostIgnition env (readFile fs (filepathJoin workDir baseFile))
          (filepathJoin workDir baseFile) h = .ok doc →
        readFile (writeHostFiles env fs hosts baseFile workDir).2
          (filepathJoin workDir (env.ignitionFileName h)) = some doc) ∧
      (∀ q, (∀ h ∈ hosts, filepathJoin workDir (env.ignitionFileName h) ≠ q) →
        readFile (writeHostFiles env fs hosts baseFile workDir).2 q = readFile fs q)) ∧
    (∀ err,
      (writeHostFiles env fs (sortHosts env g.cluster.hosts).1 "master.ign" g.workDir).1 = some err →
      createHostIgnitions env g fs =
        (some ("error writing master host ignition files: " ++ err),
          (writeHostFiles env fs (sortHosts env g.cluster.hosts).1 "master.ign" g.workDir).2)) ∧
    ((writeHostFiles env fs (sortHosts env g.cluster.hosts).1 "master.ign" g.workDir).1 = none →
      createHostIgnitions env g fs =
        ((writeHostFiles env
            (writeHostFiles env fs (sortHosts env g.cluster.hosts).1 "master.ign" g.workDir).2
            (sortHosts env g.cluster.hosts).2 "worker.ign" g.workDir).1.map
          (fun err => "error writing worker host ignition files: " ++ err),
         (writeHostFiles env
            (writeHostFiles env fs (sortHosts env g.cluster.hosts).1 "master.ign" g.workDir).2
            (sortHosts env g.cluster.hosts).2 "worker.ign" g.workDir).2)) := by
  refine ⟨?_, ?_, ?_⟩
  · intro hosts baseFile workDir hbase hnodup
    refine ⟨writeHostFiles_fst env hosts baseFile workDir fs hbase, ?_, ?_⟩
    · intro h hmem doc hdoc
      rw [writeHostFiles_files]
      exact writeHostFiles_written env hosts baseFile workDir fs hbase hnodup h hmem doc hdoc
    · intro q hq
      rw [writeHostFiles_files]
      exact writeHostFiles_frame env hosts baseFile workDir fs q hq
  · intro err herr
    unfold createHostIgnitions
    simp only [herr]
  · intro hnone
    unfold createHostIgnitions
    simp only [hnone]
    split
    · rename_i err herr
      simp only [herr, Option.map_some']
    · rename_i herr
      simp only [herr, Option.map_none']

set_option maxRecDepth 100000 in
/-- The amended C17 at two masters, the first with an override that does not merge: the
document of the second is written and the error of the first is returned. -/
theorem writeHostFiles_isolates_hosts_of_one_role_witness :
    readFile (writeHostFiles sampleEnv sampleRoleFiles [sampleBrokenMaster "m1", sampleMaster "m2"]
        "master.ign" "/work").2 "/work/master-id-m2.ign" =
      some (Bytes.json { version := "3.1.0", files := [{ path := "/etc/foo" }, hostnameFile "m2"] }) ∧
    createHostIgnitions sampleEnv
        (sampleGenerator [sampleBrokenMaster "m1", sampleMaster "m2", sampleWorker "w1"])
        sampleRoleFiles =
      (some ("error writing master host ignition files: " ++
          "failed to apply ignition config overrides for host id-m1: error parsing ignition: config is not valid"),
        (writeHostFiles sampleEnv sampleRoleFiles
          (sortHosts sampleEnv (sampleGenerator
            [sampleBrokenMaster "m1", sampleMaster "m2", sampleWorker "w1"]).cluster.hosts).1
          "master.ign"
          (sampleGenerator [sampleBrokenMaster "m1", sampleMaster "m2", sampleWorker "w1"]).workDir).2) :=
  ⟨((writeHostFiles_isolates_hosts_of_one_role sampleEnv (sampleGenerator []) sampleRoleFiles).1
      [sampleBrokenMaster "m1", sampleMaster "m2"] "master.ign" "/work" (by decide) (by decide)).2.1
      (sampleMaster "m2") (by decide) _ (by decide),
   (writeHostFiles_isolates_hosts_of_one_role sampleEnv
      (sampleGenerator [sampleBrokenMaster "m1", sampleMaster "m2", sampleWorker "w1"])
      sampleRoleFiles).2.1 _ (by decide)⟩

/-! ### Descriptors that cannot be decoded -/

/-- A descriptor file with a content source that cannot be decoded makes `fileToBMH`
return an error: a source that does not split into two parts at `base64,`, a second part
that is not base64, bytes that are not deserialized. -/
theorem fileToBMH_source_errors (env : Env) (file : File) (source : String)
    (hs : file.contents.source = some source) :
    ((stringsSplit source "base64,").length ≠ 2 →
      fileToBMH env file = .error (Failure.error ("could not parse source for file " ++ file.path))) ∧
    (∀ pre encoded, stringsSplit source "base64," = [pre, encoded] →
      (base64Decode encoded = none →
        fileToBMH env file = .error (Failure.error "illegal base64 data")) ∧
      (∀ decoded err, base64Decode encoded = some decoded → env.decodeBMH decoded = .error err →
        fileToBMH env file = .error (Failure.error err))) := by
  refine ⟨?_, ?_⟩
  · intro hlen
    unfold fileToBMH
    simp only [hs]
    split
    · rename_i h
      rw [h] at hlen
      exact absurd rfl hlen
    · rfl
  · intro pre encoded hsplit
    refine ⟨?_, ?_⟩
    · intro hdec
      unfold fileToBMH
      simp only [hs, hsplit, hdec]
    · intro decoded err hdec herr
      unfold fileToBMH
      simp only [hs, hsplit, hdec, herr]

/-- An error of `fileToBMH` on a descriptor file ends the loop of `updateBootstrap` with
that error, whatever files follow. -/
theorem updateBootstrapFiles_decode_error (env : Env) (g : Generator) (file : File)
    (rest : List File) (state : List File × List Host × List Host) (err : Failure)
    (hd : isDescriptor file = true) (he : fileToBMH env file = .error err) :
    updateBootstrapFiles env g (file :: rest) state = .error err := by
  obtain ⟨newFiles, masters, workers⟩ := state
  unfold isDescriptor at hd
  simp only [Bool.and_eq_true, Bool.not_eq_true'] at hd
  obtain ⟨⟨h1, h2⟩, h3⟩ := hd
  have hstep : updateBootstrapFile env g masters workers file = .error err := by
    unfold updateBootstrapFile
    simp [h1, h2, h3, he]
  unfold updateBootstrapFiles
  simp only [hstep]

/-- Whenever `updateBootstrap` returns an error, the files are as before. -/
theorem updateBootstrap_error_writes_nothing (env : Env) (g : Generator) (fs : FS)
    (bootstrapPath : String) (h : (updateBootstrap env g fs bootstrapPath).1 ≠ none) :
    (updateBootstrap env g fs bootstrapPath).2 = fs := by
  unfold updateBootstrap at h ⊢
  cases hp : parseIgnitionFile env fs bootstrapPath with
  | error e => rfl
  | ok config =>
    simp only [hp] at h ⊢
    cases hloop : updateBootstrapFiles env g config.files
        ([], (sortHosts env g.cluster.hosts).1, (sortHosts env g.cluster.hosts).2) with
    | error e => simp only [hloop]
    | ok state =>
      simp only [hloop] at h
      exact absurd rfl h

set_option maxRecDepth 100000 in
/-- C19 at a descriptor file without content source: `fileToBMH` dereferences the absent
source, which is a run-time fault and not an error value, and `updateBootstrap` ends with
that fault. -/
theorem fileToBMH_absent_source_faults :
    fileToBMH sampleEnv
        { path := "/opt/openshift/openshift/99_openshift-cluster-api_hosts-0.yaml" } =
      .error Failure.crash ∧
    (∀ msg, fileToBMH sampleEnv
        { path := "/opt/openshift/openshift/99_openshift-cluster-api_hosts-0.yaml" } ≠
      .error (Failure.error msg)) ∧
    updateBootstrap sampleEnv (sampleGenerator [sampleMaster "m1"])
        (sampleBootstrap [{ path := "/opt/openshift/openshift/99_openshift-cluster-api_hosts-0.yaml" }])
        "/work/bootstrap.ign" =
      (some Failure.crash,
        sampleBootstrap [{ path := "/opt/openshift/openshift/99_openshift-cluster-api_hosts-0.yaml" }]) := by
  refine ⟨by decide, ?_, by decide⟩
  intro msg h
  have h2 : fileToBMH sampleEnv
      { path := "/opt/openshift/openshift/99_openshift-cluster-api_hosts-0.yaml" } =
      .error Failure.crash := by decide
  rw [h2] at h
  cases h

/-! ### The host lines of the service addresses -/

/-- A format without percent sign is written as it is. -/
theorem sprintfAux_no_percent (l : List Char) (fuel : Nat) (hf : l.length < fuel)
    (hp : '%' ∉ l) : sprintfAux fuel l = l := by
  induction l generalizing fuel with
  | nil =>
    cases fuel with
    | zero => cases hf
    | succ n => rfl
  | cons c cs ih =>
    cases fuel with
    | zero => cases hf
    | succ n =>
      have hc : c ≠ '%' := fun h => hp (by rw [h]; exact List.mem_cons_self _ _)
      have hcs : '%' ∉ cs := fun h => hp (List.mem_cons_of_mem _ h)
      have hlen : cs.length < n := by simpa using hf
      rw [sprintfAux]
      · rw [ih n hlen hcs]
      · intro h
        exact hc h

/-- Every character of a piece that `splitAux` returns is a character of the text or of
the piece that was begun. -/
theorem splitAux_chars (sep : List Char) (l : List Char) (skip : Nat) (cur : List Char)
    (piece : List Char) (hpiece : piece ∈ splitAux sep l skip cur) (c : Char) (hc : c ∈ piece) :
    c ∈ l ∨ c ∈ cur := by
  induction l generalizing skip cur with
  | nil =>
    simp only [splitAux, List.mem_singleton] at hpiece
    subst hpiece
    exact Or.inr (List.mem_reverse.mp hc)
  | cons x xs ih =>
    cases skip with
    | succ n =>
      simp only [splitAux] at hpiece
      rcases ih n cur hpiece with h | h
      · exact Or.inl (List.mem_cons_of_mem _ h)
      · exact Or.inr h
    | zero =>
      simp only [splitAux] at hpiece
      split at hpiece
      · rcases List.mem_cons.mp hpiece with h | h
        · subst h
          exact Or.inr (List.mem_reverse.mp hc)
        · rcases ih _ [] h with h' | h'
          · exact Or.inl (List.mem_cons_of_mem _ h')
          · cases h'
      · rcases ih 0 (x :: cur) hpiece with h | h
        · exact Or.inl (List.mem_cons_of_mem _ h)
        · rcases List.mem_cons.mp h with h' | h'
          · subst h'
            exact Or.inl (List.mem_cons_self _ _)
          · exact Or.inr h'

/-- Every character of a trimmed text is a character of the text. -/
theorem stringsTrimSpace_chars (s : String) (c : Char) (hc : c ∈ (stringsTrimSpace s).data) :
    c ∈ s.data := by
  unfold stringsTrimSpace at hc
  simp only [List.mem_reverse] at hc
  have h1 := (List.dropWhile_sublist isGoSpace (l := (s.data.dropWhile isGoSpace).reverse)).subset hc
  have h2 := (List.dropWhile_sublist isGoSpace (l := s.data)).subset (List.mem_reverse.mp h1)
  exact h2

/-- The loop of `GetServiceIPHostnames` on elements without percent sign appends the
lines of the non-empty elements. -/
theorem serviceIPLines_no_percent (ips : List String) (acc : String)
    (hp : ∀ ip ∈ ips, '%' ∉ ip.data) :
    ips.foldl
        (fun content ip =>
          if ip ≠ "" then content ++ sprintfNoArgs (ip ++ " assisted-api.local.openshift.io\n")
          else content) acc =
      acc ++ concat ((ips.filter (fun ip => ip ≠ "")).map
        (fun ip => ip ++ " assisted-api.local.openshift.io\n")) := by
  induction ips generalizing acc with
  | nil => simp [concat]
  | cons ip rest ih =>
    simp only [List.foldl_cons]
    rw [ih _ (fun x hx => hp x (List.mem_cons_of_mem _ hx))]
    by_cases hip : ip = ""
    · simp [hip]
    · have hfree : '%' ∉ (ip ++ " assisted-api.local.openshift.io\n").data := by
        rw [String.data_append, List.mem_append]
        rintro (h | h)
        · exact hp ip (List.mem_cons_self _ _) h
        · revert h
          decide
      have hs : sprintfNoArgs (ip ++ " assisted-api.local.openshift.io\n") =
          ip ++ " assisted-api.local.openshift.io\n" := by
        unfold sprintfNoArgs
        rw [sprintfAux_no_percent _ _ (Nat.lt_succ_self _) hfree]
      simp only [hip, ne_eq, not_false_eq_true, if_true, hs, decide_True, List.filter_cons,
        List.map_cons, concat, String.append_assoc]

/-- On an input without percent sign, `GetServiceIPHostnames` returns the text of the
specification: one line per non-empty element, in order, and nothing else. -/
theorem GetServiceIPHostnames_no_percent (serviceIPs : String) (hp : '%' ∉ serviceIPs.data) :
    GetServiceIPHostnames serviceIPs = serviceIPHostnamesSpec serviceIPs := by
  unfold GetServiceIPHostnames serviceIPHostnamesSpec
  simp only
  rw [serviceIPLines_no_percent]
  · simp
  · intro ip hip hc
    unfold stringsSplit at hip
    simp only [show (",".data = ([] : List Char)) = False from by decide, if_false,
      List.mem_map] at hip
    obtain ⟨piece, hpiece, rfl⟩ := hip
    rcases splitAux_chars _ _ _ _ piece hpiece '%' hc with h | h
    · exact hp (stringsTrimSpace_chars serviceIPs '%' h)
    · cases h

/-- C20 at an address with a zone: the percent sign of the element is read as the start of
a verb of the format, so the line is not the element followed by the service name. -/
theorem GetServiceIPHostnames_percent_in_address :
    GetServiceIPHostnames "fe80::1%eth0" =
      "fe80::1%!e(MISSING)th0 assisted-api.local.openshift.io\n" ∧
    serviceIPHostnamesSpec "fe80::1%eth0" = "fe80::1%eth0 assisted-api.local.openshift.io\n" ∧
    GetServiceIPHostnames "fe80::1%eth0" ≠ serviceIPHostnamesSpec "fe80::1%eth0" := by
  refine ⟨by decide, by decide, by decide⟩

/-! ### Classification and the message of the day -/

/-- C24: `bmhIsMaster` answers by membership first: a name of the master list is a
master, also when it is in the worker list as well; a name of the worker list that is not
in the master list is not a master; a name of neither list is a master exactly when it
contains `-master-`. -/
theorem bmhIsMaster_membership_then_substring (bmh : BareMetalHost)
    (masterHostnames workerHostnames : List String) :
    (bmh.name ∈ masterHostnames → bmhIsMaster bmh masterHostnames workerHostnames = true) ∧
    (bmh.name ∉ masterHostnames → bmh.name ∈ workerHostnames →
      bmhIsMaster bmh masterHostnames workerHostnames = false) ∧
    (bmh.name ∉ masterHostnames → bmh.name ∉ workerHostnames →
      bmhIsMaster bmh masterHostnames workerHostnames = stringsContains bmh.name "-master-") := by
  refine ⟨?_, ?_, ?_⟩
  · intro hm
    simp [bmhIsMaster, hm]
  · intro hm hw
    simp [bmhIsMaster, hm, hw]
  · intro hm hw
    simp [bmhIsMaster, hm, hw]

/-- C24 at concrete names: a name of both lists, a name with `-master-` that is in the
worker list, and two names of neither list. -/
theorem bmhIsMaster_membership_then_substring_witness :
    bmhIsMaster { name := "node-a" } ["node-a"] ["node-a", "node-b"] = true ∧
    bmhIsMaster { name := "x-master-0" } ["node-a"] ["x-master-0"] = false ∧
    bmhIsMaster { name := "x-master-0" } ["node-a"] ["node-b"] =
      stringsContains "x-master-0" "-master-" ∧
    bmhIsMaster { name := "x-worker-0" } ["node-a"] ["node-b"] =
      stringsContains "x-worker-0" "-master-" ∧
    stringsContains "x-master-0" "-master-" = true ∧
    stringsContains "x-worker-0" "-master-" = false :=
  ⟨(bmhIsMaster_membership_then_substring { name := "node-a" } ["node-a"]
      ["node-a", "node-b"]).1 (by decide),
   (bmhIsMaster_membership_then_substring { name := "x-master-0" } ["node-a"]
      ["x-master-0"]).2.1 (by decide) (by decide),
   (bmhIsMaster_membership_then_substring { name := "x-master-0" } ["node-a"]
      ["node-b"]).2.2 (by decide) (by decide),
   (bmhIsMaster_membership_then_substring { name := "x-worker-0" } ["node-a"]
      ["node-b"]).2.2 (by decide) (by decide),
   by decide, by decide⟩

/-- C25: `fixMOTDFile` on an entry without content source and with exactly one appended
resource sets the source of that resource as content source and empties the append list,
leaving the other fields as they are; an entry with a content source, or with an append
list that does not have exactly one element, is left unchanged. In the loop of
`updateBootstrap` it is applied to the entry `/etc/motd`, which is kept. -/
theorem fixMOTDFile_rewrites_append_only (file : File) :
    (∀ r, file.contents.source = none → file.append = [r] →
      (fixMOTDFile file).contents.source = r.source ∧ (fixMOTDFile file).append = [] ∧
      fixMOTDFile file =
        { file with contents := { file.contents with source := r.source }, append := [] }) ∧
    (file.contents.source ≠ none → fixMOTDFile file = file) ∧
    (file.append.length ≠ 1 → fixMOTDFile file = file) ∧
    (∀ env g masters workers, isBaremetalProvisioningConfig file = false → isMOTD file = true →
      updateBootstrapFile env g masters workers file =
        .ok (some (fixMOTDFile file), masters, workers)) := by
  refine ⟨?_, ?_, ?_, ?_⟩
  · intro r hs ha
    have : fixMOTDFile file =
        { file with contents := { file.contents with source := r.source }, append := [] } := by
      simp [fixMOTDFile, hs, ha]
    rw [this]
    exact ⟨rfl, rfl, rfl⟩
  · intro hs
    unfold fixMOTDFile
    cases h : file.contents.source with
    | none => exact absurd h hs
    | some s => rfl
  · intro ha
    unfold fixMOTDFile
    cases h : file.contents.source with
    | some s => rfl
    | none =>
      simp only
      split
      · rename_i r hr
        rw [hr] at ha
        exact absurd rfl ha
      · rfl
  · intro env g masters workers h1 h2
    unfold updateBootstrapFile
    simp [h1, h2]

/-- C25 at the append-only entry `/etc/motd`. -/
theorem fixMOTDFile_rewrites_append_only_witness :
    (fixMOTDFile { path := "/etc/motd", append := [{ source := some "data:,hello" }] }).contents.source =
        some "data:,hello" ∧
    (fixMOTDFile { path := "/etc/motd", append := [{ source := some "data:,hello" }] }).append = [] ∧
    fixMOTDFile { path := "/etc/motd", append := [{ source := some "data:,hello" }] } =
      { path := "/etc/motd", contents := { source := some "data:,hello" } } :=
  (fixMOTDFile_rewrites_append_only
    { path := "/etc/motd", append := [{ source := some "data:,hello" }] }).1
    { source := some "data:,hello" } rfl rfl

/-- C29 at a cluster with a disabled master and a disabled worker: `sortHosts` has no
test of the status, and both hosts are in the lists it returns. -/
theorem sortHosts_keeps_disabled_hosts :
    sortHosts sampleEnv
        [{ id := "h1", requestedHostname := "m1", role := "master", status := "disabled" },
         { id := "h2", requestedHostname := "w1", role := "worker", status := "disabled" }] =
      ([{ id := "h1", requestedHostname := "m1", role := "master", status := "disabled" }],
       [{ id := "h2", requestedHostname := "w1", role := "worker", status := "disabled" }]) := by
  decide

/-! ### The staged files of the static network configuration -/

/-- `String.intercalate` with an accumulator: every further element is written after the
separator. -/
theorem intercalate_go_eq (acc s : String) (l : List String) :
    String.intercalate.go acc s l = acc ++ concat (l.map (fun e => s ++ e)) := by
  induction l generalizing acc with
  | nil => simp [String.intercalate.go, concat]
  | cons a as ih =>
    simp only [String.intercalate.go, List.map_cons, concat]
    rw [ih]
    simp only [String.append_assoc]

/-- Without a `..` element, `filepath.Clean` keeps the elements that are neither empty
nor `.`, in order. -/
theorem cleanStep_foldl_no_parent (rooted : Bool) (elems stack : List String)
    (h : ".." ∉ elems) :
    elems.foldl (cleanStep rooted) stack =
      (elems.filter (fun e => e ≠ "" ∧ e ≠ ".")).reverse ++ stack := by
  induction elems generalizing stack with
  | nil => rfl
  | cons e rest ih =>
    have he : e ≠ ".." := fun hh => h (by rw [hh]; exact List.mem_cons_self _ _)
    have hrest : ".." ∉ rest := fun hh => h (List.mem_cons_of_mem _ hh)
    simp only [List.foldl_cons]
    rw [ih _ hrest]
    by_cases h1 : e = "" ∨ e = "."
    · have hk : ¬ (e ≠ "" ∧ e ≠ ".") := by
        rcases h1 with h1 | h1 <;> simp [h1]
      simp [cleanStep, h1, List.filter_cons, hk]
    · have hk : e ≠ "" ∧ e ≠ "." := by
        constructor
        · exact fun hh => h1 (Or.inl hh)
        · exact fun hh => h1 (Or.inr hh)
      simp [cleanStep, h1, he, List.filter_cons, hk]

/-- The elements of a name joined to the staging directory are the elements of the
directory, then the elements of the name. -/
theorem stringsSplit_staged (name : String) :
    stringsSplit (tempNMConnectionsDir ++ "/" ++ name) "/" =
      ["", "etc", "assisted", "network"] ++ stringsSplit name "/" := by
  have hsep : ¬ ("/".data = []) := by decide
  unfold stringsSplit
  simp only [hsep, if_false]
  have hdata : (tempNMConnectionsDir ++ "/" ++ name).data =
      '/' :: 'e' :: 't' :: 'c' :: '/' :: 'a' :: 's' :: 's' :: 'i' :: 's' :: 't' :: 'e' :: 'd' ::
        '/' :: 'n' :: 'e' :: 't' :: 'w' :: 'o' :: 'r' :: 'k' :: '/' :: name.data := by
    rw [String.data_append, String.data_append]
    rfl
  rw [hdata]
  simp [splitAux, List.isPrefixOf]

/-- A name without `..` element is staged in the staging directory: its path is the
directory followed by the elements of the name that are neither empty nor `.`, each after
a slash. -/
theorem filepathJoin_staged (name : String) (h : ".." ∉ stringsSplit name "/") :
    filepathJoin tempNMConnectionsDir name =
      "/etc/assisted/network" ++
        concat (((stringsSplit name "/").filter (fun e => e ≠ "" ∧ e ≠ ".")).map
          (fun e => "/" ++ e)) := by
  have hdir : tempNMConnectionsDir ≠ "" := by decide
  have hne : tempNMConnectionsDir ++ "/" ++ name ≠ "" :=
    append_ne_empty_left (append_ne_empty_left hdir)
  have hhead : (tempNMConnectionsDir ++ "/" ++ name).data.head? = some '/' := by
    rw [String.data_append, String.data_append]
    rfl
  have hall : ".." ∉ (["", "etc", "assisted", "network"] ++ stringsSplit name "/") := by
    rw [List.mem_append]
    rintro (hh | hh)
    · revert hh
      decide
    · exact h hh
  unfold filepathJoin filepathClean
  simp only [hdir, ne_eq, not_false_eq_true, if_true, hne, if_false, hhead]
  rw [stringsSplit_staged]
  simp only [decide_True]
  rw [cleanStep_foldl_no_parent true _ [] hall]
  simp only [List.append_nil, List.reverse_reverse, List.filter_append]
  have hpre : (["", "etc", "assisted", "network"] : List String).filter
      (fun e => e ≠ "" ∧ e ≠ ".") = ["etc", "assisted", "network"] := by decide
  rw [hpre]
  simp only [List.cons_append, List.nil_append, String.intercalate, intercalate_go_eq,
    List.map_cons, concat, String.append_assoc]
  rfl

/-- C21, as stated, fails: a generated file named `../../passwd` is staged at
`/etc/passwd`, outside the staging directory. -/
theorem staticNetworkConfig_parent_element_leaves_staging :
    prepareStaticNetworkConfigForIgnition
        { sampleEnv with
          generateStaticNetworkConfigData := fun _ =>
            .ok [{ FilePath := "../../passwd", FileContents := "x" }] }
        sampleInfraEnv =
      .ok [{ FilePath := "/etc/passwd", FileContents := "eA==" }] ∧
    stringsContains "/etc/passwd" "/etc/assisted/network" = false := by
  refine ⟨by decide, by decide⟩

/-- C21, amended: when the generator returns a list of files,
`prepareStaticNetworkConfigForIgnition` returns as many files in the same order, the
i-th with the base64 text of the i-th contents and with the `filepath.Join` of the
staging directory and the i-th name as path; for a name without `..` element that path is
the staging directory followed by the elements of the name that are neither empty nor
`.`, each after a slash, so it is the directory or lies under it. -/
theorem staticNetworkConfig_staged_files (env : Env) (infraEnv : InfraEnv)
    (filesList : List StaticNetworkConfigData)
    (hgen : env.generateStaticNetworkConfigData infraEnv.staticNetworkConfig = .ok filesList) :
    ∃ out : List StaticNetworkConfigData,
      prepareStaticNetworkConfigForIgnition env infraEnv = .ok out ∧
      out.length = filesList.length ∧
      (∀ (i : Nat) (f : StaticNetworkConfigData), filesList[i]? = some f →
        out[i]? = some { FilePath := filepathJoin tempNMConnectionsDir f.FilePath
                         FileContents := base64Encode f.FileContents }) ∧
      (∀ (i : Nat) (f : StaticNetworkConfigData), filesList[i]? = some f →
        ".." ∉ stringsSplit f.FilePath "/" →
        ∃ o : StaticNetworkConfigData, out[i]? = some o ∧
          o.FilePath = "/etc/assisted/network" ++
            concat (((stringsSplit f.FilePath "/").filter (fun e => e ≠ "" ∧ e ≠ ".")).map
              (fun e => "/" ++ e))) := by
  refine ⟨filesList.map (fun f =>
      { FilePath := filepathJoin tempNMConnectionsDir f.FilePath
        FileContents := base64Encode f.FileContents }),
    by simp only [prepareStaticNetworkConfigForIgnition, hgen], ?_, ?_, ?_⟩
  · simp
  · intro i f hf
    simp [List.getElem?_map, hf]
  · intro i f hf hname
    refine ⟨{ FilePath := filepathJoin tempNMConnectionsDir f.FilePath
              FileContents := base64Encode f.FileContents },
      by simp only [List.getElem?_map, hf, Option.map_some'], ?_⟩
    exact filepathJoin_staged f.FilePath hname

/-- The amended C21 at a generator that returns two connection files. -/
theorem staticNetworkConfig_staged_files_witness :
    ∃ out : List StaticNetworkConfigData,
      prepareStaticNetworkConfigForIgnition
          { sampleEnv with
            generateStaticNetworkConfigData := fun _ =>
              .ok [{ FilePath := "eth0.nmconnection", FileContents := "a" },
                   { FilePath := "eth1.nmconnection", FileContents := "b" }] }
          sampleInfraEnv = .ok out ∧
      out.length = 2 ∧
      out[1]? = some { FilePath := "/etc/assisted/network/eth1.nmconnection", FileContents := "Yg==" } ∧
      ∃ o : StaticNetworkConfigData, out[0]? = some o ∧
        o.FilePath = "/etc/assisted/network" ++
          concat (((stringsSplit "eth0.nmconnection" "/").filter (fun e => e ≠ "" ∧ e ≠ ".")).map
            (fun e => "/" ++ e)) := by
  obtain ⟨out, hout, hlen, hmap, hstaged⟩ := staticNetworkConfig_staged_files
    { sampleEnv with
      generateStaticNetworkConfigData := fun _ =>
        .ok [{ FilePath := "eth0.nmconnection", FileContents := "a" },
             { FilePath := "eth1.nmconnection", FileContents := "b" }] }
    sampleInfraEnv
    [{ FilePath := "eth0.nmconnection", FileContents := "a" },
     { FilePath := "eth1.nmconnection", FileContents := "b" }] rfl
  refine ⟨out, hout, hlen, ?_,
    hstaged 0 { FilePath := "eth0.nmconnection", FileContents := "a" } rfl (by decide)⟩
  have := hmap 1 { FilePath := "eth1.nmconnection", FileContents := "b" } rfl
  rw [this]
  decide

/-! ### The order of the hostnames and the stable sort -/

/-- Two characters with the same code point are the same character. -/
theorem char_eq_of_toNat_eq (a b : Char) (h : a.toNat = b.toNat) : a = b := by
  apply Char.ext
  apply UInt32.ext
  exact h

/-- No text is smaller than itself. -/
theorem listLess_irrefl (l : List Char) : listLess l l = false := by
  induction l with
  | nil => rfl
  | cons a as ih => simp [listLess, ih]

/-- The order of the texts is transitive. -/
theorem listLess_trans (a b c : List Char) (hab : listLess a b = true)
    (hbc : listLess b c = true) : listLess a c = true := by
  induction a generalizing b c with
  | nil =>
    cases b with
    | nil => simp [listLess] at hab
    | cons y ys =>
      cases c with
      | nil => simp [listLess] at hbc
      | cons z zs => simp [listLess]
  | cons x xs ih =>
    cases b with
    | nil => simp [listLess] at hab
    | cons y ys =>
      cases c with
      | nil => simp [listLess] at hbc
      | cons z zs =>
        simp only [listLess] at hab hbc ⊢
        by_cases h1 : x.toNat < y.toNat
        · by_cases h2 : y.toNat < z.toNat
          · have : x.toNat < z.toNat := Nat.lt_trans h1 h2
            simp [this]
          · simp only [h2, if_false] at hbc
            by_cases h3 : z.toNat < y.toNat
            · simp [h3] at hbc
            · have : y.toNat = z.toNat := by omega
              have : x.toNat < z.toNat := by omega
              simp [this]
        · simp only [h1, if_false] at hab
          by_cases h1' : y.toNat < x.toNat
          · simp [h1'] at hab
          · simp only [h1', if_false] at hab
            have hxy : x.toNat = y.toNat := by omega
            by_cases h2 : y.toNat < z.toNat
            · have : x.toNat < z.toNat := by omega
              simp [this]
            · simp only [h2, if_false] at hbc
              by_cases h3 : z.toNat < y.toNat
              · simp [h3] at hbc
              · simp only [h3, if_false] at hbc
                have h4 : ¬ x.toNat < z.toNat := by omega
                have h5 : ¬ z.toNat < x.toNat := by omega
                simp only [h4, h5, if_false]
                exact ih ys zs hab hbc

/-- Two texts neither of which is smaller than the other are the same. -/
theorem listLess_total (a b : List Char) (hab : listLess a b = false)
    (hba : listLess b a = false) : a = b := by
  induction a generalizing b with
  | nil =>
    cases b with
    | nil => rfl
    | cons y ys => simp [listLess] at hab
  | cons x xs ih =>
    cases b with
    | nil => simp [listLess] at hba
    | cons y ys =>
      simp only [listLess] at hab hba
      by_cases h1 : x.toNat < y.toNat
      · simp [h1] at hab
      · by_cases h2 : y.toNat < x.toNat
        · simp [h2] at hba
        · simp only [h1, h2, if_false] at hab hba
          have hxy : x = y := char_eq_of_toNat_eq x y (by omega)
          rw [hxy, ih ys hab hba]

/-- The order of the strings is irreflexive. -/
theorem stringLess_irrefl (a : String) : stringLess a a = false :=
  listLess_irrefl a.data

/-- The order of the strings is transitive. -/
theorem stringLess_trans (a b c : String) (hab : stringLess a b = true)
    (hbc : stringLess b c = true) : stringLess a c = true :=
  listLess_trans a.data b.data c.data hab hbc

/-- The order of the strings is total. -/
theorem stringLess_total (a b : String) (hab : stringLess a b = false)
    (hba : stringLess b a = false) : a = b := by
  have := listLess_total a.data b.data hab hba
  cases a
  cases b
  simp_all

/-- The order of the strings is asymmetric. -/
theorem stringLess_asymm (a b : String) (hab : stringLess a b = true) :
    stringLess b a = false := by
  cases h : stringLess b a with
  | false => rfl
  | true =>
    have := stringLess_trans a b a hab h
    rw [stringLess_irrefl] at this
    cases this

/-- The relation "not greater" on strings is transitive. -/
theorem stringLess_not_trans (a b c : String) (hab : stringLess b a = false)
    (hbc : stringLess c b = false) : stringLess c a = false := by
  cases hca : stringLess c a with
  | false => rfl
  | true =>
    cases hcb : stringLess b c with
    | true =>
      have := stringLess_trans b c a hcb hca
      rw [hab] at this
      cases this
    | false =>
      have hbceq : c = b := stringLess_total c b hbc hcb
      rw [hbceq, hab] at hca
      cases hca

/-- The stable insertion puts the host into the list. -/
theorem insertByKey_perm (key : Host → String) (h : Host) (l : List Host) :
    (insertByKey key h l).Perm (h :: l) := by
  induction l with
  | nil => exact List.Perm.refl _
  | cons x xs ih =>
    unfold insertByKey
    split
    · exact (List.Perm.cons x ih).trans (List.Perm.swap h x xs)
    · exact List.Perm.refl _

/-- The result of the stable sort is a rearrangement of the list. -/
theorem sortStableByKey_perm (key : Host → String) (l : List Host) :
    (sortStableByKey key l).Perm l := by
  induction l with
  | nil => exact List.Perm.refl _
  | cons h t ih =>
    unfold sortStableByKey
    exact (insertByKey_perm key h _).trans (List.Perm.cons h ih)

/-- The stable insertion keeps a list in non-decreasing order of the keys. -/
theorem insertByKey_sorted (key : Host → String) (h : Host) (l : List Host)
    (hl : l.Pairwise (fun a b => stringLess (key b) (key a) = false)) :
    (insertByKey key h l).Pairwise (fun a b => stringLess (key b) (key a) = false) := by
  induction l with
  | nil => simp [insertByKey]
  | cons x xs ih =>
    rw [List.pairwise_cons] at hl
    unfold insertByKey
    split
    · rename_i hlt
      rw [List.pairwise_cons]
      refine ⟨?_, ih hl.2⟩
      intro y hy
      rcases List.mem_cons.mp ((insertByKey_perm key h xs).subset hy) with hyh | hyx
      · rw [hyh]
        exact stringLess_asymm _ _ hlt
      · exact hl.1 y hyx
    · rename_i hlt
      have hxh : stringLess (key x) (key h) = false := by simpa using hlt
      rw [List.pairwise_cons]
      refine ⟨?_, List.pairwise_cons.mpr hl⟩
      intro y hy
      rcases List.mem_cons.mp hy with hyx | hyx
      · rw [hyx]
        exact hxh
      · exact stringLess_not_trans _ _ _ hxh (hl.1 y hyx)

/-- The result of the stable sort is in non-decreasing order of the keys. -/
theorem sortStableByKey_sorted (key : Host → String) (l : List Host) :
    (sortStableByKey key l).Pairwise (fun a b => stringLess (key b) (key a) = false) := by
  induction l with
  | nil => simp [sortStableByKey]
  | cons h t ih =>
    unfold sortStableByKey
    exact insertByKey_sorted key h _ ih

/-- The stable insertion puts the host before the hosts of the list with the same key. -/
theorem insertByKey_filter (key : Host → String) (h : Host) (l : List Host) (k : String) :
    (insertByKey key h l).filter (fun a => key a = k) =
      (h :: l).filter (fun a => key a = k) := by
  induction l with
  | nil => rfl
  | cons x xs ih =>
    unfold insertByKey
    split
    · rename_i hlt
      have hne : ¬ (key x = k ∧ key h = k) := by
        rintro ⟨hx, hh⟩
        rw [hx, hh, stringLess_irrefl] at hlt
        cases hlt
      by_cases hx : key x = k
      · have hh : ¬ key h = k := fun hh => hne ⟨hx, hh⟩
        simp only [List.filter_cons, hx, decide_True, if_true, ih, hh, decide_False]
        simp
      · simp only [List.filter_cons, hx, decide_False, ih]
        simp
    · rfl

/-- The stable sort keeps the hosts of one key in their order. -/
theorem sortStableByKey_stable (key : Host → String) (l : List Host) (k : String) :
    (sortStableByKey key l).filter (fun a => key a = k) = l.filter (fun a => key a = k) := by
  induction l with
  | nil => rfl
  | cons h t ih =>
    unfold sortStableByKey
    rw [insertByKey_filter]
    simp only [List.filter_cons, ih]

/-- C22: `sortHosts` returns the stable sort by hostname of the hosts whose effective
role is master and the stable sort by hostname of the other hosts: the two lists are
rearrangements of these two parts of the input, so together they are a rearrangement of
the input and no host of one list is in the other; each list is in non-decreasing order
of the hostnames; and in each list the hosts of one hostname are in their input order. -/
theorem sortHosts_stable_by_hostname (env : Env) (hosts : List Host) :
    (sortHosts env hosts).1.Perm (hosts.filter (fun h => env.getEffectiveRole h = "master")) ∧
    (sortHosts env hosts).2.Perm (hosts.filter (fun h => ¬ env.getEffectiveRole h = "master")) ∧
    ((sortHosts env hosts).1 ++ (sortHosts env hosts).2).Perm hosts ∧
    (∀ h, (sortHosts env hosts).1.count h + (sortHosts env hosts).2.count h = hosts.count h) ∧
    (∀ h ∈ (sortHosts env hosts).1, env.getEffectiveRole h = "master" ∧
      h ∉ (sortHosts env hosts).2) ∧
    (∀ h ∈ (sortHosts env hosts).2, env.getEffectiveRole h ≠ "master") ∧
    (sortHosts env hosts).1.Pairwise
      (fun a b => stringLess (env.getHostnameForMsg b) (env.getHostnameForMsg a) = false) ∧
    (sortHosts env hosts).2.Pairwise
      (fun a b => stringLess (env.getHostnameForMsg b) (env.getHostnameForMsg a) = false) ∧
    (∀ name, (sortHosts env hosts).1.filter (fun h => env.getHostnameForMsg h = name) =
      (hosts.filter (fun h => env.getEffectiveRole h = "master")).filter
        (fun h => env.getHostnameForMsg h = name)) ∧
    (∀ name, (sortHosts env hosts).2.filter (fun h => env.getHostnameForMsg h = name) =
      (hosts.filter (fun h => ¬ env.getEffectiveRole h = "master")).filter
        (fun h => env.getHostnameForMsg h = name)) := by
  have hm : (sortHosts env hosts).1.Perm
      (hosts.filter (fun h => env.getEffectiveRole h = "master")) :=
    sortStableByKey_perm _ _
  have hw : (sortHosts env hosts).2.Perm
      (hosts.filter (fun h => ¬ env.getEffectiveRole h = "master")) :=
    sortStableByKey_perm _ _
  have hall : ((sortHosts env hosts).1 ++ (sortHosts env hosts).2).Perm hosts := by
    refine (List.Perm.append hm hw).trans ?_
    have := List.filter_append_perm (fun h => decide (env.getEffectiveRole h = "master")) hosts
    simpa using this
  have hmrole : ∀ h ∈ (sortHosts env hosts).1, env.getEffectiveRole h = "master" := by
    intro h hh
    have := hm.subset hh
    simpa using (List.mem_filter.mp this).2
  have hwrole : ∀ h ∈ (sortHosts env hosts).2, env.getEffectiveRole h ≠ "master" := by
    intro h hh
    have := hw.subset hh
    simpa using (List.mem_filter.mp this).2
  refine ⟨hm, hw, hall, ?_, ?_, hwrole, sortStableByKey_sorted _ _, sortStableByKey_sorted _ _,
    fun name => sortStableByKey_stable _ _ name, fun name => sortStableByKey_stable _ _ name⟩
  · intro h
    rw [← List.count_append]
    exact hall.count_eq h
  · intro h hh
    exact ⟨hmrole h hh, fun hw2 => hwrole h hw2 (hmrole h hh)⟩

/-- C22 at two masters with the same hostname and a worker: the master that comes first
in the input comes first in the list of the masters. -/
theorem sortHosts_stable_by_hostname_witness :
    (sampleEnv.getEffectiveRole { id := "2", requestedHostname := "a", role := "master" } = "master" ∧
      ({ id := "2", requestedHostname := "a", role := "master" } : Host) ∉
        (sortHosts sampleEnv
          [{ id := "1", requestedHostname := "b", role := "worker" },
           { id := "2", requestedHostname := "a", role := "master" },
           { id := "3", requestedHostname := "a", role := "master" }]).2) ∧
    (sortHosts sampleEnv
        [{ id := "1", requestedHostname := "b", role := "worker" },
         { id := "2", requestedHostname := "a", role := "master" },
         { id := "3", requestedHostname := "a", role := "master" }]).1.filter
        (fun h => sampleEnv.getHostnameForMsg h = "a") =
      ([{ id := "1", requestedHostname := "b", role := "worker" },
        { id := "2", requestedHostname := "a", role := "master" },
        { id := "3", requestedHostname := "a", role := "master" }].filter
          (fun h => sampleEnv.getEffectiveRole h = "master")).filter
        (fun h => sampleEnv.getHostnameForMsg h = "a") :=
  ⟨(sortHosts_stable_by_hostname sampleEnv
      [{ id := "1", requestedHostname := "b", role := "worker" },
       { id := "2", requestedHostname := "a", role := "master" },
       { id := "3", requestedHostname := "a", role := "master" }]).2.2.2.2.1
      { id := "2", requestedHostname := "a", role := "master" } (by decide),
   (sortHosts_stable_by_hostname sampleEnv
      [{ id := "1", requestedHostname := "b", role := "worker" },
       { id := "2", requestedHostname := "a", role := "master" },
       { id := "3", requestedHostname := "a", role := "master" }]).2.2.2.2.2.2.2.2.1 "a"⟩

/-! ### Descriptors in hostname order -/

/-- A descriptor that is classified as worker while a worker is left is populated from
the first worker of the queue. -/
theorem updateBootstrapFile_worker (env : Env) (g : Generator) (host : Host)
    (masters workers : List Host) (file out : File) (bmh : BareMetalHost)
    (h : isDescriptor file = true) (hbmh : fileToBMH env file = .ok bmh)
    (hcls : bmhIsMaster bmh (getHostnames env masters) (getHostnames env (host :: workers)) = false)
    (hmod : modifyBMHFile env g file bmh host = .ok out) :
    updateBootstrapFile env g masters (host :: workers) file = .ok (some out, masters, workers) := by
  unfold isDescriptor at h
  simp only [Bool.and_eq_true, Bool.not_eq_true'] at h
  unfold updateBootstrapFile
  simp [h.1.1, h.1.2, h.2, hbmh, hcls, hmod]

/-- Two rearrangements of one list that are both in non-decreasing order of keys that are
pairwise distinct are the same list. -/
theorem eq_of_perm_of_sorted_keys (key : Host → String) (l1 l2 : List Host)
    (hperm : l1.Perm l2) (hnodup : (l1.map key).Nodup)
    (h1 : l1.Pairwise (fun a b => stringLess (key b) (key a) = false))
    (h2 : l2.Pairwise (fun a b => stringLess (key b) (key a) = false)) : l1 = l2 := by
  induction l1 generalizing l2 with
  | nil => exact (List.Perm.nil_eq hperm)
  | cons a t1 ih =>
    cases l2 with
    | nil => exact absurd hperm.symm (List.not_perm_nil_cons _ _)
    | cons b t2 =>
      rw [List.map_cons, List.nodup_cons] at hnodup
      rw [List.pairwise_cons] at h1 h2
      have hab : a = b := by
        rcases List.mem_cons.mp (hperm.subset (List.mem_cons_self a t1)) with h | h
        · exact h
        · have hba : stringLess (key a) (key b) = false := h2.1 a h
          rcases List.mem_cons.mp (hperm.symm.subset (List.mem_cons_self b t2)) with h' | h'
          · exact h'.symm
          · have hab' : stringLess (key b) (key a) = false := h1.1 b h'
            have hk : key a = key b := stringLess_total _ _ hba hab'
            exact absurd (List.mem_map.mpr ⟨b, h', hk.symm⟩) hnodup.1
      subst hab
      rw [ih t2 (List.Perm.cons_inv hperm) hnodup.2 h1.2 h2.2]

/-- The loop of `updateBootstrap` when the descriptors come in the order of a list of
hosts with pairwise distinct hostnames, each descriptor named with the hostname of its
host, and the two queues are the masters and the other hosts of that list: every
descriptor is populated from its host and the queues end empty. -/
theorem updateBootstrapFiles_by_name (env : Env) (g : Generator) :
    ∀ (files acc : List File) (hs : List Host),
      (hs.map env.getHostnameForMsg).Nodup →
      List.Forall₂
        (fun f h => ∃ bmh out, fileToBMH env f = .ok bmh ∧
          bmh.name = env.getHostnameForMsg h ∧ modifyBMHFile env g f bmh h = .ok out)
        (files.filter isDescriptor) hs →
      ∃ out : List File,
        updateBootstrapFiles env g files
            (acc, hs.filter (fun h => env.getEffectiveRole h = "master"),
              hs.filter (fun h => ¬ env.getEffectiveRole h = "master")) =
          .ok (acc ++ out, [], []) ∧
        (out.filter isDescriptor).map some =
          List.zipWith (populate env g) (files.filter isDescriptor) hs := by
  intro files
  induction files with
  | nil =>
    intro acc hs _ hrel
    simp only [List.filter_nil] at hrel
    cases hrel
    exact ⟨[], by simp [updateBootstrapFiles], by simp⟩
  | cons file rest ih =>
    intro acc hs hnodup hrel
    by_cases hd : isDescriptor file = true
    · have hfilter : (file :: rest).filter isDescriptor = file :: rest.filter isDescriptor := by
        simp [List.filter_cons, hd]
      rw [hfilter] at hrel ⊢
      cases hrel with
      | cons hhead htail =>
        rename_i h hs'
        obtain ⟨bmh, out0, hbmh, hname, hmod⟩ := hhead
        rw [List.map_cons, List.nodup_cons] at hnodup
        obtain ⟨out, hout, hzip⟩ := ih (acc ++ [out0]) hs' hnodup.2 htail
        have hd0 : isDescriptor out0 = true := by
          rw [isDescriptor_of_path out0 file (modifyBMHFile_path env g file bmh h out0 hmod)]
          exact hd
        have hpop : populate env g file h = some out0 := by
          simp [populate, hbmh, hmod]
        have hstep : updateBootstrapFile env g
            ((h :: hs').filter (fun h => env.getEffectiveRole h = "master"))
            ((h :: hs').filter (fun h => ¬ env.getEffectiveRole h = "master")) file =
            .ok (some out0, hs'.filter (fun h => env.getEffectiveRole h = "master"),
              hs'.filter (fun h => ¬ env.getEffectiveRole h = "master")) := by
          by_cases hrole : env.getEffectiveRole h = "master"
          · have e1 : (h :: hs').filter (fun h => env.getEffectiveRole h = "master") =
                h :: hs'.filter (fun h => env.getEffectiveRole h = "master") := by
              simp [List.filter_cons, hrole]
            have e2 : (h :: hs').filter (fun h => ¬ env.getEffectiveRole h = "master") =
                hs'.filter (fun h => ¬ env.getEffectiveRole h = "master") := by
              simp [List.filter_cons, hrole]
            rw [e1, e2]
            apply updateBootstrapFile_master env g h _ _ file out0 bmh hd hbmh _ hmod
            simp [bmhIsMaster, getHostnames, hname]
          · have e1 : (h :: hs').filter (fun h => env.getEffectiveRole h = "master") =
                hs'.filter (fun h => env.getEffectiveRole h = "master") := by
              simp [List.filter_cons, hrole]
            have e2 : (h :: hs').filter (fun h => ¬ env.getEffectiveRole h = "master") =
                h :: hs'.filter (fun h => ¬ env.getEffectiveRole h = "master") := by
              simp [List.filter_cons, hrole]
            rw [e1, e2]
            apply updateBootstrapFile_worker env g h _ _ file out0 bmh hd hbmh _ hmod
            have hnot : bmh.name ∉ getHostnames env
                (hs'.filter (fun h => env.getEffectiveRole h = "master")) := by
              intro hmem
              unfold getHostnames at hmem
              obtain ⟨x, hx, hxn⟩ := List.mem_map.mp hmem
              apply hnodup.1
              rw [← hname, ← hxn]
              exact List.mem_map.mpr ⟨x, (List.mem_filter.mp hx).1, rfl⟩
            unfold bmhIsMaster
            rw [if_neg hnot]
            simp [getHostnames, hname]
        refine ⟨out0 :: out, ?_, ?_⟩
        · unfold updateBootstrapFiles
          rw [hstep]
          simp only [Option.toList]
          rw [hout]
          simp
        · simp only [List.filter_cons, hd0, if_true, List.map_cons, List.zipWith_cons_cons, hpop]
          rw [hzip]
    · have hd' : isDescriptor file = false := by simpa using hd
      have hfilter : (file :: rest).filter isDescriptor = rest.filter isDescriptor := by
        simp [List.filter_cons, hd']
      rw [hfilter] at hrel ⊢
      obtain ⟨kept, hstep, hkept⟩ := updateBootstrapFile_other env g
        (hs.filter (fun h => env.getEffectiveRole h = "master"))
        (hs.filter (fun h => ¬ env.getEffectiveRole h = "master")) file hd'
      obtain ⟨out, hout, hzip⟩ := ih (acc ++ kept.toList) hs hnodup hrel
      refine ⟨kept.toList ++ out, ?_, ?_⟩
      · unfold updateBootstrapFiles
        rw [hstep]
        simp only
        rw [hout]
        simp
      · rw [List.filter_append, hkept]
        simpa using hzip

/-- The queues of `sortHosts` are the masters and the other hosts of any arrangement of
the hosts in non-decreasing order of pairwise distinct hostnames. -/
theorem sortHosts_of_sorted (env : Env) (hosts hs : List Host) (hperm : hs.Perm hosts)
    (hnodup : (hosts.map env.getHostnameForMsg).Nodup)
    (hsorted : hs.Pairwise
      (fun a b => stringLess (env.getHostnameForMsg b) (env.getHostnameForMsg a) = false)) :
    sortHosts env hosts =
      (hs.filter (fun h => env.getEffectiveRole h = "master"),
        hs.filter (fun h => ¬ env.getEffectiveRole h = "master")) := by
  have hkeys : (hs.map env.getHostnameForMsg).Nodup :=
    (List.Perm.nodup_iff (List.Perm.map _ hperm)).mpr hnodup
  have part : ∀ p : Host → Bool,
      sortStableByKey env.getHostnameForMsg (hosts.filter p) = hs.filter p := by
    intro p
    apply eq_of_perm_of_sorted_keys env.getHostnameForMsg
    · exact (sortStableByKey_perm _ _).trans (List.Perm.filter p hperm.symm)
    · exact (List.Perm.nodup_iff (List.Perm.map _ (sortStableByKey_perm _ _))).mpr
        (List.Nodup.sublist (List.Sublist.map _ (List.filter_sublist _)) hnodup)
    · exact sortStableByKey_sorted _ _
    · exact List.Pairwise.sublist (List.filter_sublist _) hsorted
  unfold sortHosts
  simp only [part]

/-- C23: let the hosts of the cluster have pairwise distinct hostnames, and let the
descriptor files of the bootstrap document come in the order of the hosts by ascending
hostname, one for each host, each named with the hostname of its host and such that
decoding it and populating it from that host succeeds. Then `updateBootstrap` succeeds,
and the descriptors of the document it writes are, in order, the descriptors of the input
populated from the host whose hostname is the name of the descriptor. -/
theorem updateBootstrap_sorted_descriptors_match_by_name (env : Env) (g : Generator) (fs : FS)
    (bootstrapPath : String) (config : Config) (hs : List Host)
    (hparse : parseIgnitionFile env fs bootstrapPath = .ok config)
    (hdistinct : (g.cluster.hosts.map env.getHostnameForMsg).Nodup)
    (hperm : hs.Perm g.cluster.hosts)
    (hsorted : hs.Pairwise
      (fun a b => stringLess (env.getHostnameForMsg b) (env.getHostnameForMsg a) = false))
    (hdesc : List.Forall₂
      (fun f h => ∃ bmh out, fileToBMH env f = .ok bmh ∧
        bmh.name = env.getHostnameForMsg h ∧ modifyBMHFile env g f bmh h = .ok out)
      (config.files.filter isDescriptor) hs) :
    ∃ written : Config,
      updateBootstrap env g fs bootstrapPath =
        (none, writeFile fs bootstrapPath (Bytes.json written)) ∧
      (written.files.filter isDescriptor).map some =
        List.zipWith (populate env g) (config.files.filter isDescriptor) hs ∧
      (written.files.filter isDescriptor).length = g.cluster.hosts.length := by
  have hkeys : (hs.map env.getHostnameForMsg).Nodup :=
    (List.Perm.nodup_iff (List.Perm.map _ hperm)).mpr hdistinct
  obtain ⟨out, hloop, hzip⟩ := updateBootstrapFiles_by_name env g config.files [] hs hkeys hdesc
  have hqueues := sortHosts_of_sorted env g.cluster.hosts hs hperm hdistinct hsorted
  have hmarker : isDescriptor { path := "/opt/openshift/assisted-install-bootstrap" } = false := by
    decide
  have hnm : isDescriptor { path := "/etc/NetworkManager/conf.d/99-kni.conf" } = false := by
    decide
  have hlen : (out.filter isDescriptor).length = g.cluster.hosts.length := by
    have := congrArg List.length hzip
    simp only [List.length_map, List.length_zipWith, List.Forall₂.length_eq hdesc, min_self] at this
    rw [this]
    exact hperm.length_eq
  unfold updateBootstrap
  rw [hparse]
  simp only [List.nil_append] at hloop
  simp only [hqueues, hloop]
  refine ⟨_, rfl, ?_, ?_⟩
  · rw [← hzip]
    congr 1
    unfold setNMConfigration
    split <;> split <;>
      simp only [setFileInIgnition_descriptors _ _ _ _ _ _ hmarker,
        setFileInIgnition_descriptors _ _ _ _ _ _ hnm]
  · rw [← hlen]
    congr 1
    unfold setNMConfigration
    split <;> split <;>
      simp only [setFileInIgnition_descriptors _ _ _ _ _ _ hmarker,
        setFileInIgnition_descriptors _ _ _ _ _ _ hnm]

set_option maxRecDepth 100000 in
/-- C23 at the masters `b`, `c` and the worker `a`, with the descriptors `a`, `b`, `c` in
file order. -/
theorem updateBootstrap_sorted_descriptors_match_by_name_witness :
    ∃ written : Config,
      updateBootstrap sampleEnv
          (sampleGenerator [sampleMaster "b",
            sampleInventoriedWorker "a", sampleMaster "c"])
          (sampleBootstrap [sampleDescriptor "0" "a", sampleDescriptor "1" "b",
            sampleDescriptor "2" "c"])
          "/work/bootstrap.ign" =
        (none, writeFile (sampleBootstrap [sampleDescriptor "0" "a", sampleDescriptor "1" "b",
            sampleDescriptor "2" "c"])
          "/work/bootstrap.ign" (Bytes.json written)) ∧
      (written.files.filter isDescriptor).map some =
        List.zipWith (populate sampleEnv (sampleGenerator [sampleMaster "b",
            sampleInventoriedWorker "a", sampleMaster "c"]))
          (({ version := "3.2.0", files := [sampleDescriptor "0" "a", sampleDescriptor "1" "b",
                sampleDescriptor "2" "c"] } : Config).files.filter isDescriptor)
          [sampleInventoriedWorker "a", sampleMaster "b", sampleMaster "c"] ∧
      (written.files.filter isDescriptor).length =
        (sampleGenerator [sampleMaster "b",
          sampleInventoriedWorker "a", sampleMaster "c"]).cluster.hosts.length := by
  have hfilter : (({ version := "3.2.0", files := [sampleDescriptor "0" "a", sampleDescriptor "1" "b",
        sampleDescriptor "2" "c"] } : Config).files.filter isDescriptor) =
      [sampleDescriptor "0" "a", sampleDescriptor "1" "b", sampleDescriptor "2" "c"] := by
    decide
  exact updateBootstrap_sorted_descriptors_match_by_name sampleEnv
    (sampleGenerator [sampleMaster "b",
      sampleInventoriedWorker "a", sampleMaster "c"])
    (sampleBootstrap [sampleDescriptor "0" "a", sampleDescriptor "1" "b", sampleDescriptor "2" "c"])
    "/work/bootstrap.ign"
    { version := "3.2.0",
      files := [sampleDescriptor "0" "a", sampleDescriptor "1" "b", sampleDescriptor "2" "c"] }
    [sampleInventoriedWorker "a", sampleMaster "b", sampleMaster "c"]
    (by decide) (by decide) (by decide) (by decide)
    (by
      rw [hfilter]
      refine List.Forall₂.cons ⟨{ name := "a" },
        { sampleDescriptor "0" "a" with
          contents := { source := some "data:text/plain;charset=utf-8;base64,bmFtZTogYQo=" } },
        by decide, by decide, by decide⟩ ?_
      refine List.Forall₂.cons ⟨{ name := "b" },
        { sampleDescriptor "1" "b" with
          contents := { source := some "data:text/plain;charset=utf-8;base64,bmFtZTogYgo=" } },
        by decide, by decide, by decide⟩ ?_
      exact List.Forall₂.cons ⟨{ name := "c" },
        { sampleDescriptor "2" "c" with
          contents := { source := some "data:text/plain;charset=utf-8;base64,bmFtZTogYwo=" } },
        by decide, by decide, by decide⟩ List.Forall₂.nil)

/-! ### The files written by `updateBootstrap` -/

/-- One iteration of the loop of `updateBootstrap` that succeeds drops the file exactly
when it is not to be kept, and otherwise keeps an entry for it. -/
theorem updateBootstrapFile_kept (env : Env) (g : Generator) (masters workers : List Host)
    (file : File) (kept : Option File) (masters' workers' : List Host)
    (h : updateBootstrapFile env g masters workers file = .ok (kept, masters', workers')) :
    (keptInBootstrap g file = false ∧ kept = none) ∨
    (keptInBootstrap g file = true ∧ ∃ entry, kept = some entry ∧
      writtenForBootstrapFile env g file entry) := by
  unfold updateBootstrapFile at h
  by_cases h1 : isBaremetalProvisioningConfig file = true
  · rw [if_pos h1] at h
    by_cases h2 : g.enableMetal3Provisioning = true
    · simp only [h2, not_true_eq_false, if_false, Except.ok.injEq, Prod.mk.injEq] at h
      right
      refine ⟨by simp [keptInBootstrap, h2], file, h.1.symm, rfl, fun _ => rfl, ?_, ?_, ?_⟩
      · intro hh
        rw [h1] at hh
        cases hh
      · intro _ _
        rfl
      · intro hd
        simp [isDescriptor, h1] at hd
    · have h2' : g.enableMetal3Provisioning = false := by simpa using h2
      simp only [h2', Bool.false_eq_true, not_false_eq_true, if_true, Except.ok.injEq,
        Prod.mk.injEq] at h
      left
      exact ⟨by simp [keptInBootstrap, h1, h2'], h.1.symm⟩
  · have h1' : isBaremetalProvisioningConfig file = false := by simpa using h1
    rw [if_neg h1] at h
    right
    refine ⟨by simp [keptInBootstrap, h1'], ?_⟩
    by_cases h2 : isMOTD file = true
    · rw [if_pos h2] at h
      simp only [Except.ok.injEq, Prod.mk.injEq] at h
      have hp : (fixMOTDFile file).path = file.path := by
        unfold fixMOTDFile
        split
        · rfl
        · split <;> rfl
      refine ⟨fixMOTDFile file, h.1.symm, hp, ?_, fun _ _ => rfl, ?_, ?_⟩
      · intro hh
        rw [h1'] at hh
        cases hh
      · intro hh
        rw [h2] at hh
        cases hh
      · intro hd
        simp [isDescriptor, h2] at hd
    · have h2' : isMOTD file = false := by simpa using h2
      rw [if_neg h2] at h
      by_cases h3 : isBMHFile file = true
      · rw [if_pos h3] at h
        have hdesc : isDescriptor file = true := by simp [isDescriptor, h1', h2', h3]
        cases hb : fileToBMH env file with
        | error e => simp [hb] at h
        | ok bmh =>
          simp only [hb] at h
          split at h
          · cases masters with
            | nil => simp at h
            | cons host ms =>
              simp only at h
              cases hm : modifyBMHFile env g file bmh host with
              | error e => simp [hm] at h
              | ok out =>
                simp only [hm, Except.ok.injEq, Prod.mk.injEq] at h
                refine ⟨out, h.1.symm, modifyBMHFile_path env g file bmh host out hm, ?_, ?_, ?_, ?_⟩
                · intro hh
                  rw [h1'] at hh
                  cases hh
                · intro _ hh
                  rw [h2'] at hh
                  cases hh
                · intro _ hh
                  rw [h3] at hh
                  cases hh
                · intro _
                  exact ⟨host, by simp [populate, hb, hm]⟩
          · cases workers with
            | nil => simp at h
            | cons host ws =>
              simp only at h
              cases hm : modifyBMHFile env g file bmh host with
              | error e => simp [hm] at h
              | ok out =>
                simp only [hm, Except.ok.injEq, Prod.mk.injEq] at h
                refine ⟨out, h.1.symm, modifyBMHFile_path env g file bmh host out hm, ?_, ?_, ?_, ?_⟩
                · intro hh
                  rw [h1'] at hh
                  cases hh
                · intro _ hh
                  rw [h2'] at hh
                  cases hh
                · intro _ hh
                  rw [h3] at hh
                  cases hh
                · intro _
                  exact ⟨host, by simp [populate, hb, hm]⟩
      · have h3' : isBMHFile file = false := by simpa using h3
        rw [if_neg h3] at h
        simp only [Except.ok.injEq, Prod.mk.injEq] at h
        refine ⟨file, h.1.symm, rfl, fun _ => rfl, ?_, fun _ _ => rfl, ?_⟩
        · intro _ hh
          rw [h2'] at hh
          cases hh
        · intro hd
          simp [isDescriptor, h3'] at hd


/-- The loop of `updateBootstrap` that succeeds appends, in order, one entry for every
file that is kept. -/
theorem updateBootstrapFiles_written (env : Env) (g : Generator) :
    ∀ (files acc : List File) (masters workers : List Host)
      (result : List File × List Host × List Host),
      updateBootstrapFiles env g files (acc, masters, workers) = .ok result →
      ∃ new : List File, result.1 = acc ++ new ∧
        List.Forall₂ (writtenForBootstrapFile env g) (files.filter (keptInBootstrap g)) new := by
  intro files
  induction files with
  | nil =>
    intro acc masters workers result h
    simp only [updateBootstrapFiles, Except.ok.injEq] at h
    subst h
    exact ⟨[], by simp, by simp⟩
  | cons file rest ih =>
    intro acc masters workers result h
    unfold updateBootstrapFiles at h
    cases hstep : updateBootstrapFile env g masters workers file with
    | error e => simp [hstep] at h
    | ok r =>
      obtain ⟨kept, masters', workers'⟩ := r
      simp only [hstep] at h
      obtain ⟨new, hnew, hrel⟩ := ih _ _ _ _ h
      rcases updateBootstrapFile_kept env g masters workers file kept masters' workers' hstep with
        ⟨hk, hnone⟩ | ⟨hk, entry, hsome, hentry⟩
      · subst hnone
        refine ⟨new, by simpa using hnew, ?_⟩
        simpa [List.filter_cons, hk] using hrel
      · subst hsome
        refine ⟨entry :: new, by simpa using hnew, ?_⟩
        simp only [List.filter_cons, hk, if_true]
        exact List.Forall₂.cons hentry hrel

/-- C26: when `updateBootstrap` succeeds, the file list it writes is, in the order of the
input, one entry for every input file except the bare-metal provisioning configuration
files when the orchestrator is disabled (with the orchestrator enabled they are written
unchanged, and so are the files that are neither `/etc/motd` nor descriptors), followed by
the marker file when the high-availability mode is not `None` and by the NetworkManager
fragment when the cluster is not a single-node cluster. When the single-node test is the
test of the high-availability mode, these are the marker and then the fragment in
multi-node mode and nothing in single-node mode. -/
theorem updateBootstrap_written_file_list (env : Env) (g : Generator) (fs fs' : FS)
    (bootstrapPath : String) (hok : updateBootstrap env g fs bootstrapPath = (none, fs')) :
    ∃ (config : Config) (entries suffix : List File),
      parseIgnitionFile env fs bootstrapPath = .ok config ∧
      List.Forall₂ (writtenForBootstrapFile env g) (config.files.filter (keptInBootstrap g))
        entries ∧
      fs' = writeFile fs bootstrapPath (Bytes.json { config with files := entries ++ suffix }) ∧
      suffix =
        (if g.cluster.highAvailabilityMode.getD "" ≠ "None" then
          [({ path := "/opt/openshift/assisted-install-bootstrap", overwrite := some false,
              userName := some "root", contents := { source := some "data:," },
              mode := some 420 } : File)]
         else []) ++
        (if ¬ env.isSingleNodeCluster g.cluster then
          [({ path := "/etc/NetworkManager/conf.d/99-kni.conf", overwrite := some false,
              userName := some "root",
              contents := { source := some ("data:text/plain;charset=utf-8;base64," ++
                base64Encode env.unmanagedResolvConf) },
              mode := some 420 } : File)]
         else []) ∧
      ((env.isSingleNodeCluster g.cluster = true ↔
          g.cluster.highAvailabilityMode.getD "" = "None") →
        (g.cluster.highAvailabilityMode.getD "" ≠ "None" →
          suffix =
            [{ path := "/opt/openshift/assisted-install-bootstrap", overwrite := some false,
               userName := some "root", contents := { source := some "data:," },
               mode := some 420 },
             { path := "/etc/NetworkManager/conf.d/99-kni.conf", overwrite := some false,
               userName := some "root",
               contents := { source := some ("data:text/plain;charset=utf-8;base64," ++
                 base64Encode env.unmanagedResolvConf) },
               mode := some 420 }]) ∧
        (g.cluster.highAvailabilityMode.getD "" = "None" → suffix = [])) := by
  unfold updateBootstrap at hok
  cases hparse : parseIgnitionFile env fs bootstrapPath with
  | error e => simp [hparse] at hok
  | ok config =>
    simp only [hparse] at hok
    cases hloop : updateBootstrapFiles env g config.files
        ([], (sortHosts env g.cluster.hosts).1, (sortHosts env g.cluster.hosts).2) with
    | error e => simp [hloop] at hok
    | ok result =>
      obtain ⟨newFiles, m', w'⟩ := result
      simp only [hloop, Prod.mk.injEq, true_and] at hok
      obtain ⟨new, hnew, hrel⟩ := updateBootstrapFiles_written env g config.files [] _ _ _ hloop
      simp only [List.nil_append] at hnew
      subst hnew
      refine ⟨config, newFiles, _, rfl, hrel, ?_, rfl, ?_⟩
      · rw [← hok]
        unfold writeIgnitionFile setNMConfigration setFileInIgnition
        by_cases h1 : g.cluster.highAvailabilityMode.getD "" = "None" <;>
          by_cases h2 : env.isSingleNodeCluster g.cluster = true <;>
          simp [h1, h2]
      · intro hagree
        refine ⟨?_, ?_⟩
        · intro h1
          have h2 : ¬ env.isSingleNodeCluster g.cluster = true := fun hh => h1 (hagree.mp hh)
          simp [h1, h2]
        · intro h1
          have h2 : env.isSingleNodeCluster g.cluster = true := hagree.mpr h1
          simp [h1, h2]

set_option maxRecDepth 100000 in
/-- C26 at a multi-node cluster without orchestrator: the provisioning configuration is
dropped, `/etc/motd` and `/etc/other` are kept, the marker and the fragment follow. -/
theorem updateBootstrap_written_file_list_witness :
    ∃ (config : Config) (entries suffix : List File),
      parseIgnitionFile sampleEnv
          (sampleBootstrap [{ path := "/opt/openshift/manifests/baremetal-provisioning-config.yaml" },
            { path := "/etc/motd", append := [{ source := some "data:,hello" }] },
            { path := "/etc/other" }])
          "/work/bootstrap.ign" = .ok config ∧
      List.Forall₂
        (writtenForBootstrapFile sampleEnv
          { workDir := "/work", cluster := { highAvailabilityMode := some "Full" },
            enableMetal3Provisioning := false })
        (config.files.filter (keptInBootstrap
          { workDir := "/work", cluster := { highAvailabilityMode := some "Full" },
            enableMetal3Provisioning := false })) entries ∧
      (updateBootstrap sampleEnv
          { workDir := "/work", cluster := { highAvailabilityMode := some "Full" },
            enableMetal3Provisioning := false }
          (sampleBootstrap [{ path := "/opt/openshift/manifests/baremetal-provisioning-config.yaml" },
            { path := "/etc/motd", append := [{ source := some "data:,hello" }] },
            { path := "/etc/other" }])
          "/work/bootstrap.ign").2 =
        writeFile
          (sampleBootstrap [{ path := "/opt/openshift/manifests/baremetal-provisioning-config.yaml" },
            { path := "/etc/motd", append := [{ source := some "data:,hello" }] },
            { path := "/etc/other" }])
          "/work/bootstrap.ign" (Bytes.json { config with files := entries ++ suffix }) ∧
      suffix.map File.path =
        ["/opt/openshift/assisted-install-bootstrap", "/etc/NetworkManager/conf.d/99-kni.conf"] := by
  obtain ⟨config, entries, suffix, hparse, hrel, hfs, _, hmodes⟩ :=
    updateBootstrap_written_file_list sampleEnv
      { workDir := "/work", cluster := { highAvailabilityMode := some "Full" },
        enableMetal3Provisioning := false }
      (sampleBootstrap [{ path := "/opt/openshift/manifests/baremetal-provisioning-config.yaml" },
        { path := "/etc/motd", append := [{ source := some "data:,hello" }] },
        { path := "/etc/other" }])
      _ "/work/bootstrap.ign" (Prod.ext (by decide) rfl)
  refine ⟨config, entries, suffix, hparse, hrel, hfs, ?_⟩
  rw [(hmodes (by decide)).1 (by decide)]
  rfl

/-! ### The populated descriptor -/

/-- What `modifyBMHFile` returns when the inventory is decoded, has a CPU, and the status
and the descriptor are serialized. -/
theorem modifyBMHFile_ok (env : Env) (g : Generator) (file : File) (bmh : BareMetalHost)
    (host : Host) (inventory : Inventory) (cpu : CPU) (statusJSON buf : String)
    (hinv : env.parseInventory host.inventory = .ok inventory) (hcpu : inventory.cpu = some cpu)
    (hstatus : env.marshalStatus
      { hardwareDetails := hardwareDetailsOf env host inventory cpu, poweredOn := true } =
      .ok statusJSON)
    (hbuf : env.encodeBMH (annotatedBMH g bmh statusJSON) = .ok buf) :
    modifyBMHFile env g file bmh host =
      .ok { file with contents := { file.contents with
        source := some ("data:text/plain;charset=utf-8;base64," ++
          base64Encode ((stringsSplit buf "status:\n").headD "")) } } := by
  unfold hardwareDetailsOf at hstatus
  unfold annotatedBMH at hbuf
  unfold modifyBMHFile
  simp only [hinv, hcpu, hstatus, hbuf]

/-- A successful `modifyBMHFile` decoded the inventory, found its CPU, serialized the
status of the hardware details and the annotated descriptor, and set the content source
from the serialization. -/
theorem modifyBMHFile_inv (env : Env) (g : Generator) (file : File) (bmh : BareMetalHost)
    (host : Host) (out : File) (h : modifyBMHFile env g file bmh host = .ok out) :
    ∃ (inventory : Inventory) (cpu : CPU) (statusJSON buf : String),
      env.parseInventory host.inventory = .ok inventory ∧ inventory.cpu = some cpu ∧
      env.marshalStatus
        { hardwareDetails := hardwareDetailsOf env host inventory cpu, poweredOn := true } =
        .ok statusJSON ∧
      env.encodeBMH (annotatedBMH g bmh statusJSON) = .ok buf ∧
      out = { file with contents := { file.contents with
        source := some ("data:text/plain;charset=utf-8;base64," ++
          base64Encode ((stringsSplit buf "status:\n").headD "")) } } := by
  cases hinv : env.parseInventory host.inventory with
  | error e => simp [modifyBMHFile, hinv] at h
  | ok inventory =>
    cases hcpu : inventory.cpu with
    | none => simp [modifyBMHFile, hinv, hcpu] at h
    | some cpu =>
      cases hstatus : env.marshalStatus
          { hardwareDetails := hardwareDetailsOf env host inventory cpu, poweredOn := true } with
      | error e =>
        have hs := hstatus
        unfold hardwareDetailsOf at hs
        simp [modifyBMHFile, hinv, hcpu, hs] at h
      | ok statusJSON =>
        cases hbuf : env.encodeBMH (annotatedBMH g bmh statusJSON) with
        | error e =>
          have hs := hstatus
          unfold hardwareDetailsOf at hs
          have hb := hbuf
          unfold annotatedBMH at hb
          simp [modifyBMHFile, hinv, hcpu, hs, hb] at h
        | ok buf =>
          have := modifyBMHFile_ok env g file bmh host inventory cpu statusJSON buf hinv hcpu
            hstatus hbuf
          rw [this] at h
          exact ⟨inventory, cpu, statusJSON, buf, rfl, hcpu, hstatus, hbuf, (Except.ok.inj h).symm⟩

/-- C27: the hardware details that a successful `modifyBMHFile` serializes as status have
one NIC for every interface of the inventory and one storage entry for every disk, in
the order of the inventory; the address of a NIC is the address of the first IPv4 CIDR
of the interface when the interface has an IPv4 address, else the address of its first
IPv6 CIDR when it has one, else empty (the address of a CIDR that does not parse is
empty); a storage entry is rotational exactly when the drive type of the disk is `HDD`. -/
theorem modifyBMHFile_nics_and_storage (env : Env) (g : Generator) (file : File)
    (bmh : BareMetalHost) (host : Host) (out : File)
    (h : modifyBMHFile env g file bmh host = .ok out) :
    ∃ (inventory : Inventory) (cpu : CPU) (statusJSON : String) (hw : HardwareDetails),
      env.parseInventory host.inventory = .ok inventory ∧ inventory.cpu = some cpu ∧
      hw = hardwareDetailsOf env host inventory cpu ∧
      env.marshalStatus { hardwareDetails := hw, poweredOn := true } = .ok statusJSON ∧
      hw.nic.length = inventory.interfaces.length ∧
      hw.storage.length = inventory.disks.length ∧
      (∀ (i : Nat) (iface : Interface), inventory.interfaces[i]? = some iface →
        ∃ nic : NIC, hw.nic[i]? = some nic ∧ nic.name = iface.name ∧ nic.mac = iface.macAddress ∧
          (∀ a rest, iface.ipv4Addresses = a :: rest → nic.ip = (env.parseCIDR a).getD "") ∧
          (iface.ipv4Addresses = [] → ∀ a rest, iface.ipv6Addresses = a :: rest →
            nic.ip = (env.parseCIDR a).getD "") ∧
          (iface.ipv4Addresses = [] → iface.ipv6Addresses = [] → nic.ip = "")) ∧
      (∀ (i : Nat) (disk : Disk), inventory.disks[i]? = some disk →
        ∃ entry : Storage, hw.storage[i]? = some entry ∧ entry.name = disk.name ∧
          (entry.rotational = true ↔ disk.driveType = "HDD")) := by
  obtain ⟨inventory, cpu, statusJSON, buf, hinv, hcpu, hstatus, _, _⟩ :=
    modifyBMHFile_inv env g file bmh host out h
  have hip : ∀ cidr, getInterfaceIP env cidr = (env.parseCIDR cidr).getD "" := by
    intro cidr
    unfold getInterfaceIP
    cases env.parseCIDR cidr <;> rfl
  refine ⟨inventory, cpu, statusJSON, _, hinv, hcpu, rfl, hstatus, ?_, ?_, ?_, ?_⟩
  · simp [hardwareDetailsOf]
  · simp [hardwareDetailsOf]
  · intro i iface hi
    refine ⟨nicOfInterface env iface, by simp [hardwareDetailsOf, List.getElem?_map, hi], rfl, rfl,
      ?_, ?_, ?_⟩
    · intro a rest h4
      simp [nicOfInterface, h4, hip]
    · intro h4 a rest h6
      simp [nicOfInterface, h4, h6, hip]
    · intro h4 h6
      simp [nicOfInterface, h4, h6]
  · intro i disk hi
    refine ⟨storageOfDisk disk, by simp [hardwareDetailsOf, List.getElem?_map, hi], rfl, ?_⟩
    simp [storageOfDisk]

set_option maxRecDepth 100000 in
/-- C27 at a host whose inventory has the interfaces `eth0` (IPv4 and IPv6 address) and
`eth1` (IPv6 address only) and the disks `sda` (HDD) and `nvme0n1` (SSD). -/
theorem modifyBMHFile_nics_and_storage_witness :
    (hardwareDetailsOf sampleInventoryEnv (sampleMaster "a") sampleInventory
        { architecture := "x86_64", count := 8 }).nic.map (fun n => (n.name, n.ip)) =
      [("eth0", "192.168.1.5"), ("eth1", "fd00::5")] ∧
    (hardwareDetailsOf sampleInventoryEnv (sampleMaster "a") sampleInventory
        { architecture := "x86_64", count := 8 }).storage.map (fun e => (e.name, e.rotational)) =
      [("sda", true), ("nvme0n1", false)] ∧
    ∃ (inventory : Inventory) (cpu : CPU) (statusJSON : String) (hw : HardwareDetails),
      sampleInventoryEnv.parseInventory (sampleMaster "a").inventory = .ok inventory ∧
      inventory.cpu = some cpu ∧
      hw = hardwareDetailsOf sampleInventoryEnv (sampleMaster "a") inventory cpu ∧
      sampleInventoryEnv.marshalStatus { hardwareDetails := hw, poweredOn := true } =
        .ok statusJSON ∧
      hw.nic.length = inventory.interfaces.length ∧
      hw.storage.length = inventory.disks.length := by
  refine ⟨by decide, by decide, ?_⟩
  obtain ⟨inventory, cpu, statusJSON, hw, h1, h2, h3, h4, h5, h6, _, _⟩ :=
    modifyBMHFile_nics_and_storage sampleInventoryEnv (sampleGenerator [sampleMaster "a"])
      (sampleDescriptor "0" "a") { name := "a" } (sampleMaster "a")
      { sampleDescriptor "0" "a" with
        contents := { source := some "data:text/plain;charset=utf-8;base64,bmFtZTogYQo=" } }
      (by decide)
  exact ⟨inventory, cpu, statusJSON, hw, h1, h2, h3, h4, h5, h6⟩

/-! ### The status block of a serialized descriptor -/

/-- A non-empty separator is no beginning of the empty text. -/
theorem isPrefixOf_nil_of_ne (sep : List Char) (h : sep ≠ []) : sep.isPrefixOf [] = false := by
  cases sep with
  | nil => exact absurd rfl h
  | cons a as => rfl

/-- A beginning of a beginning of a text is a beginning of the text. -/
theorem isPrefixOf_append (sep a b : List Char) (h : sep.isPrefixOf a = true) :
    sep.isPrefixOf (a ++ b) = true := by
  rw [List.isPrefixOf_iff_prefix] at h ⊢
  exact h.trans (List.prefix_append a b)

/-- The first piece of a split is the piece that was begun, followed by the text up to the
first occurrence of the separator: that text does not hold the separator, the
separator begins at none of its positions in the text, and it is the whole text or is
followed by the separator. -/
theorem splitAux_first (sep : List Char) (hsep : sep ≠ []) (l cur : List Char) :
    ∃ pre : List Char,
      (splitAux sep l 0 cur).head? = some (cur.reverse ++ pre) ∧
      listContains sep pre = false ∧
      (∀ k, k < pre.length → sep.isPrefixOf (l.drop k) = false) ∧
      ((l = pre ∧ listContains sep l = false) ∨ ∃ post, l = pre ++ sep ++ post) := by
  induction l generalizing cur with
  | nil =>
    refine ⟨[], by simp [splitAux], ?_, ?_, Or.inl ⟨rfl, ?_⟩⟩
    · simp [listContains, isPrefixOf_nil_of_ne sep hsep]
    · intro k hk
      cases hk
    · simp [listContains, isPrefixOf_nil_of_ne sep hsep]
  | cons c cs ih =>
    by_cases hp : sep.isPrefixOf (c :: cs) = true
    · refine ⟨[], by simp [splitAux, hp], ?_, ?_, Or.inr ?_⟩
      · simp [listContains, isPrefixOf_nil_of_ne sep hsep]
      · intro k hk
        cases hk
      · obtain ⟨post, hpost⟩ := List.isPrefixOf_iff_prefix.mp hp
        exact ⟨post, by simpa using hpost.symm⟩
    · have hp' : sep.isPrefixOf (c :: cs) = false := by
        cases hb : sep.isPrefixOf (c :: cs) with
        | false => rfl
        | true => exact absurd hb hp
      obtain ⟨pre, hhead, hnot, hfirst, hcase⟩ := ih (c :: cur)
      have hsub : c :: cs = (c :: pre) ++ (cs.drop pre.length) := by
        rcases hcase with ⟨h1, _⟩ | ⟨post, h1⟩
        · rw [← h1]
          simp
        · rw [h1]
          simp
      refine ⟨c :: pre, ?_, ?_, ?_, ?_⟩
      · simp only [splitAux, hp', Bool.false_eq_true, if_false]
        rw [hhead]
        simp
      · simp only [listContains, hnot, Bool.or_false]
        cases hc : sep.isPrefixOf (c :: pre) with
        | false => rfl
        | true =>
          have := isPrefixOf_append sep (c :: pre) (cs.drop pre.length) hc
          rw [← hsub, hp'] at this
          cases this
      · intro k hk
        cases k with
        | zero => exact hp'
        | succ n =>
          simp only [List.drop_succ_cons]
          exact hfirst n (by simpa using hk)
      · rcases hcase with ⟨h1, h2⟩ | ⟨post, h1⟩
        · left
          refine ⟨by rw [← h1], ?_⟩
          simp only [listContains, hp', h2, Bool.or_false]
        · right
          exact ⟨post, by rw [h1]; simp⟩

/-- The first piece of `strings.Split` is the text up to the first occurrence of the
separator. -/
theorem stringsSplit_first (buf sep : String) (hsep : sep.data ≠ []) :
    ∃ pre : List Char,
      (stringsSplit buf sep).headD "" = String.mk pre ∧
      listContains sep.data pre = false ∧
      (∀ k, k < pre.length → sep.data.isPrefixOf (buf.data.drop k) = false) ∧
      ((buf.data = pre ∧ listContains sep.data buf.data = false) ∨
        ∃ post, buf.data = pre ++ sep.data ++ post) := by
  obtain ⟨pre, hhead, hnot, hfirst, hcase⟩ := splitAux_first sep.data hsep buf.data []
  refine ⟨pre, ?_, hnot, hfirst, hcase⟩
  unfold stringsSplit
  simp only [hsep, if_false]
  cases hl : splitAux sep.data buf.data 0 [] with
  | nil => simp [hl] at hhead
  | cons a as =>
    simp only [hl, List.head?_cons, Option.some.injEq, List.reverse_nil, List.nil_append] at hhead
    subst hhead
    rfl

/-- C28: when the inventory is decoded and the status and the descriptor are serialized,
`modifyBMHFile` sets as content source the data URL prefix followed by the base64 text of
the serialization up to the first occurrence of the line `status:`: the embedded text
does not hold that line, it is the whole serialization when the serialization does not
hold the line and is followed by the line otherwise, and no occurrence of the line in
the serialization begins before its end. -/
theorem modifyBMHFile_strips_status (env : Env) (g : Generator) (file : File)
    (bmh : BareMetalHost) (host : Host) (inventory : Inventory) (cpu : CPU)
    (statusJSON buf : String)
    (hinv : env.parseInventory host.inventory = .ok inventory) (hcpu : inventory.cpu = some cpu)
    (hstatus : env.marshalStatus
      { hardwareDetails := hardwareDetailsOf env host inventory cpu, poweredOn := true } =
      .ok statusJSON)
    (hbuf : env.encodeBMH (annotatedBMH g bmh statusJSON) = .ok buf) :
    ∃ embedded : String,
      modifyBMHFile env g file bmh host =
        .ok { file with contents := { file.contents with
          source := some ("data:text/plain;charset=utf-8;base64," ++ base64Encode embedded) } } ∧
      stringsContains embedded "status:\n" = false ∧
      ((embedded = buf ∧ stringsContains buf "status:\n" = false) ∨
        ∃ rest : String, buf = embedded ++ "status:\n" ++ rest) ∧
      (∀ pre post : String, buf = pre ++ "status:\n" ++ post → embedded.length ≤ pre.length) := by
  obtain ⟨pre, hhead, hnot, hfirst, hcase⟩ := stringsSplit_first buf "status:\n" (by decide)
  refine ⟨String.mk pre, ?_, hnot, ?_, ?_⟩
  · rw [modifyBMHFile_ok env g file bmh host inventory cpu statusJSON buf hinv hcpu hstatus hbuf,
      hhead]
  · rcases hcase with ⟨h1, h2⟩ | ⟨post, h1⟩
    · left
      refine ⟨?_, h2⟩
      rw [← h1]
    · right
      refine ⟨String.mk post, ?_⟩
      apply String.ext
      rw [h1]
      simp [String.data_append]
  · intro p q hpq
    by_contra hlt
    have hlt' : p.data.length < pre.length := by
      have : ¬ pre.length ≤ p.data.length := hlt
      omega
    have hfalse := hfirst p.data.length hlt'
    have hdata : buf.data = p.data ++ ("status:\n".data ++ q.data) := by
      rw [hpq]
      simp [String.data_append]
    rw [hdata, List.drop_left] at hfalse
    have htrue : "status:\n".data.isPrefixOf ("status:\n".data ++ q.data) = true :=
      List.isPrefixOf_iff_prefix.mpr (List.prefix_append _ _)
    rw [htrue] at hfalse
    cases hfalse

set_option maxRecDepth 100000 in
/-- C28 at a serialization that holds a status block: the embedded text is the line of
the name. -/
theorem modifyBMHFile_strips_status_witness :
    ∃ embedded : String,
      modifyBMHFile sampleInventoryEnv (sampleGenerator [sampleMaster "a"])
          (sampleDescriptor "0" "a") { name := "a" } (sampleMaster "a") =
        .ok { sampleDescriptor "0" "a" with contents := { (sampleDescriptor "0" "a").contents with
          source := some ("data:text/plain;charset=utf-8;base64," ++ base64Encode embedded) } } ∧
      stringsContains embedded "status:\n" = false ∧
      ((embedded = "name: a\nstatus:\n  poweredOn: true\n" ∧
          stringsContains "name: a\nstatus:\n  poweredOn: true\n" "status:\n" = false) ∨
        ∃ rest : String, "name: a\nstatus:\n  poweredOn: true\n" = embedded ++ "status:\n" ++ rest) ∧
      (∀ pre post : String, "name: a\nstatus:\n  poweredOn: true\n" = pre ++ "status:\n" ++ post →
        embedded.length ≤ pre.length) :=
  modifyBMHFile_strips_status sampleInventoryEnv (sampleGenerator [sampleMaster "a"])
    (sampleDescriptor "0" "a") { name := "a" } (sampleMaster "a") sampleInventory
    { architecture := "x86_64", count := 8 } "status" "name: a\nstatus:\n  poweredOn: true\n"
    (by decide) (by decide) (by decide) (by decide)

set_option maxRecDepth 100000 in
/-- The content source that `modifyBMHFile` sets at that serialization. -/
theorem modifyBMHFile_strips_status_example :
    modifyBMHFile sampleInventoryEnv (sampleGenerator [sampleMaster "a"])
        (sampleDescriptor "0" "a") { name := "a" } (sampleMaster "a") =
      .ok { sampleDescriptor "0" "a" with
        contents := { source := some ("data:text/plain;charset=utf-8;base64," ++
          base64Encode "name: a\n") } } := by
  decide

/-! ### The secrets in the structure of the discovery document -/

/-- The pieces of the template around the two secrets that decide about its structure:
the user key is the only content of the users list, and the root CA is used in the
conditional file entry only. -/
theorem discoveryIgnitionConfigParts_secrets (p : IgnitionParams) (key ca : String) :
    discoveryIgnitionConfigParts { p with userSshKey := key, RH_ROOT_CA := ca } =
      (discoveryIgnitionConfigParts p).take 7 ++
        (["    \"users\": [\n", "      ", key, "\n", "    ]\n"] ++
          (((discoveryIgnitionConfigParts p).drop 12).take 113 ++
            ((if ca ≠ "" then rhRootCAEntry ca else "") ::
              (discoveryIgnitionConfigParts p).drop 126))) := by
  rfl

/-- The escaped root CA is not the empty text. -/
theorem urlPathEscape_RedhatRootCA_ne : urlPathEscape RedhatRootCA ≠ "" := by
  decide

/-- `getUserSSHKey` returns the empty text exactly when no line of the key text has a
character that is not white space. -/
theorem getUserSSHKey_eq_empty (sshKey : String) :
    (getUserSSHKey sshKey).1 = "" ↔
      ∀ line ∈ stringsSplit sshKey "\n", stringsTrimSpace line = "" := by
  have hslice : buildUserSshKeysSlice sshKey = [] ↔
      ∀ line ∈ stringsSplit sshKey "\n", stringsTrimSpace line = "" := by
    unfold buildUserSshKeysSlice
    rw [List.filter_eq_nil_iff]
    constructor
    · intro h line hline
      have := h (stringsTrimSpace line) (List.mem_map.mpr ⟨line, hline, rfl⟩)
      simpa using this
    · intro h k hk
      obtain ⟨line, hline, rfl⟩ := List.mem_map.mp hk
      simp [h line hline]
  rw [← hslice]
  unfold getUserSSHKey
  simp only
  split
  · rename_i h
    simp [h]
  · rename_i h
    constructor
    · intro hempty
      exact absurd hempty (append_ne_empty_left (append_ne_empty_left (by decide)))
    · intro hnil
      exact absurd hnil h

/-- The map of the first part of the builder without `safeForLogs`: the root CA entry is
the escaped certificate when the switch is set and empty otherwise, the user key entry is
the text of `getUserSSHKey`. -/
theorem baseIgnitionParams_plain (env : Env) (infraEnv : InfraEnv) (cfg : IgnitionConfig)
    (authType : String) (p : IgnitionParams)
    (h : baseIgnitionParams env infraEnv cfg false authType = .ok p) :
    p.RH_ROOT_CA = (if cfg.installRHCa then urlPathEscape RedhatRootCA else "") ∧
    p.userSshKey = (getUserSSHKey infraEnv.sshAuthorizedKey).1 := by
  unfold baseIgnitionParams at h
  cases ht : env.agentToken infraEnv authType with
  | error e => simp [ht] at h
  | ok token =>
    simp only [ht] at h
    have h1 := proxySettingsForIgnition_snd (env.getProxyConfigs infraEnv.proxy).1
      (env.getProxyConfigs infraEnv.proxy).2.1 (env.getProxyConfigs infraEnv.proxy).2.2
    have h2 := getUserSSHKey_snd infraEnv.sshAuthorizedKey
    generalize proxySettingsForIgnition (env.getProxyConfigs infraEnv.proxy).1
      (env.getProxyConfigs infraEnv.proxy).2.1 (env.getProxyConfigs infraEnv.proxy).2.2 = ps
      at h h1
    generalize getUserSSHKey infraEnv.sshAuthorizedKey = uk at h h2 ⊢
    obtain ⟨ps1, ps2⟩ := ps
    obtain ⟨uk1, uk2⟩ := uk
    simp only at h1 h2
    subst h1 h2
    simp only [Bool.false_eq_true, if_false, Except.ok.injEq] at h
    subst h
    exact ⟨rfl, rfl⟩

/-- C30: the rendered discovery document is a fixed text around two places, the users
list, whose only content is the user key entry of the map, and the file entry of the root
CA, which is rendered exactly when the root CA entry of the map is not empty. With
`safeForLogs` both entries are the placeholder, so the users list holds the placeholder
and the CA entry is rendered with the placeholder as content, whatever the SSH key and
the root CA switch are; without `safeForLogs` the root CA entry is not empty exactly when
the switch is set, and the user key entry is empty exactly when the SSH key has no line
with a character that is not white space. Without overrides the rendered document is
what `FormatDiscoveryIgnitionFile` returns. -/
theorem discovery_safeForLogs_changes_structure (env : Env) (infraEnv : InfraEnv)
    (cfg : IgnitionConfig) (authType : String) :
    (∀ p : IgnitionParams, ∃ A M B : String, ∀ key ca : String,
      discoveryIgnitionConfigFormat { p with userSshKey := key, RH_ROOT_CA := ca } =
        A ++ ("    \"users\": [\n      " ++ key ++ "\n    ]\n") ++ M ++
          (if ca ≠ "" then rhRootCAEntry ca else "") ++ B) ∧
    (∀ p, discoveryIgnitionParams env infraEnv cfg true authType = .ok p →
      p.userSshKey = "*****" ∧ p.RH_ROOT_CA = "*****" ∧
      ∃ A M B : String,
        discoveryIgnitionConfigFormat p =
          A ++ ("    \"users\": [\n      " ++ "*****" ++ "\n    ]\n") ++ M ++
            rhRootCAEntry "*****" ++ B) ∧
    (∀ p, discoveryIgnitionParams env infraEnv cfg false authType = .ok p →
      (p.RH_ROOT_CA ≠ "" ↔ cfg.installRHCa = true) ∧
      (p.userSshKey = "" ↔
        ∀ line ∈ stringsSplit infraEnv.sshAuthorizedKey "\n", stringsTrimSpace line = "")) ∧
    (∀ safeForLogs p, discoveryIgnitionParams env infraEnv cfg safeForLogs authType = .ok p →
      infraEnv.internalIgnitionConfigOverride = "" → infraEnv.ignitionConfigOverride = "" →
      FormatDiscoveryIgnitionFile env infraEnv cfg safeForLogs authType =
        (Bytes.text (discoveryIgnitionConfigFormat p), none)) := by
  have hstruct : ∀ p : IgnitionParams, ∃ A M B : String, ∀ key ca : String,
      discoveryIgnitionConfigFormat { p with userSshKey := key, RH_ROOT_CA := ca } =
        A ++ ("    \"users\": [\n      " ++ key ++ "\n    ]\n") ++ M ++
          (if ca ≠ "" then rhRootCAEntry ca else "") ++ B := by
    intro p
    refine ⟨concat ((discoveryIgnitionConfigParts p).take 7),
      concat (((discoveryIgnitionConfigParts p).drop 12).take 113),
      concat ((discoveryIgnitionConfigParts p).drop 126), ?_⟩
    intro key ca
    unfold discoveryIgnitionConfigFormat
    rw [discoveryIgnitionConfigParts_secrets, concat_append, concat_append, concat_append]
    have husers : concat ["    \"users\": [\n", "      ", key, "\n", "    ]\n"] =
        "    \"users\": [\n      " ++ key ++ "\n    ]\n" := by
      have e1 : "    \"users\": [\n" ++ "      " = "    \"users\": [\n      " := by decide
      have e2 : "\n" ++ "    ]\n" = "\n    ]\n" := by decide
      simp only [concat, String.append_empty]
      rw [← String.append_assoc, ← String.append_assoc, e1, e2]
    rw [husers]
    simp only [concat, String.append_assoc]
  refine ⟨hstruct, ?_, ?_, ?_⟩
  · intro p hp
    have hsecret : p.userSshKey = "*****" ∧ p.RH_ROOT_CA = "*****" := by
      unfold discoveryIgnitionParams at hp
      cases hb : baseIgnitionParams env infraEnv cfg true authType with
      | error e => simp [hb] at hp
      | ok q =>
        simp only [hb] at hp
        have hq : q.userSshKey = "*****" ∧ q.RH_ROOT_CA = "*****" := by
          unfold baseIgnitionParams at hb
          cases ht : env.agentToken infraEnv authType with
          | error e => simp [ht] at hb
          | ok token =>
            have := baseIgnitionParams_redacted env infraEnv cfg authType token ht
            unfold baseIgnitionParams at this
            rw [this] at hb
            cases hb
            exact ⟨rfl, rfl⟩
        have hs := optionalIgnitionParams_secrets env infraEnv cfg q p hp
        exact ⟨hs.1.trans hq.1, hs.2.2.2.trans hq.2⟩
    refine ⟨hsecret.1, hsecret.2, ?_⟩
    obtain ⟨A, M, B, hAMB⟩ := hstruct p
    refine ⟨A, M, B, ?_⟩
    have := hAMB "*****" "*****"
    have hp' : ({ p with userSshKey := "*****", RH_ROOT_CA := "*****" } : IgnitionParams) = p := by
      cases p
      simp only at hsecret
      simp [hsecret.1, hsecret.2]
    rw [hp'] at this
    rw [this]
    simp
  · intro p hp
    unfold discoveryIgnitionParams at hp
    cases hb : baseIgnitionParams env infraEnv cfg false authType with
    | error e => simp [hb] at hp
    | ok q =>
      simp only [hb] at hp
      have hq := baseIgnitionParams_plain env infraEnv cfg authType q hb
      have hs := optionalIgnitionParams_secrets env infraEnv cfg q p hp
      rw [hs.1, hs.2.2.2, hq.1, hq.2]
      refine ⟨?_, getUserSSHKey_eq_empty infraEnv.sshAuthorizedKey⟩
      cases hca : cfg.installRHCa with
      | true => simp [urlPathEscape_RedhatRootCA_ne]
      | false => simp
  · intro safeForLogs p hp hi hu
    unfold FormatDiscoveryIgnitionFile
    simp [hp, hi, hu]

set_option maxRecDepth 100000 in
/-- C30 at an infra-env without SSH key and a configuration without root CA switch: with
`safeForLogs` the users list holds the placeholder and the CA entry is rendered, without
it the map has no root CA entry and no user key entry. -/
theorem discovery_safeForLogs_changes_structure_witness :
    ((sampleParamsOf { sampleInfraEnv with sshAuthorizedKey := "" } sampleConfig true).userSshKey =
        "*****" ∧
      (sampleParamsOf { sampleInfraEnv with sshAuthorizedKey := "" } sampleConfig true).RH_ROOT_CA =
        "*****" ∧
      ∃ A M B : String,
        discoveryIgnitionConfigFormat
            (sampleParamsOf { sampleInfraEnv with sshAuthorizedKey := "" } sampleConfig true) =
          A ++ ("    \"users\": [\n      " ++ "*****" ++ "\n    ]\n") ++ M ++
            rhRootCAEntry "*****" ++ B) ∧
    (((sampleParamsOf { sampleInfraEnv with sshAuthorizedKey := "" } sampleConfig false).RH_ROOT_CA ≠
          "" ↔ sampleConfig.installRHCa = true) ∧
      ((sampleParamsOf { sampleInfraEnv with sshAuthorizedKey := "" } sampleConfig false).userSshKey =
          "" ↔
        ∀ line ∈ stringsSplit ({ sampleInfraEnv with sshAuthorizedKey := "" } : InfraEnv).sshAuthorizedKey
          "\n", stringsTrimSpace line = "")) ∧
    FormatDiscoveryIgnitionFile sampleEnv { sampleInfraEnv with sshAuthorizedKey := "" } sampleConfig
        true "none" =
      (Bytes.text (discoveryIgnitionConfigFormat
        (sampleParamsOf { sampleInfraEnv with sshAuthorizedKey := "" } sampleConfig true)), none) :=
  ⟨(discovery_safeForLogs_changes_structure sampleEnv { sampleInfraEnv with sshAuthorizedKey := "" }
      sampleConfig "none").2.1 _ (by decide),
   (discovery_safeForLogs_changes_structure sampleEnv { sampleInfraEnv with sshAuthorizedKey := "" }
      sampleConfig "none").2.2.1 _ (by decide),
   (discovery_safeForLogs_changes_structure sampleEnv { sampleInfraEnv with sshAuthorizedKey := "" }
      sampleConfig "none").2.2.2 true _ (by decide) (by decide) (by decide)⟩

end Ignition
